import Mathlib

/-!
# Spline operator of the shading engine (`src/liboslexec/opspline.cpp`)

A shallow embedding of the spline kernel: the table of interpolation bases, the
lookup of a basis by name, the compile-time coefficient proxies, the weighted
cubic evaluator at `float` parameter and knots, its single-request and batched front
ends (templates, with the instance of the weighted evaluator as an argument), and the
batched entry points of the inverse operator.

Conventions of the embedding.

* A C++ `float` is a rational (`ℚ`), and its arithmetic is read in two ways. The
  definitions without a suffix take every `float` operation as exact; the statements
  over them are those that do not depend on how a result is rounded. The definitions
  with the suffix `_binary32` round the result of every `float` operation to the nearest
  IEEE 754 binary32 number, a tie to the even one, and end in `SplineError.notFinite`
  where a result is beyond the largest finite `float`. Operations are rounded one by
  one, none contracted into a fused multiply-add. Infinite and NaN inputs are not
  represented.
* A C++ `int` is an `Int`; `/` on `int` is `Int.tdiv` (truncation toward zero)
  and the cast `(int)` of a `float` is `float_to_int` (truncation toward zero).
  In the exact reading every `int` the evaluator computes lies between
  `knot_count - 4` and `knot_count` in absolute value, so no operation leaves the
  range of `int`. In the binary32 reading the rounded product `x*(float)nsegs` is
  `2^31` at `x = 1` from `2^31 - 64` segments on; the cast `(int)` has no value there,
  and the evaluator ends in `SplineError.castOutOfRange`.
* A knot pointer is the list of the knots that the caller's buffer holds. A read
  outside the buffer, which C++ leaves undefined, is the error
  `SplineError.knotOutOfBounds`.
* A `ustring` is a `String`; comparison of two `ustring`s is equality of strings.
-/

set_option linter.unusedVariables false

namespace OSL

/-! ## Interpolation bases for splines -/

/-- The 4x4 coefficient matrix of a basis (`Matrix44`), row-major: `M i j` is the
entry in row `i`, column `j`. -/
abbrev Matrix44 := Fin 4 → Fin 4 → ℚ

/-- The record `Spline::SplineBasis`: name, knot step, coefficient matrix. -/
structure SplineBasis where
  basis_name : String
  basis_step : Int
  basis : Matrix44

/-- The constant `kNumSplineTypes` (line 61). -/
def kNumSplineTypes : Nat := 6

/-- The constant `kLinearSpline = kNumSplineTypes - 1` (line 62). -/
def kLinearSpline : Nat := kNumSplineTypes - 1

/-- The constructor `Matrix44(a, b, c, ..., p)` from sixteen entries, row by row. -/
def Matrix44.ofEntries (m00 m01 m02 m03 m10 m11 m12 m13 m20 m21 m22 m23 m30 m31 m32 m33 : ℚ) :
    Matrix44 := fun i j =>
  match i, j with
  | 0, 0 => m00 | 0, 1 => m01 | 0, 2 => m02 | 0, 3 => m03
  | 1, 0 => m10 | 1, 1 => m11 | 1, 2 => m12 | 1, 3 => m13
  | 2, 0 => m20 | 2, 1 => m21 | 2, 2 => m22 | 2, 3 => m23
  | 3, 0 => m30 | 3, 1 => m31 | 3, 2 => m32 | 3, 3 => m33

/-- The constructor `Matrix44(a)`: every entry is `a`. -/
def Matrix44.ofScalar (a : ℚ) : Matrix44 := fun _ _ => a

/-- The table `gBasisSet` (lines 63-85), in the order of the source. -/
def gBasisSet : List SplineBasis :=
  [ { basis_name := "catmull-rom", basis_step := 1,
      basis := Matrix44.ofEntries ((-1)/2) ( 3/2) ((-3)/2) ( 1/2)
                                  ( 2/2) ((-5)/2) ( 4/2) ((-1)/2)
                                  ((-1)/2) ( 0/2) ( 1/2) ( 0/2)
                                  ( 0/2) ( 2/2) ( 0/2) ( 0/2) },
    { basis_name := "bezier", basis_step := 3,
      basis := Matrix44.ofEntries (-1)  3 (-3)  1
                                    3 (-6)  3   0
                                  (-3)  3   0   0
                                    1   0   0   0 },
    { basis_name := "bspline", basis_step := 1,
      basis := Matrix44.ofEntries ((-1)/6) ( 3/6) ((-3)/6) (1/6)
                                  ( 3/6) ((-6)/6) ( 3/6) (0/6)
                                  ((-3)/6) ( 0/6) ( 3/6) (0/6)
                                  ( 1/6) ( 4/6) ( 1/6) (0/6) },
    { basis_name := "hermite", basis_step := 2,
      basis := Matrix44.ofEntries   2   1 (-2)  1
                                  (-3) (-2) 3 (-1)
                                    0   1   0   0
                                    1   0   0   0 },
    { basis_name := "linear", basis_step := 1,
      basis := Matrix44.ofEntries   0   0   0   0
                                    0   0   0   0
                                    0 (-1)  1   0
                                    0   1   0   0 },
    { basis_name := "constant", basis_step := 1,
      basis := Matrix44.ofScalar 0 } ]  -- special marker for constant

/-- The search loop shared by `getSplineBasisType` and `Spline::getSplineBasis`
(lines 114-115 and 127-128):
`for (basis_type = 0; basis_type < kNumSplineTypes &&
      basis_name != gBasisSet[basis_type].basis_name; basis_type++);`
The first argument is the part of the table from index `basis_type` on; the empty
list is the exit `basis_type == kNumSplineTypes`. -/
def basisSearch (basis_name : String) : List SplineBasis → Nat → Nat
  | [], basis_type => basis_type
  | b :: rest, basis_type =>
    if basis_name ≠ b.basis_name then basisSearch basis_name rest (basis_type + 1)
    else basis_type

/-- The function `fast::getSplineBasisType` (lines 111-121). -/
def getSplineBasisType (basis_name : String) : Nat :=
  let basis_type := basisSearch basis_name gBasisSet 0
  -- If unrecognizable spline type, then default to Linear
  let basis_type := if basis_type = kNumSplineTypes then kLinearSpline else basis_type
  basis_type

/-- The function `Spline::getSplineBasis` (lines 124-134); the returned pointer
`&gBasisSet[basis_type]` is the record it points to. The index is always below
`kNumSplineTypes`, the fallback record of `getD` is never used. -/
def getSplineBasis (basis_name : String) : SplineBasis :=
  let basis_type := basisSearch basis_name gBasisSet 0
  -- If unrecognizable spline type, then default to Linear
  let basis_type := if basis_type = kNumSplineTypes then kLinearSpline else basis_type
  gBasisSet.getD basis_type { basis_name := "", basis_step := 0, basis := Matrix44.ofScalar 0 }

/-! ## Clamping and conversions -/

/-- The function `fast::clamp_in_place(float &x, float minv, float maxv)` (lines 105-109);
the updated `x` is the result. Both tests read the value `xval` saved on entry. -/
def clamp_in_place (x minv maxv : ℚ) : ℚ :=
  let xval := x
  let x := if xval < minv then minv else x
  let x := if xval > maxv then maxv else x
  x

/-- The cast `(int)` of a `float` (line 630): truncation toward zero. -/
def float_to_int (v : ℚ) : Int := v.num.tdiv v.den

/-- The function `removeDerivatives` at a plain `float`: the value itself. -/
def removeDerivatives (x : ℚ) : ℚ := x

/-! ## Compile-time coefficients -/

/-- The type `ProxyElement<MT, DivisorT>` (lines 177-361): the coefficient
`MT / DivisorT`, known at compile time. -/
structure ProxyElement where
  MT : Int
  DivisorT : Int

/-- What `ProxyElement * float` has for a type: the proxy `ProxyElement<0, DivisorT>`
when the numerator is zero and the product is elided, a `float` otherwise. The sums
and products of the evaluator stay in this type. -/
inductive PVal where
  | zero (DivisorT : Int)
  | value (v : ℚ)

/-- The member `operator * (float value)` of `ProxyElement<MT, DivisorT>`, by the
specialisation that C++ selects: `<0, 1>` and `<0, DivisorT>` return the zero proxy
(lines 190, 245), `<1, 1>` and `<DivisorT, DivisorT>` return `value` (lines 268, 298),
`<-1, 1>` returns `-value` (line 333), `<MT, 1>` returns `MT * value` (line 214), the
primary template returns `value * (MT / DivisorT)` (line 180). -/
def ProxyElement.mul (p : ProxyElement) (value : ℚ) : PVal :=
  if p.MT = 0 then PVal.zero p.DivisorT
  else if p.MT = 1 ∧ p.DivisorT = 1 then PVal.value value
  else if p.MT = -1 ∧ p.DivisorT = 1 then PVal.value (-value)
  else if p.MT = p.DivisorT then PVal.value value
  else if p.DivisorT = 1 then PVal.value ((p.MT : ℚ) * value)
  else PVal.value (value * ((p.MT : ℚ) / (p.DivisorT : ℚ)))

/-- The sums the evaluator forms. `ProxyElement<0, D> + ProxyElement<0, D2>` is the
right operand (lines 200-205, 255-260); `ProxyElement<0, D> + float` is the `float`
(lines 195, 250); `float + ProxyElement<0, D>` is `b + a` (lines 388-394), the same
`float`; `float + float` is the sum. -/
def PVal.add : PVal → PVal → PVal
  | PVal.zero _, PVal.zero d => PVal.zero d
  | PVal.zero _, PVal.value v => PVal.value v
  | PVal.value v, PVal.zero _ => PVal.value v
  | PVal.value a, PVal.value b => PVal.value (a + b)

/-- The products `tk * x` of the evaluator with a `float` `x`:
`ProxyElement<0, D> * float` is the zero proxy again (lines 190, 245), `float * float`
is the product. -/
def PVal.mul : PVal → ℚ → PVal
  | PVal.zero d, _ => PVal.zero d
  | PVal.value v, x => PVal.value (v * x)

/-- The member `to_float()` of `ProxyElement<MT, DivisorT>`, by the specialisation
that C++ selects: `0.0f` for `<0, 1>` and `<0, DivisorT>` (lines 207, 262), `1.0f`
for `<1, 1>` and `<DivisorT, DivisorT>` (lines 290, 324), `-1.0f` for `<-1, 1>`
(line 359), `MT` for `<MT, 1>` (line 238), `MT / DivisorT` in the primary template
(line 185). -/
def ProxyElement.to_float (p : ProxyElement) : ℚ :=
  if p.MT = 0 then 0
  else if p.MT = 1 ∧ p.DivisorT = 1 then 1
  else if p.MT = -1 ∧ p.DivisorT = 1 then -1
  else if p.MT = p.DivisorT then 1
  else if p.DivisorT = 1 then (p.MT : ℚ)
  else (p.MT : ℚ) / (p.DivisorT : ℚ)

/-- The overloads `unproxy_element(float)` (line 430) and
`unproxy_element(ProxyElement<MT, DivisorT>)` (lines 451-456), the latter at the zero
proxy: `value.to_float()`. -/
def unproxy_element : PVal → ℚ
  | PVal.zero d => (ProxyElement.mk 0 d).to_float
  | PVal.value v => v

/-- The type `StaticMatrix44<M00, ..., M33, DivisorT>` (lines 582-607): sixteen
numerators over one divisor. -/
structure StaticMatrix44 where
  M00 : Int
  M01 : Int
  M02 : Int
  M03 : Int
  M10 : Int
  M11 : Int
  M12 : Int
  M13 : Int
  M20 : Int
  M21 : Int
  M22 : Int
  M23 : Int
  M30 : Int
  M31 : Int
  M32 : Int
  M33 : Int
  DivisorT : Int

/-- Member `m00` of `StaticMatrix44`. -/
def StaticMatrix44.m00 (M : StaticMatrix44) : ProxyElement := ⟨M.M00, M.DivisorT⟩
/-- Member `m01` of `StaticMatrix44`. -/
def StaticMatrix44.m01 (M : StaticMatrix44) : ProxyElement := ⟨M.M01, M.DivisorT⟩
/-- Member `m02` of `StaticMatrix44`. -/
def StaticMatrix44.m02 (M : StaticMatrix44) : ProxyElement := ⟨M.M02, M.DivisorT⟩
/-- Member `m03` of `StaticMatrix44`. -/
def StaticMatrix44.m03 (M : StaticMatrix44) : ProxyElement := ⟨M.M03, M.DivisorT⟩
/-- Member `m10` of `StaticMatrix44`. -/
def StaticMatrix44.m10 (M : StaticMatrix44) : ProxyElement := ⟨M.M10, M.DivisorT⟩
/-- Member `m11` of `StaticMatrix44`. -/
def StaticMatrix44.m11 (M : StaticMatrix44) : ProxyElement := ⟨M.M11, M.DivisorT⟩
/-- Member `m12` of `StaticMatrix44`. -/
def StaticMatrix44.m12 (M : StaticMatrix44) : ProxyElement := ⟨M.M12, M.DivisorT⟩
/-- Member `m13` of `StaticMatrix44`. -/
def StaticMatrix44.m13 (M : StaticMatrix44) : ProxyElement := ⟨M.M13, M.DivisorT⟩
/-- Member `m20` of `StaticMatrix44`. -/
def StaticMatrix44.m20 (M : StaticMatrix44) : ProxyElement := ⟨M.M20, M.DivisorT⟩
/-- Member `m21` of `StaticMatrix44`. -/
def StaticMatrix44.m21 (M : StaticMatrix44) : ProxyElement := ⟨M.M21, M.DivisorT⟩
/-- Member `m22` of `StaticMatrix44`. -/
def StaticMatrix44.m22 (M : StaticMatrix44) : ProxyElement := ⟨M.M22, M.DivisorT⟩
/-- Member `m23` of `StaticMatrix44`. -/
def StaticMatrix44.m23 (M : StaticMatrix44) : ProxyElement := ⟨M.M23, M.DivisorT⟩
/-- Member `m30` of `StaticMatrix44`. -/
def StaticMatrix44.m30 (M : StaticMatrix44) : ProxyElement := ⟨M.M30, M.DivisorT⟩
/-- Member `m31` of `StaticMatrix44`. -/
def StaticMatrix44.m31 (M : StaticMatrix44) : ProxyElement := ⟨M.M31, M.DivisorT⟩
/-- Member `m32` of `StaticMatrix44`. -/
def StaticMatrix44.m32 (M : StaticMatrix44) : ProxyElement := ⟨M.M32, M.DivisorT⟩
/-- Member `m33` of `StaticMatrix44`. -/
def StaticMatrix44.m33 (M : StaticMatrix44) : ProxyElement := ⟨M.M33, M.DivisorT⟩

/-- The matrix of `float`s that a `StaticMatrix44` stands for: `to_float()` of each
member. -/
def StaticMatrix44.toMatrix44 (M : StaticMatrix44) : Matrix44 :=
  Matrix44.ofEntries
    M.m00.to_float M.m01.to_float M.m02.to_float M.m03.to_float
    M.m10.to_float M.m11.to_float M.m12.to_float M.m13.to_float
    M.m20.to_float M.m21.to_float M.m22.to_float M.m23.to_float
    M.m30.to_float M.m31.to_float M.m32.to_float M.m33.to_float

/-- The coefficients `numerator / divisor` that the template arguments of a
`StaticMatrix44<M00, ..., M33, DivisorT>` (lines 582-607) stand for, entry by entry. -/
def StaticMatrix44.numerator_over_divisor (M : StaticMatrix44) : Matrix44 :=
  Matrix44.ofEntries
    ((M.M00 : ℚ) / (M.DivisorT : ℚ)) ((M.M01 : ℚ) / (M.DivisorT : ℚ))
    ((M.M02 : ℚ) / (M.DivisorT : ℚ)) ((M.M03 : ℚ) / (M.DivisorT : ℚ))
    ((M.M10 : ℚ) / (M.DivisorT : ℚ)) ((M.M11 : ℚ) / (M.DivisorT : ℚ))
    ((M.M12 : ℚ) / (M.DivisorT : ℚ)) ((M.M13 : ℚ) / (M.DivisorT : ℚ))
    ((M.M20 : ℚ) / (M.DivisorT : ℚ)) ((M.M21 : ℚ) / (M.DivisorT : ℚ))
    ((M.M22 : ℚ) / (M.DivisorT : ℚ)) ((M.M23 : ℚ) / (M.DivisorT : ℚ))
    ((M.M30 : ℚ) / (M.DivisorT : ℚ)) ((M.M31 : ℚ) / (M.DivisorT : ℚ))
    ((M.M32 : ℚ) / (M.DivisorT : ℚ)) ((M.M33 : ℚ) / (M.DivisorT : ℚ))

/-- The weights `catmullRomWeights` (lines 715-719, 899-903). -/
def catmullRomWeights : StaticMatrix44 :=
  ⟨-1, 3, -3, 1,
    2, -5, 4, -1,
    -1, 0, 1, 0,
    0, 2, 0, 0, 2⟩

/-- The weights `bezierWeights` (lines 745-748, 918-921). -/
def bezierWeights : StaticMatrix44 :=
  ⟨-1, 3, -3, 1,
    3, -6, 3, 0,
    -3, 3, 0, 0,
    1, 0, 0, 0, 1⟩

/-- The weights `bsplineWeights` (lines 772-775, 932-935). -/
def bsplineWeights : StaticMatrix44 :=
  ⟨-1, 3, -3, 1,
    3, -6, 3, 0,
    -3, 0, 3, 0,
    1, 4, 1, 0, 6⟩

/-- The weights `hermiteWeights` (lines 797-800, 946-949). -/
def hermiteWeights : StaticMatrix44 :=
  ⟨2, 1, -2, 1,
    -3, -2, 3, -1,
    0, 1, 0, 0,
    1, 0, 0, 0, 1⟩

/-- The weights `linearWeights` (lines 822-825, 961-964). -/
def linearWeights : StaticMatrix44 :=
  ⟨0, 0, 0, 0,
    0, 0, 0, 0,
    0, -1, 1, 0,
    0, 1, 0, 0, 1⟩

/-- The weights `constantWeights` (lines 852-855, 977-980). -/
def constantWeights : StaticMatrix44 :=
  ⟨0, 0, 0, 0,
    0, 0, 0, 0,
    0, 0, 0, 0,
    0, 0, 0, 0, 1⟩

/-! ## The weighted evaluator -/

/-- How an evaluation ends without a value: a knot read outside the caller's
buffer (undefined in C++), the `default:` branch of the dispatch on the basis
type, `ASSERT(0 && "unsupported spline basis")` (lines 875-877, 989-991), or, in the
binary32 reading of the evaluator, a `float` operation whose result is beyond the
largest finite `float` (the result of the evaluation is then infinite or NaN) and a
cast `(int)` of a `float` whose truncation is no `int` (undefined in C++). -/
inductive SplineError where
  | knotOutOfBounds
  | unsupportedBasis
  | notFinite
  | castOutOfRange
  deriving DecidableEq, Repr

/-- The read `knots[i]` through the pointer `knots`, whose buffer holds the knots of
the list. -/
def knotAt {α : Type} (knots : List α) (i : Int) : Except SplineError α :=
  if i < 0 then Except.error SplineError.knotOutOfBounds
  else match knots[i.toNat]? with
    | some k => Except.ok k
    | none => Except.error SplineError.knotOutOfBounds

/-- Line 627 of `spline_weighted_evaluate`:
`int nsegs = ((knot_count - 4) / basis_step) + 1;`. -/
def spline_nsegs (knot_count basis_step : Int) : Int :=
  ((knot_count - 4).tdiv basis_step) + 1

/-- Lines 621-628 of `spline_weighted_evaluate`: the clamp of `xval` to `[0, 1]`, in
the branch of `#if __clang__` (the other branch calls `Spline::Clamp`, which is declared
outside this file), and `x = x*(float)nsegs;`. -/
def spline_scaled_x (xval : ℚ) (nsegs : Int) : ℚ :=
  let x := clamp_in_place xval 0 1
  x * (nsegs : ℚ)

/-- Lines 629-634 of `spline_weighted_evaluate`: the segment index
`segnum = (int)seg_x`, raised to `0` and lowered to `nsegs-1`. -/
def spline_segnum (xval : ℚ) (nsegs : Int) : Int :=
  let x := spline_scaled_x xval nsegs
  let seg_x := removeDerivatives x
  let segnum := float_to_int seg_x
  let segnum := if segnum < 0 then 0 else segnum
  let segnum := if segnum > nsegs - 1 then nsegs - 1 else segnum
  segnum

/-- Line 643 of `spline_weighted_evaluate`: `x = x - float(segnum);`, the position
along segment `segnum`. -/
def spline_local_x (xval : ℚ) (nsegs : Int) : ℚ :=
  spline_scaled_x xval nsegs - ((spline_segnum xval nsegs : Int) : ℚ)

/-- Lines 662-684 of `spline_weighted_evaluate`: the four weighted sums `tk0 .. tk3`
of the control points `P[0] .. P[3]` and
`unproxy_element(((tk0*x + tk1)*x + tk2)*x + tk3)`. -/
def spline_weighted_sum (M : StaticMatrix44) (P0 P1 P2 P3 x : ℚ) : ℚ :=
  let tk0 := (((M.m00.mul P0).add (M.m01.mul P1)).add (M.m02.mul P2)).add (M.m03.mul P3)
  let tk1 := (((M.m10.mul P0).add (M.m11.mul P1)).add (M.m12.mul P2)).add (M.m13.mul P3)
  let tk2 := (((M.m20.mul P0).add (M.m21.mul P1)).add (M.m22.mul P2)).add (M.m23.mul P3)
  let tk3 := (((M.m30.mul P0).add (M.m31.mul P1)).add (M.m32.mul P2)).add (M.m33.mul P3)
  unproxy_element ((((((tk0.mul x).add tk1).mul x).add tk2).mul x).add tk3)

/-- The function `fast::spline_weighted_evaluate` (lines 612-686) at `float`
parameter, knots and result. The template arguments `is_basis_u_constant` and
`basis_step` are ordinary arguments; the value assigned to `result` is returned. -/
def spline_weighted_evaluate (M : StaticMatrix44) (is_basis_u_constant : Bool)
    (basis_step : Int) (xval : ℚ) (knots : List ℚ) (knot_count : Int) :
    Except SplineError ℚ :=
  let nsegs := spline_nsegs knot_count basis_step
  let segnum := spline_segnum xval nsegs
  if is_basis_u_constant then do
    -- Special case for "constant" basis
    let P ← knotAt knots (segnum + 1)
    pure (removeDerivatives P)
  else do
    -- x is the position along segment 'segnum'
    let x := spline_local_x xval nsegs
    let s := segnum * basis_step
    let P0 ← knotAt knots s
    let P1 ← knotAt knots (s + 1)
    let P2 ← knotAt knots (s + 2)
    let P3 ← knotAt knots (s + 3)
    let tresult := spline_weighted_sum M P0 P1 P2 P3 x
    pure tresult

/-- An instance of the template `spline_weighted_evaluate<RTYPE, CTYPE, KTYPE, ...>`:
from the weights, `is_basis_u_constant`, `basis_step`, the parameter, the knots and the
knot count to the result. The instance at `float` parameter, knots and result is
`spline_weighted_evaluate`. -/
abbrev WeightedEvaluate (XTYPE KTYPE RTYPE : Type) :=
  StaticMatrix44 → Bool → Int → XTYPE → List KTYPE → Int → Except SplineError RTYPE

/-- The function template `fast::spline_evaluate_scalar` (lines 882-993). Its type
arguments select the instance of `spline_weighted_evaluate` that the six cases call;
that instance is the argument `weighted_evaluate`. -/
def spline_evaluate_scalar {XTYPE KTYPE RTYPE : Type}
    (weighted_evaluate : WeightedEvaluate XTYPE KTYPE RTYPE) (spline_basis : String)
    (x : XTYPE) (knots : List KTYPE) (knot_count : Int) : Except SplineError RTYPE :=
  let basis_type := getSplineBasisType spline_basis
  match basis_type with
  | 0 => weighted_evaluate catmullRomWeights false 1 x knots knot_count
  | 1 => weighted_evaluate bezierWeights false 3 x knots knot_count
  | 2 => weighted_evaluate bsplineWeights false 1 x knots knot_count
  | 3 => weighted_evaluate hermiteWeights false 2 x knots knot_count
  | 4 => weighted_evaluate linearWeights false 1 x knots knot_count
  | 5 => weighted_evaluate constantWeights true 1 x knots knot_count
  | _ => Except.error SplineError.unsupportedBasis

/-! ## The contract of the polynomial evaluator, in the words of the specification -/

/-- The row sum `Tk = M[k,0]·P0 + M[k,1]·P1 + M[k,2]·P2 + M[k,3]·P3` of the
evaluator's contract. -/
def PolynomialEvaluator_T (M : Matrix44) (P : Fin 4 → ℚ) (k : Fin 4) : ℚ :=
  M k 0 * P 0 + M k 1 * P 1 + M k 2 * P 2 + M k 3 * P 3

/-- The result `((T0·u + T1)·u + T2)·u + T3` of the evaluator's contract. -/
def PolynomialEvaluator (M : Matrix44) (P : Fin 4 → ℚ) (u : ℚ) : ℚ :=
  ((PolynomialEvaluator_T M P 0 * u + PolynomialEvaluator_T M P 1) * u
    + PolynomialEvaluator_T M P 2) * u + PolynomialEvaluator_T M P 3

/-! ## The contract of the segment selector, in the words of the specification -/

/-- The scaled parameter `t = x * nsegs` of the selector's contract, `x` clamped to
`[0, 1]` before scaling. -/
def SegmentSelector_t (x : ℚ) (nsegs : Int) : ℚ :=
  max 0 (min x 1) * (nsegs : ℚ)

/-- The segment `segnum = clamp(floor(t), 0, nsegs−1)` of the selector's contract. -/
def SegmentSelector_segnum (x : ℚ) (nsegs : Int) : Int :=
  max 0 (min ⌊SegmentSelector_t x nsegs⌋ (nsegs - 1))

/-- The local parameter `u = t − segnum` of the selector's contract. -/
def SegmentSelector_u (x : ℚ) (nsegs : Int) : ℚ :=
  SegmentSelector_t x nsegs - ((SegmentSelector_segnum x nsegs : Int) : ℚ)

/-! ## Lane batches

The types `Wide`, `Mask` and the accessors are declared in headers of the repository
other than `opspline.cpp`; they are taken from the specification. -/

/-- Modelled from the spec: the block `Wide<T>` of a lane batch, "a fixed width W of
independent evaluation requests"; the value of lane `i` is `w i`. The width is an
argument of every batched operation. -/
abbrev Wide (α : Type) := Nat → α

/-- Modelled from the spec: the activity mask `Mask(mask_value)`, "an activity mask of
W bits marks which lanes must produce valid, written output"; bit `i` of the value is
lane `i`. -/
structure Mask where
  value : Nat

/-- Modelled from the spec: whether lane `lane` is active in the mask. -/
def Mask.is_on (m : Mask) (lane : Nat) : Bool := m.value.testBit lane

/-- Modelled from the spec: the conversion of an `int mask_value` to the bits of a
`Mask`, the 32-bit two's complement pattern of the `int`. -/
def Mask.ofInt (mask_value : Int) : Mask := ⟨(mask_value % 2 ^ 32).toNat⟩

/-- Modelled from the spec: the destination accessors. `WideAccessor<T>` writes every
lane ("unmasked calls compute and write all lanes"); `MaskedAccessor<T>` writes the
active lanes only ("inactive lanes must leave their destination slot untouched"). -/
inductive RAccessor where
  | WideAccessor
  | MaskedAccessor (mask : Mask)

/-- Modelled from the spec: whether the accessor writes lane `lane`. -/
def RAccessor.writes : RAccessor → Nat → Bool
  | RAccessor.WideAccessor, _ => true
  | RAccessor.MaskedAccessor mask, lane => mask.is_on lane

/-- Modelled from the spec: the assignment `wR[lane] = result` to the destination
`wout`. -/
def RAccessor.assign {α : Type} (wR : RAccessor) (wout : Wide α) (lane : Nat) (result : α) :
    Wide α :=
  if wR.writes lane then Function.update wout lane result else wout

/-- Modelled from the spec: the parameter accessors, "either one shared value
broadcast to all lanes" (`ConstUniformAccessor<T>`) "or W independent values"
(`ConstWideAccessor<T>`). -/
inductive XAccessor (α : Type) where
  | ConstUniformAccessor (x : α)
  | ConstWideAccessor (wx : Wide α)

/-- Modelled from the spec: the read `wX[lane]`. -/
def XAccessor.get {α : Type} : XAccessor α → Nat → α
  | XAccessor.ConstUniformAccessor x, _ => x
  | XAccessor.ConstWideAccessor wx, lane => wx lane

/-- Modelled from the spec: the knot accessors, "either one shared sequence broadcast
to all lanes" (`ConstUniformUnboundedArrayAccessor<T>`, over an array of knots) "or W
independent sequences" (`ConstWideUnboundArrayAccessor<T>`, over an array of blocks,
one block a knot). -/
inductive KAccessor (α : Type) where
  | ConstUniformUnboundedArrayAccessor (knots : List α)
  | ConstWideUnboundArrayAccessor (wknots : List (Wide α))

/-- Modelled from the spec: the read `wK[lane]`, the knot sequence of lane `lane`. -/
def KAccessor.get {α : Type} : KAccessor α → Nat → List α
  | KAccessor.ConstUniformUnboundedArrayAccessor knots, _ => knots
  | KAccessor.ConstWideUnboundArrayAccessor wknots, lane => wknots.map (fun w => w lane)

/-- Modelled from the spec: the helper `make_uniform(wr, value)`, which broadcasts
`value` to the lanes that the accessor writes. -/
def make_uniform {α : Type} (width : Nat) (wR : RAccessor) (wout : Wide α) (value : α) :
    Wide α :=
  (List.range width).foldl (fun out lane => wR.assign out lane value) wout

/-! ## The batched forward evaluator -/

/-- The lane loop that every case of `fast::spline_evaluate` runs (lines 724-737,
753-765, 780-792, 805-817, 830-844, 860-872):
`for(int lane=0; lane < wR.width; ++lane) { x = wX[lane]; knots = wK[lane];
 spline_weighted_evaluate<...>(weights, result, x, knots, knot_count);
 wR[lane] = result; }`,
with the call of `spline_weighted_evaluate` of the case as `evaluate`. -/
def spline_evaluate_lanes {X_Type KTYPE R_Type : Type} (width : Nat) (wR : RAccessor)
    (wX : XAccessor X_Type) (wK : KAccessor KTYPE)
    (evaluate : X_Type → List KTYPE → Except SplineError R_Type) (wout : Wide R_Type) :
    Except SplineError (Wide R_Type) :=
  (List.range width).foldlM (fun out lane => do
    let x := wX.get lane
    let knots := wK.get lane
    let result ← evaluate x knots
    pure (wR.assign out lane result)) wout

/-- The function template `fast::spline_evaluate` (lines 689-879). Its type arguments
select the instance of `spline_weighted_evaluate` that the six lane loops call; that
instance is the argument `weighted_evaluate`. `wout` is the destination before the
call, the result the destination after it. -/
def spline_evaluate {X_Type KTYPE R_Type : Type}
    (weighted_evaluate : WeightedEvaluate X_Type KTYPE R_Type) (width : Nat) (wR : RAccessor)
    (spline_basis : String) (wX : XAccessor X_Type) (wK : KAccessor KTYPE) (knot_count : Int)
    (wout : Wide R_Type) : Except SplineError (Wide R_Type) :=
  let basis_type := getSplineBasisType spline_basis
  match basis_type with
  | 0 => spline_evaluate_lanes width wR wX wK
      (fun x knots => weighted_evaluate catmullRomWeights false 1 x knots knot_count) wout
  | 1 => spline_evaluate_lanes width wR wX wK
      (fun x knots => weighted_evaluate bezierWeights false 3 x knots knot_count) wout
  | 2 => spline_evaluate_lanes width wR wX wK
      (fun x knots => weighted_evaluate bsplineWeights false 1 x knots knot_count) wout
  | 3 => spline_evaluate_lanes width wR wX wK
      (fun x knots => weighted_evaluate hermiteWeights false 2 x knots knot_count) wout
  | 4 => spline_evaluate_lanes width wR wX wK
      (fun x knots => weighted_evaluate linearWeights false 1 x knots knot_count) wout
  | 5 => spline_evaluate_lanes width wR wX wK
      (fun x knots => weighted_evaluate constantWeights true 1 x knots knot_count) wout
  | _ => Except.error SplineError.unsupportedBasis

/-- The entry point `osl_spline_w16fw16ff_masked` (lines 997-1010): a parameter a
lane, one knot sequence for all lanes, masked destination. -/
def osl_spline_w16fw16ff_masked (width : Nat) (wout_ : Wide ℚ) (spline_ : String)
    (wx_ : Wide ℚ) (knots : List ℚ) (knot_count knot_arraylen : Int) (mask_value : Nat) :
    Except SplineError (Wide ℚ) :=
  spline_evaluate spline_weighted_evaluate width (RAccessor.MaskedAccessor ⟨mask_value⟩) spline_
    (XAccessor.ConstWideAccessor wx_) (KAccessor.ConstUniformUnboundedArrayAccessor knots)
    knot_count wout_

/-- The entry point `osl_spline_w16ffw16f` (lines 1012-1024): one parameter for all
lanes, a knot sequence a lane, every lane written. -/
def osl_spline_w16ffw16f (width : Nat) (wout_ : Wide ℚ) (spline_ : String)
    (wx_ : ℚ) (knots : List (Wide ℚ)) (knot_count knot_arraylen : Int) :
    Except SplineError (Wide ℚ) :=
  spline_evaluate spline_weighted_evaluate width RAccessor.WideAccessor spline_
    (XAccessor.ConstUniformAccessor wx_) (KAccessor.ConstWideUnboundArrayAccessor knots)
    knot_count wout_

/-- The entry point `osl_spline_w16ffw16f_masked` (lines 1027-1036): one parameter for
all lanes, a knot sequence a lane, masked destination. -/
def osl_spline_w16ffw16f_masked (width : Nat) (wout_ : Wide ℚ) (spline_ : String)
    (wx_ : ℚ) (knots : List (Wide ℚ)) (knot_count knot_arraylen : Int) (mask_value : Nat) :
    Except SplineError (Wide ℚ) :=
  spline_evaluate spline_weighted_evaluate width (RAccessor.MaskedAccessor ⟨mask_value⟩) spline_
    (XAccessor.ConstUniformAccessor wx_) (KAccessor.ConstWideUnboundArrayAccessor knots)
    knot_count wout_

/-- The entry point `osl_spline_w16fff_masked` (lines 1049-1073): one parameter and one
knot sequence for all lanes; the scalar result is broadcast through the masked
destination. -/
def osl_spline_w16fff_masked (width : Nat) (wout_ : Wide ℚ) (spline_ : String)
    (x : ℚ) (knots : List ℚ) (knot_count knot_arraylen : Int) (mask_value : Int) :
    Except SplineError (Wide ℚ) := do
  let scalar_result ← spline_evaluate_scalar spline_weighted_evaluate spline_ x knots knot_count
  -- Broadcast to a wide wout_
  let wr := RAccessor.MaskedAccessor (Mask.ofInt mask_value)
  pure (make_uniform width wr wout_ scalar_result)

/-- The entry point `osl_spline_w16fw16fw16f_masked` (lines 1190-1199): a parameter and
a knot sequence a lane, masked destination. -/
def osl_spline_w16fw16fw16f_masked (width : Nat) (wout_ : Wide ℚ) (spline_ : String)
    (wx_ : Wide ℚ) (wknots_ : List (Wide ℚ)) (knot_count knot_arraylen : Int)
    (mask_value : Nat) : Except SplineError (Wide ℚ) :=
  spline_evaluate spline_weighted_evaluate width (RAccessor.MaskedAccessor ⟨mask_value⟩) spline_
    (XAccessor.ConstWideAccessor wx_) (KAccessor.ConstWideUnboundArrayAccessor wknots_)
    knot_count wout_

/-! ## The batched entry points of the inverse operator

The solver `Spline::spline_inverse` is declared in a header other than `opspline.cpp`;
every entry point takes it as an argument. -/

/-- The type `Dual2<T>`: a value and its two partial derivatives. -/
structure Dual2 (α : Type) where
  val : α
  dx : α
  dy : α

/-- Modelled from the spec: the read `wK[lane]` of `ConstWideAccessor<float> wK(knots)`,
which views the memory at `knots` as one block: lane `lane` of the first block of the
knot array. -/
def firstBlockAt (knots : List (Wide ℚ)) (lane : Nat) : Except SplineError ℚ :=
  match knots with
  | [] => Except.error SplineError.knotOutOfBounds
  | k :: _ => Except.ok (k lane)

/-- The entry point `osl_splineinverse_w16fw16fw16f_masked` (lines 1438-1465). -/
def osl_splineinverse_w16fw16fw16f_masked (width : Nat)
    (spline_inverse : SplineBasis → ℚ → List ℚ → Int → Int → ℚ)
    (wout_ : Wide ℚ) (spline_ : String) (wx_ : Wide ℚ) (knots : List (Wide ℚ))
    (knot_count knot_arraylen : Int) (mask_value : Nat) : Except SplineError (Wide ℚ) :=
  let spline := getSplineBasis spline_
  let wX := XAccessor.ConstWideAccessor wx_
  let wR := RAccessor.WideAccessor
  (List.range width).foldlM (fun out lane => do
    let x := wX.get lane
    let k ← firstBlockAt knots lane
    let kp := [k]
    let result := spline_inverse spline x kp knot_count knot_arraylen
    pure (wR.assign out lane result)) wout_

/-- The entry point `osl_splineinverse_w16fw16ff_masked` (lines 1492-1510). -/
def osl_splineinverse_w16fw16ff_masked (width : Nat)
    (spline_inverse : SplineBasis → ℚ → List ℚ → Int → Int → ℚ)
    (wout_ : Wide ℚ) (spline_ : String) (wx_ : Wide ℚ) (knots : List ℚ)
    (knot_count knot_arraylen : Int) (mask_value : Nat) : Wide ℚ :=
  let spline := getSplineBasis spline_
  let wX := XAccessor.ConstWideAccessor wx_
  let wR := RAccessor.WideAccessor
  (List.range width).foldl (fun out lane =>
    let x := wX.get lane
    let result := spline_inverse spline x knots knot_count knot_arraylen
    wR.assign out lane result) wout_

/-- The entry point `osl_splineinverse_w16ffw16f_masked` (lines 1512-1532). -/
def osl_splineinverse_w16ffw16f_masked (width : Nat)
    (spline_inverse : SplineBasis → ℚ → List ℚ → Int → Int → ℚ)
    (wout_ : Wide ℚ) (spline_ : String) (wx_ : ℚ) (knots : List (Wide ℚ))
    (knot_count knot_arraylen : Int) (mask_value : Nat) : Except SplineError (Wide ℚ) :=
  let spline := getSplineBasis spline_
  let wR := RAccessor.WideAccessor
  (List.range width).foldlM (fun out lane => do
    let k ← firstBlockAt knots lane
    let kp := [k]
    let result := spline_inverse spline wx_ kp knot_count knot_arraylen
    pure (wR.assign out lane result)) wout_

/-- The entry point `osl_splineinverse_w16dfw16dff_masked` (lines 1543-1565). -/
def osl_splineinverse_w16dfw16dff_masked (width : Nat)
    (spline_inverse : SplineBasis → Dual2 ℚ → List ℚ → Int → Int → Dual2 ℚ)
    (wout_ : Wide (Dual2 ℚ)) (spline_ : String) (wx_ : Wide (Dual2 ℚ)) (knots : List ℚ)
    (knot_count knot_arraylen : Int) (mask_value : Nat) : Wide (Dual2 ℚ) :=
  let spline := getSplineBasis spline_
  let wX := XAccessor.ConstWideAccessor wx_
  let wR := RAccessor.WideAccessor
  (List.range width).foldl (fun out lane =>
    let x := wX.get lane -- This has x, dx, and dy
    let result := spline_inverse spline x knots knot_count knot_arraylen
    wR.assign out lane result) wout_

/-- The entry point `osl_splineinverse_w16dfw16dfw16df_masked` (lines 1578-1598). -/
def osl_splineinverse_w16dfw16dfw16df_masked (width : Nat)
    (spline_inverse : SplineBasis → Dual2 ℚ → List ℚ → Int → Int → Dual2 ℚ)
    (wout_ : Wide (Dual2 ℚ)) (spline_ : String) (wx_ : Wide (Dual2 ℚ)) (knots : List ℚ)
    (knot_count knot_arraylen : Int) (mask_value : Nat) : Wide (Dual2 ℚ) :=
  let spline := getSplineBasis spline_
  let wX := XAccessor.ConstWideAccessor wx_
  let wR := RAccessor.WideAccessor
  (List.range width).foldl (fun out lane =>
    let x := wX.get lane -- This has x, dx, and dy
    let result := spline_inverse spline x knots knot_count knot_arraylen
    wR.assign out lane result) wout_

/-! ## Dual values and vectors

The arithmetic of `Dual2<T>` and of `Vec3` is declared in headers other than
`opspline.cpp` (`OSL/dual.h`, `OSL/dual_vec.h`, Imath); it is taken from the
specification. -/

/-- Modelled from the spec: the "3-component vector" `Vec3`. -/
structure Vec3 where
  x : ℚ
  y : ℚ
  z : ℚ

/-- Modelled from the spec: the sum of two vectors, component by component. -/
def Vec3.add (a b : Vec3) : Vec3 := ⟨a.x + b.x, a.y + b.y, a.z + b.z⟩

/-- Modelled from the spec: the product of a vector and a scalar. -/
def Vec3.mul (a : Vec3) (b : ℚ) : Vec3 := ⟨a.x * b, a.y * b, a.z * b⟩

instance : Add Vec3 := ⟨Vec3.add⟩

instance : HMul Vec3 ℚ Vec3 := ⟨Vec3.mul⟩

instance : Zero Vec3 := ⟨⟨0, 0, 0⟩⟩

/-- Modelled from the spec: the dual value of a pure value, "the degenerate case" with
both derivatives zero (`Dual2<T>(x)`). -/
def Dual2.ofValue {α : Type} [Zero α] (v : α) : Dual2 α := ⟨v, 0, 0⟩

/-- Modelled from the spec: `removeDerivatives` at a dual value, its value "taken as a
pure value". -/
def removeDerivatives_Dual2 {α : Type} (x : Dual2 α) : α := x.val

/-- Modelled from the spec: dual plus dual, `d(a+b) = da+db`. -/
def Dual2.add {α : Type} [Add α] (a b : Dual2 α) : Dual2 α :=
  ⟨a.val + b.val, a.dx + b.dx, a.dy + b.dy⟩

/-- Modelled from the spec: dual plus pure value; the pure value has zero derivatives. -/
def Dual2.addValue {α : Type} [Add α] (a : Dual2 α) (b : α) : Dual2 α :=
  ⟨a.val + b, a.dx, a.dy⟩

/-- Modelled from the spec: dual minus `float`; the `float` has zero derivatives. -/
def Dual2.subValue (a : Dual2 ℚ) (b : ℚ) : Dual2 ℚ :=
  ⟨a.val - b, a.dx, a.dy⟩

/-- Modelled from the spec: dual times `float`, `d(a·b) = da·b` for a `b` with zero
derivatives. -/
def Dual2.scale {α : Type} [HMul α ℚ α] (a : Dual2 α) (b : ℚ) : Dual2 α :=
  ⟨a.val * b, a.dx * b, a.dy * b⟩

/-- Modelled from the spec: pure value times dual `float`, `d(a·b) = a·db` for an `a`
with zero derivatives. -/
def Dual2.valueMulDual {α : Type} [HMul α ℚ α] (a : α) (b : Dual2 ℚ) : Dual2 α :=
  ⟨a * b.val, a * b.dx, a * b.dy⟩

/-- Modelled from the spec: dual times dual `float`, the product rule
`d(a·b) = da·b + a·db`. -/
def Dual2.mulDual {α : Type} [Add α] [HMul α ℚ α] (a : Dual2 α) (b : Dual2 ℚ) : Dual2 α :=
  ⟨a.val * b.val, a.val * b.dx + a.dx * b.val, a.val * b.dy + a.dy * b.val⟩

/-- The function template `fast::clamp_in_place (Dual2<T> &x, const Dual2<T> minv,
const Dual2<T> maxv)` (lines 96-102) at `T = float`; the updated `x` is the result. -/
def clamp_in_place_Dual2 (x minv maxv : Dual2 ℚ) : Dual2 ℚ :=
  let xval := x.val
  let x := if xval < minv.val then minv else x
  let x := if xval > maxv.val then maxv else x
  x

/-! ## Coefficients with dual values and vectors -/

/-- The operator `operator* (ProxyElement<MT, DivisorT> b, const Dual2<T> &a)` (lines
531-538) at `T = float`: `Dual2<T>(unproxy_element(a.val()*b), unproxy_element(a.dx()*b),
unproxy_element(a.dy()*b))`, where `float * ProxyElement` is `b * a` (lines 413-419). -/
def ProxyElement.mulDual2 (b : ProxyElement) (a : Dual2 ℚ) : Dual2 ℚ :=
  ⟨unproxy_element (b.mul a.val), unproxy_element (b.mul a.dx), unproxy_element (b.mul a.dy)⟩

/-- The products `tk * x` of the evaluator with a `float` or zero-proxy `tk` and a dual
`x`: `ProxyElement<0, D> * Dual2<float>` is the operator of lines 531-538,
`float * Dual2<float>` the product of a pure value and a dual. -/
def PVal.mulDual2 : PVal → Dual2 ℚ → Dual2 ℚ
  | PVal.zero d, x => (ProxyElement.mk 0 d).mulDual2 x
  | PVal.value v, x => Dual2.valueMulDual v x

/-- The sums `dual + tk` of the evaluator. `Dual2<float> + ProxyElement<0, D>` is the
operator of lines 541-546, `Dual2<T>(a.val()+b, a.dx(), a.dy())`, where
`float + ProxyElement<0, D>` is the `float` (lines 388-394); `Dual2<float> + float` is the
sum of a dual and a pure value. -/
def Dual2.addPVal (a : Dual2 ℚ) : PVal → Dual2 ℚ
  | PVal.zero d => ⟨unproxy_element ((PVal.value a.val).add (PVal.zero d)), a.dx, a.dy⟩
  | PVal.value v => a.addValue v

/-- What `ProxyElement * Vec3` has for a type: a `ProxyVec3<XT, YT, ZT>` of three
components (lines 364-370), or a `Vec3` when the three components are `float`s. -/
inductive PVec3 where
  | proxy (x y z : PVal)
  | value (v : Vec3)

/-- The two overloads of `makeProxyVec3` (lines 372-385): three `float`s make a `Vec3`,
any other three components a `ProxyVec3`. -/
def makeProxyVec3 : PVal → PVal → PVal → PVec3
  | PVal.value x, PVal.value y, PVal.value z => PVec3.value ⟨x, y, z⟩
  | x, y, z => PVec3.proxy x y z

/-- The operator `operator* (ProxyElement<MT, DivisorT> a, const Vec3 &b)` (lines
473-482): `makeProxyVec3 (a*b.x, a*b.y, a*b.z)`. -/
def ProxyElement.mulVec3 (a : ProxyElement) (b : Vec3) : PVec3 :=
  makeProxyVec3 (a.mul b.x) (a.mul b.y) (a.mul b.z)

/-- The sums of vectors that the evaluator forms: `ProxyVec3 + ProxyVec3` (lines
506-515) and `ProxyVec3 + Vec3` (lines 495-503) add component by component through
`makeProxyVec3`; `Vec3 + ProxyVec3` is `b + a` (lines 405-411); `Vec3 + Vec3` is the sum
of vectors. -/
def PVec3.add : PVec3 → PVec3 → PVec3
  | PVec3.proxy a_x a_y a_z, PVec3.proxy b_x b_y b_z =>
    makeProxyVec3 (a_x.add b_x) (a_y.add b_y) (a_z.add b_z)
  | PVec3.proxy a_x a_y a_z, PVec3.value b =>
    makeProxyVec3 (a_x.add (PVal.value b.x)) (a_y.add (PVal.value b.y))
      (a_z.add (PVal.value b.z))
  | PVec3.value a, PVec3.proxy b_x b_y b_z =>
    makeProxyVec3 (b_x.add (PVal.value a.x)) (b_y.add (PVal.value a.y))
      (b_z.add (PVal.value a.z))
  | PVec3.value a, PVec3.value b => PVec3.value (a + b)

/-- The products `tk * x` of vectors with a `float` `x`: `ProxyVec3 * float` (lines
517-525) is `makeProxyVec3 (a.x*b, a.y*b, a.z*b)`, `Vec3 * float` the product of a vector
and a scalar. -/
def PVec3.mul : PVec3 → ℚ → PVec3
  | PVec3.proxy x y z, b => makeProxyVec3 (x.mul b) (y.mul b) (z.mul b)
  | PVec3.value v, b => PVec3.value (v * b)

/-- The overloads `unproxy_element(const Vec3 &)` (lines 437-441) and
`unproxy_element(const ProxyVec3<...> &)` (lines 443-448), which is also `unproxy_vec3`
(lines 458-467): `Vec3(unproxy_element(value.x), unproxy_element(value.y),
unproxy_element(value.z))`. -/
def unproxy_vec3 : PVec3 → Vec3
  | PVec3.proxy x y z => ⟨unproxy_element x, unproxy_element y, unproxy_element z⟩
  | PVec3.value v => v

/-- The operator `operator* (ProxyElement<MT, DivisorT> b, const Dual2<T> &a)` (lines
531-538) at `T = Vec3`, where `Vec3 * ProxyElement` is `b * a` (lines 421-427). -/
def ProxyElement.mulDual2Vec3 (b : ProxyElement) (a : Dual2 Vec3) : Dual2 Vec3 :=
  ⟨unproxy_vec3 (b.mulVec3 a.val), unproxy_vec3 (b.mulVec3 a.dx),
    unproxy_vec3 (b.mulVec3 a.dy)⟩

/-- The products `tk * x` of vectors with a dual `x`:
`ProxyVec3 * Dual2<float>` (lines 548-553) is `Dual2<Vec3>(unproxy_vec3(a*b.val()),
unproxy_vec3(a*b.dx()), unproxy_vec3(a*b.dy()))`, `Vec3 * Dual2<float>` the product of a
pure value and a dual. -/
def PVec3.mulDual2 : PVec3 → Dual2 ℚ → Dual2 Vec3
  | PVec3.proxy x y z, b =>
    ⟨unproxy_vec3 ((PVec3.proxy x y z).mul b.val), unproxy_vec3 ((PVec3.proxy x y z).mul b.dx),
      unproxy_vec3 ((PVec3.proxy x y z).mul b.dy)⟩
  | PVec3.value v, b => Dual2.valueMulDual v b

/-- The sums `dual + tk` of vectors: `Dual2<Vec3> + ProxyVec3` (lines 563-568) is
`Dual2<Vec3>(unproxy_vec3(b.val() + a), b.dx(), b.dy())`, where `Vec3 + ProxyVec3` is
`a + b.val()` (lines 405-411); `Dual2<Vec3> + Vec3` is the sum of a dual and a pure
value. -/
def Dual2.addPVec3 (b : Dual2 Vec3) : PVec3 → Dual2 Vec3
  | PVec3.proxy x y z =>
    ⟨unproxy_vec3 ((PVec3.proxy x y z).add (PVec3.value b.val)), b.dx, b.dy⟩
  | PVec3.value v => b.addValue v

/-! ## The weighted evaluator as a template

`spline_weighted_evaluate` is a function template over the types of the parameter
(`XTYPE`), of the knots (`KTYPE`, `CTYPE`) and of the result (`RTYPE`). The template below
is its body with the steps that depend on those types as arguments; the instances in
use follow, named after the entry points of their types (`d` dual, `f` float, `v`
vector; result, parameter, knots). -/

/-- The operations of `spline_weighted_evaluate` on its parameter, which depend on
`XTYPE`: the clamp to `[XTYPE(0.0), XTYPE(1.0)]` (lines 621-626), `x*(float)nsegs`
(line 628), `removeDerivatives(x)` (line 629) and `x - float(segnum)` (line 643). -/
structure XTYPE_ops (XTYPE : Type) where
  clamp : XTYPE → XTYPE
  mulFloat : XTYPE → ℚ → XTYPE
  removeDerivatives : XTYPE → ℚ
  subFloat : XTYPE → ℚ → XTYPE

/-- The operations on a `float` parameter. -/
def float_ops : XTYPE_ops ℚ where
  clamp := fun x => clamp_in_place x 0 1
  mulFloat := fun x n => x * n
  removeDerivatives := removeDerivatives
  subFloat := fun x s => x - s

/-- The operations on a `Dual2<float>` parameter. -/
def Dual2_ops : XTYPE_ops (Dual2 ℚ) where
  clamp := fun x => clamp_in_place_Dual2 x (Dual2.ofValue 0) (Dual2.ofValue 1)
  mulFloat := fun x n => x.scale n
  removeDerivatives := removeDerivatives_Dual2
  subFloat := fun x s => x.subValue s

/-- The function template `fast::spline_weighted_evaluate` (lines 612-686). The
argument `constant_result` is `removeDerivatives (CTYPE(...))` converted to `RTYPE`
(line 638), the argument `weighted_sum` the lines 662-684 at the types of the
instance. -/
def spline_weighted_evaluate_template {XTYPE KTYPE RTYPE : Type} (ops : XTYPE_ops XTYPE)
    (constant_result : KTYPE → RTYPE)
    (weighted_sum : StaticMatrix44 → KTYPE → KTYPE → KTYPE → KTYPE → XTYPE → RTYPE) :
    WeightedEvaluate XTYPE KTYPE RTYPE :=
  fun M is_basis_u_constant basis_step xval knots knot_count =>
  let x := ops.clamp xval
  let nsegs := spline_nsegs knot_count basis_step
  let x := ops.mulFloat x (nsegs : ℚ)
  let seg_x := ops.removeDerivatives x
  let segnum := float_to_int seg_x
  let segnum := if segnum < 0 then 0 else segnum
  let segnum := if segnum > nsegs - 1 then nsegs - 1 else segnum
  if is_basis_u_constant then do
    -- Special case for "constant" basis
    let P ← knotAt knots (segnum + 1)
    pure (constant_result P)
  else do
    -- x is the position along segment 'segnum'
    let x := ops.subFloat x ((segnum : Int) : ℚ)
    let s := segnum * basis_step
    let P0 ← knotAt knots s
    let P1 ← knotAt knots (s + 1)
    let P2 ← knotAt knots (s + 2)
    let P3 ← knotAt knots (s + 3)
    let tresult := weighted_sum M P0 P1 P2 P3 x
    pure tresult

/-- Lines 662-684 at a `Dual2<float>` parameter and `float` knots: the sums `tk0 .. tk3`
are `float`s or zero proxies, the Horner form is one of duals. -/
def spline_weighted_sum_dfdff (M : StaticMatrix44) (P0 P1 P2 P3 : ℚ) (x : Dual2 ℚ) :
    Dual2 ℚ :=
  let tk0 := (((M.m00.mul P0).add (M.m01.mul P1)).add (M.m02.mul P2)).add
    (M.m03.mul P3)
  let tk1 := (((M.m10.mul P0).add (M.m11.mul P1)).add (M.m12.mul P2)).add
    (M.m13.mul P3)
  let tk2 := (((M.m20.mul P0).add (M.m21.mul P1)).add (M.m22.mul P2)).add
    (M.m23.mul P3)
  let tk3 := (((M.m30.mul P0).add (M.m31.mul P1)).add (M.m32.mul P2)).add
    (M.m33.mul P3)
  (((((tk0.mulDual2 x).addPVal tk1).mulDual x).addPVal tk2).mulDual x).addPVal tk3

/-- Lines 662-684 at a `float` parameter and `Dual2<float>` knots: coefficient times
dual (lines 531-538), dual plus dual, dual times `float`. -/
def spline_weighted_sum_dffdf (M : StaticMatrix44) (P0 P1 P2 P3 : Dual2 ℚ) (x : ℚ) :
    Dual2 ℚ :=
  let tk0 := (((M.m00.mulDual2 P0).add (M.m01.mulDual2 P1)).add (M.m02.mulDual2 P2)).add
    (M.m03.mulDual2 P3)
  let tk1 := (((M.m10.mulDual2 P0).add (M.m11.mulDual2 P1)).add (M.m12.mulDual2 P2)).add
    (M.m13.mulDual2 P3)
  let tk2 := (((M.m20.mulDual2 P0).add (M.m21.mulDual2 P1)).add (M.m22.mulDual2 P2)).add
    (M.m23.mulDual2 P3)
  let tk3 := (((M.m30.mulDual2 P0).add (M.m31.mulDual2 P1)).add (M.m32.mulDual2 P2)).add
    (M.m33.mulDual2 P3)
  (((((tk0.scale x).add tk1).scale x).add tk2).scale x).add tk3

/-- Lines 662-684 at a `Dual2<float>` parameter and `Dual2<float>` knots: coefficient
times dual (lines 531-538), dual plus dual, dual times dual. -/
def spline_weighted_sum_dfdfdf (M : StaticMatrix44) (P0 P1 P2 P3 : Dual2 ℚ) (x : Dual2 ℚ) :
    Dual2 ℚ :=
  let tk0 := (((M.m00.mulDual2 P0).add (M.m01.mulDual2 P1)).add (M.m02.mulDual2 P2)).add
    (M.m03.mulDual2 P3)
  let tk1 := (((M.m10.mulDual2 P0).add (M.m11.mulDual2 P1)).add (M.m12.mulDual2 P2)).add
    (M.m13.mulDual2 P3)
  let tk2 := (((M.m20.mulDual2 P0).add (M.m21.mulDual2 P1)).add (M.m22.mulDual2 P2)).add
    (M.m23.mulDual2 P3)
  let tk3 := (((M.m30.mulDual2 P0).add (M.m31.mulDual2 P1)).add (M.m32.mulDual2 P2)).add
    (M.m33.mulDual2 P3)
  (((((tk0.mulDual x).add tk1).mulDual x).add tk2).mulDual x).add tk3

/-- Lines 662-684 at a `float` parameter and `Vec3` knots: the sums `tk0 .. tk3` are
`Vec3`s or `ProxyVec3`s. -/
def spline_weighted_sum_vfv (M : StaticMatrix44) (P0 P1 P2 P3 : Vec3) (x : ℚ) : Vec3 :=
  let tk0 := (((M.m00.mulVec3 P0).add (M.m01.mulVec3 P1)).add (M.m02.mulVec3 P2)).add
    (M.m03.mulVec3 P3)
  let tk1 := (((M.m10.mulVec3 P0).add (M.m11.mulVec3 P1)).add (M.m12.mulVec3 P2)).add
    (M.m13.mulVec3 P3)
  let tk2 := (((M.m20.mulVec3 P0).add (M.m21.mulVec3 P1)).add (M.m22.mulVec3 P2)).add
    (M.m23.mulVec3 P3)
  let tk3 := (((M.m30.mulVec3 P0).add (M.m31.mulVec3 P1)).add (M.m32.mulVec3 P2)).add
    (M.m33.mulVec3 P3)
  unproxy_vec3 ((((((tk0.mul x).add tk1).mul x).add tk2).mul x).add tk3)

/-- Lines 662-684 at a `Dual2<float>` parameter and `Vec3` knots: the sums
`tk0 .. tk3` are `Vec3`s or `ProxyVec3`s, the Horner form is one of `Dual2<Vec3>`. -/
def spline_weighted_sum_dvdfv (M : StaticMatrix44) (P0 P1 P2 P3 : Vec3) (x : Dual2 ℚ) :
    Dual2 Vec3 :=
  let tk0 := (((M.m00.mulVec3 P0).add (M.m01.mulVec3 P1)).add (M.m02.mulVec3 P2)).add
    (M.m03.mulVec3 P3)
  let tk1 := (((M.m10.mulVec3 P0).add (M.m11.mulVec3 P1)).add (M.m12.mulVec3 P2)).add
    (M.m13.mulVec3 P3)
  let tk2 := (((M.m20.mulVec3 P0).add (M.m21.mulVec3 P1)).add (M.m22.mulVec3 P2)).add
    (M.m23.mulVec3 P3)
  let tk3 := (((M.m30.mulVec3 P0).add (M.m31.mulVec3 P1)).add (M.m32.mulVec3 P2)).add
    (M.m33.mulVec3 P3)
  (((((tk0.mulDual2 x).addPVec3 tk1).mulDual x).addPVec3 tk2).mulDual x).addPVec3 tk3

/-- Lines 662-684 at a `float` parameter and `Dual2<Vec3>` knots. -/
def spline_weighted_sum_dvfdv (M : StaticMatrix44) (P0 P1 P2 P3 : Dual2 Vec3) (x : ℚ) :
    Dual2 Vec3 :=
  let tk0 := (((M.m00.mulDual2Vec3 P0).add (M.m01.mulDual2Vec3 P1)).add (M.m02.mulDual2Vec3 P2)).add
    (M.m03.mulDual2Vec3 P3)
  let tk1 := (((M.m10.mulDual2Vec3 P0).add (M.m11.mulDual2Vec3 P1)).add (M.m12.mulDual2Vec3 P2)).add
    (M.m13.mulDual2Vec3 P3)
  let tk2 := (((M.m20.mulDual2Vec3 P0).add (M.m21.mulDual2Vec3 P1)).add (M.m22.mulDual2Vec3 P2)).add
    (M.m23.mulDual2Vec3 P3)
  let tk3 := (((M.m30.mulDual2Vec3 P0).add (M.m31.mulDual2Vec3 P1)).add (M.m32.mulDual2Vec3 P2)).add
    (M.m33.mulDual2Vec3 P3)
  (((((tk0.scale x).add tk1).scale x).add tk2).scale x).add tk3

/-- Lines 662-684 at a `Dual2<float>` parameter and `Dual2<Vec3>` knots. -/
def spline_weighted_sum_dvdfdv (M : StaticMatrix44) (P0 P1 P2 P3 : Dual2 Vec3)
    (x : Dual2 ℚ) : Dual2 Vec3 :=
  let tk0 := (((M.m00.mulDual2Vec3 P0).add (M.m01.mulDual2Vec3 P1)).add (M.m02.mulDual2Vec3 P2)).add
    (M.m03.mulDual2Vec3 P3)
  let tk1 := (((M.m10.mulDual2Vec3 P0).add (M.m11.mulDual2Vec3 P1)).add (M.m12.mulDual2Vec3 P2)).add
    (M.m13.mulDual2Vec3 P3)
  let tk2 := (((M.m20.mulDual2Vec3 P0).add (M.m21.mulDual2Vec3 P1)).add (M.m22.mulDual2Vec3 P2)).add
    (M.m23.mulDual2Vec3 P3)
  let tk3 := (((M.m30.mulDual2Vec3 P0).add (M.m31.mulDual2Vec3 P1)).add (M.m32.mulDual2Vec3 P2)).add
    (M.m33.mulDual2Vec3 P3)
  (((((tk0.mulDual x).add tk1).mulDual x).add tk2).mulDual x).add tk3

/-- The instance of `spline_weighted_evaluate` at a `Dual2<float>` result, a
`Dual2<float>` parameter and `float` knots. -/
def spline_weighted_evaluate_dfdff : WeightedEvaluate (Dual2 ℚ) ℚ (Dual2 ℚ) :=
  spline_weighted_evaluate_template Dual2_ops
    (fun P => Dual2.ofValue (removeDerivatives P)) spline_weighted_sum_dfdff

/-- The instance of `spline_weighted_evaluate` at a `Dual2<float>` result, a `float`
parameter and `Dual2<float>` knots. -/
def spline_weighted_evaluate_dffdf : WeightedEvaluate ℚ (Dual2 ℚ) (Dual2 ℚ) :=
  spline_weighted_evaluate_template float_ops
    (fun P => Dual2.ofValue (removeDerivatives_Dual2 P)) spline_weighted_sum_dffdf

/-- The instance of `spline_weighted_evaluate` at a `Dual2<float>` result, a
`Dual2<float>` parameter and `Dual2<float>` knots. -/
def spline_weighted_evaluate_dfdfdf : WeightedEvaluate (Dual2 ℚ) (Dual2 ℚ) (Dual2 ℚ) :=
  spline_weighted_evaluate_template Dual2_ops
    (fun P => Dual2.ofValue (removeDerivatives_Dual2 P)) spline_weighted_sum_dfdfdf

/-- The instance of `spline_weighted_evaluate` at a `Vec3` result, a `float` parameter
and `Vec3` knots; `removeDerivatives` of a `Vec3` is the `Vec3`. -/
def spline_weighted_evaluate_vfv : WeightedEvaluate ℚ Vec3 Vec3 :=
  spline_weighted_evaluate_template float_ops (fun P => P) spline_weighted_sum_vfv

/-- The instance of `spline_weighted_evaluate` at a `Dual2<Vec3>` result, a
`Dual2<float>` parameter and `Vec3` knots. -/
def spline_weighted_evaluate_dvdfv : WeightedEvaluate (Dual2 ℚ) Vec3 (Dual2 Vec3) :=
  spline_weighted_evaluate_template Dual2_ops (fun P => Dual2.ofValue P)
    spline_weighted_sum_dvdfv

/-- The instance of `spline_weighted_evaluate` at a `Dual2<Vec3>` result, a `float`
parameter and `Dual2<Vec3>` knots. -/
def spline_weighted_evaluate_dvfdv : WeightedEvaluate ℚ (Dual2 Vec3) (Dual2 Vec3) :=
  spline_weighted_evaluate_template float_ops
    (fun P => Dual2.ofValue (removeDerivatives_Dual2 P)) spline_weighted_sum_dvfdv

/-- The instance of `spline_weighted_evaluate` at a `Dual2<Vec3>` result, a
`Dual2<float>` parameter and `Dual2<Vec3>` knots. -/
def spline_weighted_evaluate_dvdfdv : WeightedEvaluate (Dual2 ℚ) (Dual2 Vec3) (Dual2 Vec3) :=
  spline_weighted_evaluate_template Dual2_ops
    (fun P => Dual2.ofValue (removeDerivatives_Dual2 P)) spline_weighted_sum_dvdfdv

/-! ## Products with the coefficient on the right -/

/-- The operator `operator * (float a, ProxyElement<MT, DivisorT> b)` (lines 413-419):
`b * a`. -/
def float_mul_ProxyElement (a : ℚ) (b : ProxyElement) : PVal := b.mul a

/-! ## Entry points and the standard output

The stream `std::cout` is a state of the process. An entry point below takes the texts
that the stream has received before the call and returns, with its result, the texts that
the stream has received after the call. -/

/-- The stream `std::cout`: the texts inserted so far, oldest first. -/
abbrev OStream := List String

/-- The manipulator `std::endl`, as the text it inserts. -/
def endl : String := "\n"

/-- The entry point `osl_spline_w16dfdfw16df` (lines 1099-1109): one dual parameter for
all lanes, a sequence of dual knots a lane, every lane written. Line 1102 is
`std::cout<<"Inside osl_spline_w16dfdfw16df"<<std::endl;`. -/
def osl_spline_w16dfdfw16df (width : Nat) (cout : OStream) (wout_ : Wide (Dual2 ℚ))
    (spline_ : String) (wx_ : Dual2 ℚ) (knots : List (Wide (Dual2 ℚ)))
    (knot_count knot_arraylen : Int) : OStream × Except SplineError (Wide (Dual2 ℚ)) :=
  let cout := cout ++ ["Inside osl_spline_w16dfdfw16df", endl]
  (cout, spline_evaluate spline_weighted_evaluate_dfdfdf width RAccessor.WideAccessor spline_
    (XAccessor.ConstUniformAccessor wx_) (KAccessor.ConstWideUnboundArrayAccessor knots)
    knot_count wout_)

/-- The entry point `osl_spline_w16dvw16dfw16v_masked` (lines 1313-1325): a dual parameter
and a sequence of vector knots a lane, masked destination. Its line 1317,
`//std::cout<<"Knot count is: "<<knot_count<<std::endl;`, is a comment: the stream
stays as it is. -/
def osl_spline_w16dvw16dfw16v_masked (width : Nat) (cout : OStream)
    (wout_ : Wide (Dual2 Vec3)) (spline_ : String) (wx_ : Wide (Dual2 ℚ))
    (knots : List (Wide Vec3)) (knot_count knot_arraylen : Int) (mask_value : Nat) :
    OStream × Except SplineError (Wide (Dual2 Vec3)) :=
  (cout, spline_evaluate spline_weighted_evaluate_dvdfv width
    (RAccessor.MaskedAccessor ⟨mask_value⟩) spline_ (XAccessor.ConstWideAccessor wx_)
    (KAccessor.ConstWideUnboundArrayAccessor knots) knot_count wout_)

/-- The entry point `osl_spline_w16dvw16dfdv_masked` (lines 1415-1425): a dual parameter
a lane, one sequence of dual vector knots for all lanes, masked destination. Line 1418 is
`std::cout<<"Knot count is: "<<knot_count<<std::endl;`. -/
def osl_spline_w16dvw16dfdv_masked (width : Nat) (cout : OStream)
    (wout_ : Wide (Dual2 Vec3)) (spline_ : String) (wx_ : Wide (Dual2 ℚ))
    (knots : List (Dual2 Vec3)) (knot_count knot_arraylen : Int) (mask_value : Nat) :
    OStream × Except SplineError (Wide (Dual2 Vec3)) :=
  let cout := cout ++ ["Knot count is: ", toString knot_count, endl]
  (cout, spline_evaluate spline_weighted_evaluate_dvdfdv width
    (RAccessor.MaskedAccessor ⟨mask_value⟩) spline_ (XAccessor.ConstWideAccessor wx_)
    (KAccessor.ConstUniformUnboundedArrayAccessor knots) knot_count wout_)

/-! ## The scalar entry points of the forward and of the inverse operator

`osl_spline_fff` and `osl_splineinverse_fff` pass their arguments to
`Spline::spline_evaluate` and `Spline::spline_inverse`, which are declared in a header of
the repository other than `opspline.cpp`. The evaluator is taken from the specification;
the solver, of which the specification gives a contract and no algorithm, is an argument
of the entry point. -/

/-- Modelled from the spec: the evaluator `Spline::spline_evaluate` at `float`s, which is
not in `opspline.cpp`. "The number of cubic segments is `nsegs = ((length − 4) / step) + 1`,
truncated toward zero"; the Segment Selector gives `segnum` and `u`; the Polynomial
Evaluator gives `((T0·u + T1)·u + T2)·u + T3` over the "four consecutive control points
`P0..P3` (of the knot sequence starting at offset `segnum*step`)"; "for the constant basis
the weighted sum is skipped entirely; the result is simply `P[segnum+1]`". -/
def Spline.spline_evaluate (spline : SplineBasis) (x : ℚ) (knots : List ℚ)
    (knot_count knot_arraylen : Int) : Except SplineError ℚ :=
  let nsegs := (knot_count - 4).tdiv spline.basis_step + 1
  let segnum := SegmentSelector_segnum x nsegs
  let u := SegmentSelector_u x nsegs
  if spline.basis_name = "constant" then
    knotAt knots (segnum + 1)
  else do
    let P0 ← knotAt knots (segnum * spline.basis_step)
    let P1 ← knotAt knots (segnum * spline.basis_step + 1)
    let P2 ← knotAt knots (segnum * spline.basis_step + 2)
    let P3 ← knotAt knots (segnum * spline.basis_step + 3)
    pure (PolynomialEvaluator spline.basis
      (fun j => match j with | 0 => P0 | 1 => P1 | 2 => P2 | 3 => P3) u)

/-- Modelled from the spec: a "strictly monotonic knot sequence", strictly increasing or
strictly decreasing. -/
def StrictlyMonotonic (knots : List ℚ) : Prop :=
  knots.Pairwise (fun a b => a < b) ∨ knots.Pairwise (fun a b => b < a)

instance (knots : List ℚ) : Decidable (StrictlyMonotonic knots) := by
  unfold StrictlyMonotonic
  infer_instance

/-! ## Sums of coefficients -/

/-- What `ProxyElement + ProxyElement` has for a type: a `ProxyElement` again, or a
`float`. -/
inductive ProxyOrFloat where
  | proxy (p : ProxyElement)
  | value (v : ℚ)

/-- The overloads `unproxy_element(float)` (line 430) and
`unproxy_element(ProxyElement<MT, DivisorT>)` (lines 451-456): the `float`, or
`value.to_float()`. -/
def ProxyOrFloat.unproxy_element : ProxyOrFloat → ℚ
  | ProxyOrFloat.proxy p => p.to_float
  | ProxyOrFloat.value v => v

/-- The member templates `operator + (ProxyElement<...>)` of `ProxyElement<MT, DivisorT>`,
by the specialisation that C++ selects for the left operand and the overload that it
selects for the right operand; `none` where no overload takes the right operand or two
overloads take it (the expression does not compile).
`<0, 1>` and `<0, DivisorT>` return the right operand (lines 200-205, 255-260).
`<1, 1>` returns `ProxyElement<2, 1>` for `<D, D>` and `ProxyElement<0, 1>` for `<0, D>`
(lines 309-322). `<-1, 1>` returns `ProxyElement<0, 1>` for `<D, D>` and
`ProxyElement<-1, 1>` for `<0, D>` (lines 344-357). `<DivisorT, DivisorT>` returns
`ProxyElement<2, 1>` for `<D, D>` and `ProxyElement<0, DivisorT>` for `<0, D>` (lines
278-288). `<MT, 1>` returns the `float` `MT + 1` for `<D, D>`, `ProxyElement<OtherMT+MT, 1>`
for `<OtherMT, 1>` and `ProxyElement<MT, 1>` for `<0, D>` (lines 220-236). The primary
template has no `operator +`. -/
def ProxyElement.add (a b : ProxyElement) : Option ProxyOrFloat :=
  if a.MT = 0 then some (ProxyOrFloat.proxy b)
  else if a.MT = 1 ∧ a.DivisorT = 1 then
    if b.MT = b.DivisorT ∧ b.MT = 0 then none
    else if b.MT = b.DivisorT then some (ProxyOrFloat.proxy ⟨2, 1⟩)
    else if b.MT = 0 then some (ProxyOrFloat.proxy ⟨0, 1⟩)
    else none
  else if a.MT = -1 ∧ a.DivisorT = 1 then
    if b.MT = b.DivisorT ∧ b.MT = 0 then none
    else if b.MT = b.DivisorT then some (ProxyOrFloat.proxy ⟨0, 1⟩)
    else if b.MT = 0 then some (ProxyOrFloat.proxy ⟨-1, 1⟩)
    else none
  else if a.MT = a.DivisorT then
    if b.MT = b.DivisorT ∧ b.MT = 0 then none
    else if b.MT = b.DivisorT then some (ProxyOrFloat.proxy ⟨2, 1⟩)
    else if b.MT = 0 then some (ProxyOrFloat.proxy ⟨0, a.DivisorT⟩)
    else none
  else if a.DivisorT = 1 then
    if (b.MT = b.DivisorT ∧ b.DivisorT = 1) ∨ (b.DivisorT = 1 ∧ b.MT = 0)
        ∨ (b.MT = b.DivisorT ∧ b.MT = 0) then none
    else if b.MT = b.DivisorT then some (ProxyOrFloat.value (((a.MT + 1 : Int) : ℚ)))
    else if b.DivisorT = 1 then some (ProxyOrFloat.proxy ⟨b.MT + a.MT, 1⟩)
    else if b.MT = 0 then some (ProxyOrFloat.proxy ⟨a.MT, 1⟩)
    else none
  else none

/-- The members `operator + (float value)` of `ProxyElement<MT, DivisorT>`, by the
specialisation that C++ selects: `value` for `<0, 1>` and `<0, DivisorT>` (lines 195-198,
250-253), `1.0f + value` for `<1, 1>` and `<DivisorT, DivisorT>` (lines 273-276, 303-307),
`-1.0f + value` for `<-1, 1>` (lines 338-342); `<MT, 1>` and the primary template have none. -/
def ProxyElement.add_float (a : ProxyElement) (value : ℚ) : Option ℚ :=
  if a.MT = 0 then some value
  else if a.MT = 1 ∧ a.DivisorT = 1 then some (1 + value)
  else if a.MT = -1 ∧ a.DivisorT = 1 then some (-1 + value)
  else if a.MT = a.DivisorT then some (1 + value)
  else none

/-! ## Binary32 arithmetic

The definitions above read every `float` operation as exact. The ones below read it as
IEEE 754 binary32 does: the exact result is rounded to the nearest number
`m * 2^k` with `|m| < 2^24` and `k ≥ -149`, a tie going to the even `m`; a result
beyond the largest such number below `2^128` is not a finite `float`. -/

/-- The integer nearest to `r`, the even one of the two when `r` lies half way. -/
def round_half_even (r : ℚ) : Int :=
  if r - ⌊r⌋ < 1/2 then ⌊r⌋
  else if 1/2 < r - ⌊r⌋ then ⌊r⌋ + 1
  else if ⌊r⌋ % 2 = 0 then ⌊r⌋ else ⌊r⌋ + 1

/-- The search for the unit in the last place of `n / d` by bisection: the least index
`j` from `lo` to `hi` with `n / d < 2^(j - 125)`, where the index `j` stands for the
exponent `j - 149`; `fuel` halvings are enough for `hi - lo < 2^fuel`. The test is made
on natural numbers, `n * 2^(125 - j) < d * 2^(j - 125)`, with the truncated difference
of natural numbers. -/
def binary32_ulp_search (n d : Nat) : Nat → Nat → Nat → Nat
  | 0, _, hi => hi
  | fuel + 1, lo, hi =>
    if hi ≤ lo then hi
    else if n * 2 ^ (125 - (lo + hi) / 2) < d * 2 ^ ((lo + hi) / 2 - 125) then
      binary32_ulp_search n d fuel lo ((lo + hi) / 2)
    else binary32_ulp_search n d fuel ((lo + hi) / 2 + 1) hi

/-- The exponent `k` of the unit in the last place of a binary32 number of magnitude
`a`: the least `k ≥ -149` with `a < 2^(k + 24)`, and `104` from `2^127` on. Below
`2^-125` the unit is that of the subnormal numbers, `2^-149`. -/
def binary32_ulp (a : ℚ) : Int :=
  (binary32_ulp_search a.num.natAbs a.den 8 0 253 : Nat) - 149

/-- The power `2^k` of an integer `k`, as a quotient of two natural powers. -/
def binary32_unit (k : Int) : ℚ := ((2 ^ k.toNat : Nat) : ℚ) / ((2 ^ (-k).toNat : Nat) : ℚ)

/-- The rounding of `q` to the nearest multiple of the unit in the last place, a tie
to the even multiple. -/
def binary32_round (q : ℚ) : ℚ :=
  (round_half_even (q / binary32_unit (binary32_ulp |q|)) : ℚ)
    * binary32_unit (binary32_ulp |q|)

/-- The `float` that an operation with the exact result `q` returns, when it is
finite; a rounding of magnitude `2^128` or more is infinite in binary32. -/
def binary32 (q : ℚ) : Except SplineError ℚ :=
  if |binary32_round q| < 2 ^ 128 then Except.ok (binary32_round q)
  else Except.error SplineError.notFinite

/-- Equality of two outcomes of an evaluation is decidable. -/
instance : DecidableEq (Except SplineError ℚ) := fun a b =>
  match a, b with
  | Except.ok x, Except.ok y =>
    if h : x = y then isTrue (by rw [h]) else isFalse (fun e => h (Except.ok.inj e))
  | Except.error x, Except.error y =>
    if h : x = y then isTrue (by rw [h]) else isFalse (fun e => h (Except.error.inj e))
  | Except.ok _, Except.error _ => isFalse (fun e => by cases e)
  | Except.error _, Except.ok _ => isFalse (fun e => by cases e)

/-! ## The weighted evaluator in binary32

The `float` instance of the evaluator once more, every `float` operation rounded. The
elided operations of the proxies (a product with `0`, `1` or `-1`, a sum with the zero
proxy) round nothing, as in the source. -/

/-- The member `operator * (float value)` of `ProxyElement<MT, DivisorT>` in binary32,
by the specialisation that C++ selects: the zero proxy, `value`, `-value` and `value`
as in `ProxyElement.mul`, then `static_cast<float>(MT)*value` (line 214) and
`value*(static_cast<float>(MT)/static_cast<float>(DivisorT))` (line 180) with the
conversions, the quotient and the product rounded. -/
def ProxyElement.mul_binary32 (p : ProxyElement) (value : ℚ) : Except SplineError PVal :=
  if p.MT = 0 then pure (PVal.zero p.DivisorT)
  else if p.MT = 1 ∧ p.DivisorT = 1 then pure (PVal.value value)
  else if p.MT = -1 ∧ p.DivisorT = 1 then pure (PVal.value (-value))
  else if p.MT = p.DivisorT then pure (PVal.value value)
  else if p.DivisorT = 1 then do
    let m ← binary32 (p.MT : ℚ)
    let r ← binary32 (m * value)
    pure (PVal.value r)
  else do
    let m ← binary32 (p.MT : ℚ)
    let d ← binary32 (p.DivisorT : ℚ)
    let c ← binary32 (m / d)
    let r ← binary32 (value * c)
    pure (PVal.value r)

/-- The sums the evaluator forms, in binary32: as `PVal.add`, the sum of two `float`s
rounded. -/
def PVal.add_binary32 : PVal → PVal → Except SplineError PVal
  | PVal.zero _, PVal.zero d => pure (PVal.zero d)
  | PVal.zero _, PVal.value v => pure (PVal.value v)
  | PVal.value v, PVal.zero _ => pure (PVal.value v)
  | PVal.value a, PVal.value b => do
    let r ← binary32 (a + b)
    pure (PVal.value r)

/-- The products `tk * x` of the evaluator, in binary32: as `PVal.mul`, the product of
two `float`s rounded. -/
def PVal.mul_binary32 : PVal → ℚ → Except SplineError PVal
  | PVal.zero d, _ => pure (PVal.zero d)
  | PVal.value v, x => do
    let r ← binary32 (v * x)
    pure (PVal.value r)

/-- The cast `(int)` of a `float` has a value in C++ when the truncation of the `float`
is an `int`, from `-2^31` to `2^31 - 1`; the cast of any other `float` is undefined. -/
def float_to_int_defined (v : ℚ) : Prop :=
  -(2 ^ 31) ≤ float_to_int v ∧ float_to_int v < 2 ^ 31

/-- Whether the cast `(int)` of a `float` has a value is decidable. -/
instance (v : ℚ) : Decidable (float_to_int_defined v) := by
  unfold float_to_int_defined
  infer_instance

/-- Lines 621-628 of `spline_weighted_evaluate` in binary32: the clamp, the conversion
`(float)nsegs` and the product `x*(float)nsegs`. The factors are at most `1` and an
`int`, so the product is finite. -/
def spline_scaled_x_binary32 (xval : ℚ) (nsegs : Int) : ℚ :=
  let x := clamp_in_place xval 0 1
  binary32_round (x * binary32_round (nsegs : ℚ))

/-- Lines 629-634 of `spline_weighted_evaluate` in binary32: the segment index
`segnum = (int)seg_x` of the rounded product, raised to `0` and lowered to `nsegs-1`. It
is the segment of the code where the cast has a value, `float_to_int_defined seg_x`. -/
def spline_segnum_binary32 (xval : ℚ) (nsegs : Int) : Int :=
  let x := spline_scaled_x_binary32 xval nsegs
  let seg_x := removeDerivatives x
  let segnum := float_to_int seg_x
  let segnum := if segnum < 0 then 0 else segnum
  let segnum := if segnum > nsegs - 1 then nsegs - 1 else segnum
  segnum

/-- Line 643 of `spline_weighted_evaluate` in binary32: `x = x - float(segnum);` with
the conversion and the difference rounded. -/
def spline_local_x_binary32 (xval : ℚ) (nsegs : Int) : ℚ :=
  binary32_round (spline_scaled_x_binary32 xval nsegs
    - binary32_round ((spline_segnum_binary32 xval nsegs : Int) : ℚ))

/-- One of the sums `tk0 .. tk3` of lines 662-678 in binary32:
`m0 * P[0] + m1 * P[1] + m2 * P[2] + m3 * P[3]`, added from the left. -/
def spline_weighted_row_binary32 (m0 m1 m2 m3 : ProxyElement) (P0 P1 P2 P3 : ℚ) :
    Except SplineError PVal := do
  let a0 ← m0.mul_binary32 P0
  let a1 ← m1.mul_binary32 P1
  let a2 ← m2.mul_binary32 P2
  let a3 ← m3.mul_binary32 P3
  let s1 ← a0.add_binary32 a1
  let s2 ← s1.add_binary32 a2
  s2.add_binary32 a3

/-- Lines 662-684 of `spline_weighted_evaluate` in binary32: the four sums and
`unproxy_element(((tk0*x + tk1)*x + tk2)*x + tk3)`. -/
def spline_weighted_sum_binary32 (M : StaticMatrix44) (P0 P1 P2 P3 x : ℚ) :
    Except SplineError ℚ := do
  let tk0 ← spline_weighted_row_binary32 M.m00 M.m01 M.m02 M.m03 P0 P1 P2 P3
  let tk1 ← spline_weighted_row_binary32 M.m10 M.m11 M.m12 M.m13 P0 P1 P2 P3
  let tk2 ← spline_weighted_row_binary32 M.m20 M.m21 M.m22 M.m23 P0 P1 P2 P3
  let tk3 ← spline_weighted_row_binary32 M.m30 M.m31 M.m32 M.m33 P0 P1 P2 P3
  let h1 ← tk0.mul_binary32 x
  let h2 ← h1.add_binary32 tk1
  let h3 ← h2.mul_binary32 x
  let h4 ← h3.add_binary32 tk2
  let h5 ← h4.mul_binary32 x
  let h6 ← h5.add_binary32 tk3
  pure (unproxy_element h6)

/-- The instance of `spline_weighted_evaluate` (lines 612-686) at `float` parameter,
knots and result, in binary32. Where the cast `int segnum = (int)seg_x;` of line 630 has
no value, the evaluation ends in `SplineError.castOutOfRange`. -/
def spline_weighted_evaluate_binary32 : WeightedEvaluate ℚ ℚ ℚ :=
  fun M is_basis_u_constant basis_step xval knots knot_count =>
  let nsegs := spline_nsegs knot_count basis_step
  let seg_x := removeDerivatives (spline_scaled_x_binary32 xval nsegs)
  if float_to_int_defined seg_x then
    let segnum := spline_segnum_binary32 xval nsegs
    if is_basis_u_constant then do
      -- Special case for "constant" basis
      let P ← knotAt knots (segnum + 1)
      pure (removeDerivatives P)
    else do
      -- x is the position along segment 'segnum'
      let x := spline_local_x_binary32 xval nsegs
      let s := segnum * basis_step
      let P0 ← knotAt knots s
      let P1 ← knotAt knots (s + 1)
      let P2 ← knotAt knots (s + 2)
      let P3 ← knotAt knots (s + 3)
      spline_weighted_sum_binary32 M P0 P1 P2 P3 x
  else
    Except.error SplineError.castOutOfRange

/-- The scaled parameter of the selector's contract with its product taken in binary32:
`t = x * nsegs`, `x` clamped to `[0, 1]`, `nsegs` converted to `float`. -/
def SegmentSelector_t_binary32 (x : ℚ) (nsegs : Int) : ℚ :=
  binary32_round (max 0 (min x 1) * binary32_round (nsegs : ℚ))

/-- The segment `segnum = clamp(floor(t), 0, nsegs−1)` of the selector's contract, for
the scaled parameter in binary32. -/
def SegmentSelector_segnum_binary32 (x : ℚ) (nsegs : Int) : Int :=
  max 0 (min ⌊SegmentSelector_t_binary32 x nsegs⌋ (nsegs - 1))

/-- The local parameter `u = t − segnum` of the selector's contract with its difference
taken in binary32, `segnum` converted to `float`. -/
def SegmentSelector_u_binary32 (x : ℚ) (nsegs : Int) : ℚ :=
  binary32_round (SegmentSelector_t_binary32 x nsegs
    - binary32_round ((SegmentSelector_segnum_binary32 x nsegs : Int) : ℚ))

/-- The sixteen numerators of a `StaticMatrix44`, row by row. -/
def StaticMatrix44.numerators (M : StaticMatrix44) : List Int :=
  [M.M00, M.M01, M.M02, M.M03, M.M10, M.M11, M.M12, M.M13,
    M.M20, M.M21, M.M22, M.M23, M.M30, M.M31, M.M32, M.M33]

/-- A value of the evaluator that is a zero proxy or a binary32 number of magnitude at
most `B`. -/
def PVal.isBinary32 (B : ℚ) : PVal → Prop
  | PVal.zero _ => True
  | PVal.value v => binary32_round v = v ∧ |v| ≤ B

/-! ## The weighted evaluator in binary32 at a dual parameter

The instance of the evaluator at a `Dual2<float>` parameter and `float` knots, every
`float` operation rounded. The arithmetic of `Dual2<T>` is declared in `OSL/dual.h`; it
is taken from the specification, each component computed by the `float` operations of
its rule. -/

/-- Modelled from the spec: dual times `float` in binary32 (`x*(float)nsegs`, line 628),
the three products rounded. -/
def Dual2.scale_binary32 (a : Dual2 ℚ) (b : ℚ) : Except SplineError (Dual2 ℚ) := do
  let val ← binary32 (a.val * b)
  let dx ← binary32 (a.dx * b)
  let dy ← binary32 (a.dy * b)
  pure ⟨val, dx, dy⟩

/-- Modelled from the spec: dual minus `float` in binary32 (`x - float(segnum)`, line
643), the difference of the values rounded. -/
def Dual2.subValue_binary32 (a : Dual2 ℚ) (b : ℚ) : Except SplineError (Dual2 ℚ) := do
  let val ← binary32 (a.val - b)
  pure ⟨val, a.dx, a.dy⟩

/-- Modelled from the spec: `float` times dual `float` in binary32, the three products
rounded. -/
def Dual2.valueMulDual_binary32 (a : ℚ) (b : Dual2 ℚ) : Except SplineError (Dual2 ℚ) := do
  let val ← binary32 (a * b.val)
  let dx ← binary32 (a * b.dx)
  let dy ← binary32 (a * b.dy)
  pure ⟨val, dx, dy⟩

/-- Modelled from the spec: dual times dual `float` in binary32, the product rule
`d(a·b) = a·db + da·b` with its two products and their sum rounded. -/
def Dual2.mulDual_binary32 (a b : Dual2 ℚ) : Except SplineError (Dual2 ℚ) := do
  let val ← binary32 (a.val * b.val)
  let px ← binary32 (a.val * b.dx)
  let qx ← binary32 (a.dx * b.val)
  let dx ← binary32 (px + qx)
  let py ← binary32 (a.val * b.dy)
  let qy ← binary32 (a.dy * b.val)
  let dy ← binary32 (py + qy)
  pure ⟨val, dx, dy⟩

/-- The products `tk * x` of the evaluator with a dual `x`, in binary32: the zero proxy
gives the dual of three zeros with no operation (lines 531-538), a `float` `tk` the
product of a pure value and a dual. -/
def PVal.mulDual2_binary32 : PVal → Dual2 ℚ → Except SplineError (Dual2 ℚ)
  | PVal.zero d, x => pure ((ProxyElement.mk 0 d).mulDual2 x)
  | PVal.value v, x => Dual2.valueMulDual_binary32 v x

/-- The sums `dual + tk` of the evaluator, in binary32: the zero proxy leaves the dual
as it is (lines 541-546), a `float` `tk` is added to the value, the sum rounded. -/
def Dual2.addPVal_binary32 (a : Dual2 ℚ) : PVal → Except SplineError (Dual2 ℚ)
  | PVal.zero d => pure ⟨unproxy_element ((PVal.value a.val).add (PVal.zero d)), a.dx, a.dy⟩
  | PVal.value v => do
    let val ← binary32 (a.val + v)
    pure ⟨val, a.dx, a.dy⟩

/-- Lines 662-684 in binary32 at a `Dual2<float>` parameter and `float` knots: the sums
`tk0 .. tk3` are those of the `float` instance, the Horner form is one of duals. -/
def spline_weighted_sum_dfdff_binary32 (M : StaticMatrix44) (P0 P1 P2 P3 : ℚ)
    (x : Dual2 ℚ) : Except SplineError (Dual2 ℚ) := do
  let tk0 ← spline_weighted_row_binary32 M.m00 M.m01 M.m02 M.m03 P0 P1 P2 P3
  let tk1 ← spline_weighted_row_binary32 M.m10 M.m11 M.m12 M.m13 P0 P1 P2 P3
  let tk2 ← spline_weighted_row_binary32 M.m20 M.m21 M.m22 M.m23 P0 P1 P2 P3
  let tk3 ← spline_weighted_row_binary32 M.m30 M.m31 M.m32 M.m33 P0 P1 P2 P3
  let h1 ← tk0.mulDual2_binary32 x
  let h2 ← h1.addPVal_binary32 tk1
  let h3 ← h2.mulDual_binary32 x
  let h4 ← h3.addPVal_binary32 tk2
  let h5 ← h4.mulDual_binary32 x
  h5.addPVal_binary32 tk3

/-- The instance of `spline_weighted_evaluate` (lines 612-686) at a `Dual2<float>`
result, a `Dual2<float>` parameter and `float` knots, in binary32. Where the cast of line
630 has no value, the evaluation ends in `SplineError.castOutOfRange`. -/
def spline_weighted_evaluate_dfdff_binary32 : WeightedEvaluate (Dual2 ℚ) ℚ (Dual2 ℚ) :=
  fun M is_basis_u_constant basis_step xval knots knot_count => do
  let x := clamp_in_place_Dual2 xval (Dual2.ofValue 0) (Dual2.ofValue 1)
  let nsegs := spline_nsegs knot_count basis_step
  let x ← x.scale_binary32 (binary32_round (nsegs : ℚ))
  let seg_x := removeDerivatives_Dual2 x
  if float_to_int_defined seg_x then
    let segnum := float_to_int seg_x
    let segnum := if segnum < 0 then 0 else segnum
    let segnum := if segnum > nsegs - 1 then nsegs - 1 else segnum
    if is_basis_u_constant then do
      -- Special case for "constant" basis
      let P ← knotAt knots (segnum + 1)
      pure (Dual2.ofValue (removeDerivatives P))
    else do
      -- x is the position along segment 'segnum'
      let x ← x.subValue_binary32 (binary32_round ((segnum : Int) : ℚ))
      let s := segnum * basis_step
      let P0 ← knotAt knots s
      let P1 ← knotAt knots (s + 1)
      let P2 ← knotAt knots (s + 2)
      let P3 ← knotAt knots (s + 3)
      spline_weighted_sum_dfdff_binary32 M P0 P1 P2 P3 x
  else
    Except.error SplineError.castOutOfRange

/-! ## Segment selection: auxiliary facts -/

theorem spline_nsegs_pos (knot_count basis_step : Int) (hk : 4 ≤ knot_count)
    (hs : 0 < basis_step) : 1 ≤ spline_nsegs knot_count basis_step := by
  unfold spline_nsegs
  have h := Int.tdiv_nonneg (show (0:Int) ≤ knot_count - 4 by omega) (le_of_lt hs)
  omega

theorem spline_segnum_le (xval : ℚ) (nsegs : Int) :
    spline_segnum xval nsegs ≤ nsegs - 1 := by
  unfold spline_segnum
  simp only
  split_ifs <;> omega

theorem spline_segnum_nonneg (xval : ℚ) (nsegs : Int) (hn : 1 ≤ nsegs) :
    0 ≤ spline_segnum xval nsegs := by
  unfold spline_segnum
  simp only
  split_ifs <;> omega

theorem spline_segment_in_bounds (xval : ℚ) (knot_count basis_step : Int) (hk : 4 ≤ knot_count)
    (hs : 0 < basis_step) :
    0 ≤ spline_segnum xval (spline_nsegs knot_count basis_step) * basis_step ∧
    spline_segnum xval (spline_nsegs knot_count basis_step) * basis_step + 3 ≤ knot_count - 1 := by
  have hn := spline_nsegs_pos knot_count basis_step hk hs
  have h0 := spline_segnum_nonneg xval (spline_nsegs knot_count basis_step) hn
  have h1 := spline_segnum_le xval (spline_nsegs knot_count basis_step)
  refine ⟨Int.mul_nonneg h0 (le_of_lt hs), ?_⟩
  have h2 : spline_segnum xval (spline_nsegs knot_count basis_step) * basis_step
      ≤ (spline_nsegs knot_count basis_step - 1) * basis_step :=
    Int.mul_le_mul_of_nonneg_right h1 (le_of_lt hs)
  have h3 : (spline_nsegs knot_count basis_step - 1) * basis_step ≤ knot_count - 4 := by
    unfold spline_nsegs
    rw [Int.tdiv_eq_ediv (by omega) (le_of_lt hs)]
    have := Int.ediv_mul_le (knot_count - 4) (ne_of_gt hs)
    simpa using this
  omega

theorem knotAt_ok (knots : List ℚ) (i : Int) (h0 : 0 ≤ i) (h1 : i < knots.length) :
    ∃ k, knotAt knots i = Except.ok k := by
  have hlt : i.toNat < knots.length := by omega
  refine ⟨knots[i.toNat], ?_⟩
  unfold knotAt
  rw [if_neg (by omega), List.getElem?_eq_getElem hlt]

/-- With at least four knots in a buffer that holds them, the weighted evaluator of a
non-constant basis reads its four control points and returns their weighted sum. -/
theorem spline_weighted_evaluate_ok (M : StaticMatrix44) (basis_step : Int)
    (hs : 0 < basis_step) (xval : ℚ) (knots : List ℚ) (knot_count : Int)
    (hk : 4 ≤ knot_count) (hlen : knot_count ≤ knots.length) :
    ∃ P : Fin 4 → ℚ,
      (∀ j : Fin 4, knotAt knots
        (spline_segnum xval (spline_nsegs knot_count basis_step) * basis_step + ((j : Nat) : Int))
          = Except.ok (P j)) ∧
      spline_weighted_evaluate M false basis_step xval knots knot_count
        = Except.ok (spline_weighted_sum M (P 0) (P 1) (P 2) (P 3)
            (spline_local_x xval (spline_nsegs knot_count basis_step))) := by
  obtain ⟨h0, h3⟩ := spline_segment_in_bounds xval knot_count basis_step hk hs
  obtain ⟨p0, e0⟩ := knotAt_ok knots
    (spline_segnum xval (spline_nsegs knot_count basis_step) * basis_step) h0 (by omega)
  obtain ⟨p1, e1⟩ := knotAt_ok knots
    (spline_segnum xval (spline_nsegs knot_count basis_step) * basis_step + 1)
    (by omega) (by omega)
  obtain ⟨p2, e2⟩ := knotAt_ok knots
    (spline_segnum xval (spline_nsegs knot_count basis_step) * basis_step + 2)
    (by omega) (by omega)
  obtain ⟨p3, e3⟩ := knotAt_ok knots
    (spline_segnum xval (spline_nsegs knot_count basis_step) * basis_step + 3)
    (by omega) (by omega)
  refine ⟨![p0, p1, p2, p3], ?_, ?_⟩
  · intro j
    fin_cases j <;> simp [e0, e1, e2, e3]
  · simp [spline_weighted_evaluate, e0, e1, e2, e3, bind, Except.bind, pure, Except.pure]

/-! ## Coefficient proxies: auxiliary facts -/

theorem to_float_eq (p : ProxyElement) (hd : p.DivisorT ≠ 0) :
    p.to_float = (p.MT : ℚ) / (p.DivisorT : ℚ) := by
  have hq : (p.DivisorT : ℚ) ≠ 0 := by exact_mod_cast hd
  unfold ProxyElement.to_float
  split_ifs with h0 h1 h2 h3 h4
  · simp [h0]
  · simp [h1.1, h1.2]
  · simp [h2.1, h2.2]
  · rw [h3, div_self hq]
  · simp [h4]
  · rfl

theorem unproxy_element_mul (p : ProxyElement) (hd : p.DivisorT ≠ 0) (v : ℚ) :
    unproxy_element (p.mul v) = p.to_float * v := by
  have hq : (p.DivisorT : ℚ) ≠ 0 := by exact_mod_cast hd
  rw [to_float_eq p hd]
  unfold ProxyElement.mul
  split_ifs with h0 h1 h2 h3 h4
  · simp [unproxy_element, ProxyElement.to_float, h0]
  · simp [unproxy_element, h1.1, h1.2]
  · simp [unproxy_element, h2.1, h2.2]
  · simp only [unproxy_element, h3]
    rw [div_self hq, one_mul]
  · simp [unproxy_element, h4]
  · simp only [unproxy_element]
    ring

theorem unproxy_element_add (a b : PVal) :
    unproxy_element (a.add b) = unproxy_element a + unproxy_element b := by
  cases a <;> cases b <;> simp [PVal.add, unproxy_element, ProxyElement.to_float]

theorem unproxy_element_mul_float (a : PVal) (x : ℚ) :
    unproxy_element (a.mul x) = unproxy_element a * x := by
  cases a <;> simp [PVal.mul, unproxy_element, ProxyElement.to_float]

theorem spline_weighted_sum_eq (M : StaticMatrix44) (hd : M.DivisorT ≠ 0) (P : Fin 4 → ℚ)
    (u : ℚ) :
    spline_weighted_sum M (P 0) (P 1) (P 2) (P 3) u = PolynomialEvaluator M.toMatrix44 P u := by
  simp only [spline_weighted_sum, unproxy_element_add, unproxy_element_mul_float]
  rw [unproxy_element_mul _ (by exact hd), unproxy_element_mul _ (by exact hd),
    unproxy_element_mul _ (by exact hd), unproxy_element_mul _ (by exact hd),
    unproxy_element_mul _ (by exact hd), unproxy_element_mul _ (by exact hd),
    unproxy_element_mul _ (by exact hd), unproxy_element_mul _ (by exact hd),
    unproxy_element_mul _ (by exact hd), unproxy_element_mul _ (by exact hd),
    unproxy_element_mul _ (by exact hd), unproxy_element_mul _ (by exact hd),
    unproxy_element_mul _ (by exact hd), unproxy_element_mul _ (by exact hd),
    unproxy_element_mul _ (by exact hd), unproxy_element_mul _ (by exact hd)]
  rfl

theorem toMatrix44_table :
    catmullRomWeights.toMatrix44 = (gBasisSet.getD 0 ⟨"", 0, 0⟩).basis ∧
    bezierWeights.toMatrix44 = (gBasisSet.getD 1 ⟨"", 0, 0⟩).basis ∧
    bsplineWeights.toMatrix44 = (gBasisSet.getD 2 ⟨"", 0, 0⟩).basis ∧
    hermiteWeights.toMatrix44 = (gBasisSet.getD 3 ⟨"", 0, 0⟩).basis ∧
    linearWeights.toMatrix44 = (gBasisSet.getD 4 ⟨"", 0, 0⟩).basis := by
  refine ⟨?_, ?_, ?_, ?_, ?_⟩ <;>
  · funext i j
    fin_cases i <;> fin_cases j <;>
      norm_num [StaticMatrix44.toMatrix44, Matrix44.ofEntries, gBasisSet, catmullRomWeights,
        bezierWeights, bsplineWeights, hermiteWeights, linearWeights, ProxyElement.to_float,
        StaticMatrix44.m00, StaticMatrix44.m01, StaticMatrix44.m02, StaticMatrix44.m03,
    StaticMatrix44.m10, StaticMatrix44.m11, StaticMatrix44.m12, StaticMatrix44.m13,
    StaticMatrix44.m20, StaticMatrix44.m21, StaticMatrix44.m22, StaticMatrix44.m23,
    StaticMatrix44.m30, StaticMatrix44.m31, StaticMatrix44.m32, StaticMatrix44.m33]

/-! ## The polynomial evaluator -/

/-- A name that is none of the six names of the table gets the index
`kLinearSpline`, which is `5`, the index of the record named `constant`. -/
theorem getSplineBasisType_unrecognized (basis_name : String)
    (h : ∀ b ∈ gBasisSet, basis_name ≠ b.basis_name) :
    getSplineBasisType basis_name = 5 := by
  have basisSearch_unrecognized : ∀ (basis_name : String)
      (h : ∀ b ∈ gBasisSet, basis_name ≠ b.basis_name),
      basisSearch basis_name gBasisSet 0 = kNumSplineTypes := by
    intro basis_name h
    simp only [gBasisSet, List.mem_cons, List.mem_singleton, List.not_mem_nil, or_false,
      forall_eq_or_imp, forall_eq] at h
    obtain ⟨h0, h1, h2, h3, h4, h5⟩ := h
    simp [basisSearch, gBasisSet, h0, h1, h2, h3, h4, h5, kNumSplineTypes]
  simp [getSplineBasisType, basisSearch_unrecognized basis_name h, kLinearSpline,
    kNumSplineTypes]

/-- Claim C2, evaluated at the name `not-a-basis`, which is none of the six names of
the table. The claim asks for the record named `linear`; the code returns index `5`
and the record named `constant`, with the all-zero matrix, whereas the name `linear`
has index `4`. -/
theorem getSplineBasis_unrecognized_is_constant :
    (∀ b ∈ gBasisSet, "not-a-basis" ≠ b.basis_name) ∧
    getSplineBasisType "not-a-basis" = 5 ∧
    (getSplineBasis "not-a-basis").basis_name = "constant" ∧
    (getSplineBasis "not-a-basis").basis = Matrix44.ofScalar 0 ∧
    getSplineBasisType "linear" = 4 ∧
    (getSplineBasis "linear").basis_name = "linear" := by
  refine ⟨by decide, by decide, by decide, ?_, by decide, by decide⟩
  simp [getSplineBasis, basisSearch, gBasisSet, kNumSplineTypes, kLinearSpline]

/-- Claim C3, evaluated at the name `not-a-basis`, the parameter `1/2` and the four
knots `1, 2, 4, 8`. The claim asks for the result of the name `linear`, which is `3`;
the code returns `2`, the result of the constant basis. -/
theorem spline_evaluate_scalar_unrecognized_not_linear :
    spline_evaluate_scalar spline_weighted_evaluate "not-a-basis" (1/2) [1, 2, 4, 8] 4 = Except.ok 2 ∧
    spline_evaluate_scalar spline_weighted_evaluate "linear" (1/2) [1, 2, 4, 8] 4 = Except.ok 3 := by
  have spline_segnum_half_one_segment : spline_segnum (1/2) 1 = 0 := by
    norm_num [spline_segnum, spline_scaled_x, clamp_in_place, removeDerivatives,
      float_to_int, show Int.tdiv 1 2 = 0 from rfl]
  have spline_local_x_half_one_segment : spline_local_x (1/2) 1 = 1/2 := by
    rw [spline_local_x, spline_segnum_half_one_segment]
    norm_num [spline_scaled_x, clamp_in_place]
  have spline_nsegs_four_one : spline_nsegs 4 1 = 1 := by
    exact by decide
  have h1 : getSplineBasisType "not-a-basis" = 5 := by decide
  have h2 : getSplineBasisType "linear" = 4 := by decide
  constructor
  · simp only [spline_evaluate_scalar, h1, spline_weighted_evaluate, spline_nsegs_four_one,
      spline_segnum_half_one_segment]
    simp [knotAt, removeDerivatives, bind, Except.bind, pure, Except.pure]
  · simp only [spline_evaluate_scalar, h2, spline_weighted_evaluate, spline_nsegs_four_one,
      spline_segnum_half_one_segment, spline_local_x_half_one_segment]
    simp [knotAt, bind, Except.bind, pure, Except.pure]
    norm_num [spline_weighted_sum, linearWeights, StaticMatrix44.m00, StaticMatrix44.m01,
      StaticMatrix44.m02, StaticMatrix44.m03, StaticMatrix44.m10, StaticMatrix44.m11,
      StaticMatrix44.m12, StaticMatrix44.m13, StaticMatrix44.m20, StaticMatrix44.m21,
      StaticMatrix44.m22, StaticMatrix44.m23, StaticMatrix44.m30, StaticMatrix44.m31,
      StaticMatrix44.m32, StaticMatrix44.m33, ProxyElement.mul, PVal.add, PVal.mul,
      unproxy_element]

/-! ## The segment selector -/

theorem float_to_int_of_nonneg (v : ℚ) (hv : 0 ≤ v) : float_to_int v = ⌊v⌋ := by
  unfold float_to_int
  rw [Rat.floor_def, Int.tdiv_eq_ediv (Rat.num_nonneg.mpr hv) (Int.natCast_nonneg _)]

theorem clamp_in_place_eq (x : ℚ) : clamp_in_place x 0 1 = max 0 (min x 1) := by
  unfold clamp_in_place
  simp only
  split_ifs with h1 h2
  · rw [min_eq_right (le_of_lt h1), max_eq_right (by norm_num)]
  · rw [min_eq_left (not_lt.mp h1), max_eq_left (le_of_lt h2)]
  · rw [min_eq_left (not_lt.mp h1), max_eq_right (not_lt.mp h2)]

theorem clamp_in_place_mem (x : ℚ) : 0 ≤ clamp_in_place x 0 1 ∧ clamp_in_place x 0 1 ≤ 1 := by
  rw [clamp_in_place_eq]
  exact ⟨le_max_left _ _, max_le (by norm_num) (min_le_right _ _)⟩

/-! ## The segment count below four knots -/

/-- Claim C8, as amended. For every knot count `0 <= knot_count < 4` and every basis
step in `{1, 2, 3}`, the segment count `((knot_count - 4) / step) + 1`, with the
division truncated toward zero, is at most `1`, and it is `<= 0` exactly when
`knot_count <= 4 - step`. -/
theorem spline_nsegs_below_four (knot_count basis_step : Int) (h0 : 0 ≤ knot_count)
    (h4 : knot_count < 4) (hstep : basis_step = 1 ∨ basis_step = 2 ∨ basis_step = 3) :
    spline_nsegs knot_count basis_step ≤ 1 ∧
      (spline_nsegs knot_count basis_step ≤ 0 ↔ knot_count ≤ 4 - basis_step) := by
  rcases hstep with rfl | rfl | rfl <;> interval_cases knot_count <;> decide

/-- Witness of claim C8 as amended: three knots, step 2. -/
theorem spline_nsegs_below_four_witness :
    ((0 : Int) ≤ 3 ∧ (3 : Int) < 4 ∧ ((2 : Int) = 1 ∨ (2 : Int) = 2 ∨ (2 : Int) = 3)) ∧
    (spline_nsegs 3 2 ≤ 1 ∧ (spline_nsegs 3 2 ≤ 0 ↔ (3 : Int) ≤ 4 - 2)) :=
  ⟨⟨by decide, by decide, by decide⟩,
    spline_nsegs_below_four 3 2 (by decide) (by decide) (by decide)⟩

/-- Counterexample to claim C8 as stated: three knots and step 2 give
`((3 - 4) / 2) + 1 = 1`, a segment count that is not `<= 0`. -/
theorem spline_nsegs_three_knots_step_two :
    (0 : Int) ≤ 3 ∧ (3 : Int) < 4 ∧ ((2 : Int) = 1 ∨ (2 : Int) = 2 ∨ (2 : Int) = 3) ∧
      spline_nsegs 3 2 = 1 ∧ ¬ (spline_nsegs 3 2 ≤ 0) := by
  decide

/-! ## The batched forward evaluator -/

theorem RAccessor.assign_apply {α : Type} (wR : RAccessor) (wout : Wide α) (lane : Nat)
    (result : α) (i : Nat) :
    wR.assign wout lane result i = if i = lane ∧ wR.writes lane = true then result else wout i := by
  unfold RAccessor.assign
  by_cases hw : wR.writes lane = true
  · by_cases hi : i = lane
    · subst hi
      simp [hw]
    · simp [hw, hi, Function.update_noteq hi]
  · simp [hw]

theorem getSplineBasisType_lt (basis_name : String) :
    getSplineBasisType basis_name < kNumSplineTypes := by
  simp only [getSplineBasisType, basisSearch, gBasisSet, kNumSplineTypes, kLinearSpline]
  split_ifs <;> simp_all

/-- Both front ends dispatch on the same basis type to the same call of the weighted
evaluator, with a positive step and a non-zero divisor, whatever the instance of the
weighted evaluator. -/
theorem spline_evaluate_dispatch (spline_basis : String) (knot_count : Int) :
    ∃ (M : StaticMatrix44) (c : Bool) (basis_step : Int), 0 < basis_step ∧ M.DivisorT ≠ 0 ∧
      ∀ (X_Type KTYPE R_Type : Type) (weighted_evaluate : WeightedEvaluate X_Type KTYPE R_Type),
        (∀ x knots, spline_evaluate_scalar weighted_evaluate spline_basis x knots knot_count
          = weighted_evaluate M c basis_step x knots knot_count) ∧
        (∀ width wR wX wK wout,
          spline_evaluate weighted_evaluate width wR spline_basis wX wK knot_count wout
            = spline_evaluate_lanes width wR wX wK
                (fun x knots => weighted_evaluate M c basis_step x knots knot_count) wout) := by
  have hlt := getSplineBasisType_lt spline_basis
  unfold kNumSplineTypes at hlt
  unfold spline_evaluate_scalar spline_evaluate
  generalize getSplineBasisType spline_basis = t at hlt
  interval_cases t
  · exact ⟨catmullRomWeights, false, 1, by decide, by decide, fun _ _ _ _ =>
      ⟨fun _ _ => rfl, fun _ _ _ _ _ => rfl⟩⟩
  · exact ⟨bezierWeights, false, 3, by decide, by decide, fun _ _ _ _ =>
      ⟨fun _ _ => rfl, fun _ _ _ _ _ => rfl⟩⟩
  · exact ⟨bsplineWeights, false, 1, by decide, by decide, fun _ _ _ _ =>
      ⟨fun _ _ => rfl, fun _ _ _ _ _ => rfl⟩⟩
  · exact ⟨hermiteWeights, false, 2, by decide, by decide, fun _ _ _ _ =>
      ⟨fun _ _ => rfl, fun _ _ _ _ _ => rfl⟩⟩
  · exact ⟨linearWeights, false, 1, by decide, by decide, fun _ _ _ _ =>
      ⟨fun _ _ => rfl, fun _ _ _ _ _ => rfl⟩⟩
  · exact ⟨constantWeights, true, 1, by decide, by decide, fun _ _ _ _ =>
      ⟨fun _ _ => rfl, fun _ _ _ _ _ => rfl⟩⟩

theorem spline_nsegs_le (knot_count basis_step : Int) (hk : 4 ≤ knot_count)
    (hs : 0 < basis_step) : spline_nsegs knot_count basis_step ≤ knot_count - 3 := by
  unfold spline_nsegs
  rw [Int.tdiv_eq_ediv (by omega) (le_of_lt hs)]
  have := Int.ediv_le_self basis_step (show (0 : Int) ≤ knot_count - 4 by omega)
  omega

/-- With at least four knots in a buffer that holds them, the weighted evaluator
returns a value, for the constant basis and for the others. -/
theorem spline_weighted_evaluate_returns (M : StaticMatrix44) (c : Bool) (basis_step : Int)
    (hs : 0 < basis_step) (xval : ℚ) (knots : List ℚ) (knot_count : Int)
    (hk : 4 ≤ knot_count) (hlen : knot_count ≤ knots.length) :
    ∃ r, spline_weighted_evaluate M c basis_step xval knots knot_count = Except.ok r := by
  cases c with
  | false =>
    obtain ⟨P, _, he⟩ := spline_weighted_evaluate_ok M basis_step hs xval knots knot_count hk hlen
    exact ⟨_, he⟩
  | true =>
    have hn := spline_nsegs_pos knot_count basis_step hk hs
    have hn' := spline_nsegs_le knot_count basis_step hk hs
    have h0 := spline_segnum_nonneg xval (spline_nsegs knot_count basis_step) hn
    have h1 := spline_segnum_le xval (spline_nsegs knot_count basis_step)
    obtain ⟨k, hk'⟩ := knotAt_ok knots (spline_segnum xval (spline_nsegs knot_count basis_step) + 1)
      (by omega) (by omega)
    exact ⟨removeDerivatives k, by
      simp [spline_weighted_evaluate, hk', bind, Except.bind, pure, Except.pure]⟩

/-- The destination after the lane loop, lane by lane. -/
theorem lanes_foldlM_spec {X_Type KTYPE R_Type : Type} (wR : RAccessor)
    (wX : XAccessor X_Type) (wK : KAccessor KTYPE)
    (evaluate : X_Type → List KTYPE → Except SplineError R_Type) (ls : List Nat)
    (wout : Wide R_Type)
    (h : ∀ lane ∈ ls, ∃ r, evaluate (wX.get lane) (wK.get lane) = Except.ok r) :
    ∃ out, ls.foldlM (fun out lane => do
      let x := wX.get lane
      let knots := wK.get lane
      let result ← evaluate x knots
      pure (wR.assign out lane result)) wout = Except.ok out ∧
      (∀ i, i ∈ ls → wR.writes i = true →
        evaluate (wX.get i) (wK.get i) = Except.ok (out i)) ∧
      (∀ i, ¬ (i ∈ ls ∧ wR.writes i = true) → out i = wout i) := by
  -- The lane loop over lanes whose evaluations all return: the destination after the
  -- loop holds, at every lane of the loop that the accessor writes, the value of that
  -- lane's evaluation, and is unchanged elsewhere.
  have lanes_foldlM_ok : ∀ {X_Type KTYPE R_Type : Type} (wR : RAccessor)
      (wX : XAccessor X_Type) (wK : KAccessor KTYPE)
      (evaluate : X_Type → List KTYPE → Except SplineError R_Type) (v : Nat → R_Type) (ls : List Nat)
      (h : ∀ lane ∈ ls, evaluate (wX.get lane) (wK.get lane) = Except.ok (v lane))
      (wout : Wide R_Type),
      ls.foldlM (fun out lane => do
        let x := wX.get lane
        let knots := wK.get lane
        let result ← evaluate x knots
        pure (wR.assign out lane result)) wout
        = Except.ok (fun i => if i ∈ ls ∧ wR.writes i = true then v i else wout i) := by
    intro X_Type KTYPE R_Type wR wX wK evaluate v ls h wout
    induction ls generalizing wout with
    | nil => simp [pure, Except.pure]
    | cons l ls ih =>
      have hl := h l (List.mem_cons_self l ls)
      have ih' := ih (fun lane hm => h lane (List.mem_cons_of_mem l hm))
      simp only [List.foldlM_cons, hl, bind, Except.bind, pure, Except.pure]
      have := ih' (wR.assign wout l (v l))
      simp only [bind, Except.bind, pure, Except.pure] at this
      rw [this]
      congr 1
      funext i
      rw [RAccessor.assign_apply]
      by_cases hi : i = l
      · subst hi
        by_cases hw : wR.writes i = true <;> simp [hw]
      · simp [hi]
  have hv : ∀ lane ∈ ls, evaluate (wX.get lane) (wK.get lane)
      = Except.ok (match evaluate (wX.get lane) (wK.get lane) with
          | Except.ok r => r
          | Except.error _ => wout lane) := by
    intro lane hm
    obtain ⟨r, hr⟩ := h lane hm
    rw [hr]
  refine ⟨_, lanes_foldlM_ok wR wX wK evaluate _ ls hv wout, ?_, ?_⟩
  · intro i hm hw
    simp only [hm, hw, and_self, if_true]
    exact hv i hm
  · intro i hn
    simp only [hn, if_false]

/-- Claim C4. For every batched forward call, at every instance of the template:
whenever the call returns, every lane that the destination accessor writes (every lane
of an unmasked call, the lanes with their mask bit set of a masked call) holds the
result of `spline_evaluate_scalar` for the same basis name, the lane's parameter and
the lane's knot sequence; hence two calls whose parameter and knots agree at a lane
agree at that lane of the destination, whatever the other lanes hold. At the `float`
instance, with at least four knots in buffers that hold them, the call does return. -/
theorem spline_evaluate_lane_eq_scalar {X_Type KTYPE R_Type : Type}
    (weighted_evaluate : WeightedEvaluate X_Type KTYPE R_Type) (width : Nat) (wR : RAccessor)
    (spline_basis : String) (wX : XAccessor X_Type) (wK : KAccessor KTYPE) (knot_count : Int)
    (wout : Wide R_Type) :
    (∀ out, spline_evaluate weighted_evaluate width wR spline_basis wX wK knot_count wout
        = Except.ok out →
      ∀ lane, lane < width → wR.writes lane = true →
        spline_evaluate_scalar weighted_evaluate spline_basis (wX.get lane) (wK.get lane)
          knot_count = Except.ok (out lane)) ∧
    (∀ (out : Wide R_Type) (wX2 : XAccessor X_Type) (wK2 : KAccessor KTYPE)
        (wout2 out2 : Wide R_Type) (lane : Nat),
      spline_evaluate weighted_evaluate width wR spline_basis wX wK knot_count wout
        = Except.ok out →
      spline_evaluate weighted_evaluate width wR spline_basis wX2 wK2 knot_count wout2
        = Except.ok out2 →
      lane < width → wR.writes lane = true →
      wX2.get lane = wX.get lane → wK2.get lane = wK.get lane →
      out2 lane = out lane) ∧
    (∀ (wXf : XAccessor ℚ) (wKf : KAccessor ℚ) (woutf : Wide ℚ), 4 ≤ knot_count →
      (∀ lane, lane < width → knot_count ≤ (wKf.get lane).length) →
      ∃ out, spline_evaluate spline_weighted_evaluate width wR spline_basis wXf wKf knot_count
        woutf = Except.ok out) := by
  -- The lane loop returns exactly when every lane's evaluation returns.
  have lanes_foldlM_returns : ∀ {X_Type KTYPE R_Type : Type} (wR : RAccessor)
      (wX : XAccessor X_Type) (wK : KAccessor KTYPE)
      (evaluate : X_Type → List KTYPE → Except SplineError R_Type) (ls : List Nat)
      (wout out : Wide R_Type)
      (h : ls.foldlM (fun out lane => do
        let x := wX.get lane
        let knots := wK.get lane
        let result ← evaluate x knots
        pure (wR.assign out lane result)) wout = Except.ok out),
      ∀ lane ∈ ls, ∃ r, evaluate (wX.get lane) (wK.get lane) = Except.ok r := by
    intro X_Type KTYPE R_Type wR wX wK evaluate ls wout out h
    induction ls generalizing wout with
    | nil => intro lane hm; simp at hm
    | cons l ls ih =>
      simp only [List.foldlM_cons, bind, Except.bind, pure, Except.pure] at h
      cases he : evaluate (wX.get l) (wK.get l) with
      | error e => simp [he] at h
      | ok r =>
        simp only [he] at h
        intro lane hm
        rcases List.mem_cons.mp hm with rfl | hm'
        · exact ⟨r, he⟩
        · exact ih (wR.assign wout l r)
            (by simpa only [bind, Except.bind, pure, Except.pure] using h) lane hm'
  obtain ⟨M, c, basis_step, hs, _, hdisp⟩ := spline_evaluate_dispatch spline_basis knot_count
  obtain ⟨hscalar, hbatch⟩ := hdisp X_Type KTYPE R_Type weighted_evaluate
  have hwritten : ∀ (wX1 : XAccessor X_Type) (wK1 : KAccessor KTYPE) (wout1 out1 : Wide R_Type),
      spline_evaluate weighted_evaluate width wR spline_basis wX1 wK1 knot_count wout1
        = Except.ok out1 →
      ∀ lane, lane < width → wR.writes lane = true →
        spline_evaluate_scalar weighted_evaluate spline_basis (wX1.get lane) (wK1.get lane)
          knot_count = Except.ok (out1 lane) := by
    intro wX1 wK1 wout1 out1 h1 lane hl hw
    rw [hbatch] at h1
    have hret := lanes_foldlM_returns wR wX1 wK1
      (fun x knots => weighted_evaluate M c basis_step x knots knot_count)
      (List.range width) wout1 out1 h1
    obtain ⟨out3, hout3, hact3, _⟩ := lanes_foldlM_spec wR wX1 wK1
      (fun x knots => weighted_evaluate M c basis_step x knots knot_count)
      (List.range width) wout1 hret
    have h13 : out1 = out3 := by
      have h' : (Except.ok out1 : Except SplineError (Wide R_Type)) = Except.ok out3 := by
        rw [← hout3]
        exact h1.symm
      exact Except.ok.inj h'
    rw [hscalar, h13]
    exact hact3 lane (List.mem_range.mpr hl) hw
  refine ⟨hwritten wX wK wout, ?_, ?_⟩
  · intro out wX2 wK2 wout2 out2 lane h1 h2 hl hw hx hkn
    have e1 := hwritten wX wK wout out h1 lane hl hw
    have e2 := hwritten wX2 wK2 wout2 out2 h2 lane hl hw
    rw [hx, hkn, e1] at e2
    exact (Except.ok.inj e2).symm
  · intro wXf wKf woutf hk hlen
    obtain ⟨out, hout, _⟩ := lanes_foldlM_spec wR wXf wKf
      (fun x knots => spline_weighted_evaluate M c basis_step x knots knot_count)
      (List.range width) woutf (fun lane hm =>
        spline_weighted_evaluate_returns M c basis_step hs _ _ knot_count hk
          (hlen lane (List.mem_range.mp hm)))
    exact ⟨out, by rw [(hdisp ℚ ℚ ℚ spline_weighted_evaluate).2]; exact hout⟩

/-- Witness of claim C4: the `float` instance, sixteen lanes, mask `5`, the basis
`linear`, the four knots `1, 2, 4, 8` shared by the lanes, the parameter
`1 / (lane + 1)` in lane `lane`. The call returns and lane `2`, whose mask bit is set,
holds the scalar result. -/
theorem spline_evaluate_lane_eq_scalar_witness :
    ((4 : Int) ≤ 4 ∧ 2 < 16 ∧ (RAccessor.MaskedAccessor ⟨5⟩).writes 2 = true) ∧
    ∃ out, spline_evaluate spline_weighted_evaluate 16 (RAccessor.MaskedAccessor ⟨5⟩) "linear"
        (XAccessor.ConstWideAccessor (fun lane => 1 / ((lane : ℚ) + 1)))
        (KAccessor.ConstUniformUnboundedArrayAccessor [1, 2, 4, 8]) 4 (fun _ => 0)
          = Except.ok out ∧
      spline_evaluate_scalar spline_weighted_evaluate "linear" (1 / (((2 : Nat) : ℚ) + 1))
        [1, 2, 4, 8] 4 = Except.ok (out 2) :=
  ⟨⟨by decide, by decide, by decide⟩,
    ((spline_evaluate_lane_eq_scalar spline_weighted_evaluate 16
      (RAccessor.MaskedAccessor ⟨5⟩) "linear"
      (XAccessor.ConstWideAccessor (fun lane => 1 / ((lane : ℚ) + 1)))
      (KAccessor.ConstUniformUnboundedArrayAccessor [1, 2, 4, 8]) 4 (fun _ => 0)).2.2
      (XAccessor.ConstWideAccessor (fun lane => 1 / ((lane : ℚ) + 1)))
      (KAccessor.ConstUniformUnboundedArrayAccessor [1, 2, 4, 8]) (fun _ => 0)
      (by decide) (fun _ _ => by simp [KAccessor.get])).elim
      (fun out hout => ⟨out, hout,
        (spline_evaluate_lane_eq_scalar spline_weighted_evaluate 16
          (RAccessor.MaskedAccessor ⟨5⟩) "linear"
          (XAccessor.ConstWideAccessor (fun lane => 1 / ((lane : ℚ) + 1)))
          (KAccessor.ConstUniformUnboundedArrayAccessor [1, 2, 4, 8]) 4 (fun _ => 0)).1
          out hout 2 (by decide) (by decide)⟩)⟩

/-- Claim C5. For every call of `spline_evaluate` through a masked destination, at
every instance of the template, and so for every masked forward entry point that is
such a call, and for `osl_spline_w16fff_masked`, which broadcasts through a masked
destination: every lane whose mask bit is clear holds after the call the destination
it held before the call, whatever parameters and knots are supplied. For the entry
points `osl_spline_w16fw16ff_masked`, `osl_spline_w16fw16fw16f_masked` and
`osl_spline_w16fff_masked`, with at least four knots in a buffer that holds them, the
call does return. -/
theorem osl_spline_masked_inactive_lane (width : Nat) (wout_ : Wide ℚ) (spline_ : String)
    (knot_count knot_arraylen : Int) (lane : Nat) :
    (∀ (X_Type KTYPE R_Type : Type) (weighted_evaluate : WeightedEvaluate X_Type KTYPE R_Type)
        (wX : XAccessor X_Type) (wK : KAccessor KTYPE) (wout out : Wide R_Type) (mask : Mask),
      mask.is_on lane = false →
      spline_evaluate weighted_evaluate width (RAccessor.MaskedAccessor mask) spline_ wX wK
        knot_count wout = Except.ok out →
      out lane = wout lane) ∧
    (∀ (wx_ : Wide ℚ) (knots : List ℚ) (mask_value : Nat),
      mask_value.testBit lane = false →
      (∀ out, osl_spline_w16fw16ff_masked width wout_ spline_ wx_ knots knot_count
          knot_arraylen mask_value = Except.ok out → out lane = wout_ lane) ∧
      (4 ≤ knot_count → knot_count ≤ knots.length →
        ∃ out, osl_spline_w16fw16ff_masked width wout_ spline_ wx_ knots knot_count
          knot_arraylen mask_value = Except.ok out)) ∧
    (∀ (wx_ : Wide ℚ) (wknots_ : List (Wide ℚ)) (mask_value : Nat),
      mask_value.testBit lane = false →
      (∀ out, osl_spline_w16fw16fw16f_masked width wout_ spline_ wx_ wknots_ knot_count
          knot_arraylen mask_value = Except.ok out → out lane = wout_ lane) ∧
      (4 ≤ knot_count → knot_count ≤ wknots_.length →
        ∃ out, osl_spline_w16fw16fw16f_masked width wout_ spline_ wx_ wknots_ knot_count
          knot_arraylen mask_value = Except.ok out)) ∧
    (∀ (x : ℚ) (knots : List ℚ) (mask_value : Int),
      (Mask.ofInt mask_value).is_on lane = false →
      (∀ out, osl_spline_w16fff_masked width wout_ spline_ x knots knot_count
          knot_arraylen mask_value = Except.ok out → out lane = wout_ lane) ∧
      (4 ≤ knot_count → knot_count ≤ knots.length →
        ∃ out, osl_spline_w16fff_masked width wout_ spline_ x knots knot_count
          knot_arraylen mask_value = Except.ok out)) := by
  have make_uniform_frame : ∀ {α : Type} (width : Nat) (wR : RAccessor) (wout : Wide α)
      (value : α) (i : Nat) (hi : wR.writes i = false),
      make_uniform width wR wout value i = wout i := by
    intro α width wR wout value i hi
    unfold make_uniform
    generalize List.range width = ls
    induction ls generalizing wout with
    | nil => rfl
    | cons l ls ih =>
      rw [List.foldl_cons, ih, RAccessor.assign_apply]
      by_cases hil : i = l
      · subst hil
        simp [hi]
      · simp [hil]
  -- The lane loop leaves alone every lane that the accessor does not write.
  have lanes_foldlM_frame : ∀ {X_Type KTYPE R_Type : Type} (wR : RAccessor)
      (wX : XAccessor X_Type) (wK : KAccessor KTYPE)
      (evaluate : X_Type → List KTYPE → Except SplineError R_Type) (i : Nat)
      (hi : wR.writes i = false)
      (ls : List Nat) (wout out : Wide R_Type)
      (h : ls.foldlM (fun out lane => do
        let x := wX.get lane
        let knots := wK.get lane
        let result ← evaluate x knots
        pure (wR.assign out lane result)) wout = Except.ok out),
      out i = wout i := by
    intro X_Type KTYPE R_Type wR wX wK evaluate i hi ls wout out h
    induction ls generalizing wout with
    | nil =>
      simp only [List.foldlM_nil, pure, Except.pure, Except.ok.injEq] at h
      rw [← h]
    | cons l ls ih =>
      simp only [List.foldlM_cons, bind, Except.bind, pure, Except.pure] at h
      cases he : evaluate (wX.get l) (wK.get l) with
      | error e => simp [he] at h
      | ok r =>
        simp only [he] at h
        have := ih (wR.assign wout l r) (by simpa only [bind, Except.bind, pure, Except.pure] using h)
        rw [this, RAccessor.assign_apply]
        by_cases hil : i = l
        · subst hil
          simp [hi]
        · simp [hil]
  obtain ⟨M, c, basis_step, hs, _, hdisp⟩ := spline_evaluate_dispatch spline_ knot_count
  obtain ⟨hscalar, hbatch⟩ := hdisp ℚ ℚ ℚ spline_weighted_evaluate
  have hframe : ∀ (X_Type KTYPE R_Type : Type)
      (weighted_evaluate : WeightedEvaluate X_Type KTYPE R_Type)
      (wX : XAccessor X_Type) (wK : KAccessor KTYPE) (wout out : Wide R_Type) (mask : Mask),
      mask.is_on lane = false →
      spline_evaluate weighted_evaluate width (RAccessor.MaskedAccessor mask) spline_ wX wK
        knot_count wout = Except.ok out →
      out lane = wout lane := by
    intro X_Type KTYPE R_Type weighted_evaluate wX wK wout out mask hbit hout
    have hw : (RAccessor.MaskedAccessor mask).writes lane = false := hbit
    rw [(hdisp X_Type KTYPE R_Type weighted_evaluate).2] at hout
    exact lanes_foldlM_frame (RAccessor.MaskedAccessor mask) wX wK
      (fun x knots => weighted_evaluate M c basis_step x knots knot_count)
      lane hw (List.range width) wout out hout
  refine ⟨hframe, ?_, ?_, ?_⟩
  · intro wx_ knots mask_value hbit
    constructor
    · intro out hout
      exact hframe ℚ ℚ ℚ spline_weighted_evaluate _ _ wout_ out ⟨mask_value⟩ hbit hout
    · intro hk hlen
      unfold osl_spline_w16fw16ff_masked
      rw [hbatch]
      obtain ⟨out, hout, _⟩ := lanes_foldlM_spec (RAccessor.MaskedAccessor ⟨mask_value⟩)
        (XAccessor.ConstWideAccessor wx_) (KAccessor.ConstUniformUnboundedArrayAccessor knots)
        (fun x knots => spline_weighted_evaluate M c basis_step x knots knot_count)
        (List.range width) wout_
        (fun l _ => spline_weighted_evaluate_returns M c basis_step hs _ _ knot_count hk hlen)
      exact ⟨out, hout⟩
  · intro wx_ wknots_ mask_value hbit
    constructor
    · intro out hout
      exact hframe ℚ ℚ ℚ spline_weighted_evaluate _ _ wout_ out ⟨mask_value⟩ hbit hout
    · intro hk hlen
      unfold osl_spline_w16fw16fw16f_masked
      rw [hbatch]
      obtain ⟨out, hout, _⟩ := lanes_foldlM_spec (RAccessor.MaskedAccessor ⟨mask_value⟩)
        (XAccessor.ConstWideAccessor wx_) (KAccessor.ConstWideUnboundArrayAccessor wknots_)
        (fun x knots => spline_weighted_evaluate M c basis_step x knots knot_count)
        (List.range width) wout_
        (fun l _ => spline_weighted_evaluate_returns M c basis_step hs _ _ knot_count hk
          (by simpa [KAccessor.get] using hlen))
      exact ⟨out, hout⟩
  · intro x knots mask_value hbit
    have hw : (RAccessor.MaskedAccessor (Mask.ofInt mask_value)).writes lane = false := hbit
    constructor
    · intro out hout
      unfold osl_spline_w16fff_masked at hout
      cases he : spline_evaluate_scalar spline_weighted_evaluate spline_ x knots knot_count with
      | error e => simp [he, bind, Except.bind] at hout
      | ok r =>
        simp only [he, bind, Except.bind, pure, Except.pure, Except.ok.injEq] at hout
        rw [← hout]
        exact make_uniform_frame width _ wout_ r lane hw
    · intro hk hlen
      obtain ⟨r, hr⟩ := spline_weighted_evaluate_returns M c basis_step hs x knots knot_count
        hk hlen
      refine ⟨make_uniform width (RAccessor.MaskedAccessor (Mask.ofInt mask_value)) wout_ r, ?_⟩
      unfold osl_spline_w16fff_masked
      rw [hscalar, hr]
      rfl

/-- Witness of claim C5: sixteen lanes, mask `5` (lanes 0 and 2 active), lane `1`, the
destination `7` in every lane before the call. -/
theorem osl_spline_masked_inactive_lane_witness :
    Nat.testBit 5 1 = false ∧
    ∃ out, osl_spline_w16fw16ff_masked 16 (fun _ => 7) "linear" (fun _ => 1/2) [1, 2, 4, 8]
        4 4 5 = Except.ok out ∧ out 1 = 7 :=
  ⟨by decide,
    (((osl_spline_masked_inactive_lane 16 (fun _ => 7) "linear" 4 4 1).2.1 (fun _ => 1/2)
      [1, 2, 4, 8] 5 (by decide)).2 (by decide) (by simp)).elim
      (fun out hout => ⟨out, hout,
        ((osl_spline_masked_inactive_lane 16 (fun _ => 7) "linear" 4 4 1).2.1 (fun _ => 1/2)
          [1, 2, 4, 8] 5 (by decide)).1 out hout⟩)⟩

/-! ## Fewer than four knots -/

theorem spline_segnum_zero_segments (xval : ℚ) : spline_segnum xval 0 = -1 := by
  simp [spline_segnum, spline_scaled_x, removeDerivatives, float_to_int]

/-- Claim C7, as amended. The forward evaluator has no guard on the knot count. For
every record of the basis table and every buffer of `knot_count < 4` knots: under a
non-constant basis the evaluator reads a knot outside the buffer and yields no result;
under the constant basis it does so for `knot_count <= 2`, and for `knot_count = 3` it
returns `knots[0]`. -/
theorem spline_evaluate_scalar_below_four_knots (b : SplineBasis) (hb : b ∈ gBasisSet) (x : ℚ)
    (knots : List ℚ)
    (hlen : knots.length < 4) :
    (b.basis_name ≠ "constant" →
      spline_evaluate_scalar spline_weighted_evaluate b.basis_name x knots knots.length
        = Except.error SplineError.knotOutOfBounds) ∧
    (b.basis_name = "constant" →
      (∀ k0 k1 k2, knots = [k0, k1, k2] →
        spline_evaluate_scalar spline_weighted_evaluate b.basis_name x knots knots.length = Except.ok k0) ∧
      (knots.length ≤ 2 →
        spline_evaluate_scalar spline_weighted_evaluate b.basis_name x knots knots.length
          = Except.error SplineError.knotOutOfBounds)) := by
  have knotAt_neg : ∀ (knots : List ℚ) (i : Int) (h : i < 0),
      knotAt knots i = Except.error SplineError.knotOutOfBounds := by
    intro knots i h
    unfold knotAt
    rw [if_pos h]
  -- Over a buffer of fewer than four knots the weighted evaluator of a non-constant
  -- basis reads outside the buffer, whatever the knot count it is given.
  have spline_weighted_evaluate_short : ∀ (M : StaticMatrix44) (basis_step : Int) (xval : ℚ)
      (knots : List ℚ) (knot_count : Int) (hlen : knots.length < 4),
      spline_weighted_evaluate M false basis_step xval knots knot_count
        = Except.error SplineError.knotOutOfBounds := by
    intro M basis_step xval knots knot_count hlen
    have knotAt_beyond : ∀ (knots : List ℚ) (i : Int) (h : (knots.length : Int) ≤ i),
        knotAt knots i = Except.error SplineError.knotOutOfBounds := by
      intro knots i h
      unfold knotAt
      rw [if_neg (by omega), List.getElem?_eq_none (by omega)]
    have knotAt_cases : ∀ (knots : List ℚ) (i : Int),
        (∃ k, knotAt knots i = Except.ok k) ∨
          knotAt knots i = Except.error SplineError.knotOutOfBounds := by
      intro knots i
      unfold knotAt
      split_ifs
      · exact Or.inr rfl
      · cases knots[i.toNat]? with
        | none => exact Or.inr rfl
        | some k => exact Or.inl ⟨k, rfl⟩
    unfold spline_weighted_evaluate
    simp only [Bool.false_eq_true, if_false]
    rcases lt_or_le (spline_segnum xval (spline_nsegs knot_count basis_step) * basis_step) 0
      with hneg | hpos
    · rw [knotAt_neg _ _ hneg]
      rfl
    · have h3 := knotAt_beyond knots
        (spline_segnum xval (spline_nsegs knot_count basis_step) * basis_step + 3) (by omega)
      rcases knotAt_cases knots
        (spline_segnum xval (spline_nsegs knot_count basis_step) * basis_step)
        with ⟨p0, e0⟩ | e0 <;>
      rcases knotAt_cases knots
        (spline_segnum xval (spline_nsegs knot_count basis_step) * basis_step + 1)
        with ⟨p1, e1⟩ | e1 <;>
      rcases knotAt_cases knots
        (spline_segnum xval (spline_nsegs knot_count basis_step) * basis_step + 2)
        with ⟨p2, e2⟩ | e2 <;>
      simp [e0, e1, e2, h3, bind, Except.bind]
  simp only [gBasisSet, List.mem_cons, List.mem_singleton, List.not_mem_nil, or_false] at hb
  rcases hb with rfl | rfl | rfl | rfl | rfl | rfl
  · refine ⟨fun _ => ?_, fun h => absurd h (by decide)⟩
    have ht : getSplineBasisType "catmull-rom" = 0 := by decide
    simp only [spline_evaluate_scalar, ht]
    exact spline_weighted_evaluate_short _ _ _ _ _ hlen
  · refine ⟨fun _ => ?_, fun h => absurd h (by decide)⟩
    have ht : getSplineBasisType "bezier" = 1 := by decide
    simp only [spline_evaluate_scalar, ht]
    exact spline_weighted_evaluate_short _ _ _ _ _ hlen
  · refine ⟨fun _ => ?_, fun h => absurd h (by decide)⟩
    have ht : getSplineBasisType "bspline" = 2 := by decide
    simp only [spline_evaluate_scalar, ht]
    exact spline_weighted_evaluate_short _ _ _ _ _ hlen
  · refine ⟨fun _ => ?_, fun h => absurd h (by decide)⟩
    have ht : getSplineBasisType "hermite" = 3 := by decide
    simp only [spline_evaluate_scalar, ht]
    exact spline_weighted_evaluate_short _ _ _ _ _ hlen
  · refine ⟨fun _ => ?_, fun h => absurd h (by decide)⟩
    have ht : getSplineBasisType "linear" = 4 := by decide
    simp only [spline_evaluate_scalar, ht]
    exact spline_weighted_evaluate_short _ _ _ _ _ hlen
  · refine ⟨fun h => absurd rfl h, fun _ => ⟨?_, ?_⟩⟩
    · intro k0 k1 k2 hk
      subst hk
      have ht : getSplineBasisType "constant" = 5 := by decide
      have hn : spline_nsegs (([k0, k1, k2] : List ℚ).length : Int) 1 = 0 := by
        simp only [List.length_cons, List.length_nil]
        decide
      simp only [spline_evaluate_scalar, ht, spline_weighted_evaluate, hn,
        spline_segnum_zero_segments]
      simp [knotAt, removeDerivatives, bind, Except.bind, pure, Except.pure]
    · intro h2
      have ht : getSplineBasisType "constant" = 5 := by decide
      simp only [spline_evaluate_scalar, ht, spline_weighted_evaluate, if_true]
      have hn : spline_nsegs (knots.length : Int) 1 ≤ -1 := by
        unfold spline_nsegs
        rw [Int.tdiv_one]
        omega
      have hs := spline_segnum_le x (spline_nsegs (knots.length : Int) 1)
      rw [knotAt_neg _ _ (by omega)]
      rfl

/-- Witness of claim C7 as amended: the record of the name `bezier`, three knots. -/
theorem spline_evaluate_scalar_below_four_knots_witness :
    (getSplineBasis "bezier" ∈ gBasisSet ∧ ([1, 2, 4] : List ℚ).length < 4) ∧
    spline_evaluate_scalar spline_weighted_evaluate (getSplineBasis "bezier").basis_name (1/2) [1, 2, 4]
        ([1, 2, 4] : List ℚ).length = Except.error SplineError.knotOutOfBounds :=
  ⟨⟨by simp [getSplineBasis, basisSearch, gBasisSet, kNumSplineTypes], by decide⟩,
    (spline_evaluate_scalar_below_four_knots (getSplineBasis "bezier")
      (by simp [getSplineBasis, basisSearch, gBasisSet, kNumSplineTypes]) (1/2) [1, 2, 4]
      (by decide)).1 (by decide)⟩

/-- Counterexample to claim C7 as stated: under the constant basis, with the three
knots `5, 6, 7` and `knot_count = 3`, the evaluator returns the value `5`. -/
theorem spline_evaluate_scalar_three_knots_constant :
    (3 : Int) < 4 ∧ spline_evaluate_scalar spline_weighted_evaluate "constant" (1/2) [5, 6, 7] 3 = Except.ok 5 := by
  have ht : getSplineBasisType "constant" = 5 := by decide
  have hn : spline_nsegs 3 1 = 0 := by decide
  refine ⟨by decide, ?_⟩
  simp only [spline_evaluate_scalar, ht, spline_weighted_evaluate, hn,
    spline_segnum_zero_segments]
  simp [knotAt, removeDerivatives, bind, Except.bind, pure, Except.pure]

/-! ## The batched entry points of the inverse operator -/

theorem lanes_foldlM_wide_first_block (f : Nat → ℚ → ℚ) (k : Wide ℚ) (rest : List (Wide ℚ))
    (ls : List Nat) (wout : Wide ℚ) :
    ls.foldlM (fun out lane => do
      let k ← firstBlockAt (k :: rest) lane
      pure (RAccessor.WideAccessor.assign out lane (f lane k))) wout
      = Except.ok (fun i => if i ∈ ls then f i (k i) else wout i) := by
  induction ls generalizing wout with
  | nil => simp [pure, Except.pure]
  | cons l ls ih =>
    simp only [List.foldlM_cons, firstBlockAt, bind, Except.bind, pure, Except.pure]
    have := ih (RAccessor.WideAccessor.assign wout l (f l (k l)))
    simp only [firstBlockAt, bind, Except.bind, pure, Except.pure] at this
    rw [this]
    congr 1
    funext i
    rw [RAccessor.assign_apply]
    by_cases hi : i = l
    · subst hi
      by_cases hm : i ∈ ls <;> simp [hm, RAccessor.writes]
    · simp [hi]

/-- Claim C6, evaluated: whatever the solver and whatever `mask_value`, each of the
five masked entry points of the inverse operator writes the solver's result to every
lane below the width, the lanes with a clear mask bit included. The claim asks that
those lanes keep the destination they had before the call. -/
theorem osl_splineinverse_masked_writes_every_lane (width : Nat) (lane : Nat)
    (hl : lane < width) (spline_ : String) (knot_count knot_arraylen : Int)
    (mask_value : Nat) :
    (∀ (spline_inverse : SplineBasis → ℚ → List ℚ → Int → Int → ℚ) (wout_ wx_ : Wide ℚ)
        (knots : List ℚ),
      osl_splineinverse_w16fw16ff_masked width spline_inverse wout_ spline_ wx_ knots
          knot_count knot_arraylen mask_value lane
        = spline_inverse (getSplineBasis spline_) (wx_ lane) knots knot_count knot_arraylen) ∧
    (∀ (spline_inverse : SplineBasis → ℚ → List ℚ → Int → Int → ℚ) (wout_ wx_ : Wide ℚ)
        (k : Wide ℚ) (rest : List (Wide ℚ)),
      ∃ out, osl_splineinverse_w16fw16fw16f_masked width spline_inverse wout_ spline_ wx_
          (k :: rest) knot_count knot_arraylen mask_value = Except.ok out ∧
        out lane = spline_inverse (getSplineBasis spline_) (wx_ lane) [k lane] knot_count
          knot_arraylen) ∧
    (∀ (spline_inverse : SplineBasis → ℚ → List ℚ → Int → Int → ℚ) (wout_ : Wide ℚ) (wx_ : ℚ)
        (k : Wide ℚ) (rest : List (Wide ℚ)),
      ∃ out, osl_splineinverse_w16ffw16f_masked width spline_inverse wout_ spline_ wx_
          (k :: rest) knot_count knot_arraylen mask_value = Except.ok out ∧
        out lane = spline_inverse (getSplineBasis spline_) wx_ [k lane] knot_count
          knot_arraylen) ∧
    (∀ (spline_inverse : SplineBasis → Dual2 ℚ → List ℚ → Int → Int → Dual2 ℚ)
        (wout_ wx_ : Wide (Dual2 ℚ)) (knots : List ℚ),
      osl_splineinverse_w16dfw16dff_masked width spline_inverse wout_ spline_ wx_ knots
          knot_count knot_arraylen mask_value lane
        = spline_inverse (getSplineBasis spline_) (wx_ lane) knots knot_count knot_arraylen) ∧
    (∀ (spline_inverse : SplineBasis → Dual2 ℚ → List ℚ → Int → Int → Dual2 ℚ)
        (wout_ wx_ : Wide (Dual2 ℚ)) (knots : List ℚ),
      osl_splineinverse_w16dfw16dfw16df_masked width spline_inverse wout_ spline_ wx_ knots
          knot_count knot_arraylen mask_value lane
        = spline_inverse (getSplineBasis spline_) (wx_ lane) knots knot_count
          knot_arraylen) := by
  have lanes_foldl_wide : ∀ {α : Type} (f : Nat → α) (ls : List Nat) (wout : Wide α),
      ls.foldl (fun out lane => RAccessor.WideAccessor.assign out lane (f lane)) wout
        = fun i => if i ∈ ls then f i else wout i := by
    intro α f ls wout
    induction ls generalizing wout with
    | nil => simp
    | cons l ls ih =>
      rw [List.foldl_cons, ih]
      funext i
      rw [RAccessor.assign_apply]
      by_cases hi : i = l
      · subst hi
        by_cases hm : i ∈ ls <;> simp [hm, RAccessor.writes]
      · simp [hi]
  have hm : lane ∈ List.range width := List.mem_range.mpr hl
  refine ⟨?_, ?_, ?_, ?_, ?_⟩
  · intro spline_inverse wout_ wx_ knots
    unfold osl_splineinverse_w16fw16ff_masked
    have h := lanes_foldl_wide (fun l => spline_inverse (getSplineBasis spline_)
      ((XAccessor.ConstWideAccessor wx_).get l) knots knot_count knot_arraylen)
      (List.range width) wout_
    simp only at h ⊢
    rw [h]
    simp [hm, XAccessor.get]
  · intro spline_inverse wout_ wx_ k rest
    unfold osl_splineinverse_w16fw16fw16f_masked
    have h := lanes_foldlM_wide_first_block (fun l kl => spline_inverse
      (getSplineBasis spline_) ((XAccessor.ConstWideAccessor wx_).get l) [kl] knot_count
      knot_arraylen) k rest (List.range width) wout_
    simp only at h ⊢
    exact ⟨_, h, by simp [hm, XAccessor.get]⟩
  · intro spline_inverse wout_ wx_ k rest
    unfold osl_splineinverse_w16ffw16f_masked
    have h := lanes_foldlM_wide_first_block (fun _ kl => spline_inverse
      (getSplineBasis spline_) wx_ [kl] knot_count knot_arraylen) k rest (List.range width)
      wout_
    simp only at h ⊢
    exact ⟨_, h, by simp [hm]⟩
  · intro spline_inverse wout_ wx_ knots
    unfold osl_splineinverse_w16dfw16dff_masked
    have h := lanes_foldl_wide (fun l => spline_inverse (getSplineBasis spline_)
      ((XAccessor.ConstWideAccessor wx_).get l) knots knot_count knot_arraylen)
      (List.range width) wout_
    simp only at h ⊢
    rw [h]
    simp [hm, XAccessor.get]
  · intro spline_inverse wout_ wx_ knots
    unfold osl_splineinverse_w16dfw16dfw16df_masked
    have h := lanes_foldl_wide (fun l => spline_inverse (getSplineBasis spline_)
      ((XAccessor.ConstWideAccessor wx_).get l) knots knot_count knot_arraylen)
      (List.range width) wout_
    simp only at h ⊢
    rw [h]
    simp [hm, XAccessor.get]

/-- Witness of claim C6, its failing input: sixteen lanes, `mask_value = 0`, the
destination `7` in every lane. Lane `3`, whose mask bit is clear, holds the solver's
result after the call of `osl_splineinverse_w16fw16ff_masked`, for every solver. -/
theorem osl_splineinverse_masked_writes_every_lane_witness :
    (3 < 16 ∧ Nat.testBit 0 3 = false) ∧
    ∀ (spline_inverse : SplineBasis → ℚ → List ℚ → Int → Int → ℚ),
      osl_splineinverse_w16fw16ff_masked 16 spline_inverse (fun _ => 7) "linear"
          (fun _ => 1/2) [0, 0, 1, 1] 4 4 0 3
        = spline_inverse (getSplineBasis "linear") (1/2) [0, 0, 1, 1] 4 4 :=
  ⟨⟨by decide, by decide⟩, fun spline_inverse =>
    (osl_splineinverse_masked_writes_every_lane 16 3 (by decide) "linear" 4 4 0).1
      spline_inverse (fun _ => 7) (fun _ => 1/2) [0, 0, 1, 1]⟩

/-! ## The clamp of the parameter -/

/-- Claim C11. For every basis name, every knot count of at least four in a buffer that
holds that many knots, and every plain parameter `x`, `spline_evaluate_scalar` returns a
result, the result at an `x < 0` is the result at `0`, and the result at an `x > 1` is the
result at `1`. -/
theorem spline_evaluate_scalar_clamp (spline_basis : String) (knots : List ℚ)
    (knot_count : Int) (x : ℚ) (hk : 4 ≤ knot_count) (hlen : knot_count ≤ knots.length) :
    (x < 0 → spline_evaluate_scalar spline_weighted_evaluate spline_basis x knots knot_count
      = spline_evaluate_scalar spline_weighted_evaluate spline_basis 0 knots knot_count) ∧
    (1 < x → spline_evaluate_scalar spline_weighted_evaluate spline_basis x knots knot_count
      = spline_evaluate_scalar spline_weighted_evaluate spline_basis 1 knots knot_count) ∧
    (∃ r, spline_evaluate_scalar spline_weighted_evaluate spline_basis x knots knot_count
      = Except.ok r) := by
  -- The weighted evaluator reads its parameter through the clamp only.
  have spline_weighted_evaluate_congr_clamp : ∀ (M : StaticMatrix44) (c : Bool) (basis_step : Int)
      (x y : ℚ) (knots : List ℚ) (knot_count : Int)
      (h : clamp_in_place x 0 1 = clamp_in_place y 0 1),
      spline_weighted_evaluate M c basis_step x knots knot_count
        = spline_weighted_evaluate M c basis_step y knots knot_count := by
    intro M c basis_step x y knots knot_count h
    have hs : ∀ n, spline_scaled_x x n = spline_scaled_x y n := fun n => by
      unfold spline_scaled_x
      rw [h]
    have hg : ∀ n, spline_segnum x n = spline_segnum y n := fun n => by
      unfold spline_segnum
      rw [hs]
    have hl : ∀ n, spline_local_x x n = spline_local_x y n := fun n => by
      unfold spline_local_x
      rw [hs, hg]
    unfold spline_weighted_evaluate
    simp only [hg, hl]
  have clamp_in_place_gt_one : ∀ (x : ℚ) (h : 1 < x),
      clamp_in_place x 0 1 = clamp_in_place 1 0 1 := by
    intro x h
    rw [clamp_in_place_eq, clamp_in_place_eq, min_eq_right (le_of_lt h)]
    norm_num
  have clamp_in_place_neg : ∀ (x : ℚ) (h : x < 0), clamp_in_place x 0 1 = clamp_in_place 0 0 1 := by
    intro x h
    rw [clamp_in_place_eq, clamp_in_place_eq, min_eq_left (by linarith), max_eq_left (le_of_lt h)]
    norm_num
  obtain ⟨M, c, basis_step, hs, _, hdisp⟩ := spline_evaluate_dispatch spline_basis knot_count
  obtain ⟨hscalar, _⟩ := hdisp ℚ ℚ ℚ spline_weighted_evaluate
  simp only [hscalar]
  exact ⟨fun h => spline_weighted_evaluate_congr_clamp M c basis_step x 0 knots knot_count
      (clamp_in_place_neg x h),
    fun h => spline_weighted_evaluate_congr_clamp M c basis_step x 1 knots knot_count
      (clamp_in_place_gt_one x h),
    spline_weighted_evaluate_returns M c basis_step hs x knots knot_count hk hlen⟩

/-- Witness of claim C11: the bspline basis, five knots `0, 1, 4, 9, 16`, the parameters
`-1` and `2` outside `[0, 1]`. -/
theorem spline_evaluate_scalar_clamp_witness :
    ((4 : Int) ≤ 5 ∧ (5 : Int) ≤ ([0, 1, 4, 9, 16] : List ℚ).length) ∧
    spline_evaluate_scalar spline_weighted_evaluate "bspline" (-1) [0, 1, 4, 9, 16] 5
      = spline_evaluate_scalar spline_weighted_evaluate "bspline" 0 [0, 1, 4, 9, 16] 5 ∧
    spline_evaluate_scalar spline_weighted_evaluate "bspline" 2 [0, 1, 4, 9, 16] 5
      = spline_evaluate_scalar spline_weighted_evaluate "bspline" 1 [0, 1, 4, 9, 16] 5 :=
  ⟨⟨by decide, by simp⟩,
    (spline_evaluate_scalar_clamp "bspline" [0, 1, 4, 9, 16] 5 (-1) (by decide) (by simp)).1
      (by norm_num),
    (spline_evaluate_scalar_clamp "bspline" [0, 1, 4, 9, 16] 5 2 (by decide) (by simp)).2.1
      (by norm_num)⟩

/-! ## The basis table -/

/-- Claim C14. The six names `catmull-rom`, `bezier`, `bspline`, `hermite`, `linear`,
`constant` have the indices `0 .. 5` in that order; the name of each record of the table
resolves, through `getSplineBasis` and `getSplineBasisType`, to that record and its index;
the steps of the six records are `1, 3, 1, 2, 1, 1`; every entry of the matrix of the
record `constant` is zero. -/
theorem getSplineBasis_table :
    (getSplineBasisType "catmull-rom" = 0 ∧ getSplineBasisType "bezier" = 1 ∧
      getSplineBasisType "bspline" = 2 ∧ getSplineBasisType "hermite" = 3 ∧
      getSplineBasisType "linear" = 4 ∧ getSplineBasisType "constant" = 5) ∧
    (∀ i : Fin 6, ∀ dflt : SplineBasis,
      (getSplineBasis (gBasisSet.getD i dflt).basis_name).basis_name
          = (gBasisSet.getD i dflt).basis_name ∧
      (getSplineBasis (gBasisSet.getD i dflt).basis_name).basis_step
          = (gBasisSet.getD i dflt).basis_step ∧
      (getSplineBasis (gBasisSet.getD i dflt).basis_name).basis
          = (gBasisSet.getD i dflt).basis ∧
      getSplineBasisType (gBasisSet.getD i dflt).basis_name = i) ∧
    gBasisSet.map (fun b => b.basis_name)
      = ["catmull-rom", "bezier", "bspline", "hermite", "linear", "constant"] ∧
    gBasisSet.map (fun b => b.basis_step) = [1, 3, 1, 2, 1, 1] ∧
    (∀ i j : Fin 4, (getSplineBasis "constant").basis i j = 0) := by
  refine ⟨by decide, ?_, by decide, by decide, ?_⟩
  · intro i dflt
    fin_cases i <;>
      simp [getSplineBasis, getSplineBasisType, basisSearch, gBasisSet, kNumSplineTypes,
        kLinearSpline]
  · intro i j
    simp [getSplineBasis, basisSearch, gBasisSet, kNumSplineTypes, kLinearSpline,
      Matrix44.ofScalar]

/-! ## The weights of the dispatch and the basis table -/

/-- What the dispatch of the front ends passes to the weighted evaluator for a record of
the basis table: weights that stand for the record's matrix, the record's step, and the
constant flag for the record named `constant` only. -/
theorem spline_evaluate_scalar_of_table (b : SplineBasis) (hb : b ∈ gBasisSet) :
    ∃ (M : StaticMatrix44) (c : Bool), M.DivisorT ≠ 0 ∧ M.toMatrix44 = b.basis ∧
      0 < b.basis_step ∧ (c = true ↔ b.basis_name = "constant") ∧
      ∀ (XTYPE KTYPE RTYPE : Type) (weighted_evaluate : WeightedEvaluate XTYPE KTYPE RTYPE)
        (x : XTYPE) (knots : List KTYPE) (knot_count : Int),
        spline_evaluate_scalar weighted_evaluate b.basis_name x knots knot_count
          = weighted_evaluate M c b.basis_step x knots knot_count := by
  obtain ⟨t0, t1, t2, t3, t4⟩ := toMatrix44_table
  simp only [gBasisSet, List.mem_cons, List.mem_singleton, List.not_mem_nil, or_false] at hb
  rcases hb with rfl | rfl | rfl | rfl | rfl | rfl
  · have ht : getSplineBasisType "catmull-rom" = 0 := by decide
    exact ⟨catmullRomWeights, false, by decide, t0, by decide, by decide,
      fun _ _ _ _ _ _ _ => by simp only [spline_evaluate_scalar, ht]⟩
  · have ht : getSplineBasisType "bezier" = 1 := by decide
    exact ⟨bezierWeights, false, by decide, t1, by decide, by decide,
      fun _ _ _ _ _ _ _ => by simp only [spline_evaluate_scalar, ht]⟩
  · have ht : getSplineBasisType "bspline" = 2 := by decide
    exact ⟨bsplineWeights, false, by decide, t2, by decide, by decide,
      fun _ _ _ _ _ _ _ => by simp only [spline_evaluate_scalar, ht]⟩
  · have ht : getSplineBasisType "hermite" = 3 := by decide
    exact ⟨hermiteWeights, false, by decide, t3, by decide, by decide,
      fun _ _ _ _ _ _ _ => by simp only [spline_evaluate_scalar, ht]⟩
  · have ht : getSplineBasisType "linear" = 4 := by decide
    exact ⟨linearWeights, false, by decide, t4, by decide, by decide,
      fun _ _ _ _ _ _ _ => by simp only [spline_evaluate_scalar, ht]⟩
  · have ht : getSplineBasisType "constant" = 5 := by decide
    refine ⟨constantWeights, true, by decide, ?_, by decide, by decide,
      fun _ _ _ _ _ _ _ => by simp only [spline_evaluate_scalar, ht]⟩
    funext i j
    fin_cases i <;> fin_cases j <;>
      simp [StaticMatrix44.toMatrix44, Matrix44.ofEntries, Matrix44.ofScalar, constantWeights,
        ProxyElement.to_float, StaticMatrix44.m00, StaticMatrix44.m01, StaticMatrix44.m02,
        StaticMatrix44.m03, StaticMatrix44.m10, StaticMatrix44.m11, StaticMatrix44.m12,
        StaticMatrix44.m13, StaticMatrix44.m20, StaticMatrix44.m21, StaticMatrix44.m22,
        StaticMatrix44.m23, StaticMatrix44.m30, StaticMatrix44.m31, StaticMatrix44.m32,
        StaticMatrix44.m33]

/-- Claim C15. For each of the six basis indices `i` there are the weights `M` and the
flag `c` that both `spline_evaluate_scalar` and `spline_evaluate` pass to
`spline_weighted_evaluate` for every name of index `i` (the name of the record
`gBasisSet[i]` is one), together with the step of the record `gBasisSet[i]`; the divisor of
`M` is not zero, the coefficients `numerator / divisor` of `M` are, entry by entry, the
matrix of the record, and the weighted sum that the evaluator computes with `M` is the
general formula `((T0*u + T1)*u + T2)*u + T3` for the matrix of the record. -/
theorem spline_evaluate_weights_eq_table (i : Fin 6) (dflt : SplineBasis) :
    ∃ (M : StaticMatrix44) (c : Bool),
      getSplineBasisType (gBasisSet.getD i dflt).basis_name = i ∧
      M.DivisorT ≠ 0 ∧
      M.numerator_over_divisor = (gBasisSet.getD i dflt).basis ∧
      (∀ (spline_basis : String), getSplineBasisType spline_basis = i →
        ∀ (X K R : Type) (weighted_evaluate : WeightedEvaluate X K R) (knot_count : Int),
          (∀ x knots,
            spline_evaluate_scalar weighted_evaluate spline_basis x knots knot_count
              = weighted_evaluate M c (gBasisSet.getD i dflt).basis_step x knots knot_count) ∧
          (∀ width wR wX wK wout,
            spline_evaluate weighted_evaluate width wR spline_basis wX wK knot_count wout
              = spline_evaluate_lanes width wR wX wK
                  (fun x knots =>
                    weighted_evaluate M c (gBasisSet.getD i dflt).basis_step x knots knot_count)
                  wout)) ∧
      (∀ (P : Fin 4 → ℚ) (u : ℚ),
        spline_weighted_sum M (P 0) (P 1) (P 2) (P 3) u
          = PolynomialEvaluator (gBasisSet.getD i dflt).basis P u) := by
  have constantWeights_toMatrix44 :
      constantWeights.toMatrix44 = Matrix44.ofScalar 0 := by
    funext i j
    fin_cases i <;> fin_cases j <;>
      simp [StaticMatrix44.toMatrix44, Matrix44.ofEntries, Matrix44.ofScalar, constantWeights,
        ProxyElement.to_float, StaticMatrix44.m00, StaticMatrix44.m01, StaticMatrix44.m02,
        StaticMatrix44.m03, StaticMatrix44.m10, StaticMatrix44.m11, StaticMatrix44.m12,
        StaticMatrix44.m13, StaticMatrix44.m20, StaticMatrix44.m21, StaticMatrix44.m22,
        StaticMatrix44.m23, StaticMatrix44.m30, StaticMatrix44.m31, StaticMatrix44.m32,
        StaticMatrix44.m33]
  -- With a divisor other than zero, `to_float()` of each member of a `StaticMatrix44` is
  -- its numerator over the divisor.
  have toMatrix44_eq_numerator_over_divisor : ∀ (M : StaticMatrix44) (hd : M.DivisorT ≠ 0),
      M.toMatrix44 = M.numerator_over_divisor := by
    intro M hd
    unfold StaticMatrix44.toMatrix44 StaticMatrix44.numerator_over_divisor
    rw [to_float_eq _ (by exact hd), to_float_eq _ (by exact hd), to_float_eq _ (by exact hd),
      to_float_eq _ (by exact hd), to_float_eq _ (by exact hd), to_float_eq _ (by exact hd),
      to_float_eq _ (by exact hd), to_float_eq _ (by exact hd), to_float_eq _ (by exact hd),
      to_float_eq _ (by exact hd), to_float_eq _ (by exact hd), to_float_eq _ (by exact hd),
      to_float_eq _ (by exact hd), to_float_eq _ (by exact hd), to_float_eq _ (by exact hd),
      to_float_eq _ (by exact hd)]
    rfl
  obtain ⟨t0, t1, t2, t3, t4⟩ := toMatrix44_table
  have t5 := constantWeights_toMatrix44
  fin_cases i
  · refine ⟨catmullRomWeights, false, (by decide : getSplineBasisType "catmull-rom" = 0),
      by decide, ?_, ?_, ?_⟩
    · rw [← toMatrix44_eq_numerator_over_divisor _ (by decide), t0]; rfl
    · intro name h X K R we kc
      simp only [spline_evaluate_scalar, spline_evaluate, h]
      exact ⟨fun _ _ => rfl, fun _ _ _ _ _ => rfl⟩
    · intro P u
      rw [spline_weighted_sum_eq _ (by decide), t0]; rfl
  · refine ⟨bezierWeights, false, (by decide : getSplineBasisType "bezier" = 1),
      by decide, ?_, ?_, ?_⟩
    · rw [← toMatrix44_eq_numerator_over_divisor _ (by decide), t1]; rfl
    · intro name h X K R we kc
      simp only [spline_evaluate_scalar, spline_evaluate, h]
      exact ⟨fun _ _ => rfl, fun _ _ _ _ _ => rfl⟩
    · intro P u
      rw [spline_weighted_sum_eq _ (by decide), t1]; rfl
  · refine ⟨bsplineWeights, false, (by decide : getSplineBasisType "bspline" = 2),
      by decide, ?_, ?_, ?_⟩
    · rw [← toMatrix44_eq_numerator_over_divisor _ (by decide), t2]; rfl
    · intro name h X K R we kc
      simp only [spline_evaluate_scalar, spline_evaluate, h]
      exact ⟨fun _ _ => rfl, fun _ _ _ _ _ => rfl⟩
    · intro P u
      rw [spline_weighted_sum_eq _ (by decide), t2]; rfl
  · refine ⟨hermiteWeights, false, (by decide : getSplineBasisType "hermite" = 3),
      by decide, ?_, ?_, ?_⟩
    · rw [← toMatrix44_eq_numerator_over_divisor _ (by decide), t3]; rfl
    · intro name h X K R we kc
      simp only [spline_evaluate_scalar, spline_evaluate, h]
      exact ⟨fun _ _ => rfl, fun _ _ _ _ _ => rfl⟩
    · intro P u
      rw [spline_weighted_sum_eq _ (by decide), t3]; rfl
  · refine ⟨linearWeights, false, (by decide : getSplineBasisType "linear" = 4),
      by decide, ?_, ?_, ?_⟩
    · rw [← toMatrix44_eq_numerator_over_divisor _ (by decide), t4]; rfl
    · intro name h X K R we kc
      simp only [spline_evaluate_scalar, spline_evaluate, h]
      exact ⟨fun _ _ => rfl, fun _ _ _ _ _ => rfl⟩
    · intro P u
      rw [spline_weighted_sum_eq _ (by decide), t4]; rfl
  · refine ⟨constantWeights, true, (by decide : getSplineBasisType "constant" = 5),
      by decide, ?_, ?_, ?_⟩
    · rw [← toMatrix44_eq_numerator_over_divisor _ (by decide), t5]; rfl
    · intro name h X K R we kc
      simp only [spline_evaluate_scalar, spline_evaluate, h]
      exact ⟨fun _ _ => rfl, fun _ _ _ _ _ => rfl⟩
    · intro P u
      rw [spline_weighted_sum_eq _ (by decide), t5]; rfl

/-! ## Knots beyond the last full segment -/

theorem knotAt_congr (knots1 knots2 : List ℚ) (i : Int)
    (h : 0 ≤ i → knots1[i.toNat]? = knots2[i.toNat]?) :
    knotAt knots1 i = knotAt knots2 i := by
  unfold knotAt
  split_ifs with hi
  · rfl
  · rw [h (by omega)]

/-- Claim C20. For every record of the basis table, with step `s`, every knot count of at
least four and every parameter `x`: two knot sequences of the same length, which hold
at least `knot_count` knots and agree at the indices `0 .. (nsegs-1)*s + 3`, give the same
result of `spline_evaluate_scalar`, and the evaluator returns a result. -/
theorem spline_evaluate_scalar_ignores_trailing_knots (b : SplineBasis) (hb : b ∈ gBasisSet)
    (knot_count : Int) (hk : 4 ≤ knot_count)
    (knots1 knots2 : List ℚ) (hlen1 : knot_count ≤ knots1.length)
    (hlen : knots1.length = knots2.length)
    (hagree : ∀ i : Nat,
      (i : Int) ≤ (spline_nsegs knot_count b.basis_step - 1) * b.basis_step + 3 →
      knots1[i]? = knots2[i]?) (x : ℚ) :
    spline_evaluate_scalar spline_weighted_evaluate b.basis_name x knots1 knot_count
      = spline_evaluate_scalar spline_weighted_evaluate b.basis_name x knots2 knot_count ∧
    ∃ r, spline_evaluate_scalar spline_weighted_evaluate b.basis_name x knots1 knot_count
      = Except.ok r := by
  -- The weighted evaluator reads no knot beyond index `(nsegs-1)*step + 3`.
  have spline_weighted_evaluate_congr_knots : ∀ (M : StaticMatrix44) (c : Bool) (basis_step : Int)
      (hs : 0 < basis_step) (x : ℚ) (knots1 knots2 : List ℚ) (knot_count : Int)
      (hn : 1 ≤ spline_nsegs knot_count basis_step)
      (h : ∀ i : Nat, (i : Int) ≤ (spline_nsegs knot_count basis_step - 1) * basis_step + 3 →
        knots1[i]? = knots2[i]?),
      spline_weighted_evaluate M c basis_step x knots1 knot_count
        = spline_weighted_evaluate M c basis_step x knots2 knot_count := by
    intro M c basis_step hs x knots1 knots2 knot_count hn h
    have h1 := spline_segnum_le x (spline_nsegs knot_count basis_step)
    have h0 := spline_segnum_nonneg x (spline_nsegs knot_count basis_step) hn
    have h2 : spline_segnum x (spline_nsegs knot_count basis_step) * basis_step
        ≤ (spline_nsegs knot_count basis_step - 1) * basis_step :=
      Int.mul_le_mul_of_nonneg_right h1 (le_of_lt hs)
    have h3 : spline_nsegs knot_count basis_step - 1
        ≤ (spline_nsegs knot_count basis_step - 1) * basis_step := by
      nlinarith
    have hr : ∀ i : Int, i ≤ (spline_nsegs knot_count basis_step - 1) * basis_step + 3 →
        knotAt knots1 i = knotAt knots2 i := fun i hi =>
      knotAt_congr knots1 knots2 i (fun hi0 => h i.toNat (by omega))
    unfold spline_weighted_evaluate
    simp only
    rw [hr _ (show spline_segnum x (spline_nsegs knot_count basis_step) + 1 ≤ _ by omega),
      hr _ (show spline_segnum x (spline_nsegs knot_count basis_step) * basis_step ≤ _ by omega),
      hr _ (show spline_segnum x (spline_nsegs knot_count basis_step) * basis_step + 1 ≤ _
        by omega),
      hr _ (show spline_segnum x (spline_nsegs knot_count basis_step) * basis_step + 2 ≤ _
        by omega),
      hr _ (show spline_segnum x (spline_nsegs knot_count basis_step) * basis_step + 3 ≤ _
        by omega)]
  obtain ⟨M, c, _, _, hs, _, hcall⟩ := spline_evaluate_scalar_of_table b hb
  rw [hcall, hcall]
  exact ⟨spline_weighted_evaluate_congr_knots M c b.basis_step hs x knots1 knots2 knot_count
      (spline_nsegs_pos knot_count b.basis_step hk hs) hagree,
    spline_weighted_evaluate_returns M c b.basis_step hs x knots1 knot_count hk hlen1⟩

/-- Witness of claim C20: the bezier record (step 3) with six knots has one segment, which
ends at index 3; the sequences `0, 1, 2, 3, 4, 5` and `0, 1, 2, 3, 9, 8` differ at the
indices 4 and 5 only and give the same result at the parameter `1/3`. -/
theorem spline_evaluate_scalar_ignores_trailing_knots_witness :
    (getSplineBasis "bezier" ∈ gBasisSet ∧ (4 : Int) ≤ 6 ∧
      (6 : Int) ≤ ([0, 1, 2, 3, 4, 5] : List ℚ).length ∧
      ([0, 1, 2, 3, 4, 5] : List ℚ).length = ([0, 1, 2, 3, 9, 8] : List ℚ).length ∧
      (spline_nsegs 6 (getSplineBasis "bezier").basis_step - 1)
        * (getSplineBasis "bezier").basis_step + 3 = 3) ∧
    spline_evaluate_scalar spline_weighted_evaluate (getSplineBasis "bezier").basis_name (1/3)
        [0, 1, 2, 3, 4, 5] 6
      = spline_evaluate_scalar spline_weighted_evaluate (getSplineBasis "bezier").basis_name
          (1/3) [0, 1, 2, 3, 9, 8] 6 ∧
    ∃ r, spline_evaluate_scalar spline_weighted_evaluate (getSplineBasis "bezier").basis_name
        (1/3) [0, 1, 2, 3, 4, 5] 6 = Except.ok r :=
  ⟨⟨by simp [getSplineBasis, basisSearch, gBasisSet, kNumSplineTypes], by decide, by simp,
      by simp, by decide⟩,
    spline_evaluate_scalar_ignores_trailing_knots (getSplineBasis "bezier")
      (by simp [getSplineBasis, basisSearch, gBasisSet, kNumSplineTypes]) 6 (by decide)
      [0, 1, 2, 3, 4, 5] [0, 1, 2, 3, 9, 8] (by simp) (by simp)
      (fun i hi => by
        have h3 : (spline_nsegs 6 (getSplineBasis "bezier").basis_step - 1)
            * (getSplineBasis "bezier").basis_step + 3 = 3 := by decide
        rw [h3] at hi
        have hi3 : i ≤ 3 := by omega
        interval_cases i <;> rfl)
      (1/3)⟩

/-! ## The template of the weighted evaluator: auxiliary facts -/

/-- The evaluator at `float` parameter, knots and result is the instance of the template
at the `float` operations. -/
theorem spline_weighted_evaluate_eq_template :
    spline_weighted_evaluate
      = spline_weighted_evaluate_template float_ops removeDerivatives spline_weighted_sum := by
  funext M c basis_step xval knots knot_count
  rfl

/-- A projection of parameters, knots and results that commutes with the type-dependent
steps of two instances of the template commutes with the instances. -/
theorem spline_weighted_evaluate_template_map {X K R X2 K2 R2 : Type}
    (ops : XTYPE_ops X) (ops2 : XTYPE_ops X2) (cr : K → R) (cr2 : K2 → R2)
    (ws : StaticMatrix44 → K → K → K → K → X → R)
    (ws2 : StaticMatrix44 → K2 → K2 → K2 → K2 → X2 → R2)
    (pX : X → X2) (pK : K → K2) (pR : R → R2)
    (hclamp : ∀ x, pX (ops.clamp x) = ops2.clamp (pX x))
    (hmul : ∀ x n, pX (ops.mulFloat x n) = ops2.mulFloat (pX x) n)
    (hrd : ∀ x, ops.removeDerivatives x = ops2.removeDerivatives (pX x))
    (hsub : ∀ x s, pX (ops.subFloat x s) = ops2.subFloat (pX x) s)
    (M : StaticMatrix44) (c : Bool) (basis_step : Int)
    (hc : c = true → ∀ P, pR (cr P) = cr2 (pK P))
    (hw : c = false → ∀ P0 P1 P2 P3 x,
      pR (ws M P0 P1 P2 P3 x) = ws2 M (pK P0) (pK P1) (pK P2) (pK P3) (pX x))
    (x : X) (knots : List K) (knot_count : Int) :
    Except.map pR (spline_weighted_evaluate_template ops cr ws M c basis_step x knots knot_count)
      = spline_weighted_evaluate_template ops2 cr2 ws2 M c basis_step (pX x) (knots.map pK)
          knot_count := by
  have knotAt_map : ∀ {α β : Type} (f : α → β) (knots : List α) (i : Int),
      knotAt (knots.map f) i = Except.map f (knotAt knots i) := by
    intro α β f knots i
    unfold knotAt
    split_ifs
    · rfl
    · rw [List.getElem?_map]
      cases knots[i.toNat]? <;> rfl
  unfold spline_weighted_evaluate_template
  simp only [← hclamp, ← hmul, ← hrd, ← hsub, knotAt_map]
  cases c with
  | true =>
    simp only [if_true]
    cases knotAt knots _ with
    | error e => rfl
    | ok P => simp [Except.map, bind, Except.bind, pure, Except.pure, hc rfl]
  | false =>
    simp only [Bool.false_eq_true, if_false]
    cases knotAt knots _ with
    | error e => rfl
    | ok P0 =>
      cases knotAt knots _ with
      | error e => rfl
      | ok P1 =>
        cases knotAt knots _ with
        | error e => rfl
        | ok P2 =>
          cases knotAt knots _ with
          | error e => rfl
          | ok P3 => simp [Except.map, bind, Except.bind, pure, Except.pure, hw rfl]

/-! ## Duals and vectors, component by component -/

@[simp] theorem Vec3.add_x (a b : Vec3) : (a + b).x = a.x + b.x := rfl
@[simp] theorem Vec3.add_y (a b : Vec3) : (a + b).y = a.y + b.y := rfl
@[simp] theorem Vec3.add_z (a b : Vec3) : (a + b).z = a.z + b.z := rfl
@[simp] theorem Vec3.mul_x (a : Vec3) (b : ℚ) : (a * b).x = a.x * b := rfl
@[simp] theorem Vec3.mul_y (a : Vec3) (b : ℚ) : (a * b).y = a.y * b := rfl
@[simp] theorem Vec3.mul_z (a : Vec3) (b : ℚ) : (a * b).z = a.z * b := rfl

theorem Vec3.eq_iff (a b : Vec3) : a = b ↔ a.x = b.x ∧ a.y = b.y ∧ a.z = b.z := by
  cases a; cases b; simp

theorem unproxy_element_zero (d : Int) : unproxy_element (PVal.zero d) = 0 := by
  simp [unproxy_element, ProxyElement.to_float]

theorem PVal_mulDual2_val (t : PVal) (x : Dual2 ℚ) :
    (t.mulDual2 x).val = unproxy_element t * x.val ∧
    (t.mulDual2 x).dx = unproxy_element t * x.dx ∧
    (t.mulDual2 x).dy = unproxy_element t * x.dy := by
  cases t with
  | zero d =>
    simp [PVal.mulDual2, ProxyElement.mulDual2, ProxyElement.mul, unproxy_element_zero]
  | value v => exact ⟨rfl, rfl, rfl⟩

theorem Dual2.addPVal_val (a : Dual2 ℚ) (t : PVal) :
    (a.addPVal t).val = a.val + unproxy_element t ∧ (a.addPVal t).dx = a.dx ∧
    (a.addPVal t).dy = a.dy := by
  cases t with
  | zero d => simp [Dual2.addPVal, PVal.add, unproxy_element, ProxyElement.to_float]
  | value v => exact ⟨rfl, rfl, rfl⟩

theorem unproxy_vec3_make (x y z : PVal) :
    unproxy_vec3 (makeProxyVec3 x y z) = ⟨unproxy_element x, unproxy_element y, unproxy_element z⟩ := by
  cases x <;> cases y <;> cases z <;> rfl

theorem unproxy_element_value (v : ℚ) : unproxy_element (PVal.value v) = v := rfl

theorem unproxy_vec3_add (a b : PVec3) :
    unproxy_vec3 (a.add b) = unproxy_vec3 a + unproxy_vec3 b := by
  cases a with
  | proxy a_x a_y a_z =>
    cases b with
    | proxy b_x b_y b_z =>
      simp only [PVec3.add, unproxy_vec3_make, unproxy_element_add]
      rfl
    | value b =>
      simp only [PVec3.add, unproxy_vec3_make, unproxy_element_add, unproxy_element_value]
      rfl
  | value a =>
    cases b with
    | proxy b_x b_y b_z =>
      simp only [PVec3.add, unproxy_vec3_make, unproxy_element_add, unproxy_element_value]
      rw [Vec3.eq_iff]
      exact ⟨add_comm _ _, add_comm _ _, add_comm _ _⟩
    | value b => rfl

theorem unproxy_vec3_mul (a : PVec3) (b : ℚ) :
    unproxy_vec3 (a.mul b) = unproxy_vec3 a * b := by
  cases a with
  | proxy x y z =>
    simp only [PVec3.mul, unproxy_vec3_make, unproxy_element_mul_float]
    rfl
  | value v => rfl

theorem PVec3_mulDual2_val (t : PVec3) (x : Dual2 ℚ) :
    (t.mulDual2 x).val = unproxy_vec3 t * x.val ∧
    (t.mulDual2 x).dx = unproxy_vec3 t * x.dx ∧
    (t.mulDual2 x).dy = unproxy_vec3 t * x.dy := by
  cases t with
  | proxy a b c => exact ⟨unproxy_vec3_mul _ _, unproxy_vec3_mul _ _, unproxy_vec3_mul _ _⟩
  | value v => exact ⟨rfl, rfl, rfl⟩

theorem Dual2.addPVec3_val (a : Dual2 Vec3) (t : PVec3) :
    (a.addPVec3 t).val = a.val + unproxy_vec3 t ∧ (a.addPVec3 t).dx = a.dx ∧
    (a.addPVec3 t).dy = a.dy := by
  cases t with
  | proxy x y z =>
    refine ⟨?_, rfl, rfl⟩
    show unproxy_vec3 _ = _
    rw [unproxy_vec3_add]
    rw [Vec3.eq_iff]
    exact ⟨add_comm _ _, add_comm _ _, add_comm _ _⟩
  | value v => exact ⟨rfl, rfl, rfl⟩

/-! ## The weighted sums of the instances, projected -/

theorem spline_weighted_sum_dffdf_proj (M : StaticMatrix44) (P0 P1 P2 P3 : Dual2 ℚ) (x : ℚ) :
    (spline_weighted_sum_dffdf M P0 P1 P2 P3 x).val
      = spline_weighted_sum M P0.val P1.val P2.val P3.val x ∧
    (spline_weighted_sum_dffdf M P0 P1 P2 P3 x).dx
      = spline_weighted_sum M P0.dx P1.dx P2.dx P3.dx x ∧
    (spline_weighted_sum_dffdf M P0 P1 P2 P3 x).dy
      = spline_weighted_sum M P0.dy P1.dy P2.dy P3.dy x := by
  simp only [spline_weighted_sum_dffdf, spline_weighted_sum, Dual2.add, Dual2.scale,
    ProxyElement.mulDual2, unproxy_element_add, unproxy_element_mul_float, and_self]

theorem spline_weighted_sum_dvfdv_val (M : StaticMatrix44) (P0 P1 P2 P3 : Dual2 Vec3) (x : ℚ) :
    (spline_weighted_sum_dvfdv M P0 P1 P2 P3 x).val
      = spline_weighted_sum_vfv M P0.val P1.val P2.val P3.val x := by
  simp only [spline_weighted_sum_dvfdv, spline_weighted_sum_vfv, Dual2.add, Dual2.scale,
    ProxyElement.mulDual2Vec3, unproxy_vec3_add, unproxy_vec3_mul]

theorem spline_weighted_sum_dvdfdv_val (M : StaticMatrix44) (P0 P1 P2 P3 : Dual2 Vec3)
    (x : Dual2 ℚ) :
    (spline_weighted_sum_dvdfdv M P0 P1 P2 P3 x).val
      = spline_weighted_sum_vfv M P0.val P1.val P2.val P3.val x.val := by
  simp only [spline_weighted_sum_dvdfdv, spline_weighted_sum_vfv, Dual2.add, Dual2.mulDual,
    ProxyElement.mulDual2Vec3, unproxy_vec3_add, unproxy_vec3_mul]

theorem clamp_in_place_Dual2_val (x : Dual2 ℚ) :
    (clamp_in_place_Dual2 x (Dual2.ofValue 0) (Dual2.ofValue 1)).val
      = clamp_in_place x.val 0 1 := by
  unfold clamp_in_place_Dual2 clamp_in_place
  simp only [Dual2.ofValue]
  split_ifs <;> rfl

theorem spline_weighted_evaluate_dffdf_val (M : StaticMatrix44) (c : Bool) (basis_step : Int)
    (x : ℚ) (knots : List (Dual2 ℚ)) (knot_count : Int) :
    Except.map Dual2.val (spline_weighted_evaluate_dffdf M c basis_step x knots knot_count)
      = spline_weighted_evaluate M c basis_step x (knots.map Dual2.val) knot_count := by
  rw [spline_weighted_evaluate_eq_template]
  exact spline_weighted_evaluate_template_map float_ops float_ops
    (fun P => Dual2.ofValue (removeDerivatives_Dual2 P)) removeDerivatives
    spline_weighted_sum_dffdf spline_weighted_sum id Dual2.val Dual2.val
    (fun _ => rfl) (fun _ _ => rfl) (fun _ => rfl) (fun _ _ => rfl) M c basis_step
    (fun _ _ => rfl)
    (fun _ P0 P1 P2 P3 x => (spline_weighted_sum_dffdf_proj M P0 P1 P2 P3 x).1)
    x knots knot_count

/-- Each component of the instance at vector knots is the plain instance at that
component of the knots. -/
theorem spline_weighted_evaluate_vfv_proj (M : StaticMatrix44) (c : Bool) (basis_step : Int)
    (x : ℚ) (knots : List Vec3) (knot_count : Int) :
    Except.map Vec3.x (spline_weighted_evaluate_vfv M c basis_step x knots knot_count)
      = spline_weighted_evaluate M c basis_step x (knots.map Vec3.x) knot_count ∧
    Except.map Vec3.y (spline_weighted_evaluate_vfv M c basis_step x knots knot_count)
      = spline_weighted_evaluate M c basis_step x (knots.map Vec3.y) knot_count ∧
    Except.map Vec3.z (spline_weighted_evaluate_vfv M c basis_step x knots knot_count)
      = spline_weighted_evaluate M c basis_step x (knots.map Vec3.z) knot_count := by
  have spline_weighted_sum_vfv_proj : ∀ (M : StaticMatrix44) (P0 P1 P2 P3 : Vec3) (x : ℚ),
      (spline_weighted_sum_vfv M P0 P1 P2 P3 x).x = spline_weighted_sum M P0.x P1.x P2.x P3.x x ∧
      (spline_weighted_sum_vfv M P0 P1 P2 P3 x).y = spline_weighted_sum M P0.y P1.y P2.y P3.y x ∧
      (spline_weighted_sum_vfv M P0 P1 P2 P3 x).z
        = spline_weighted_sum M P0.z P1.z P2.z P3.z x := by
    intro M P0 P1 P2 P3 x
    have unproxy_vec3_mulVec3 : ∀ (p : ProxyElement) (v : Vec3),
        unproxy_vec3 (p.mulVec3 v)
          = ⟨unproxy_element (p.mul v.x), unproxy_element (p.mul v.y), unproxy_element (p.mul v.z)⟩ := by
      intro p v
      exact unproxy_vec3_make _ _ _
    simp only [spline_weighted_sum_vfv, spline_weighted_sum, unproxy_vec3_add, unproxy_vec3_mul,
      unproxy_vec3_mulVec3, Vec3.add_x, Vec3.add_y, Vec3.add_z, Vec3.mul_x, Vec3.mul_y,
      Vec3.mul_z, unproxy_element_add, unproxy_element_mul_float, and_self]
  rw [spline_weighted_evaluate_eq_template]
  exact ⟨spline_weighted_evaluate_template_map float_ops float_ops (fun P => P)
      removeDerivatives spline_weighted_sum_vfv spline_weighted_sum id Vec3.x Vec3.x
      (fun _ => rfl) (fun _ _ => rfl) (fun _ => rfl) (fun _ _ => rfl) M c basis_step
      (fun _ _ => rfl)
      (fun _ P0 P1 P2 P3 x => (spline_weighted_sum_vfv_proj M P0 P1 P2 P3 x).1)
      x knots knot_count,
    spline_weighted_evaluate_template_map float_ops float_ops (fun P => P)
      removeDerivatives spline_weighted_sum_vfv spline_weighted_sum id Vec3.y Vec3.y
      (fun _ => rfl) (fun _ _ => rfl) (fun _ => rfl) (fun _ _ => rfl) M c basis_step
      (fun _ _ => rfl)
      (fun _ P0 P1 P2 P3 x => (spline_weighted_sum_vfv_proj M P0 P1 P2 P3 x).2.1)
      x knots knot_count,
    spline_weighted_evaluate_template_map float_ops float_ops (fun P => P)
      removeDerivatives spline_weighted_sum_vfv spline_weighted_sum id Vec3.z Vec3.z
      (fun _ => rfl) (fun _ _ => rfl) (fun _ => rfl) (fun _ _ => rfl) M c basis_step
      (fun _ _ => rfl)
      (fun _ P0 P1 P2 P3 x => (spline_weighted_sum_vfv_proj M P0 P1 P2 P3 x).2.2)
      x knots knot_count⟩

theorem Except_ok_of_map_eq {ε α β : Type} (f : α → β) (e : Except ε α) (e2 : Except ε β)
    (h : Except.map f e = e2) (h2 : ∃ v, e2 = Except.ok v) : ∃ r, e = Except.ok r := by
  have Except_map_eq_ok : ∀ {ε α β : Type} (f : α → β) (e : Except ε α) (v : β)
      (h : Except.map f e = Except.ok v), ∃ r, e = Except.ok r ∧ f r = v := by
    intro ε α β f e v h
    cases e with
    | error err => simp [Except.map] at h
    | ok r => exact ⟨r, rfl, by simpa [Except.map] using h⟩
  obtain ⟨v, hv⟩ := h2
  rw [hv] at h
  obtain ⟨r, hr, _⟩ := Except_map_eq_ok f e v h
  exact ⟨r, hr⟩

theorem spline_weighted_evaluate_vfv_returns (M : StaticMatrix44) (c : Bool) (basis_step : Int)
    (hs : 0 < basis_step) (x : ℚ) (knots : List Vec3) (knot_count : Int)
    (hk : 4 ≤ knot_count) (hlen : knot_count ≤ knots.length) :
    ∃ r, spline_weighted_evaluate_vfv M c basis_step x knots knot_count = Except.ok r :=
  Except_ok_of_map_eq Vec3.x _ _
    (spline_weighted_evaluate_vfv_proj M c basis_step x knots knot_count).1
    (spline_weighted_evaluate_returns M c basis_step hs x _ knot_count hk
      (by simpa using hlen))

/-! ## The constant basis with derivatives -/

/-- Claim C17. For every non-constant record of the basis table, every plain parameter
`x` and every sequence of dual knots, the derivative `dx` of the result of
`spline_evaluate_scalar` is the result of the plain evaluator at `x` and the derivatives
`dx` of the knots, the derivative `dy` is the result of the plain evaluator at `x` and the
derivatives `dy` of the knots; with a knot count of at least four in a buffer that holds
that many knots the evaluator returns. -/
theorem spline_evaluate_scalar_dffdf_derivative (b : SplineBasis) (hb : b ∈ gBasisSet) (hnc : b.basis_name ≠ "constant") (x : ℚ)
    (knots : List (Dual2 ℚ)) (knot_count : Int) :
    Except.map Dual2.dx
        (spline_evaluate_scalar spline_weighted_evaluate_dffdf b.basis_name x knots knot_count)
      = spline_evaluate_scalar spline_weighted_evaluate b.basis_name x (knots.map Dual2.dx)
          knot_count ∧
    Except.map Dual2.dy
        (spline_evaluate_scalar spline_weighted_evaluate_dffdf b.basis_name x knots knot_count)
      = spline_evaluate_scalar spline_weighted_evaluate b.basis_name x (knots.map Dual2.dy)
          knot_count ∧
    (4 ≤ knot_count → knot_count ≤ knots.length → ∃ r,
      spline_evaluate_scalar spline_weighted_evaluate_dffdf b.basis_name x knots knot_count
        = Except.ok r) := by
  obtain ⟨M, c, _, _, hs, hc, hcall⟩ := spline_evaluate_scalar_of_table b hb
  have hcf : c = false := by
    cases c with
    | false => rfl
    | true => exact absurd (hc.mp rfl) hnc
  subst hcf
  rw [hcall, hcall, hcall, spline_weighted_evaluate_eq_template]
  have hdx := spline_weighted_evaluate_template_map float_ops float_ops
    (fun P => Dual2.ofValue (removeDerivatives_Dual2 P)) removeDerivatives
    spline_weighted_sum_dffdf spline_weighted_sum id Dual2.dx Dual2.dx
    (fun _ => rfl) (fun _ _ => rfl) (fun _ => rfl) (fun _ _ => rfl) M false b.basis_step
    (fun h => absurd h (by decide))
    (fun _ P0 P1 P2 P3 x => (spline_weighted_sum_dffdf_proj M P0 P1 P2 P3 x).2.1)
    x knots knot_count
  have hdy := spline_weighted_evaluate_template_map float_ops float_ops
    (fun P => Dual2.ofValue (removeDerivatives_Dual2 P)) removeDerivatives
    spline_weighted_sum_dffdf spline_weighted_sum id Dual2.dy Dual2.dy
    (fun _ => rfl) (fun _ _ => rfl) (fun _ => rfl) (fun _ _ => rfl) M false b.basis_step
    (fun h => absurd h (by decide))
    (fun _ P0 P1 P2 P3 x => (spline_weighted_sum_dffdf_proj M P0 P1 P2 P3 x).2.2)
    x knots knot_count
  refine ⟨hdx, hdy, fun hk hlen => ?_⟩
  have hv := spline_weighted_evaluate_dffdf_val M false b.basis_step x knots knot_count
  exact Except_ok_of_map_eq _ _ _ hv
    (spline_weighted_evaluate_returns M false b.basis_step hs _ _ knot_count hk
      (by simpa using hlen))

/-- Witness of claim C17: the catmull-rom record, the parameter `1/2` and four dual
knots. -/
theorem spline_evaluate_scalar_dffdf_derivative_witness :
    (getSplineBasis "catmull-rom" ∈ gBasisSet
      ∧ (getSplineBasis "catmull-rom").basis_name ≠ "constant") ∧
    Except.map Dual2.dx
        (spline_evaluate_scalar spline_weighted_evaluate_dffdf
          (getSplineBasis "catmull-rom").basis_name (1/2)
          [⟨1, 1, 1⟩, ⟨2, 3, 4⟩, ⟨5, 6, 7⟩, ⟨8, 9, 10⟩] 4)
      = spline_evaluate_scalar spline_weighted_evaluate
          (getSplineBasis "catmull-rom").basis_name (1/2)
          (([⟨1, 1, 1⟩, ⟨2, 3, 4⟩, ⟨5, 6, 7⟩, ⟨8, 9, 10⟩] : List (Dual2 ℚ)).map Dual2.dx) 4 :=
  ⟨⟨by simp [getSplineBasis, basisSearch, gBasisSet, kNumSplineTypes], by decide⟩,
    (spline_evaluate_scalar_dffdf_derivative (getSplineBasis "catmull-rom")
      (by simp [getSplineBasis, basisSearch, gBasisSet, kNumSplineTypes]) (by decide) (1/2)
      [⟨1, 1, 1⟩, ⟨2, 3, 4⟩, ⟨5, 6, 7⟩, ⟨8, 9, 10⟩] 4).1⟩

/-! ## Derivatives of the parameter -/

/-- The derivative components of the Horner form at a dual parameter and `float` knots. -/
theorem spline_weighted_sum_dfdff_deriv (M : StaticMatrix44) (hd : M.DivisorT ≠ 0)
    (P : Fin 4 → ℚ) (x : Dual2 ℚ) :
    (spline_weighted_sum_dfdff M (P 0) (P 1) (P 2) (P 3) x).dx
      = (3 * PolynomialEvaluator_T M.toMatrix44 P 0 * x.val ^ 2
          + 2 * PolynomialEvaluator_T M.toMatrix44 P 1 * x.val
          + PolynomialEvaluator_T M.toMatrix44 P 2) * x.dx ∧
    (spline_weighted_sum_dfdff M (P 0) (P 1) (P 2) (P 3) x).dy
      = (3 * PolynomialEvaluator_T M.toMatrix44 P 0 * x.val ^ 2
          + 2 * PolynomialEvaluator_T M.toMatrix44 P 1 * x.val
          + PolynomialEvaluator_T M.toMatrix44 P 2) * x.dy := by
  have e0 : unproxy_element ((((M.m00.mul (P 0)).add (M.m01.mul (P 1))).add
      (M.m02.mul (P 2))).add (M.m03.mul (P 3))) = PolynomialEvaluator_T M.toMatrix44 P 0 := by
    simp only [unproxy_element_add]
    rw [unproxy_element_mul _ (by exact hd), unproxy_element_mul _ (by exact hd),
      unproxy_element_mul _ (by exact hd), unproxy_element_mul _ (by exact hd)]
    rfl
  have e1 : unproxy_element ((((M.m10.mul (P 0)).add (M.m11.mul (P 1))).add
      (M.m12.mul (P 2))).add (M.m13.mul (P 3))) = PolynomialEvaluator_T M.toMatrix44 P 1 := by
    simp only [unproxy_element_add]
    rw [unproxy_element_mul _ (by exact hd), unproxy_element_mul _ (by exact hd),
      unproxy_element_mul _ (by exact hd), unproxy_element_mul _ (by exact hd)]
    rfl
  have e2 : unproxy_element ((((M.m20.mul (P 0)).add (M.m21.mul (P 1))).add
      (M.m22.mul (P 2))).add (M.m23.mul (P 3))) = PolynomialEvaluator_T M.toMatrix44 P 2 := by
    simp only [unproxy_element_add]
    rw [unproxy_element_mul _ (by exact hd), unproxy_element_mul _ (by exact hd),
      unproxy_element_mul _ (by exact hd), unproxy_element_mul _ (by exact hd)]
    rfl
  simp only [spline_weighted_sum_dfdff, Dual2.addPVal_val, Dual2.mulDual, PVal_mulDual2_val,
    e0, e1, e2]
  constructor <;> ring

/-! ## Values of duals and components of vectors -/

/-- Claim C18. For every basis name, every knot count, every parameter and every knot
sequence, the value of the result of each of the six instances of
`spline_evaluate_scalar` whose parameter or knots carry derivatives is the result of the
plain instance (`float`, or `Vec3` for vector knots) at the value of the parameter and the
values of the knots; with a knot count of at least four in a buffer that holds that many
knots each of the instances returns a result. -/
theorem spline_evaluate_scalar_dual_value (spline_basis : String) (knot_count : Int) :
    (∀ (x : Dual2 ℚ) (knots : List ℚ),
      Except.map Dual2.val
          (spline_evaluate_scalar spline_weighted_evaluate_dfdff spline_basis x knots knot_count)
        = spline_evaluate_scalar spline_weighted_evaluate spline_basis x.val knots knot_count ∧
      (4 ≤ knot_count → knot_count ≤ knots.length → ∃ r,
        spline_evaluate_scalar spline_weighted_evaluate_dfdff spline_basis x knots knot_count
          = Except.ok r)) ∧
    (∀ (x : ℚ) (knots : List (Dual2 ℚ)),
      Except.map Dual2.val
          (spline_evaluate_scalar spline_weighted_evaluate_dffdf spline_basis x knots knot_count)
        = spline_evaluate_scalar spline_weighted_evaluate spline_basis x
            (knots.map Dual2.val) knot_count ∧
      (4 ≤ knot_count → knot_count ≤ knots.length → ∃ r,
        spline_evaluate_scalar spline_weighted_evaluate_dffdf spline_basis x knots knot_count
          = Except.ok r)) ∧
    (∀ (x : Dual2 ℚ) (knots : List (Dual2 ℚ)),
      Except.map Dual2.val
          (spline_evaluate_scalar spline_weighted_evaluate_dfdfdf spline_basis x knots
            knot_count)
        = spline_evaluate_scalar spline_weighted_evaluate spline_basis x.val
            (knots.map Dual2.val) knot_count ∧
      (4 ≤ knot_count → knot_count ≤ knots.length → ∃ r,
        spline_evaluate_scalar spline_weighted_evaluate_dfdfdf spline_basis x knots knot_count
          = Except.ok r)) ∧
    (∀ (x : Dual2 ℚ) (knots : List Vec3),
      Except.map Dual2.val
          (spline_evaluate_scalar spline_weighted_evaluate_dvdfv spline_basis x knots knot_count)
        = spline_evaluate_scalar spline_weighted_evaluate_vfv spline_basis x.val knots
            knot_count ∧
      (4 ≤ knot_count → knot_count ≤ knots.length → ∃ r,
        spline_evaluate_scalar spline_weighted_evaluate_dvdfv spline_basis x knots knot_count
          = Except.ok r)) ∧
    (∀ (x : ℚ) (knots : List (Dual2 Vec3)),
      Except.map Dual2.val
          (spline_evaluate_scalar spline_weighted_evaluate_dvfdv spline_basis x knots knot_count)
        = spline_evaluate_scalar spline_weighted_evaluate_vfv spline_basis x
            (knots.map Dual2.val) knot_count ∧
      (4 ≤ knot_count → knot_count ≤ knots.length → ∃ r,
        spline_evaluate_scalar spline_weighted_evaluate_dvfdv spline_basis x knots knot_count
          = Except.ok r)) ∧
    (∀ (x : Dual2 ℚ) (knots : List (Dual2 Vec3)),
      Except.map Dual2.val
          (spline_evaluate_scalar spline_weighted_evaluate_dvdfdv spline_basis x knots
            knot_count)
        = spline_evaluate_scalar spline_weighted_evaluate_vfv spline_basis x.val
            (knots.map Dual2.val) knot_count ∧
      (4 ≤ knot_count → knot_count ≤ knots.length → ∃ r,
        spline_evaluate_scalar spline_weighted_evaluate_dvdfdv spline_basis x knots knot_count
          = Except.ok r)) := by
  have spline_weighted_evaluate_dvdfdv_val : ∀ (M : StaticMatrix44) (c : Bool) (basis_step : Int)
      (x : Dual2 ℚ) (knots : List (Dual2 Vec3)) (knot_count : Int),
      Except.map Dual2.val (spline_weighted_evaluate_dvdfdv M c basis_step x knots knot_count)
        = spline_weighted_evaluate_vfv M c basis_step x.val (knots.map Dual2.val) knot_count := by
    intro M c basis_step x knots knot_count
    exact spline_weighted_evaluate_template_map Dual2_ops float_ops
        (fun P => Dual2.ofValue (removeDerivatives_Dual2 P)) (fun P => P)
        spline_weighted_sum_dvdfdv spline_weighted_sum_vfv Dual2.val Dual2.val Dual2.val
        clamp_in_place_Dual2_val (fun _ _ => rfl) (fun _ => rfl) (fun _ _ => rfl) M c basis_step
        (fun _ _ => rfl)
        (fun _ P0 P1 P2 P3 x => spline_weighted_sum_dvdfdv_val M P0 P1 P2 P3 x)
        x knots knot_count
  have spline_weighted_evaluate_dvfdv_val : ∀ (M : StaticMatrix44) (c : Bool) (basis_step : Int)
      (x : ℚ) (knots : List (Dual2 Vec3)) (knot_count : Int),
      Except.map Dual2.val (spline_weighted_evaluate_dvfdv M c basis_step x knots knot_count)
        = spline_weighted_evaluate_vfv M c basis_step x (knots.map Dual2.val) knot_count := by
    intro M c basis_step x knots knot_count
    exact spline_weighted_evaluate_template_map float_ops float_ops
        (fun P => Dual2.ofValue (removeDerivatives_Dual2 P)) (fun P => P)
        spline_weighted_sum_dvfdv spline_weighted_sum_vfv id Dual2.val Dual2.val
        (fun _ => rfl) (fun _ _ => rfl) (fun _ => rfl) (fun _ _ => rfl) M c basis_step
        (fun _ _ => rfl)
        (fun _ P0 P1 P2 P3 x => spline_weighted_sum_dvfdv_val M P0 P1 P2 P3 x)
        x knots knot_count
  have spline_weighted_evaluate_dvdfv_val : ∀ (M : StaticMatrix44) (c : Bool) (basis_step : Int)
      (x : Dual2 ℚ) (knots : List Vec3) (knot_count : Int),
      Except.map Dual2.val (spline_weighted_evaluate_dvdfv M c basis_step x knots knot_count)
        = spline_weighted_evaluate_vfv M c basis_step x.val knots knot_count := by
    intro M c basis_step x knots knot_count
    have spline_weighted_sum_dvdfv_val : ∀ (M : StaticMatrix44) (P0 P1 P2 P3 : Vec3) (x : Dual2 ℚ),
        (spline_weighted_sum_dvdfv M P0 P1 P2 P3 x).val
          = spline_weighted_sum_vfv M P0 P1 P2 P3 x.val := by
      intro M P0 P1 P2 P3 x
      simp only [spline_weighted_sum_dvdfv, spline_weighted_sum_vfv, Dual2.addPVec3_val,
        PVec3_mulDual2_val, Dual2.mulDual, unproxy_vec3_add, unproxy_vec3_mul]
    have h := spline_weighted_evaluate_template_map Dual2_ops float_ops
      (fun P => Dual2.ofValue P) (fun P => P)
      spline_weighted_sum_dvdfv spline_weighted_sum_vfv Dual2.val id Dual2.val
      clamp_in_place_Dual2_val (fun _ _ => rfl) (fun _ => rfl) (fun _ _ => rfl) M c basis_step
      (fun _ _ => rfl) (fun _ P0 P1 P2 P3 x => spline_weighted_sum_dvdfv_val M P0 P1 P2 P3 x)
      x knots knot_count
    rw [List.map_id] at h
    exact h
  have spline_weighted_evaluate_dfdfdf_val : ∀ (M : StaticMatrix44) (c : Bool) (basis_step : Int)
      (x : Dual2 ℚ) (knots : List (Dual2 ℚ)) (knot_count : Int),
      Except.map Dual2.val (spline_weighted_evaluate_dfdfdf M c basis_step x knots knot_count)
        = spline_weighted_evaluate M c basis_step x.val (knots.map Dual2.val) knot_count := by
    intro M c basis_step x knots knot_count
    have spline_weighted_sum_dfdfdf_val : ∀ (M : StaticMatrix44) (P0 P1 P2 P3 : Dual2 ℚ)
        (x : Dual2 ℚ),
        (spline_weighted_sum_dfdfdf M P0 P1 P2 P3 x).val
          = spline_weighted_sum M P0.val P1.val P2.val P3.val x.val := by
      intro M P0 P1 P2 P3 x
      simp only [spline_weighted_sum_dfdfdf, spline_weighted_sum, Dual2.add, Dual2.mulDual,
        ProxyElement.mulDual2, unproxy_element_add, unproxy_element_mul_float]
    rw [spline_weighted_evaluate_eq_template]
    exact spline_weighted_evaluate_template_map Dual2_ops float_ops
      (fun P => Dual2.ofValue (removeDerivatives_Dual2 P)) removeDerivatives
      spline_weighted_sum_dfdfdf spline_weighted_sum Dual2.val Dual2.val Dual2.val
      clamp_in_place_Dual2_val (fun _ _ => rfl) (fun _ => rfl) (fun _ _ => rfl) M c basis_step
      (fun _ _ => rfl)
      (fun _ P0 P1 P2 P3 x => spline_weighted_sum_dfdfdf_val M P0 P1 P2 P3 x)
      x knots knot_count
  -- The value of the instance at a dual parameter and plain knots is the plain
  -- instance at the value of the parameter.
  have spline_weighted_evaluate_dfdff_val : ∀ (M : StaticMatrix44) (c : Bool) (basis_step : Int)
      (x : Dual2 ℚ) (knots : List ℚ) (knot_count : Int),
      Except.map Dual2.val (spline_weighted_evaluate_dfdff M c basis_step x knots knot_count)
        = spline_weighted_evaluate M c basis_step x.val knots knot_count := by
    intro M c basis_step x knots knot_count
    have spline_weighted_sum_dfdff_val : ∀ (M : StaticMatrix44) (P0 P1 P2 P3 : ℚ) (x : Dual2 ℚ),
        (spline_weighted_sum_dfdff M P0 P1 P2 P3 x).val
          = spline_weighted_sum M P0 P1 P2 P3 x.val := by
      intro M P0 P1 P2 P3 x
      simp only [spline_weighted_sum_dfdff, spline_weighted_sum, Dual2.addPVal_val,
        PVal_mulDual2_val, Dual2.mulDual, unproxy_element_add, unproxy_element_mul_float]
    have h := spline_weighted_evaluate_template_map Dual2_ops float_ops
      (fun P => Dual2.ofValue (removeDerivatives P)) removeDerivatives
      spline_weighted_sum_dfdff spline_weighted_sum Dual2.val id Dual2.val
      clamp_in_place_Dual2_val (fun _ _ => rfl) (fun _ => rfl) (fun _ _ => rfl) M c basis_step
      (fun _ _ => rfl) (fun _ P0 P1 P2 P3 x => spline_weighted_sum_dfdff_val M P0 P1 P2 P3 x)
      x knots knot_count
    rw [List.map_id] at h
    rw [spline_weighted_evaluate_eq_template]
    exact h
  obtain ⟨M, c, basis_step, hs, _, hdisp⟩ := spline_evaluate_dispatch spline_basis knot_count
  have e1 := (hdisp ℚ ℚ ℚ spline_weighted_evaluate).1
  have e2 := (hdisp (Dual2 ℚ) ℚ (Dual2 ℚ) spline_weighted_evaluate_dfdff).1
  have e3 := (hdisp ℚ (Dual2 ℚ) (Dual2 ℚ) spline_weighted_evaluate_dffdf).1
  have e4 := (hdisp (Dual2 ℚ) (Dual2 ℚ) (Dual2 ℚ) spline_weighted_evaluate_dfdfdf).1
  have e5 := (hdisp ℚ Vec3 Vec3 spline_weighted_evaluate_vfv).1
  have e6 := (hdisp (Dual2 ℚ) Vec3 (Dual2 Vec3) spline_weighted_evaluate_dvdfv).1
  have e7 := (hdisp ℚ (Dual2 Vec3) (Dual2 Vec3) spline_weighted_evaluate_dvfdv).1
  have e8 := (hdisp (Dual2 ℚ) (Dual2 Vec3) (Dual2 Vec3) spline_weighted_evaluate_dvdfdv).1
  simp only [e1, e2, e3, e4, e5, e6, e7, e8]
  refine ⟨fun x knots => ?_, fun x knots => ?_, fun x knots => ?_, fun x knots => ?_,
    fun x knots => ?_, fun x knots => ?_⟩
  · have h := spline_weighted_evaluate_dfdff_val M c basis_step x knots knot_count
    exact ⟨h, fun hk hlen => Except_ok_of_map_eq _ _ _ h
      (spline_weighted_evaluate_returns M c basis_step hs _ _ knot_count hk hlen)⟩
  · have h := spline_weighted_evaluate_dffdf_val M c basis_step x knots knot_count
    exact ⟨h, fun hk hlen => Except_ok_of_map_eq _ _ _ h
      (spline_weighted_evaluate_returns M c basis_step hs _ _ knot_count hk
        (by simpa using hlen))⟩
  · have h := spline_weighted_evaluate_dfdfdf_val M c basis_step x knots knot_count
    exact ⟨h, fun hk hlen => Except_ok_of_map_eq _ _ _ h
      (spline_weighted_evaluate_returns M c basis_step hs _ _ knot_count hk
        (by simpa using hlen))⟩
  · have h := spline_weighted_evaluate_dvdfv_val M c basis_step x knots knot_count
    exact ⟨h, fun hk hlen => Except_ok_of_map_eq _ _ _ h
      (spline_weighted_evaluate_vfv_returns M c basis_step hs _ _ knot_count hk hlen)⟩
  · have h := spline_weighted_evaluate_dvfdv_val M c basis_step x knots knot_count
    exact ⟨h, fun hk hlen => Except_ok_of_map_eq _ _ _ h
      (spline_weighted_evaluate_vfv_returns M c basis_step hs _ _ knot_count hk
        (by simpa using hlen))⟩
  · have h := spline_weighted_evaluate_dvdfdv_val M c basis_step x knots knot_count
    exact ⟨h, fun hk hlen => Except_ok_of_map_eq _ _ _ h
      (spline_weighted_evaluate_vfv_returns M c basis_step hs _ _ knot_count hk
        (by simpa using hlen))⟩

/-- Claim C19. For every basis name, every knot count, every parameter `x` and every
sequence of `Vec3` knots, each of the components `x`, `y`, `z` of the result of
`spline_evaluate_scalar` at vector knots is the result of the `float` evaluator at the
sequence of that component of the knots; with a knot count of at least four in a buffer
that holds that many knots the evaluator returns a result. -/
theorem spline_evaluate_scalar_vfv_component (spline_basis : String) (knot_count : Int) (x : ℚ) (knots : List Vec3) :
    Except.map Vec3.x
        (spline_evaluate_scalar spline_weighted_evaluate_vfv spline_basis x knots knot_count)
      = spline_evaluate_scalar spline_weighted_evaluate spline_basis x (knots.map Vec3.x)
          knot_count ∧
    Except.map Vec3.y
        (spline_evaluate_scalar spline_weighted_evaluate_vfv spline_basis x knots knot_count)
      = spline_evaluate_scalar spline_weighted_evaluate spline_basis x (knots.map Vec3.y)
          knot_count ∧
    Except.map Vec3.z
        (spline_evaluate_scalar spline_weighted_evaluate_vfv spline_basis x knots knot_count)
      = spline_evaluate_scalar spline_weighted_evaluate spline_basis x (knots.map Vec3.z)
          knot_count ∧
    (4 ≤ knot_count → knot_count ≤ knots.length → ∃ r,
      spline_evaluate_scalar spline_weighted_evaluate_vfv spline_basis x knots knot_count
        = Except.ok r) := by
  obtain ⟨M, c, basis_step, hs, _, hdisp⟩ := spline_evaluate_dispatch spline_basis knot_count
  have e1 := (hdisp ℚ ℚ ℚ spline_weighted_evaluate).1
  have e5 := (hdisp ℚ Vec3 Vec3 spline_weighted_evaluate_vfv).1
  simp only [e1, e5]
  obtain ⟨hx, hy, hz⟩ := spline_weighted_evaluate_vfv_proj M c basis_step x knots knot_count
  exact ⟨hx, hy, hz, fun hk hlen =>
    spline_weighted_evaluate_vfv_returns M c basis_step hs x knots knot_count hk hlen⟩

/-! ## The dispatch on the basis type -/

/-- Claim C22. For every basis name `getSplineBasisType` returns an index below
`kNumSplineTypes = 6`, so both dispatches take one of their six cases: there are weights,
a flag and a step with which `spline_evaluate_scalar` is the call of
`spline_weighted_evaluate` and `spline_evaluate` is the lane loop over that call, and a
dispatch over an evaluator that returns a result returns a result, never the failure of
the default branch. -/
theorem getSplineBasisType_dispatch_total (spline_basis : String) :
    getSplineBasisType spline_basis < kNumSplineTypes ∧
    getSplineBasisType spline_basis ≤ 5 ∧
    (∀ (knot_count : Int), ∃ (M : StaticMatrix44) (c : Bool) (basis_step : Int),
      ∀ (X K R : Type) (weighted_evaluate : WeightedEvaluate X K R),
        (∀ x knots, spline_evaluate_scalar weighted_evaluate spline_basis x knots knot_count
          = weighted_evaluate M c basis_step x knots knot_count) ∧
        (∀ width wR wX wK wout,
          spline_evaluate weighted_evaluate width wR spline_basis wX wK knot_count wout
            = spline_evaluate_lanes width wR wX wK
                (fun x knots => weighted_evaluate M c basis_step x knots knot_count) wout)) ∧
    (∀ (X K R : Type) (weighted_evaluate : WeightedEvaluate X K R) (x : X) (knots : List K)
        (knot_count : Int),
      (∀ M c basis_step, ∃ r, weighted_evaluate M c basis_step x knots knot_count = Except.ok r) →
      (∃ r, spline_evaluate_scalar weighted_evaluate spline_basis x knots knot_count
        = Except.ok r) ∧
      spline_evaluate_scalar weighted_evaluate spline_basis x knots knot_count
        ≠ Except.error SplineError.unsupportedBasis) := by
  have hlt := getSplineBasisType_lt spline_basis
  refine ⟨hlt, ?_, ?_, ?_⟩
  · unfold kNumSplineTypes at hlt
    omega
  · intro knot_count
    obtain ⟨M, c, basis_step, _, _, hdisp⟩ := spline_evaluate_dispatch spline_basis knot_count
    exact ⟨M, c, basis_step, hdisp⟩
  · intro X K R we x knots knot_count hwe
    obtain ⟨M, c, basis_step, _, _, hdisp⟩ := spline_evaluate_dispatch spline_basis knot_count
    obtain ⟨r, hr⟩ := hwe M c basis_step
    have he := (hdisp X K R we).1 x knots
    rw [he, hr]
    exact ⟨⟨r, rfl⟩, fun h => by cases h⟩

/-! ## Knot reads in bounds -/

/-- Claim C27. For a basis step of 1, 2 or 3, a knot count of at least four and every
parameter `x`: with `s = segnum*step` the evaluator's reads `knots[s] .. knots[s+3]` have
`0 <= s` and `s + 3 <= knot_count - 1`, the read `knots[segnum+1]` of the constant branch
has `1 <= segnum + 1 <= knot_count - 1`, and over a buffer that holds `knot_count` knots the
evaluator returns in either branch. -/
theorem spline_knot_reads_in_bounds (basis_step : Int)
    (hstep : basis_step = 1 ∨ basis_step = 2 ∨ basis_step = 3) (knot_count : Int)
    (hk : 4 ≤ knot_count) (x : ℚ) :
    0 ≤ spline_segnum x (spline_nsegs knot_count basis_step) * basis_step ∧
    spline_segnum x (spline_nsegs knot_count basis_step) * basis_step + 3 ≤ knot_count - 1 ∧
    1 ≤ spline_segnum x (spline_nsegs knot_count basis_step) + 1 ∧
    spline_segnum x (spline_nsegs knot_count basis_step) + 1 ≤ knot_count - 1 ∧
    (∀ (M : StaticMatrix44) (c : Bool) (knots : List ℚ), knot_count ≤ knots.length →
      ∃ r, spline_weighted_evaluate M c basis_step x knots knot_count = Except.ok r) := by
  have hs : 0 < basis_step := by omega
  have hn := spline_nsegs_pos knot_count basis_step hk hs
  have hle := spline_nsegs_le knot_count basis_step hk hs
  have h0 := spline_segnum_nonneg x (spline_nsegs knot_count basis_step) hn
  have h1 := spline_segnum_le x (spline_nsegs knot_count basis_step)
  obtain ⟨hb0, hb3⟩ := spline_segment_in_bounds x knot_count basis_step hk hs
  exact ⟨hb0, hb3, by omega, by omega, fun M c knots hlen =>
    spline_weighted_evaluate_returns M c basis_step hs x knots knot_count hk hlen⟩

/-- Witness of claim C27: step 3, eight knots, the parameter `2/3`. -/
theorem spline_knot_reads_in_bounds_witness :
    (((3 : Int) = 1 ∨ (3 : Int) = 2 ∨ (3 : Int) = 3) ∧ (4 : Int) ≤ 8) ∧
    0 ≤ spline_segnum (2/3) (spline_nsegs 8 3) * 3 ∧
    spline_segnum (2/3) (spline_nsegs 8 3) * 3 + 3 ≤ 8 - 1 ∧
    1 ≤ spline_segnum (2/3) (spline_nsegs 8 3) + 1 ∧
    spline_segnum (2/3) (spline_nsegs 8 3) + 1 ≤ 8 - 1 ∧
    (∀ (M : StaticMatrix44) (c : Bool) (knots : List ℚ), (8 : Int) ≤ knots.length →
      ∃ r, spline_weighted_evaluate M c 3 (2/3) knots 8 = Except.ok r) :=
  ⟨⟨by decide, by decide⟩, spline_knot_reads_in_bounds 3 (by decide) 8 (by decide) (2/3)⟩

/-! ## The inverse entry points with a knot sequence a lane -/

/-- Claim C23, evaluated: in `osl_splineinverse_w16fw16fw16f_masked` and in
`osl_splineinverse_w16ffw16f_masked` the solver of lane `lane` is applied to the target of
the lane and to a buffer that holds one knot, the value `wK[lane]` of the first knot
(`float k = wK[lane]; float *kp = &k;`), with the whole `knot_count`. The claim
asks for the lane's sequence of `knot_count` knots. -/
theorem osl_splineinverse_per_lane_knots_one_knot (width : Nat) (lane : Nat)
    (hl : lane < width) (spline_ : String) (knot_count knot_arraylen : Int)
    (mask_value : Nat) :
    (∀ (spline_inverse : SplineBasis → ℚ → List ℚ → Int → Int → ℚ) (wout_ wx_ : Wide ℚ)
        (k : Wide ℚ) (rest : List (Wide ℚ)),
      ∃ out, osl_splineinverse_w16fw16fw16f_masked width spline_inverse wout_ spline_ wx_
          (k :: rest) knot_count knot_arraylen mask_value = Except.ok out ∧
        out lane = spline_inverse (getSplineBasis spline_) (wx_ lane) [k lane] knot_count
          knot_arraylen) ∧
    (∀ (spline_inverse : SplineBasis → ℚ → List ℚ → Int → Int → ℚ) (wout_ : Wide ℚ) (wx_ : ℚ)
        (k : Wide ℚ) (rest : List (Wide ℚ)),
      ∃ out, osl_splineinverse_w16ffw16f_masked width spline_inverse wout_ spline_ wx_
          (k :: rest) knot_count knot_arraylen mask_value = Except.ok out ∧
        out lane = spline_inverse (getSplineBasis spline_) wx_ [k lane] knot_count
          knot_arraylen) := by
  have hm : lane ∈ List.range width := List.mem_range.mpr hl
  refine ⟨?_, ?_⟩
  · intro spline_inverse wout_ wx_ k rest
    unfold osl_splineinverse_w16fw16fw16f_masked
    have h := lanes_foldlM_wide_first_block (fun l kl => spline_inverse
      (getSplineBasis spline_) ((XAccessor.ConstWideAccessor wx_).get l) [kl] knot_count
      knot_arraylen) k rest (List.range width) wout_
    simp only at h ⊢
    exact ⟨_, h, by simp [hm, XAccessor.get]⟩
  · intro spline_inverse wout_ wx_ k rest
    unfold osl_splineinverse_w16ffw16f_masked
    have h := lanes_foldlM_wide_first_block (fun _ kl => spline_inverse
      (getSplineBasis spline_) wx_ [kl] knot_count knot_arraylen) k rest (List.range width)
      wout_
    simp only at h ⊢
    exact ⟨_, h, by simp [hm]⟩

/-- Witness of claim C23, its failing input: sixteen lanes, four knots a lane with the
values `10, 20, 30, 40` in every lane, and a solver that answers with the sum of the knots
in its buffer. Lane `3` of the destination holds `10`, the solver's answer on the buffer
of the first knot; on the lane's sequence of four knots the solver answers `100`. -/
theorem osl_splineinverse_per_lane_knots_one_knot_witness :
    (3 < 16) ∧
    (∃ out, osl_splineinverse_w16fw16fw16f_masked 16 (fun _ _ kp _ _ => kp.sum)
        (fun _ => 0) "linear" (fun _ => 25)
        ((fun _ => 10) :: [fun _ => 20, fun _ => 30, fun _ => 40]) 4 4 65535
          = Except.ok out ∧
      out 3 = (fun (_ : SplineBasis) (_ : ℚ) (kp : List ℚ) (_ _ : Int) => kp.sum)
        (getSplineBasis "linear") 25 [10] 4 4) ∧
    (fun (_ : SplineBasis) (_ : ℚ) (kp : List ℚ) (_ _ : Int) => kp.sum)
        (getSplineBasis "linear") 25 [10] 4 4 = 10 ∧
    (fun (_ : SplineBasis) (_ : ℚ) (kp : List ℚ) (_ _ : Int) => kp.sum)
        (getSplineBasis "linear") 25
        ((KAccessor.ConstWideUnboundArrayAccessor
          [fun _ => 10, fun _ => 20, fun _ => 30, fun _ => (40 : ℚ)]).get 3) 4 4 = 100 :=
  ⟨by decide,
    (osl_splineinverse_per_lane_knots_one_knot 16 3 (by decide) "linear" 4 4 65535).1
      (fun _ _ kp _ _ => kp.sum) (fun _ => 0) (fun _ => 25) (fun _ => 10)
      [fun _ => 20, fun _ => 30, fun _ => 40],
    by norm_num, by norm_num [KAccessor.get]⟩

/-! ## Entry points and the standard output -/

/-- Claim C24, evaluated: every call of `osl_spline_w16dfdfw16df` inserts the text
`Inside osl_spline_w16dfdfw16df` and a newline into `std::cout`, every call of
`osl_spline_w16dvw16dfdv_masked` inserts `Knot count is: `, the knot count and a newline;
the stream after the call is not the stream before it. The entry point
`osl_spline_w16dvw16dfw16v_masked`, where the same insertion is a comment, leaves the
stream as it is. The claim asks that no entry point writes to an output stream. -/
theorem osl_spline_entry_points_write_cout (width : Nat) (cout : OStream) (spline_ : String)
    (knot_count knot_arraylen : Int) :
    (∀ (wout_ : Wide (Dual2 ℚ)) (wx_ : Dual2 ℚ) (knots : List (Wide (Dual2 ℚ))),
      (osl_spline_w16dfdfw16df width cout wout_ spline_ wx_ knots knot_count knot_arraylen).1
        = cout ++ ["Inside osl_spline_w16dfdfw16df", "\n"] ∧
      (osl_spline_w16dfdfw16df width cout wout_ spline_ wx_ knots knot_count knot_arraylen).1
        ≠ cout) ∧
    (∀ (wout_ : Wide (Dual2 Vec3)) (wx_ : Wide (Dual2 ℚ)) (knots : List (Dual2 Vec3))
        (mask_value : Nat),
      (osl_spline_w16dvw16dfdv_masked width cout wout_ spline_ wx_ knots knot_count
          knot_arraylen mask_value).1
        = cout ++ ["Knot count is: ", toString knot_count, "\n"] ∧
      (osl_spline_w16dvw16dfdv_masked width cout wout_ spline_ wx_ knots knot_count
          knot_arraylen mask_value).1 ≠ cout) ∧
    (∀ (wout_ : Wide (Dual2 Vec3)) (wx_ : Wide (Dual2 ℚ)) (knots : List (Wide Vec3))
        (mask_value : Nat),
      (osl_spline_w16dvw16dfw16v_masked width cout wout_ spline_ wx_ knots knot_count
          knot_arraylen mask_value).1 = cout) := by
  have hne : ∀ (l : List String), l ≠ [] → cout ++ l ≠ cout := by
    intro l hl h
    have hlen := congrArg List.length h
    rw [List.length_append] at hlen
    exact hl (List.length_eq_zero.mp (by omega))
  refine ⟨fun wout_ wx_ knots => ⟨rfl, ?_⟩, fun wout_ wx_ knots mask_value => ⟨rfl, ?_⟩,
    fun _ _ _ _ => rfl⟩
  · exact hne _ (by simp)
  · exact hne _ (by simp)

/-! ## Coefficient proxies read back -/

/-- Claim C26. For every `ProxyElement<MT, D>` with a divisor other than zero, whichever
of the specialisations C++ selects for it, and every `float` `v`: the product `p * v` and
the product `v * p`, read back through `unproxy_element`, are `(MT/D) * v`, and
`to_float()` is `MT/D`. -/
theorem proxy_element_mul_to_float (p : ProxyElement) (hd : p.DivisorT ≠ 0) (v : ℚ) :
    unproxy_element (p.mul v) = ((p.MT : ℚ) / (p.DivisorT : ℚ)) * v ∧
    unproxy_element (float_mul_ProxyElement v p) = ((p.MT : ℚ) / (p.DivisorT : ℚ)) * v ∧
    p.to_float = (p.MT : ℚ) / (p.DivisorT : ℚ) := by
  have h := unproxy_element_mul p hd v
  rw [to_float_eq p hd] at h
  exact ⟨h, h, to_float_eq p hd⟩

/-- Witness of claim C26: the coefficient `-5/2` and the value `3`. -/
theorem proxy_element_mul_to_float_witness :
    ((ProxyElement.mk (-5) 2).DivisorT ≠ 0) ∧
    unproxy_element ((ProxyElement.mk (-5) 2).mul 3) = (((-5 : Int) : ℚ) / ((2 : Int) : ℚ)) * 3 ∧
    unproxy_element (float_mul_ProxyElement 3 (ProxyElement.mk (-5) 2))
      = (((-5 : Int) : ℚ) / ((2 : Int) : ℚ)) * 3 ∧
    (ProxyElement.mk (-5) 2).to_float = ((-5 : Int) : ℚ) / ((2 : Int) : ℚ) :=
  ⟨by decide, proxy_element_mul_to_float (ProxyElement.mk (-5) 2) (by decide) 3⟩

/-! ## The clamp at the upper bound -/

theorem clamp_in_place_eq_one (x : ℚ) : clamp_in_place x 0 1 = 1 ↔ 1 ≤ x := by
  rw [clamp_in_place_eq]
  constructor
  · intro h
    by_contra hx
    have hx1 : x < 1 := not_le.mp hx
    rw [min_eq_left (le_of_lt hx1)] at h
    rcases le_total 0 x with h0 | h0
    · rw [max_eq_right h0] at h
      linarith
    · rw [max_eq_left h0] at h
      linarith
  · intro hx
    rw [min_eq_right hx]
    norm_num

/-! ## Reads of a knot by its index -/

theorem knotAt_getD (knots : List ℚ) (i : Int) (h0 : 0 ≤ i) (h1 : i < knots.length) :
    knotAt knots i = Except.ok (knots.getD i.toNat 0) := by
  have hlt : i.toNat < knots.length := by omega
  unfold knotAt
  rw [if_neg (by omega), List.getElem?_eq_getElem hlt, List.getD_eq_getElem knots 0 hlt]

/-! ## The round trip through the inverse solver -/

/-- Claim C34, evaluated: `ProxyElement<1, 1> + ProxyElement<0, 1>` is `ProxyElement<0, 1>`
and `ProxyElement<2, 2> + ProxyElement<0, 1>` is `ProxyElement<0, 2>`, which stand for `0`,
where the operands stand for `1` and `0`; so it is for every left operand of `<1, 1>` or
`<DivisorT, DivisorT>` and every right operand of `<0, D>`. The sibling
`ProxyElement<-1, 1> + ProxyElement<0, 1>` is `ProxyElement<-1, 1>`, and in every other
overload of `operator +`, with a `ProxyElement` or with a `float` on the right, the sum
stands for the sum of what the operands stand for, as the claim asks of all of them. -/
theorem ProxyElement_add_drops_one :
    ((ProxyElement.mk 1 1).add (ProxyElement.mk 0 1) = some (ProxyOrFloat.proxy ⟨0, 1⟩) ∧
      (ProxyOrFloat.proxy ⟨0, 1⟩).unproxy_element = 0 ∧
      (ProxyElement.mk 1 1).to_float + (ProxyElement.mk 0 1).to_float = 1) ∧
    ((ProxyElement.mk 2 2).add (ProxyElement.mk 0 1) = some (ProxyOrFloat.proxy ⟨0, 2⟩) ∧
      (ProxyOrFloat.proxy ⟨0, 2⟩).unproxy_element = 0 ∧
      (ProxyElement.mk 2 2).to_float + (ProxyElement.mk 0 1).to_float = 1) ∧
    ((ProxyElement.mk (-1) 1).add (ProxyElement.mk 0 1) = some (ProxyOrFloat.proxy ⟨-1, 1⟩) ∧
      (ProxyOrFloat.proxy ⟨-1, 1⟩).unproxy_element = -1 ∧
      (ProxyElement.mk (-1) 1).to_float + (ProxyElement.mk 0 1).to_float = -1) ∧
    (∀ a b : ProxyElement, a.DivisorT ≠ 0 → b.DivisorT ≠ 0 → a.MT = a.DivisorT → b.MT = 0 →
      ∃ s, a.add b = some s ∧ s.unproxy_element = 0 ∧ a.to_float + b.to_float = 1) ∧
    (∀ (a b : ProxyElement) (s : ProxyOrFloat), a.DivisorT ≠ 0 → b.DivisorT ≠ 0 →
      a.add b = some s → ¬ (a.MT = a.DivisorT ∧ b.MT = 0) →
      s.unproxy_element = a.to_float + b.to_float) ∧
    (∀ (a : ProxyElement) (value r : ℚ), a.DivisorT ≠ 0 → a.add_float value = some r →
      r = a.to_float + value) := by
  -- The two overloads that drop the left operand: for `a` of `<1, 1>` or
  -- `<DivisorT, DivisorT>` and `b` of `<0, D>` the sum is the zero proxy.
  have ProxyElement_add_diagonal_zero : ∀ (a b : ProxyElement) (ha : a.DivisorT ≠ 0)
      (hb : b.DivisorT ≠ 0) (hdiag : a.MT = a.DivisorT) (hzero : b.MT = 0),
      a.add b = some (ProxyOrFloat.proxy ⟨0, a.DivisorT⟩) := by
    intro a b ha hb hdiag hzero
    unfold ProxyElement.add
    have h1 : ¬ a.MT = 0 := by omega
    have h3 : ¬ (a.MT = -1 ∧ a.DivisorT = 1) := by omega
    have hb1 : ¬ (b.MT = b.DivisorT ∧ b.MT = 0) := by omega
    have hb2 : ¬ b.MT = b.DivisorT := by omega
    rw [if_neg h1]
    by_cases h2 : a.MT = 1 ∧ a.DivisorT = 1
    · rw [if_pos h2, if_neg hb1, if_neg hb2, if_pos hzero, h2.2]
    · rw [if_neg h2, if_neg h3, if_pos hdiag, if_neg hb1, if_neg hb2, if_pos hzero]
  have to_float_of_diagonal : ∀ (p : ProxyElement) (hd : p.DivisorT ≠ 0) (h : p.MT = p.DivisorT),
      p.to_float = 1 := by
    intro p hd h
    have hq : (p.DivisorT : ℚ) ≠ 0 := by exact_mod_cast hd
    rw [to_float_eq p hd, h, div_self hq]
  have to_float_of_zero : ∀ (p : ProxyElement) (h : p.MT = 0), p.to_float = 0 := by
    intro p h
    unfold ProxyElement.to_float
    rw [if_pos h]
  -- The sum `a + value` of a coefficient with a divisor other than zero and a `float`
  -- is the sum of what the coefficient stands for and the `float`.
  have ProxyElement_add_float_eq : ∀ (a : ProxyElement) (ha : a.DivisorT ≠ 0) (value r : ℚ)
      (hr : a.add_float value = some r), r = a.to_float + value := by
    intro a ha value r hr
    unfold ProxyElement.add_float at hr
    by_cases h1 : a.MT = 0
    · rw [if_pos h1] at hr
      cases hr
      rw [to_float_of_zero a h1, zero_add]
    rw [if_neg h1] at hr
    by_cases h2 : a.MT = 1 ∧ a.DivisorT = 1
    · rw [if_pos h2] at hr
      cases hr
      rw [to_float_of_diagonal a ha (by omega)]
    rw [if_neg h2] at hr
    by_cases h3 : a.MT = -1 ∧ a.DivisorT = 1
    · rw [if_pos h3] at hr
      cases hr
      rw [to_float_eq a ha, h3.1, h3.2]
      norm_num
    rw [if_neg h3] at hr
    by_cases h4 : a.MT = a.DivisorT
    · rw [if_pos h4] at hr
      cases hr
      rw [to_float_of_diagonal a ha h4]
    · rw [if_neg h4] at hr
      cases hr
  -- The sum `a + b` of two coefficients with divisors other than zero stands for the sum
  -- of what they stand for in every overload but the two of `<1, 1>` and
  -- `<DivisorT, DivisorT>` at a right operand `<0, D>`.
  have ProxyElement_add_to_float : ∀ (a b : ProxyElement) (ha : a.DivisorT ≠ 0)
      (hb : b.DivisorT ≠ 0) (s : ProxyOrFloat) (hs : a.add b = some s)
      (hex : ¬ (a.MT = a.DivisorT ∧ b.MT = 0)),
      s.unproxy_element = a.to_float + b.to_float := by
    intro a b ha hb s hs hex
    have to_float_mk_one : ∀ (m : Int), (ProxyElement.mk m 1).to_float = (m : ℚ) := by
      intro m
      rw [to_float_eq _ (show (ProxyElement.mk m 1).DivisorT ≠ 0 from one_ne_zero)]
      simp
    unfold ProxyElement.add at hs
    by_cases h1 : a.MT = 0
    · rw [if_pos h1] at hs
      cases hs
      rw [to_float_of_zero a h1, zero_add]
      rfl
    rw [if_neg h1] at hs
    by_cases h2 : a.MT = 1 ∧ a.DivisorT = 1
    · rw [if_pos h2] at hs
      have hdiag : a.MT = a.DivisorT := by omega
      by_cases hb1 : b.MT = b.DivisorT ∧ b.MT = 0
      · rw [if_pos hb1] at hs
        cases hs
      rw [if_neg hb1] at hs
      by_cases hb2 : b.MT = b.DivisorT
      · rw [if_pos hb2] at hs
        cases hs
        rw [to_float_of_diagonal a ha hdiag, to_float_of_diagonal b hb hb2]
        show (ProxyElement.mk 2 1).to_float = 1 + 1
        rw [to_float_mk_one]
        norm_num
      rw [if_neg hb2] at hs
      by_cases hb3 : b.MT = 0
      · exact absurd ⟨hdiag, hb3⟩ hex
      · rw [if_neg hb3] at hs
        cases hs
    rw [if_neg h2] at hs
    by_cases h3 : a.MT = -1 ∧ a.DivisorT = 1
    · rw [if_pos h3] at hs
      have hfa : a.to_float = -1 := by
        rw [to_float_eq a ha, h3.1, h3.2]
        norm_num
      by_cases hb1 : b.MT = b.DivisorT ∧ b.MT = 0
      · rw [if_pos hb1] at hs
        cases hs
      rw [if_neg hb1] at hs
      by_cases hb2 : b.MT = b.DivisorT
      · rw [if_pos hb2] at hs
        cases hs
        rw [hfa, to_float_of_diagonal b hb hb2]
        show (ProxyElement.mk 0 1).to_float = -1 + 1
        rw [to_float_mk_one]
        norm_num
      rw [if_neg hb2] at hs
      by_cases hb3 : b.MT = 0
      · rw [if_pos hb3] at hs
        cases hs
        rw [hfa, to_float_of_zero b hb3]
        show (ProxyElement.mk (-1) 1).to_float = -1 + 0
        rw [to_float_mk_one]
        norm_num
      · rw [if_neg hb3] at hs
        cases hs
    rw [if_neg h3] at hs
    by_cases h4 : a.MT = a.DivisorT
    · rw [if_pos h4] at hs
      by_cases hb1 : b.MT = b.DivisorT ∧ b.MT = 0
      · rw [if_pos hb1] at hs
        cases hs
      rw [if_neg hb1] at hs
      by_cases hb2 : b.MT = b.DivisorT
      · rw [if_pos hb2] at hs
        cases hs
        rw [to_float_of_diagonal a ha h4, to_float_of_diagonal b hb hb2]
        show (ProxyElement.mk 2 1).to_float = 1 + 1
        rw [to_float_mk_one]
        norm_num
      rw [if_neg hb2] at hs
      by_cases hb3 : b.MT = 0
      · exact absurd ⟨h4, hb3⟩ hex
      · rw [if_neg hb3] at hs
        cases hs
    rw [if_neg h4] at hs
    by_cases h5 : a.DivisorT = 1
    · rw [if_pos h5] at hs
      have hfa : a.to_float = (a.MT : ℚ) := by
        rw [to_float_eq a ha, h5]
        simp
      by_cases hamb : (b.MT = b.DivisorT ∧ b.DivisorT = 1) ∨ (b.DivisorT = 1 ∧ b.MT = 0)
          ∨ (b.MT = b.DivisorT ∧ b.MT = 0)
      · rw [if_pos hamb] at hs
        cases hs
      rw [if_neg hamb] at hs
      by_cases hb2 : b.MT = b.DivisorT
      · rw [if_pos hb2] at hs
        cases hs
        rw [hfa, to_float_of_diagonal b hb hb2]
        show (((a.MT + 1 : Int) : ℚ)) = (a.MT : ℚ) + 1
        push_cast
        rfl
      rw [if_neg hb2] at hs
      by_cases hb4 : b.DivisorT = 1
      · rw [if_pos hb4] at hs
        cases hs
        have hfb : b.to_float = (b.MT : ℚ) := by
          rw [to_float_eq b hb, hb4]
          simp
        rw [hfa, hfb]
        show (ProxyElement.mk (b.MT + a.MT) 1).to_float = (a.MT : ℚ) + (b.MT : ℚ)
        rw [to_float_mk_one]
        push_cast
        ring
      rw [if_neg hb4] at hs
      by_cases hb3 : b.MT = 0
      · rw [if_pos hb3] at hs
        cases hs
        rw [hfa, to_float_of_zero b hb3]
        show (ProxyElement.mk a.MT 1).to_float = (a.MT : ℚ) + 0
        rw [to_float_mk_one, add_zero]
      · rw [if_neg hb3] at hs
        cases hs
    · rw [if_neg h5] at hs
      cases hs
  refine ⟨⟨rfl, ?_, ?_⟩, ⟨rfl, ?_, ?_⟩, ⟨rfl, ?_, ?_⟩, ?_, ?_, ?_⟩
  · norm_num [ProxyOrFloat.unproxy_element, ProxyElement.to_float]
  · norm_num [ProxyElement.to_float]
  · norm_num [ProxyOrFloat.unproxy_element, ProxyElement.to_float]
  · norm_num [ProxyElement.to_float]
  · norm_num [ProxyOrFloat.unproxy_element, ProxyElement.to_float]
  · norm_num [ProxyElement.to_float]
  · intro a b ha hb hdiag hzero
    refine ⟨_, ProxyElement_add_diagonal_zero a b ha hb hdiag hzero, ?_, ?_⟩
    · exact to_float_of_zero _ rfl
    · rw [to_float_of_diagonal a ha hdiag, to_float_of_zero b hzero, add_zero]
  · intro a b s ha hb hs hex
    exact ProxyElement_add_to_float a b ha hb s hs hex
  · intro a value r ha hr
    exact ProxyElement_add_float_eq a ha value r hr

/-! ## Derivatives of a clamped parameter -/

theorem unproxy_element_mul_zero (t : PVal) : unproxy_element (t.mul 0) = 0 := by
  cases t with
  | zero d => simp [PVal.mul, unproxy_element, ProxyElement.mul, ProxyElement.to_float]
  | value v => simp [PVal.mul, unproxy_element]

theorem round_half_even_cases (r : ℚ) :
    round_half_even r = ⌊r⌋ ∧ r - ⌊r⌋ ≤ 1/2 ∨ round_half_even r = ⌊r⌋ + 1 ∧ 1/2 ≤ r - ⌊r⌋ := by
  unfold round_half_even
  split_ifs with h1 h2 h3
  · exact Or.inl ⟨rfl, le_of_lt h1⟩
  · exact Or.inr ⟨rfl, le_of_lt h2⟩
  · exact Or.inl ⟨rfl, not_lt.mp h2⟩
  · exact Or.inr ⟨rfl, not_lt.mp h1⟩

theorem round_half_even_intCast (n : Int) : round_half_even (n : ℚ) = n := by
  unfold round_half_even
  simp

theorem round_half_even_mono {r s : ℚ} (h : r ≤ s) : round_half_even r ≤ round_half_even s := by
  have hf : ⌊r⌋ ≤ ⌊s⌋ := Int.floor_mono h
  rcases lt_or_eq_of_le hf with hlt | heq
  · rcases round_half_even_cases r with ⟨e1, _⟩ | ⟨e1, _⟩ <;>
    rcases round_half_even_cases s with ⟨e2, _⟩ | ⟨e2, _⟩ <;> omega
  · unfold round_half_even
    rw [← heq]
    have hrs : r - (⌊r⌋ : ℚ) ≤ s - (⌊r⌋ : ℚ) := by linarith
    split_ifs <;> first | omega | (exfalso; linarith)

theorem binary32_ulp_spec (a : ℚ) (ha : 0 ≤ a) :
    -149 ≤ binary32_ulp a ∧ binary32_ulp a ≤ 104 ∧
    (binary32_ulp a = -149 ∨ (2 : ℚ) ^ (binary32_ulp a + 23) ≤ a) ∧
    (a < (2 : ℚ) ^ (binary32_ulp a + 24) ∨ binary32_ulp a = 104) := by
  have binary32_ulp_search_spec : ∀ (n d : Nat) (hd : 0 < d) (fuel : Nat) (lo hi : Nat)
      (hle : lo ≤ hi) (hfuel : hi - lo < 2 ^ fuel) (hhi : hi ≤ 253)
      (hlo : lo = 0 ∨ (2 : ℚ) ^ ((lo : Int) - 126) ≤ (n : ℚ) / d)
      (hup : (n : ℚ) / d < (2 : ℚ) ^ ((hi : Int) - 125) ∨ hi = 253),
      binary32_ulp_search n d fuel lo hi ≤ 253 ∧
      (binary32_ulp_search n d fuel lo hi = 0 ∨
        (2 : ℚ) ^ ((binary32_ulp_search n d fuel lo hi : Int) - 126) ≤ (n : ℚ) / d) ∧
      ((n : ℚ) / d < (2 : ℚ) ^ ((binary32_ulp_search n d fuel lo hi : Int) - 125) ∨
        binary32_ulp_search n d fuel lo hi = 253) := by
    intro n d hd fuel lo hi hle hfuel hhi hlo hup
    -- The test of the search at the index `j` is `n / d < 2^(j - 125)`.
    have binary32_ulp_test_index : ∀ (n d : Nat) (hd : 0 < d) (j : Nat),
        n * 2 ^ (125 - j) < d * 2 ^ (j - 125) ↔ (n : ℚ) / d < 2 ^ ((j : Int) - 125) := by
      intro n d hd j
      have binary32_ulp_test : ∀ (n d : Nat) (hd : 0 < d) (e : Int),
          n * 2 ^ (-e).toNat < d * 2 ^ e.toNat ↔ (n : ℚ) / d < 2 ^ e := by
        intro n d hd e
        have hdq : (0 : ℚ) < (d : ℚ) := by exact_mod_cast hd
        rw [div_lt_iff₀ hdq]
        rcases le_or_lt 0 e with he | he
        · obtain ⟨m, rfl⟩ : ∃ m : Nat, e = m := ⟨e.toNat, by omega⟩
          have h1 : (-(m : Int)).toNat = 0 := by omega
          rw [h1, Int.toNat_ofNat, pow_zero, mul_one, zpow_natCast]
          constructor
          · intro h
            have : ((n : Nat) : ℚ) < ((d * 2 ^ m : Nat) : ℚ) := by exact_mod_cast h
            push_cast at this
            linarith
          · intro h
            have : ((n : Nat) : ℚ) < ((d * 2 ^ m : Nat) : ℚ) := by
              push_cast
              linarith
            exact_mod_cast this
        · obtain ⟨m, rfl⟩ : ∃ m : Nat, e = -(m : Int) := ⟨(-e).toNat, by omega⟩
          have h1 : (-(m : Int)).toNat = 0 := by omega
          have h2 : (- -(m : Int)).toNat = m := by omega
          rw [h1, h2, pow_zero, mul_one, zpow_neg, zpow_natCast]
          have hp : (0 : ℚ) < 2 ^ m := by positivity
          have hinv : ((2 : ℚ) ^ m)⁻¹ * (d : ℚ) = (d : ℚ) / 2 ^ m := by
            rw [div_eq_mul_inv, mul_comm]
          rw [hinv, lt_div_iff₀ hp]
          constructor
          · intro h
            have : ((n * 2 ^ m : Nat) : ℚ) < ((d : Nat) : ℚ) := by exact_mod_cast h
            push_cast at this
            exact this
          · intro h
            have : ((n * 2 ^ m : Nat) : ℚ) < ((d : Nat) : ℚ) := by
              push_cast
              exact h
            exact_mod_cast this
      have h := binary32_ulp_test n d hd ((j : Int) - 125)
      have h1 : (-((j : Int) - 125)).toNat = 125 - j := by omega
      have h2 : ((j : Int) - 125).toNat = j - 125 := by omega
      rw [h1, h2] at h
      exact h
    induction fuel generalizing lo hi with
    | zero =>
      have e : lo = hi := by
        rw [pow_zero] at hfuel
        omega
      subst e
      rw [binary32_ulp_search]
      exact ⟨hhi, hlo, hup⟩
    | succ m ih =>
      rw [binary32_ulp_search]
      split_ifs with h1 h2
      · have e : lo = hi := by omega
        subst e
        exact ⟨hhi, hlo, hup⟩
      · rw [binary32_ulp_test_index n d hd] at h2
        have hp : 2 ^ (m + 1) = 2 * 2 ^ m := by rw [pow_succ]; ring
        exact ih lo ((lo + hi) / 2) (by omega) (by omega) (by omega) hlo (Or.inl h2)
      · rw [binary32_ulp_test_index n d hd] at h2
        have hp : 2 ^ (m + 1) = 2 * 2 ^ m := by rw [pow_succ]; ring
        refine ih ((lo + hi) / 2 + 1) hi (by omega) (by omega) hhi (Or.inr ?_) hup
        have e : (((lo + hi) / 2 + 1 : Nat) : Int) - 126 = (((lo + hi) / 2 : Nat) : Int) - 125 := by
          push_cast
          ring
        rw [e]
        exact not_lt.mp h2
  have hnum : ((a.num.natAbs : Nat) : ℚ) / (a.den : ℚ) = a := by
    have h0 : 0 ≤ a.num := Rat.num_nonneg.mpr ha
    have h1 : ((a.num.natAbs : Nat) : ℚ) = (a.num : ℚ) := by
      rw [Nat.cast_natAbs, abs_of_nonneg h0]
    rw [h1]
    exact Rat.num_div_den a
  obtain ⟨h2, h3, h4⟩ := binary32_ulp_search_spec a.num.natAbs a.den a.den_pos 8 0 253
    (by norm_num) (by norm_num) (le_refl _) (Or.inl rfl) (Or.inr rfl)
  rw [hnum] at h3 h4
  unfold binary32_ulp
  generalize binary32_ulp_search a.num.natAbs a.den 8 0 253 = j at h2 h3 h4
  rw [show (j : Int) - 149 + 23 = (j : Int) - 126 by ring,
    show (j : Int) - 149 + 24 = (j : Int) - 125 by ring]
  refine ⟨by omega, by omega, ?_, ?_⟩
  · rcases h3 with h | h
    · exact Or.inl (by omega)
    · exact Or.inr h
  · rcases h4 with h | h
    · exact Or.inl h
    · exact Or.inr (by omega)

/-- The rounding, with the unit in the last place written as a power of two. -/
theorem binary32_round_eq (q : ℚ) :
    binary32_round q
      = (round_half_even (q / 2 ^ binary32_ulp |q|) : ℚ) * 2 ^ binary32_ulp |q| := by
  -- The quotient of natural powers `binary32_unit k` is the power `2^k`.
  have binary32_unit_eq : ∀ (k : Int), binary32_unit k = 2 ^ k := by
    intro k
    unfold binary32_unit
    rcases le_or_lt 0 k with hk | hk
    · obtain ⟨m, rfl⟩ : ∃ m : Nat, k = m := ⟨k.toNat, by omega⟩
      have h1 : (-(m : Int)).toNat = 0 := by omega
      rw [h1, Int.toNat_ofNat, zpow_natCast]
      simp
    · obtain ⟨m, rfl⟩ : ∃ m : Nat, k = -(m : Int) := ⟨(-k).toNat, by omega⟩
      have h1 : (-(m : Int)).toNat = 0 := by omega
      have h2 : (- -(m : Int)).toNat = m := by omega
      rw [h1, h2, zpow_neg, zpow_natCast]
      simp
  unfold binary32_round
  rw [binary32_unit_eq]

theorem two_zpow_pos (k : Int) : (0 : ℚ) < 2 ^ k := zpow_pos (by norm_num) k

theorem two_zpow_le {i j : Int} (h : i ≤ j) : (2 : ℚ) ^ i ≤ 2 ^ j :=
  zpow_le_zpow_right₀ (by norm_num) h

theorem binary32_round_neg (q : ℚ) : binary32_round (-q) = -binary32_round q := by
  have round_half_even_neg : ∀ (r : ℚ), round_half_even (-r) = -round_half_even r := by
    intro r
    by_cases hint : (⌊r⌋ : ℚ) = r
    · rw [← hint, ← Int.cast_neg, round_half_even_intCast, round_half_even_intCast]
    · have h1 : (⌊r⌋ : ℚ) < r := lt_of_le_of_ne (Int.floor_le r) hint
      have h2 : r < (⌊r⌋ : ℚ) + 1 := Int.lt_floor_add_one r
      have hfl : ⌊-r⌋ = -⌊r⌋ - 1 := by
        rw [Int.floor_eq_iff]
        push_cast
        constructor <;> linarith
      unfold round_half_even
      rw [hfl]
      push_cast
      split_ifs <;> first | omega | (exfalso; linarith)
  simp only [binary32_round_eq]
  rw [abs_neg, neg_div, round_half_even_neg]
  push_cast
  ring

theorem binary32_round_nonneg {q : ℚ} (h : 0 ≤ q) : 0 ≤ binary32_round q := by
  simp only [binary32_round_eq]
  have hk := two_zpow_pos (binary32_ulp |q|)
  have h0 : round_half_even 0 ≤ round_half_even (q / 2 ^ binary32_ulp |q|) :=
    round_half_even_mono (div_nonneg h (le_of_lt hk))
  have h00 : round_half_even 0 = 0 := by
    have := round_half_even_intCast 0
    simpa using this
  rw [h00] at h0
  exact mul_nonneg (by exact_mod_cast h0) (le_of_lt hk)

/-- Rounding to binary32 is monotone. -/
theorem binary32_round_mono {x y : ℚ} (h : x ≤ y) : binary32_round x ≤ binary32_round y := by
  have binary32_round_mono_of_nonneg : ∀ {x y : ℚ} (hx : 0 ≤ x) (h : x ≤ y),
      binary32_round x ≤ binary32_round y := by
    intro x y hx h
    have binary32_ulp_mono : ∀ {a b : ℚ} (ha : 0 ≤ a) (h : a ≤ b),
        binary32_ulp a ≤ binary32_ulp b := by
      intro a b ha h
      obtain ⟨_, a2, a3, a4⟩ := binary32_ulp_spec a ha
      obtain ⟨b1, _, b3, b4⟩ := binary32_ulp_spec b (le_trans ha h)
      by_contra hlt
      push_neg at hlt
      have ha : (2 : ℚ) ^ (binary32_ulp a + 23) ≤ a := by
        rcases a3 with e | e
        · omega
        · exact e
      have hb : b < (2 : ℚ) ^ (binary32_ulp b + 24) := by
        rcases b4 with e | e
        · exact e
        · omega
      have hp : (2 : ℚ) ^ (binary32_ulp b + 24) ≤ 2 ^ (binary32_ulp a + 23) :=
        two_zpow_le (by omega)
      linarith
    have hy : 0 ≤ y := le_trans hx h
    have hk := binary32_ulp_mono (abs_nonneg x) (show |x| ≤ |y| by rw [abs_of_nonneg hx, abs_of_nonneg hy]; exact h)
    obtain ⟨_, x2, _, x4⟩ := binary32_ulp_spec |x| (abs_nonneg _)
    obtain ⟨_, y2, y3, _⟩ := binary32_ulp_spec |y| (abs_nonneg _)
    simp only [binary32_round_eq]
    rcases lt_or_eq_of_le hk with hlt | heq
    · have hxlt : |x| < (2 : ℚ) ^ (binary32_ulp |x| + 24) := by
        rcases x4 with e | e
        · exact e
        · omega
      have hyge : (2 : ℚ) ^ (binary32_ulp |y| + 23) ≤ |y| := by
        rcases y3 with e | e
        · omega
        · exact e
      replace hxlt : x < (2 : ℚ) ^ (binary32_ulp |x| + 24) := lt_of_le_of_lt (le_abs_self x) hxlt
      replace hyge : (2 : ℚ) ^ (binary32_ulp |y| + 23) ≤ y := by
        have := abs_of_nonneg hy
        linarith
      have hkx := two_zpow_pos (binary32_ulp |x|)
      have hky := two_zpow_pos (binary32_ulp |y|)
      have h1 : round_half_even (x / 2 ^ binary32_ulp |x|) ≤ 2 ^ 24 := by
        have hle : x / 2 ^ binary32_ulp |x| ≤ (((2 ^ 24 : Int)) : ℚ) := by
          rw [div_le_iff₀ hkx]
          have : (2 : ℚ) ^ (binary32_ulp |x| + 24) = ((2 ^ 24 : Int) : ℚ) * 2 ^ binary32_ulp |x| := by
            rw [zpow_add₀ (by norm_num : (2 : ℚ) ≠ 0)]
            push_cast
            ring
          linarith
        have := round_half_even_mono hle
        rwa [round_half_even_intCast] at this
      have h2 : (2 ^ 23 : Int) ≤ round_half_even (y / 2 ^ binary32_ulp |y|) := by
        have hle : (((2 ^ 23 : Int)) : ℚ) ≤ y / 2 ^ binary32_ulp |y| := by
          rw [le_div_iff₀ hky]
          have : (2 : ℚ) ^ (binary32_ulp |y| + 23) = ((2 ^ 23 : Int) : ℚ) * 2 ^ binary32_ulp |y| := by
            rw [zpow_add₀ (by norm_num : (2 : ℚ) ≠ 0)]
            push_cast
            ring
          linarith
        have := round_half_even_mono hle
        rwa [round_half_even_intCast] at this
      have h1q : (round_half_even (x / 2 ^ binary32_ulp |x|) : ℚ) ≤ 2 ^ 24 := by exact_mod_cast h1
      have h2q : (2 ^ 23 : ℚ) ≤ (round_half_even (y / 2 ^ binary32_ulp |y|) : ℚ) := by
        exact_mod_cast h2
      have hmid : (2 : ℚ) ^ 24 * 2 ^ binary32_ulp |x| ≤ 2 ^ 23 * 2 ^ binary32_ulp |y| := by
        have e1 : (2 : ℚ) ^ 24 * 2 ^ binary32_ulp |x| = 2 ^ (binary32_ulp |x| + 24) := by
          rw [zpow_add₀ (by norm_num : (2 : ℚ) ≠ 0)]
          norm_num
          ring
        have e2 : (2 : ℚ) ^ 23 * 2 ^ binary32_ulp |y| = 2 ^ (binary32_ulp |y| + 23) := by
          rw [zpow_add₀ (by norm_num : (2 : ℚ) ≠ 0)]
          norm_num
          ring
        rw [e1, e2]
        exact two_zpow_le (by omega)
      calc (round_half_even (x / 2 ^ binary32_ulp |x|) : ℚ) * 2 ^ binary32_ulp |x|
          ≤ 2 ^ 24 * 2 ^ binary32_ulp |x| := mul_le_mul_of_nonneg_right h1q (le_of_lt hkx)
        _ ≤ 2 ^ 23 * 2 ^ binary32_ulp |y| := hmid
        _ ≤ (round_half_even (y / 2 ^ binary32_ulp |y|) : ℚ) * 2 ^ binary32_ulp |y| :=
            mul_le_mul_of_nonneg_right h2q (le_of_lt hky)
    · rw [heq]
      have hky := two_zpow_pos (binary32_ulp |y|)
      have hle : x / 2 ^ binary32_ulp |y| ≤ y / 2 ^ binary32_ulp |y| :=
        div_le_div_of_nonneg_right h (le_of_lt hky)
      have := round_half_even_mono hle
      exact mul_le_mul_of_nonneg_right (by exact_mod_cast this) (le_of_lt hky)
  rcases le_total 0 x with hx | hx
  · exact binary32_round_mono_of_nonneg hx h
  · rcases le_total 0 y with hy | hy
    · have h1 : binary32_round x ≤ 0 := by
        have := binary32_round_nonneg (neg_nonneg.mpr hx)
        rw [binary32_round_neg] at this
        linarith
      exact le_trans h1 (binary32_round_nonneg hy)
    · have := binary32_round_mono_of_nonneg (neg_nonneg.mpr hy) (neg_le_neg h)
      rw [binary32_round_neg, binary32_round_neg] at this
      linarith

/-- A number `m * 2^j` with `|m| < 2^24` and `j ≥ -149` is its own rounding. -/
theorem binary32_round_of_mantissa (m j : Int) (hj : -149 ≤ j) (hm : |m| < 2 ^ 24) :
    binary32_round ((m : ℚ) * 2 ^ j) = (m : ℚ) * 2 ^ j := by
  have two_zpow_lt_iff : ∀ {i j : Int}, (2 : ℚ) ^ i < 2 ^ j ↔ i < j := by
    intro i j
    exact zpow_lt_zpow_iff_right₀ (by norm_num)
  obtain ⟨k1, _, k3, _⟩ := binary32_ulp_spec |(m : ℚ) * 2 ^ j| (abs_nonneg _)
  have hpj := two_zpow_pos j
  have habs : |(m : ℚ) * 2 ^ j| = |(m : ℚ)| * 2 ^ j := by
    rw [abs_mul, abs_of_pos hpj]
  have hmq : |(m : ℚ)| < 2 ^ 24 := by
    have : ((|m| : Int) : ℚ) < ((2 ^ 24 : Int) : ℚ) := by exact_mod_cast hm
    simpa using this
  have hkj : binary32_ulp |(m : ℚ) * 2 ^ j| ≤ j := by
    rcases k3 with e | e
    · omega
    · have h1 : |(m : ℚ) * 2 ^ j| < 2 ^ (j + 24) := by
        rw [habs, zpow_add₀ (by norm_num : (2 : ℚ) ≠ 0)]
        have : |(m : ℚ)| * 2 ^ j < 2 ^ 24 * 2 ^ j := mul_lt_mul_of_pos_right hmq hpj
        calc |(m : ℚ)| * 2 ^ j < 2 ^ 24 * 2 ^ j := this
          _ = 2 ^ j * 2 ^ (24 : Int) := by norm_num; ring
      have h2 := lt_of_le_of_lt e h1
      rw [two_zpow_lt_iff] at h2
      omega
  simp only [binary32_round_eq]
  generalize binary32_ulp |(m : ℚ) * 2 ^ j| = k at hkj
  obtain ⟨d, hd⟩ : ∃ d : Nat, j = k + d := ⟨(j - k).toNat, by omega⟩
  have hdiv : (m : ℚ) * 2 ^ j / 2 ^ k = ((m * 2 ^ d : Int) : ℚ) := by
    rw [hd, zpow_add₀ (by norm_num : (2 : ℚ) ≠ 0), zpow_natCast]
    push_cast
    field_simp
    ring
  rw [hdiv, round_half_even_intCast, hd, zpow_add₀ (by norm_num : (2 : ℚ) ≠ 0), zpow_natCast]
  push_cast
  ring

theorem binary32_round_intCast (n : Int) (h : |n| ≤ 2 ^ 24) :
    binary32_round (n : ℚ) = (n : ℚ) := by
  rcases lt_or_eq_of_le h with hlt | heq
  · have := binary32_round_of_mantissa n 0 (by norm_num) hlt
    simpa using this
  · have hn : n = 2 ^ 24 ∨ n = -2 ^ 24 := by
      rcases abs_cases n with ⟨e, _⟩ | ⟨e, _⟩
      · left; omega
      · right; omega
    have h1 := binary32_round_of_mantissa 1 24 (by norm_num) (by norm_num)
    norm_num at h1
    rcases hn with e | e
    · rw [e]
      norm_num
      exact h1
    · rw [e]
      norm_num
      rw [binary32_round_neg, h1]

theorem binary32_round_two_zpow (e : Int) (he : -149 ≤ e) :
    binary32_round (2 ^ e) = 2 ^ e := by
  have := binary32_round_of_mantissa 1 e he (by norm_num)
  simpa using this

theorem binary32_round_zero : binary32_round 0 = 0 := by
  have := binary32_round_intCast 0 (by norm_num)
  simpa using this

theorem binary32_round_one : binary32_round 1 = 1 := by
  have := binary32_round_intCast 1 (by norm_num)
  simpa using this

/-- A rounding of magnitude below `2^128` is a number `m * 2^j` with `|m| < 2^24` and
`j ≥ -149`: a finite binary32 number. -/
theorem binary32_round_mem (q : ℚ) (h : |binary32_round q| < 2 ^ 128) :
    ∃ m j : Int, -149 ≤ j ∧ |m| < 2 ^ 24 ∧ binary32_round q = (m : ℚ) * 2 ^ j := by
  obtain ⟨k1, k2, _, k4⟩ := binary32_ulp_spec |q| (abs_nonneg _)
  simp only [binary32_round_eq] at h ⊢
  generalize binary32_ulp |q| = k at *
  have hk := two_zpow_pos k
  have hM : |round_half_even (q / 2 ^ k)| ≤ 2 ^ 24 := by
    rcases k4 with e | e
    · have hq : abs (q / 2 ^ k) < ((2 ^ 24 : Int) : ℚ) := by
        rw [abs_div, abs_of_pos hk, div_lt_iff₀ hk]
        have : (2 : ℚ) ^ (k + 24) = ((2 ^ 24 : Int) : ℚ) * 2 ^ k := by
          rw [zpow_add₀ (by norm_num : (2 : ℚ) ≠ 0)]
          push_cast
          ring
        linarith
      rw [abs_lt] at hq
      have h1 := round_half_even_mono (le_of_lt hq.2)
      have h2 := round_half_even_mono (le_of_lt hq.1)
      rw [round_half_even_intCast] at h1
      rw [← Int.cast_neg, round_half_even_intCast] at h2
      rw [abs_le]
      exact ⟨h2, h1⟩
    · rw [e, abs_mul, abs_of_pos (two_zpow_pos 104)] at h
      have h128 : (2 : ℚ) ^ 128 = 2 ^ 24 * 2 ^ (104 : Int) := by norm_num
      rw [h128] at h
      have hlt : |(round_half_even (q / 2 ^ (104 : Int)) : ℚ)| < 2 ^ 24 :=
        lt_of_mul_lt_mul_right h (le_of_lt (two_zpow_pos 104))
      rw [e]
      have : ((|round_half_even (q / 2 ^ (104 : Int))| : Int) : ℚ) < ((2 ^ 24 : Int) : ℚ) := by
        push_cast
        exact hlt
      exact le_of_lt (by exact_mod_cast this)
  rcases lt_or_eq_of_le hM with hlt | heq
  · exact ⟨_, _, k1, hlt, rfl⟩
  · rcases abs_cases (round_half_even (q / 2 ^ k)) with ⟨e, _⟩ | ⟨e, _⟩
    · refine ⟨1, k + 24, by omega, by norm_num, ?_⟩
      rw [← e, heq, zpow_add₀ (by norm_num : (2 : ℚ) ≠ 0)]
      push_cast
      norm_num
      ring
    · refine ⟨-1, k + 24, by omega, by norm_num, ?_⟩
      have e2 : round_half_even (q / 2 ^ k) = -(2 ^ 24) := by omega
      rw [e2, zpow_add₀ (by norm_num : (2 : ℚ) ≠ 0)]
      push_cast
      norm_num
      ring

/-- Rounding a finite binary32 number gives the number. -/
theorem binary32_round_idem (q : ℚ) (h : |binary32_round q| < 2 ^ 128) :
    binary32_round (binary32_round q) = binary32_round q := by
  obtain ⟨m, j, hj, hm, e⟩ := binary32_round_mem q h
  rw [e]
  exact binary32_round_of_mantissa m j hj hm

/-! ## Segment selection in binary32 -/

theorem spline_segnum_binary32_le (xval : ℚ) (nsegs : Int) :
    spline_segnum_binary32 xval nsegs ≤ nsegs - 1 := by
  unfold spline_segnum_binary32
  simp only
  split_ifs <;> omega

theorem spline_segnum_binary32_nonneg (xval : ℚ) (nsegs : Int) (hn : 1 ≤ nsegs) :
    0 ≤ spline_segnum_binary32 xval nsegs := by
  unfold spline_segnum_binary32
  simp only
  split_ifs <;> omega

theorem spline_segment_binary32_in_bounds (xval : ℚ) (knot_count basis_step : Int)
    (hk : 4 ≤ knot_count) (hs : 0 < basis_step) :
    0 ≤ spline_segnum_binary32 xval (spline_nsegs knot_count basis_step) * basis_step ∧
    spline_segnum_binary32 xval (spline_nsegs knot_count basis_step) * basis_step + 3
      ≤ knot_count - 1 := by
  have hn := spline_nsegs_pos knot_count basis_step hk hs
  have h0 := spline_segnum_binary32_nonneg xval (spline_nsegs knot_count basis_step) hn
  have h1 := spline_segnum_binary32_le xval (spline_nsegs knot_count basis_step)
  refine ⟨Int.mul_nonneg h0 (le_of_lt hs), ?_⟩
  have h2 : spline_segnum_binary32 xval (spline_nsegs knot_count basis_step) * basis_step
      ≤ (spline_nsegs knot_count basis_step - 1) * basis_step :=
    Int.mul_le_mul_of_nonneg_right h1 (le_of_lt hs)
  have h3 : (spline_nsegs knot_count basis_step - 1) * basis_step ≤ knot_count - 4 := by
    unfold spline_nsegs
    rw [Int.tdiv_eq_ediv (by omega) (le_of_lt hs)]
    have := Int.ediv_mul_le (knot_count - 4) (ne_of_gt hs)
    simpa using this
  omega

theorem spline_scaled_x_binary32_nonneg (x : ℚ) (nsegs : Int) (hn : 1 ≤ nsegs) :
    0 ≤ spline_scaled_x_binary32 x nsegs := by
  unfold spline_scaled_x_binary32
  have hq : (0 : ℚ) ≤ (nsegs : ℚ) := by exact_mod_cast (by omega : (0 : Int) ≤ nsegs)
  exact binary32_round_nonneg
    (mul_nonneg (clamp_in_place_mem x).1 (binary32_round_nonneg hq))

/-- The segment of the evaluator in binary32 is the floor of its scaled parameter,
clamped to `0 .. nsegs - 1`. -/
theorem spline_segnum_binary32_eq (x : ℚ) (nsegs : Int) (hn : 1 ≤ nsegs) :
    spline_segnum_binary32 x nsegs
      = max 0 (min ⌊spline_scaled_x_binary32 x nsegs⌋ (nsegs - 1)) := by
  have h0 := spline_scaled_x_binary32_nonneg x nsegs hn
  have hf : 0 ≤ ⌊spline_scaled_x_binary32 x nsegs⌋ := Int.floor_nonneg.mpr h0
  unfold spline_segnum_binary32
  simp only [removeDerivatives]
  rw [float_to_int_of_nonneg _ h0]
  have hneg : ¬ ⌊spline_scaled_x_binary32 x nsegs⌋ < 0 := by omega
  simp only [if_neg hneg]
  split_ifs with h
  · rw [min_eq_right (by omega), max_eq_right (by omega)]
  · rw [min_eq_left (by omega), max_eq_right (by omega)]

/-- With fewer than `2^31 - 64` segments the scaled parameter in binary32 is at most
`2^31 - 128`, the largest `float` below `2^31`, and its cast `(int)seg_x` has a value. -/
theorem float_to_int_defined_scaled (x : ℚ) (nsegs : Int) (hn : 1 ≤ nsegs)
    (hcast : nsegs < 2 ^ 31 - 64) :
    float_to_int_defined (removeDerivatives (spline_scaled_x_binary32 x nsegs)) := by
  have h0 := spline_scaled_x_binary32_nonneg x nsegs hn
  have hB : binary32_round 2147483520 = 2147483520 := by decide!
  have hB65 : binary32_round 2147483583 = 2147483520 := by decide!
  have hnq : (nsegs : ℚ) ≤ 2147483583 := by exact_mod_cast (by omega : nsegs ≤ 2147483583)
  have hrn : binary32_round (nsegs : ℚ) ≤ 2147483520 := by
    rw [← hB65]
    exact binary32_round_mono hnq
  have hrn0 : 0 ≤ binary32_round (nsegs : ℚ) :=
    binary32_round_nonneg (by exact_mod_cast (by omega : (0 : Int) ≤ nsegs))
  have hle : spline_scaled_x_binary32 x nsegs ≤ 2147483520 := by
    unfold spline_scaled_x_binary32
    rw [← hB]
    refine binary32_round_mono ?_
    have hc := clamp_in_place_mem x
    calc clamp_in_place x 0 1 * binary32_round (nsegs : ℚ)
        ≤ 1 * binary32_round (nsegs : ℚ) := mul_le_mul_of_nonneg_right hc.2 hrn0
      _ = binary32_round (nsegs : ℚ) := one_mul _
      _ ≤ 2147483520 := hrn
  unfold float_to_int_defined removeDerivatives
  rw [float_to_int_of_nonneg _ h0]
  have hf0 : 0 ≤ ⌊spline_scaled_x_binary32 x nsegs⌋ := Int.floor_nonneg.mpr h0
  refine ⟨by omega, ?_⟩
  rw [Int.floor_lt]
  push_cast
  linarith

/-- The cast `(int)` of a `float` that is an `int` has a value. -/
theorem float_to_int_defined_intCast (k : Int) (h0 : -(2 ^ 31) ≤ k) (h1 : k < 2 ^ 31) :
    float_to_int_defined (k : ℚ) := by
  unfold float_to_int_defined float_to_int
  simp only [Rat.intCast_num, Rat.intCast_den, Nat.cast_one, Int.tdiv_one]
  exact ⟨h0, h1⟩

/-- With at least four knots in a buffer that holds them, and where the cast has a value,
the evaluator in binary32 reads the four knots of its segment and returns their weighted
sum at its local parameter, or no finite value when that sum has none. -/
theorem spline_weighted_evaluate_binary32_ok (M : StaticMatrix44) (basis_step : Int)
    (hs : 0 < basis_step) (xval : ℚ) (knots : List ℚ) (knot_count : Int)
    (hk : 4 ≤ knot_count) (hlen : knot_count ≤ knots.length)
    (hcast : float_to_int_defined
      (removeDerivatives (spline_scaled_x_binary32 xval (spline_nsegs knot_count basis_step)))) :
    ∃ P : Fin 4 → ℚ,
      (∀ j : Fin 4, knotAt knots
        (spline_segnum_binary32 xval (spline_nsegs knot_count basis_step) * basis_step
          + ((j : Nat) : Int)) = Except.ok (P j)) ∧
      spline_weighted_evaluate_binary32 M false basis_step xval knots knot_count
        = spline_weighted_sum_binary32 M (P 0) (P 1) (P 2) (P 3)
            (spline_local_x_binary32 xval (spline_nsegs knot_count basis_step)) := by
  obtain ⟨h0, h3⟩ := spline_segment_binary32_in_bounds xval knot_count basis_step hk hs
  obtain ⟨p0, e0⟩ := knotAt_ok knots
    (spline_segnum_binary32 xval (spline_nsegs knot_count basis_step) * basis_step) h0 (by omega)
  obtain ⟨p1, e1⟩ := knotAt_ok knots
    (spline_segnum_binary32 xval (spline_nsegs knot_count basis_step) * basis_step + 1)
    (by omega) (by omega)
  obtain ⟨p2, e2⟩ := knotAt_ok knots
    (spline_segnum_binary32 xval (spline_nsegs knot_count basis_step) * basis_step + 2)
    (by omega) (by omega)
  obtain ⟨p3, e3⟩ := knotAt_ok knots
    (spline_segnum_binary32 xval (spline_nsegs knot_count basis_step) * basis_step + 3)
    (by omega) (by omega)
  refine ⟨![p0, p1, p2, p3], ?_, ?_⟩
  · intro j
    fin_cases j
    · simpa using e0
    · simpa using e1
    · simpa using e2
    · exact e3
  · unfold spline_weighted_evaluate_binary32
    simp only [if_pos hcast, Bool.false_eq_true, if_false]
    rw [e0, e1, e2, e3]
    rfl

/-- The evaluator in binary32 of a non-constant basis, once its four reads are known,
where the cast has a value. -/
theorem spline_weighted_evaluate_binary32_of_reads (M : StaticMatrix44) (basis_step : Int)
    (xval : ℚ) (knots : List ℚ) (knot_count : Int) (p0 p1 p2 p3 : ℚ)
    (e0 : knotAt knots
      (spline_segnum_binary32 xval (spline_nsegs knot_count basis_step) * basis_step)
        = Except.ok p0)
    (e1 : knotAt knots
      (spline_segnum_binary32 xval (spline_nsegs knot_count basis_step) * basis_step + 1)
        = Except.ok p1)
    (e2 : knotAt knots
      (spline_segnum_binary32 xval (spline_nsegs knot_count basis_step) * basis_step + 2)
        = Except.ok p2)
    (e3 : knotAt knots
      (spline_segnum_binary32 xval (spline_nsegs knot_count basis_step) * basis_step + 3)
        = Except.ok p3)
    (hcast : float_to_int_defined
      (removeDerivatives (spline_scaled_x_binary32 xval (spline_nsegs knot_count basis_step)))) :
    spline_weighted_evaluate_binary32 M false basis_step xval knots knot_count
      = spline_weighted_sum_binary32 M p0 p1 p2 p3
          (spline_local_x_binary32 xval (spline_nsegs knot_count basis_step)) := by
  unfold spline_weighted_evaluate_binary32
  simp only [if_pos hcast, Bool.false_eq_true, if_false]
  rw [e0, e1, e2, e3]
  rfl

/-- The constant branch of the evaluator in binary32 returns the knot after its
segment, where the cast has a value. -/
theorem spline_weighted_evaluate_binary32_constant (M : StaticMatrix44) (basis_step : Int)
    (xval : ℚ) (knots : List ℚ) (knot_count : Int)
    (hcast : float_to_int_defined
      (removeDerivatives (spline_scaled_x_binary32 xval (spline_nsegs knot_count basis_step)))) :
    spline_weighted_evaluate_binary32 M true basis_step xval knots knot_count
      = knotAt knots (spline_segnum_binary32 xval (spline_nsegs knot_count basis_step) + 1) := by
  unfold spline_weighted_evaluate_binary32
  simp only [if_pos hcast, if_true]
  unfold removeDerivatives
  cases knotAt knots _ <;> rfl

/-- At a parameter of at most 0 the evaluator in binary32 is at the start of the first
segment. -/
theorem spline_selector_binary32_zero (x : ℚ) (hx : x ≤ 0) (nsegs : Int) (hn : 1 ≤ nsegs) :
    spline_scaled_x_binary32 x nsegs = 0 ∧ spline_segnum_binary32 x nsegs = 0 ∧
    spline_local_x_binary32 x nsegs = 0 := by
  have hc : clamp_in_place x 0 1 = 0 := by
    rw [clamp_in_place_eq, min_eq_left (by linarith), max_eq_left hx]
  have ht : spline_scaled_x_binary32 x nsegs = 0 := by
    unfold spline_scaled_x_binary32
    simp only [hc, zero_mul, binary32_round_zero]
  have hg : spline_segnum_binary32 x nsegs = 0 := by
    rw [spline_segnum_binary32_eq x nsegs hn, ht, Int.floor_zero, min_eq_left (by omega)]
    rfl
  refine ⟨ht, hg, ?_⟩
  unfold spline_local_x_binary32
  rw [ht, hg]
  simp [binary32_round_zero]

/-- At a parameter of at least 1 and at most `2^24` segments the evaluator in binary32
is at the end of the last segment. -/
theorem spline_selector_binary32_one (x : ℚ) (hx : 1 ≤ x) (nsegs : Int) (hn : 1 ≤ nsegs)
    (hn24 : nsegs ≤ 2 ^ 24) :
    spline_scaled_x_binary32 x nsegs = nsegs ∧ spline_segnum_binary32 x nsegs = nsegs - 1 ∧
    spline_local_x_binary32 x nsegs = 1 := by
  have hc : clamp_in_place x 0 1 = 1 := (clamp_in_place_eq_one x).mpr hx
  have hrn : binary32_round (nsegs : ℚ) = nsegs :=
    binary32_round_intCast nsegs (by rw [abs_of_nonneg (by omega)]; exact hn24)
  have ht : spline_scaled_x_binary32 x nsegs = nsegs := by
    unfold spline_scaled_x_binary32
    simp only [hc, one_mul, hrn]
  have hg : spline_segnum_binary32 x nsegs = nsegs - 1 := by
    rw [spline_segnum_binary32_eq x nsegs hn, ht, Int.floor_intCast, min_eq_right (by omega),
      max_eq_right (by omega)]
  refine ⟨ht, hg, ?_⟩
  unfold spline_local_x_binary32
  rw [ht, hg, binary32_round_intCast (nsegs - 1) (by rw [abs_of_nonneg (by omega)]; omega)]
  push_cast
  rw [show (nsegs : ℚ) - ((nsegs : ℚ) - 1) = 1 by ring, binary32_round_one]

/-- At a binary32 parameter between 0 and 1 and at most `2^24` segments the evaluator
in binary32 takes the floor of its scaled parameter for the segment and the rest for
the local parameter, which is below 1. -/
theorem spline_selector_binary32_interior (x : ℚ) (hfx : binary32_round x = x) (h0 : 0 ≤ x)
    (h1 : x < 1) (nsegs : Int) (hn : 1 ≤ nsegs) (hn24 : nsegs ≤ 2 ^ 24) :
    spline_scaled_x_binary32 x nsegs < nsegs ∧
    spline_segnum_binary32 x nsegs = ⌊spline_scaled_x_binary32 x nsegs⌋ ∧
    spline_local_x_binary32 x nsegs
      = spline_scaled_x_binary32 x nsegs - (⌊spline_scaled_x_binary32 x nsegs⌋ : ℚ) := by
  -- The part of a binary32 number above an integer below it, when less than 1, is a
  -- binary32 number.
  have binary32_round_sub_intCast : ∀ (t : ℚ) (ht : binary32_round t = t) (hfin : |t| < 2 ^ 128)
      (s : Int) (hs : 0 ≤ s) (hst : (s : ℚ) ≤ t) (hlt : t - s < 1),
      binary32_round (t - s) = t - s := by
    intro t ht hfin s hs hst hlt
    obtain ⟨m, j, hj, hm, e⟩ := binary32_round_mem t (by rw [ht]; exact hfin)
    rw [ht] at e
    have hpj := two_zpow_pos j
    have ht0 : 0 ≤ t := le_trans (by exact_mod_cast hs) hst
    have hm0 : 0 ≤ m := by
      by_contra hneg
      push_neg at hneg
      have : (m : ℚ) * 2 ^ j < 0 := mul_neg_of_neg_of_pos (by exact_mod_cast hneg) hpj
      linarith
    by_cases hj0 : 0 ≤ j
    · obtain ⟨d, hd⟩ : ∃ d : Nat, j = d := ⟨j.toNat, by omega⟩
      have hti : t - s = ((m * 2 ^ d - s : Int) : ℚ) := by
        rw [e, hd, zpow_natCast]
        push_cast
        ring
      have h0 : 0 ≤ m * 2 ^ d - s := by
        have : (0 : ℚ) ≤ ((m * 2 ^ d - s : Int) : ℚ) := by rw [← hti]; linarith
        exact_mod_cast this
      have h1 : m * 2 ^ d - s < 1 := by
        have : ((m * 2 ^ d - s : Int) : ℚ) < ((1 : Int) : ℚ) := by rw [← hti]; simpa using hlt
        exact_mod_cast this
      have hz : m * 2 ^ d - s = 0 := by omega
      rw [hti, hz]
      simpa using binary32_round_zero
    · obtain ⟨d, hd⟩ : ∃ d : Nat, j = -(d : Int) := ⟨(-j).toNat, by omega⟩
      have h2d : (2 : ℚ) ^ (d : Int) * 2 ^ j = 1 := by
        rw [hd, ← zpow_add₀ (by norm_num : (2 : ℚ) ≠ 0)]
        simp
      have hti : t - s = ((m - s * 2 ^ d : Int) : ℚ) * 2 ^ j := by
        rw [e]
        push_cast
        rw [sub_mul, mul_assoc, ← zpow_natCast, h2d]
        ring
      have h0 : 0 ≤ m - s * 2 ^ d := by
        have : (0 : ℚ) ≤ ((m - s * 2 ^ d : Int) : ℚ) * 2 ^ j := by rw [← hti]; linarith
        have := nonneg_of_mul_nonneg_left this hpj
        exact_mod_cast this
      have hle : m - s * 2 ^ d ≤ m := by
        have : 0 ≤ s * 2 ^ d := mul_nonneg hs (by positivity)
        omega
      rw [hti]
      refine binary32_round_of_mantissa _ j hj ?_
      rw [abs_of_nonneg h0]
      have hm24 : m < 2 ^ 24 := lt_of_le_of_lt (le_abs_self m) hm
      omega
  -- A product with a binary32 number below 1 rounds below the other factor.
  have binary32_round_lt : ∀ (n q : ℚ) (hn : 1 ≤ n) (hq0 : 0 ≤ q) (hq : q ≤ n * (1 - 1 / 2 ^ 24)),
      binary32_round q < n := by
    intro n q hn hq0 hq
    have round_half_even_le : ∀ (r : ℚ), (round_half_even r : ℚ) ≤ r + 1/2 := by
      intro r
      have h1 := Int.floor_le r
      rcases round_half_even_cases r with ⟨e, h⟩ | ⟨e, h⟩
      · rw [e]; linarith
      · rw [e]; push_cast; linarith
    have hmono := binary32_round_mono hq
    have hq'0 : 0 ≤ n * (1 - 1 / 2 ^ 24) := le_trans hq0 hq
    have hq'n : n * (1 - 1 / 2 ^ 24) < n := by nlinarith
    obtain ⟨k1, _, k3, _⟩ := binary32_ulp_spec |n * (1 - 1 / 2 ^ 24)| (abs_nonneg _)
    have hlt : binary32_round (n * (1 - 1 / 2 ^ 24)) < n := by
      simp only [binary32_round_eq]
      rw [abs_of_nonneg hq'0] at k1 k3 ⊢
      generalize binary32_ulp (n * (1 - 1 / 2 ^ 24)) = k at *
      have hk := two_zpow_pos k
      have hnk : (2 : ℚ) ^ k / 2 < n / 2 ^ 24 := by
        have e23 : (2 : ℚ) ^ (k + 23) = 2 ^ k * 2 ^ 23 := by
          rw [zpow_add₀ (by norm_num : (2 : ℚ) ≠ 0)]
          norm_num
        rcases k3 with e | e
        · rw [e]
          have : (2 : ℚ) ^ (-149 : Int) / 2 < 1 / 2 ^ 24 := by norm_num
          have h3 : (1 : ℚ) / 2 ^ 24 ≤ n / 2 ^ 24 :=
            div_le_div_of_nonneg_right hn (by norm_num)
          linarith
        · rw [e23] at e
          have : (2 : ℚ) ^ k * 2 ^ 23 < n := lt_of_le_of_lt e hq'n
          rw [lt_div_iff₀ (by norm_num : (0 : ℚ) < 2 ^ 24)]
          linarith
      have hr := round_half_even_le (n * (1 - 1 / 2 ^ 24) / 2 ^ k)
      calc (round_half_even (n * (1 - 1 / 2 ^ 24) / 2 ^ k) : ℚ) * 2 ^ k
          ≤ (n * (1 - 1 / 2 ^ 24) / 2 ^ k + 1 / 2) * 2 ^ k :=
            mul_le_mul_of_nonneg_right hr (le_of_lt hk)
        _ = n * (1 - 1 / 2 ^ 24) + 2 ^ k / 2 := by
            field_simp
            ring
        _ < n := by linarith
    exact lt_of_le_of_lt hmono hlt
  -- A binary32 number below 1 is at most `1 - 2^-24`.
  have binary32_lt_one : ∀ (x : ℚ) (hx : binary32_round x = x) (h0 : 0 ≤ x) (h1 : x < 1),
      x ≤ 1 - 1 / 2 ^ 24 := by
    intro x hx h0 h1
    have hfin : |binary32_round x| < 2 ^ 128 := by
      rw [hx, abs_of_nonneg h0]
      calc x < 1 := h1
        _ < 2 ^ 128 := by norm_num
    obtain ⟨m, j, hj, hm, e⟩ := binary32_round_mem x hfin
    rw [hx] at e
    have hmq : (m : ℚ) < 2 ^ 24 := by
      have : m < 2 ^ 24 := lt_of_le_of_lt (le_abs_self m) hm
      exact_mod_cast this
    have hpj := two_zpow_pos j
    by_cases hj24 : -24 ≤ j
    · obtain ⟨d, hd⟩ : ∃ d : Nat, j + 24 = d := ⟨(j + 24).toNat, by omega⟩
      have hx24 : x * 2 ^ 24 = ((m * 2 ^ d : Int) : ℚ) := by
        have h2 : (2 : ℚ) ^ j * 2 ^ 24 = (2 : ℚ) ^ d := by
          have := zpow_add₀ (by norm_num : (2 : ℚ) ≠ 0) j 24
          rw [hd, zpow_natCast] at this
          rw [this]
          norm_num
        rw [e]
        push_cast
        rw [mul_assoc, h2]
      have hlt : ((m * 2 ^ d : Int) : ℚ) < ((2 ^ 24 : Int) : ℚ) := by
        rw [← hx24]
        push_cast
        nlinarith
      have hle : m * 2 ^ d ≤ 2 ^ 24 - 1 := by
        have : m * 2 ^ d < 2 ^ 24 := by exact_mod_cast hlt
        omega
      have hleq : ((m * 2 ^ d : Int) : ℚ) ≤ 2 ^ 24 - 1 := by exact_mod_cast hle
      rw [← hx24] at hleq
      have h24 : (0 : ℚ) < 2 ^ 24 := by norm_num
      have : x ≤ (2 ^ 24 - 1) / 2 ^ 24 := by
        rw [le_div_iff₀ h24]
        exact hleq
      have h3 : ((2 : ℚ) ^ 24 - 1) / 2 ^ 24 = 1 - 1 / 2 ^ 24 := by norm_num
      linarith
    · have hjle : (2 : ℚ) ^ j ≤ 2 ^ (-25 : Int) := two_zpow_le (by omega)
      have hm0 : 0 ≤ (m : ℚ) := by
        by_contra hneg
        push_neg at hneg
        have : (m : ℚ) * 2 ^ j < 0 := mul_neg_of_neg_of_pos hneg hpj
        linarith
      have : x ≤ 2 ^ 24 * 2 ^ (-25 : Int) := by
        rw [e]
        exact mul_le_mul (le_of_lt hmq) hjle (le_of_lt hpj) (by norm_num)
      have h2 : (2 : ℚ) ^ 24 * 2 ^ (-25 : Int) = 1 / 2 := by norm_num
      rw [h2] at this
      have h3 : (1 : ℚ) / 2 ≤ 1 - 1 / 2 ^ 24 := by norm_num
      linarith
  have hc : clamp_in_place x 0 1 = x := by
    rw [clamp_in_place_eq, min_eq_left (le_of_lt h1), max_eq_right h0]
  have hrn : binary32_round (nsegs : ℚ) = nsegs :=
    binary32_round_intCast nsegs (by rw [abs_of_nonneg (by omega)]; exact hn24)
  have hnq : (1 : ℚ) ≤ (nsegs : ℚ) := by exact_mod_cast hn
  have hn24q : (nsegs : ℚ) ≤ 2 ^ 24 := by exact_mod_cast hn24
  have hxle := binary32_lt_one x hfx h0 h1
  have htdef : spline_scaled_x_binary32 x nsegs = binary32_round (x * nsegs) := by
    unfold spline_scaled_x_binary32
    simp only [hc, hrn]
  have htn : spline_scaled_x_binary32 x nsegs < nsegs := by
    rw [htdef]
    refine binary32_round_lt nsegs (x * nsegs) hnq (mul_nonneg h0 (by linarith)) ?_
    rw [mul_comm]
    exact mul_le_mul_of_nonneg_left hxle (by linarith)
  have ht0 := spline_scaled_x_binary32_nonneg x nsegs hn
  have hfl0 : 0 ≤ ⌊spline_scaled_x_binary32 x nsegs⌋ := Int.floor_nonneg.mpr ht0
  have hfln : ⌊spline_scaled_x_binary32 x nsegs⌋ < nsegs := Int.floor_lt.mpr htn
  have hg : spline_segnum_binary32 x nsegs = ⌊spline_scaled_x_binary32 x nsegs⌋ := by
    rw [spline_segnum_binary32_eq x nsegs hn, min_eq_left (by omega), max_eq_right hfl0]
  refine ⟨htn, hg, ?_⟩
  have hfin : |spline_scaled_x_binary32 x nsegs| < 2 ^ 128 := by
    rw [abs_of_nonneg ht0]
    calc spline_scaled_x_binary32 x nsegs < nsegs := htn
      _ ≤ 2 ^ 24 := hn24q
      _ < 2 ^ 128 := by norm_num
  have hidem : binary32_round (spline_scaled_x_binary32 x nsegs)
      = spline_scaled_x_binary32 x nsegs := by
    rw [htdef] at hfin ⊢
    exact binary32_round_idem _ hfin
  unfold spline_local_x_binary32
  rw [hg, binary32_round_intCast _ (by rw [abs_of_nonneg hfl0]; omega)]
  exact binary32_round_sub_intCast _ hidem hfin _ hfl0 (Int.floor_le _)
    (by linarith [Int.lt_floor_add_one (spline_scaled_x_binary32 x nsegs)])

/-! ## The weighted sum in binary32 -/

/-- An exact result of magnitude at most `2^e`, `e ≤ 127`, rounds to a finite binary32
number of magnitude at most `2^e`. -/
theorem binary32_of_abs_le (q : ℚ) (e : Int) (he0 : -149 ≤ e) (he : e ≤ 127)
    (h : |q| ≤ 2 ^ e) :
    binary32 q = Except.ok (binary32_round q) ∧ |binary32_round q| ≤ 2 ^ e ∧
    binary32_round (binary32_round q) = binary32_round q := by
  -- A bound that is a power of two is kept by the rounding.
  have binary32_round_abs_le : ∀ (q : ℚ) (e : Int) (he : -149 ≤ e) (h : |q| ≤ 2 ^ e),
      |binary32_round q| ≤ 2 ^ e := by
    intro q e he h
    rw [abs_le] at h ⊢
    have h1 := binary32_round_mono h.1
    have h2 := binary32_round_mono h.2
    rw [binary32_round_neg, binary32_round_two_zpow e he] at h1
    rw [binary32_round_two_zpow e he] at h2
    exact ⟨h1, h2⟩
  have hb := binary32_round_abs_le q e he0 h
  have hfin : |binary32_round q| < 2 ^ 128 := by
    have h1 : (2 : ℚ) ^ e ≤ 2 ^ (127 : Int) := two_zpow_le he
    have h2 : (2 : ℚ) ^ (127 : Int) < 2 ^ 128 := by norm_num
    linarith
  refine ⟨?_, hb, binary32_round_idem q hfin⟩
  unfold binary32
  rw [if_pos hfin]

/-- A finite binary32 number is the result of rounding it. -/
theorem binary32_eq_ok_self (v : ℚ) (hv : binary32_round v = v) (e : Int) (he : e ≤ 127)
    (h : |v| ≤ 2 ^ e) : binary32 v = Except.ok v := by
  have hfin : |binary32_round v| < 2 ^ 128 := by
    rw [hv]
    have h1 : (2 : ℚ) ^ e ≤ 2 ^ (127 : Int) := two_zpow_le he
    have h2 : (2 : ℚ) ^ (127 : Int) < 2 ^ 128 := by norm_num
    linarith
  unfold binary32
  rw [if_pos hfin, hv]

theorem PVal_isBinary32_mono {B C : ℚ} (h : B ≤ C) (a : PVal) (ha : a.isBinary32 B) :
    a.isBinary32 C := by
  cases a with
  | zero d => trivial
  | value v => exact ⟨ha.1, le_trans ha.2 h⟩

theorem two_zpow_succ (e : Int) : (2 : ℚ) ^ (e + 1) = 2 * 2 ^ e := by
  rw [zpow_add₀ (by norm_num : (2 : ℚ) ≠ 0)]
  norm_num
  ring

/-- The sum of two values of magnitude at most `2^e` is a value of magnitude at most
`2^(e+1)`. -/
theorem PVal_add_binary32_ok (a b : PVal) (e : Int) (he0 : -149 ≤ e) (he : e ≤ 126)
    (ha : a.isBinary32 (2 ^ e)) (hb : b.isBinary32 (2 ^ e)) :
    ∃ r, a.add_binary32 b = Except.ok r ∧ r.isBinary32 (2 ^ (e + 1)) := by
  have hle : (2 : ℚ) ^ e ≤ 2 ^ (e + 1) := two_zpow_le (by omega)
  cases a with
  | zero d =>
    cases b with
    | zero d2 => exact ⟨_, rfl, trivial⟩
    | value w => exact ⟨_, rfl, hb.1, le_trans hb.2 hle⟩
  | value v =>
    cases b with
    | zero d2 => exact ⟨_, rfl, ha.1, le_trans ha.2 hle⟩
    | value w =>
      have hsum : |v + w| ≤ 2 ^ (e + 1) := by
        rw [two_zpow_succ]
        have := abs_add v w
        have h1 := ha.2
        have h2 := hb.2
        linarith
      obtain ⟨b1, b2, b3⟩ := binary32_of_abs_le _ (e + 1) (by omega) (by omega) hsum
      refine ⟨PVal.value (binary32_round (v + w)), ?_, b3, b2⟩
      show (do let r ← binary32 (v + w); pure (PVal.value r)) = _
      rw [b1]
      rfl

/-- One of the sums `tk0 .. tk3` over binary32 knots of magnitude at most `2^e` is a
value of magnitude at most `2^(e+6)`. -/
theorem spline_weighted_row_binary32_ok (n0 n1 n2 n3 D : Int) (h0 : |n0| ≤ 8) (h1 : |n1| ≤ 8)
    (h2 : |n2| ≤ 8) (h3 : |n3| ≤ 8) (hD1 : 1 ≤ D) (hD8 : D ≤ 8) (P0 P1 P2 P3 : ℚ)
    (e : Int) (he0 : -149 ≤ e) (he : e ≤ 121)
    (hP0 : binary32_round P0 = P0 ∧ |P0| ≤ 2 ^ e) (hP1 : binary32_round P1 = P1 ∧ |P1| ≤ 2 ^ e)
    (hP2 : binary32_round P2 = P2 ∧ |P2| ≤ 2 ^ e) (hP3 : binary32_round P3 = P3 ∧ |P3| ≤ 2 ^ e) :
    ∃ r, spline_weighted_row_binary32 ⟨n0, D⟩ ⟨n1, D⟩ ⟨n2, D⟩ ⟨n3, D⟩ P0 P1 P2 P3 = Except.ok r ∧
      r.isBinary32 (2 ^ (e + 6)) := by
  -- A coefficient with a numerator of magnitude at most 8 over a divisor from 1 to 8
  -- times a binary32 number of magnitude at most `2^e` is a value of magnitude at most
  -- `2^(e+3)`.
  have ProxyElement_mul_binary32_ok : ∀ (p : ProxyElement) (hMT : |p.MT| ≤ 8)
      (hD1 : 1 ≤ p.DivisorT) (hD8 : p.DivisorT ≤ 8) (v : ℚ) (hv : binary32_round v = v)
      (e : Int) (he0 : -149 ≤ e) (he : e ≤ 124) (hve : |v| ≤ 2 ^ e),
      ∃ r, p.mul_binary32 v = Except.ok r ∧ r.isBinary32 (2 ^ (e + 3)) := by
    intro p hMT hD1 hD8 v hv e he0 he hve
    have two_zpow_add_three : ∀ (e : Int), (2 : ℚ) ^ (e + 3) = 8 * 2 ^ e := by
      intro e
      rw [zpow_add₀ (by norm_num : (2 : ℚ) ≠ 0)]
      norm_num
      ring
    have hpe := two_zpow_pos e
    have hle3 : (2 : ℚ) ^ e ≤ 2 ^ (e + 3) := two_zpow_le (by omega)
    have hMTq : |(p.MT : ℚ)| ≤ 8 := by
      have : ((|p.MT| : Int) : ℚ) ≤ ((8 : Int) : ℚ) := by exact_mod_cast hMT
      simpa using this
    have hm : binary32 (p.MT : ℚ) = Except.ok (p.MT : ℚ) := by
      refine binary32_eq_ok_self _ (binary32_round_intCast _ (by omega)) 3 (by norm_num) ?_
      norm_num
      exact hMTq
    have hd : binary32 (p.DivisorT : ℚ) = Except.ok (p.DivisorT : ℚ) := by
      refine binary32_eq_ok_self _
        (binary32_round_intCast _ (by rw [abs_of_nonneg (by omega)]; omega)) 3 (by norm_num) ?_
      have : ((|p.DivisorT| : Int) : ℚ) ≤ ((8 : Int) : ℚ) := by
        rw [abs_of_nonneg (by omega)]
        exact_mod_cast hD8
      norm_num
      simpa using this
    unfold ProxyElement.mul_binary32
    by_cases h0 : p.MT = 0
    · rw [if_pos h0]
      exact ⟨_, rfl, trivial⟩
    rw [if_neg h0]
    by_cases h1 : p.MT = 1 ∧ p.DivisorT = 1
    · rw [if_pos h1]
      exact ⟨_, rfl, hv, le_trans hve hle3⟩
    rw [if_neg h1]
    by_cases h2 : p.MT = -1 ∧ p.DivisorT = 1
    · rw [if_pos h2]
      refine ⟨_, rfl, ?_, ?_⟩
      · rw [binary32_round_neg, hv]
      · rw [abs_neg]
        exact le_trans hve hle3
    rw [if_neg h2]
    by_cases h3 : p.MT = p.DivisorT
    · rw [if_pos h3]
      exact ⟨_, rfl, hv, le_trans hve hle3⟩
    rw [if_neg h3]
    by_cases h4 : p.DivisorT = 1
    · rw [if_pos h4, hm]
      have hprod : |(p.MT : ℚ) * v| ≤ 2 ^ (e + 3) := by
        rw [abs_mul, two_zpow_add_three]
        exact mul_le_mul hMTq hve (abs_nonneg _) (by norm_num)
      obtain ⟨b1, b2, b3⟩ := binary32_of_abs_le _ (e + 3) (by omega) (by omega) hprod
      simp only [bind, Except.bind, b1]
      exact ⟨_, rfl, b3, b2⟩
    · rw [if_neg h4, hm, hd]
      have hq : |(p.MT : ℚ) / (p.DivisorT : ℚ)| ≤ 2 ^ (3 : Int) := by
        have hDq : (1 : ℚ) ≤ (p.DivisorT : ℚ) := by exact_mod_cast hD1
        rw [abs_div, abs_of_pos (by linarith : (0 : ℚ) < (p.DivisorT : ℚ)),
          div_le_iff₀ (by linarith)]
        norm_num
        nlinarith [abs_nonneg (p.MT : ℚ)]
      obtain ⟨c1, c2, c3⟩ := binary32_of_abs_le _ 3 (by norm_num) (by norm_num) hq
      have hprod : |v * binary32_round ((p.MT : ℚ) / (p.DivisorT : ℚ))| ≤ 2 ^ (e + 3) := by
        rw [abs_mul, two_zpow_add_three, mul_comm]
        have c2' : |binary32_round ((p.MT : ℚ) / (p.DivisorT : ℚ))| ≤ 8 := by
          norm_num at c2
          exact c2
        exact mul_le_mul c2' hve (abs_nonneg _) (by norm_num)
      obtain ⟨b1, b2, b3⟩ := binary32_of_abs_le _ (e + 3) (by omega) (by omega) hprod
      simp only [bind, Except.bind, c1, b1]
      exact ⟨_, rfl, b3, b2⟩
  obtain ⟨a0, e0, b0⟩ := ProxyElement_mul_binary32_ok ⟨n0, D⟩ h0 hD1 hD8 P0 hP0.1 e he0 (by omega) hP0.2
  obtain ⟨a1, e1, b1⟩ := ProxyElement_mul_binary32_ok ⟨n1, D⟩ h1 hD1 hD8 P1 hP1.1 e he0 (by omega) hP1.2
  obtain ⟨a2, e2, b2⟩ := ProxyElement_mul_binary32_ok ⟨n2, D⟩ h2 hD1 hD8 P2 hP2.1 e he0 (by omega) hP2.2
  obtain ⟨a3, e3, b3⟩ := ProxyElement_mul_binary32_ok ⟨n3, D⟩ h3 hD1 hD8 P3 hP3.1 e he0 (by omega) hP3.2
  obtain ⟨s1, f1, c1⟩ := PVal_add_binary32_ok a0 a1 (e + 3) (by omega) (by omega) b0 b1
  obtain ⟨s2, f2, c2⟩ := PVal_add_binary32_ok s1 a2 (e + 3 + 1) (by omega) (by omega) c1
    (PVal_isBinary32_mono (two_zpow_le (by omega)) a2 b2)
  obtain ⟨s3, f3, c3⟩ := PVal_add_binary32_ok s2 a3 (e + 3 + 1 + 1) (by omega) (by omega) c2
    (PVal_isBinary32_mono (two_zpow_le (by omega)) a3 b3)
  refine ⟨s3, ?_, ?_⟩
  · unfold spline_weighted_row_binary32
    simp only [bind, Except.bind, e0, e1, e2, e3, f1, f2, f3]
  · rw [show e + 6 = e + 3 + 1 + 1 + 1 by ring]
    exact c3

/-- The numerators of a matrix, one by one. -/
theorem StaticMatrix44_numerators_le (M : StaticMatrix44) (hM : ∀ m ∈ M.numerators, |m| ≤ 8) :
    (|M.M00| ≤ 8 ∧ |M.M01| ≤ 8 ∧ |M.M02| ≤ 8 ∧ |M.M03| ≤ 8) ∧
    (|M.M10| ≤ 8 ∧ |M.M11| ≤ 8 ∧ |M.M12| ≤ 8 ∧ |M.M13| ≤ 8) ∧
    (|M.M20| ≤ 8 ∧ |M.M21| ≤ 8 ∧ |M.M22| ≤ 8 ∧ |M.M23| ≤ 8) ∧
    (|M.M30| ≤ 8 ∧ |M.M31| ≤ 8 ∧ |M.M32| ≤ 8 ∧ |M.M33| ≤ 8) := by
  have h : ∀ m, m ∈ M.numerators → |m| ≤ 8 := hM
  unfold StaticMatrix44.numerators at h
  refine ⟨⟨h _ ?_, h _ ?_, h _ ?_, h _ ?_⟩, ⟨h _ ?_, h _ ?_, h _ ?_, h _ ?_⟩,
    ⟨h _ ?_, h _ ?_, h _ ?_, h _ ?_⟩, ⟨h _ ?_, h _ ?_, h _ ?_, h _ ?_⟩⟩ <;> simp

theorem binary32_zero : binary32 0 = Except.ok 0 := by
  unfold binary32
  rw [binary32_round_zero, if_pos (by norm_num)]

/-- The weighted sum of the linear basis in binary32: `(-P1 + P2)*x + P1`, each of the
three operations rounded. -/
theorem spline_weighted_sum_binary32_linear (P0 P1 P2 P3 x : ℚ) :
    spline_weighted_sum_binary32 linearWeights P0 P1 P2 P3 x
      = (do
          let d ← binary32 (-P1 + P2)
          let p ← binary32 (d * x)
          binary32 (p + P1)) := by
  unfold spline_weighted_sum_binary32 spline_weighted_row_binary32
  simp only [linearWeights, StaticMatrix44.m00, StaticMatrix44.m01, StaticMatrix44.m02,
    StaticMatrix44.m03, StaticMatrix44.m10, StaticMatrix44.m11, StaticMatrix44.m12,
    StaticMatrix44.m13, StaticMatrix44.m20, StaticMatrix44.m21, StaticMatrix44.m22,
    StaticMatrix44.m23, StaticMatrix44.m30, StaticMatrix44.m31, StaticMatrix44.m32,
    StaticMatrix44.m33, ProxyElement.mul_binary32]
  simp only [if_true, bind, Except.bind, pure, Except.pure, PVal.add_binary32,
    PVal.mul_binary32]
  norm_num
  cases h1 : binary32 (-P1 + P2) with
  | error err => rfl
  | ok d =>
    simp only [PVal.mul_binary32, PVal.add_binary32, bind, Except.bind, pure, Except.pure]
    cases h2 : binary32 (d * x) with
    | error err => rfl
    | ok p =>
      simp only [PVal.add_binary32, bind, Except.bind, pure, Except.pure]
      cases h3 : binary32 (p + P1) with
      | error err => rfl
      | ok r => rfl

/-! ## Segment selection in binary32: the contract of the selector -/

/-- Claim C9, as amended. For a basis step of 1, 2 or 3, a knot count of at least four
that gives fewer than `2^31 - 64` segments, and every parameter `x`: the evaluator's
segment count `((knot_count - 4) / step) + 1` is at least one; its scaled parameter is the
binary32 product `t = clamp(x, 0, 1) * (float)nsegs`, the conversion and the product
rounded to the nearest `float`; the cast `(int)t` has a value; its segment is
`segnum = clamp(floor(t), 0, nsegs - 1)` of that rounded `t`, which lies in
`0 .. nsegs - 1`; its local parameter is the binary32 difference `u = t - (float)segnum`;
and the evaluator of a non-constant basis, over a buffer that holds the knots, reads the
four knots from `segnum * step` on and returns their weighted sum in binary32 at `u`. -/
theorem spline_weighted_evaluate_binary32_segment (basis_step : Int)
    (hstep : basis_step = 1 ∨ basis_step = 2 ∨ basis_step = 3) (knot_count : Int)
    (hk : 4 ≤ knot_count) (hcount : spline_nsegs knot_count basis_step < 2 ^ 31 - 64)
    (x : ℚ) :
    1 ≤ spline_nsegs knot_count basis_step ∧
    spline_nsegs knot_count basis_step = (knot_count - 4) / basis_step + 1 ∧
    spline_scaled_x_binary32 x (spline_nsegs knot_count basis_step)
      = SegmentSelector_t_binary32 x (spline_nsegs knot_count basis_step) ∧
    float_to_int_defined
      (removeDerivatives (spline_scaled_x_binary32 x (spline_nsegs knot_count basis_step))) ∧
    spline_segnum_binary32 x (spline_nsegs knot_count basis_step)
      = SegmentSelector_segnum_binary32 x (spline_nsegs knot_count basis_step) ∧
    0 ≤ SegmentSelector_segnum_binary32 x (spline_nsegs knot_count basis_step) ∧
    SegmentSelector_segnum_binary32 x (spline_nsegs knot_count basis_step)
      ≤ spline_nsegs knot_count basis_step - 1 ∧
    spline_local_x_binary32 x (spline_nsegs knot_count basis_step)
      = SegmentSelector_u_binary32 x (spline_nsegs knot_count basis_step) ∧
    (∀ (M : StaticMatrix44) (knots : List ℚ), knot_count ≤ knots.length →
      ∃ P : Fin 4 → ℚ,
        (∀ j : Fin 4, knotAt knots
          (SegmentSelector_segnum_binary32 x (spline_nsegs knot_count basis_step) * basis_step
            + ((j : Nat) : Int)) = Except.ok (P j)) ∧
        spline_weighted_evaluate_binary32 M false basis_step x knots knot_count
          = spline_weighted_sum_binary32 M (P 0) (P 1) (P 2) (P 3)
              (SegmentSelector_u_binary32 x (spline_nsegs knot_count basis_step))) := by
  have spline_scaled_x_binary32_eq : ∀ (x : ℚ) (nsegs : Int),
      spline_scaled_x_binary32 x nsegs = SegmentSelector_t_binary32 x nsegs := by
    intro x nsegs
    unfold spline_scaled_x_binary32 SegmentSelector_t_binary32
    rw [clamp_in_place_eq]
  have spline_segnum_binary32_eq_selector : ∀ (x : ℚ) (nsegs : Int) (hn : 1 ≤ nsegs),
      spline_segnum_binary32 x nsegs = SegmentSelector_segnum_binary32 x nsegs := by
    intro x nsegs hn
    rw [spline_segnum_binary32_eq x nsegs hn, spline_scaled_x_binary32_eq]
    rfl
  have spline_local_x_binary32_eq : ∀ (x : ℚ) (nsegs : Int) (hn : 1 ≤ nsegs),
      spline_local_x_binary32 x nsegs = SegmentSelector_u_binary32 x nsegs := by
    intro x nsegs hn
    unfold spline_local_x_binary32 SegmentSelector_u_binary32
    rw [spline_segnum_binary32_eq_selector x nsegs hn, spline_scaled_x_binary32_eq]
  have hs : 0 < basis_step := by omega
  have hn := spline_nsegs_pos knot_count basis_step hk hs
  have hseg := spline_segnum_binary32_eq_selector x (spline_nsegs knot_count basis_step) hn
  have hcast := float_to_int_defined_scaled x (spline_nsegs knot_count basis_step) hn hcount
  refine ⟨hn, ?_, spline_scaled_x_binary32_eq _ _, hcast, hseg, ?_, ?_,
    spline_local_x_binary32_eq _ _ hn, ?_⟩
  · unfold spline_nsegs
    rw [Int.tdiv_eq_ediv (by omega) (le_of_lt hs)]
  · rw [← hseg]
    exact spline_segnum_binary32_nonneg _ _ hn
  · rw [← hseg]
    exact spline_segnum_binary32_le _ _
  · intro M knots hlen
    rw [← hseg, ← spline_local_x_binary32_eq _ _ hn]
    exact spline_weighted_evaluate_binary32_ok M basis_step hs x knots knot_count hk hlen hcast

/-- Witness of claim C9 as amended: step 2, six knots, parameter `3/4`. -/
theorem spline_weighted_evaluate_binary32_segment_witness :
    (((2 : Int) = 1 ∨ (2 : Int) = 2 ∨ (2 : Int) = 3) ∧ (4 : Int) ≤ 6 ∧
      spline_nsegs 6 2 < 2 ^ 31 - 64) ∧
    (1 ≤ spline_nsegs 6 2 ∧
    spline_nsegs 6 2 = (6 - 4) / 2 + 1 ∧
    spline_scaled_x_binary32 (3/4) (spline_nsegs 6 2)
      = SegmentSelector_t_binary32 (3/4) (spline_nsegs 6 2) ∧
    float_to_int_defined (removeDerivatives (spline_scaled_x_binary32 (3/4) (spline_nsegs 6 2))) ∧
    spline_segnum_binary32 (3/4) (spline_nsegs 6 2)
      = SegmentSelector_segnum_binary32 (3/4) (spline_nsegs 6 2) ∧
    0 ≤ SegmentSelector_segnum_binary32 (3/4) (spline_nsegs 6 2) ∧
    SegmentSelector_segnum_binary32 (3/4) (spline_nsegs 6 2) ≤ spline_nsegs 6 2 - 1 ∧
    spline_local_x_binary32 (3/4) (spline_nsegs 6 2)
      = SegmentSelector_u_binary32 (3/4) (spline_nsegs 6 2) ∧
    (∀ (M : StaticMatrix44) (knots : List ℚ), (6 : Int) ≤ knots.length →
      ∃ P : Fin 4 → ℚ,
        (∀ j : Fin 4, knotAt knots
          (SegmentSelector_segnum_binary32 (3/4) (spline_nsegs 6 2) * 2
            + ((j : Nat) : Int)) = Except.ok (P j)) ∧
        spline_weighted_evaluate_binary32 M false 2 (3/4) knots 6
          = spline_weighted_sum_binary32 M (P 0) (P 1) (P 2) (P 3)
              (SegmentSelector_u_binary32 (3/4) (spline_nsegs 6 2)))) :=
  ⟨⟨by decide, by decide, by decide⟩,
    spline_weighted_evaluate_binary32_segment 2 (by decide) 6 (by decide) (by decide) (3/4)⟩

/-- Counterexample to claim C9 as stated: the `float` `x = 13981013/16777216`
(`0x1.aaaaaap-1`) and nine knots under a basis of step 1, hence six segments. The exact
product `x * 6` is `4.9999998...` with the floor 4, but the product in binary32 is `5`, so
the evaluator's segment is 5, not `clamp(floor(x * nsegs), 0, nsegs - 1) = 4`: the
constant basis on the knots `0, 1, ..., 8` returns the knot `6`, where the segment of
the claim gives the knot `5`. And with `2147483587` knots under a basis of step 1, hence
`2^31 - 64` segments, the conversion `(float)nsegs` is `2^31`, so at `x = 1` the cast
`(int)seg_x` has no value and the evaluator computes no segment, whatever the knots. -/
theorem spline_segnum_binary32_not_floor_of_product :
    (binary32_round (13981013/16777216) = 13981013/16777216 ∧
    spline_nsegs 9 1 = 6 ∧
    SegmentSelector_t (13981013/16777216) 6 = 41943039/8388608 ∧
    SegmentSelector_segnum (13981013/16777216) 6 = 4 ∧
    spline_scaled_x_binary32 (13981013/16777216) 6 = 5 ∧
    spline_segnum_binary32 (13981013/16777216) 6 = 5 ∧
    spline_evaluate_scalar spline_weighted_evaluate_binary32 "constant" (13981013/16777216)
      [0, 1, 2, 3, 4, 5, 6, 7, 8] 9 = Except.ok 6 ∧
    knotAt ([0, 1, 2, 3, 4, 5, 6, 7, 8] : List ℚ)
      (SegmentSelector_segnum (13981013/16777216) 6 + 1) = Except.ok 5) ∧
    ((4 : Int) ≤ 2147483587 ∧ spline_nsegs 2147483587 1 = 2 ^ 31 - 64 ∧
    binary32_round ((2 ^ 31 - 64 : Int) : ℚ) = 2 ^ 31 ∧
    spline_scaled_x_binary32 1 (2 ^ 31 - 64) = 2 ^ 31 ∧
    ¬ float_to_int_defined (removeDerivatives (spline_scaled_x_binary32 1 (2 ^ 31 - 64))) ∧
    ∀ knots : List ℚ,
      spline_evaluate_scalar spline_weighted_evaluate_binary32 "constant" 1 knots 2147483587
        = Except.error SplineError.castOutOfRange) := by
  have hn : spline_nsegs 2147483587 1 = 2 ^ 31 - 64 := by decide
  have hd : ¬ float_to_int_defined
      (removeDerivatives (spline_scaled_x_binary32 1 (2 ^ 31 - 64))) := by decide!
  refine ⟨⟨by decide!, by decide, by decide!, by decide!, by decide!, by decide!, by decide!,
    by decide!⟩, by decide, hn, by decide!, by decide!, hd, fun knots => ?_⟩
  have ht : getSplineBasisType "constant" = 5 := by decide
  simp only [spline_evaluate_scalar, ht]
  unfold spline_weighted_evaluate_binary32
  simp only [hn, if_neg hd]

/-- The local parameter of the evaluator in binary32, for a binary32 parameter and at
most `2^24` segments: it lies in `[0, 1]`, and it is 1 exactly from `x = 1` on. -/
theorem spline_local_x_binary32_cases (x : ℚ) (hfx : binary32_round x = x) (nsegs : Int)
    (hn : 1 ≤ nsegs) (hn24 : nsegs ≤ 2 ^ 24) :
    0 ≤ spline_local_x_binary32 x nsegs ∧ spline_local_x_binary32 x nsegs ≤ 1 ∧
    (spline_local_x_binary32 x nsegs = 1 ↔ 1 ≤ x) := by
  rcases le_or_lt 1 x with h1 | h1
  · obtain ⟨_, _, hu⟩ := spline_selector_binary32_one x h1 nsegs hn hn24
    rw [hu]
    exact ⟨by norm_num, le_refl _, fun _ => h1, fun _ => rfl⟩
  · rcases le_or_lt x 0 with h0 | h0
    · obtain ⟨_, _, hu⟩ := spline_selector_binary32_zero x h0 nsegs hn
      rw [hu]
      refine ⟨le_refl _, by norm_num, fun h => absurd h (by norm_num), fun h => ?_⟩
      linarith
    · obtain ⟨_, _, hu⟩ :=
        spline_selector_binary32_interior x hfx (le_of_lt h0) h1 nsegs hn hn24
      have hf0 := Int.floor_le (spline_scaled_x_binary32 x nsegs)
      have hf1 := Int.lt_floor_add_one (spline_scaled_x_binary32 x nsegs)
      rw [hu]
      refine ⟨by linarith, by linarith, fun h => ?_, fun h => ?_⟩
      · linarith
      · linarith

/-- Claim C10, as amended. For every segment count from 1 to `2^24` and every binary32
parameter `x` in `[0, 1]`, the local parameter `u` that the evaluator computes in
binary32, `u = t - (float)segnum` for `t = x*(float)nsegs`, satisfies `0 <= u <= 1`,
and `u < 1` holds exactly when `x < 1`. -/
theorem spline_local_x_binary32_mem (nsegs : Int) (hn : 1 ≤ nsegs) (hn24 : nsegs ≤ 2 ^ 24)
    (x : ℚ) (hfx : binary32_round x = x) (h0 : 0 ≤ x) (h1 : x ≤ 1) :
    0 ≤ spline_local_x_binary32 x nsegs ∧ spline_local_x_binary32 x nsegs ≤ 1 ∧
      (spline_local_x_binary32 x nsegs < 1 ↔ x < 1) := by
  obtain ⟨a, b, c⟩ := spline_local_x_binary32_cases x hfx nsegs hn hn24
  refine ⟨a, b, fun h => ?_, fun h => ?_⟩
  · by_contra hx
    have : spline_local_x_binary32 x nsegs = 1 := c.mpr (not_lt.mp hx)
    linarith
  · rcases lt_or_eq_of_le b with hlt | heq
    · exact hlt
    · have := c.mp heq
      linarith

/-- Witness of claim C10 as amended: three segments, parameter `1/2`. -/
theorem spline_local_x_binary32_mem_witness :
    ((1 : Int) ≤ 3 ∧ (3 : Int) ≤ 2 ^ 24 ∧ binary32_round (1/2) = 1/2 ∧ (0 : ℚ) ≤ 1/2 ∧
      (1/2 : ℚ) ≤ 1) ∧
    (0 ≤ spline_local_x_binary32 (1/2) 3 ∧ spline_local_x_binary32 (1/2) 3 ≤ 1 ∧
      (spline_local_x_binary32 (1/2) 3 < 1 ↔ (1/2 : ℚ) < 1)) :=
  ⟨⟨by decide, by decide, by decide!, by norm_num, by norm_num⟩,
    spline_local_x_binary32_mem 3 (by decide) (by decide) (1/2) (by decide!) (by norm_num)
      (by norm_num)⟩

/-- Counterexample to claim C10 as stated: with one segment and the clamped parameter
`x = 1` the local parameter in binary32 is `1`, which is not below `1`; and with
`16777219` segments, a number that `(float)nsegs` rounds up to `16777220`, the local
parameter at `x = 1` is `2`. Right above `2^24` segments, with `16777217` of them,
`(float)nsegs` is `16777216` and the local parameter at `x = 1` is `0`, as it is at
`x = 0`. -/
theorem spline_local_x_binary32_not_lt_one :
    ((1 : Int) ≤ 1 ∧ (0 : ℚ) ≤ 1 ∧ (1 : ℚ) ≤ 1 ∧ spline_local_x_binary32 1 1 = 1 ∧
      ¬ (spline_local_x_binary32 1 1 < 1)) ∧
    ((1 : Int) ≤ 16777219 ∧ binary32_round 16777219 = 16777220 ∧
      spline_scaled_x_binary32 1 16777219 = 16777220 ∧
      spline_segnum_binary32 1 16777219 = 16777218 ∧ spline_local_x_binary32 1 16777219 = 2 ∧
      ¬ (spline_local_x_binary32 1 16777219 < 1)) ∧
    (binary32_round 16777217 = 16777216 ∧ spline_segnum_binary32 1 16777217 = 16777216 ∧
      spline_local_x_binary32 1 16777217 = 0) := by
  refine ⟨⟨by decide, by norm_num, by norm_num, by decide!, by decide!⟩,
    ⟨by decide, by decide!, by decide!, by decide!, by decide!, by decide!⟩,
    by decide!, by decide!, by decide!⟩

/-- Claim C28, as amended. For every knot count of at least four and every basis step
that give at most `2^24` segments, and every binary32 parameter `x`, the local parameter
`u` that the evaluator uses in the Horner form, computed in binary32, satisfies
`0 <= u <= 1`, and `u = 1` holds exactly when `x >= 1`. -/
theorem spline_local_x_binary32_unit_interval (knot_count basis_step : Int)
    (hk : 4 ≤ knot_count) (hs : 0 < basis_step)
    (hn24 : spline_nsegs knot_count basis_step ≤ 2 ^ 24) (x : ℚ)
    (hfx : binary32_round x = x) :
    0 ≤ spline_local_x_binary32 x (spline_nsegs knot_count basis_step) ∧
    spline_local_x_binary32 x (spline_nsegs knot_count basis_step) ≤ 1 ∧
    (spline_local_x_binary32 x (spline_nsegs knot_count basis_step) = 1 ↔ 1 ≤ x) :=
  spline_local_x_binary32_cases x hfx (spline_nsegs knot_count basis_step)
    (spline_nsegs_pos knot_count basis_step hk hs) hn24

/-- Witness of claim C28 as amended: seven knots, step 3, parameter `5/4`. -/
theorem spline_local_x_binary32_unit_interval_witness :
    ((4 : Int) ≤ 7 ∧ (0 : Int) < 3 ∧ spline_nsegs 7 3 ≤ 2 ^ 24 ∧
      binary32_round (5/4) = 5/4) ∧
    (0 ≤ spline_local_x_binary32 (5/4) (spline_nsegs 7 3) ∧
    spline_local_x_binary32 (5/4) (spline_nsegs 7 3) ≤ 1 ∧
    (spline_local_x_binary32 (5/4) (spline_nsegs 7 3) = 1 ↔ (1 : ℚ) ≤ 5/4)) :=
  ⟨⟨by decide, by decide, by decide, by decide!⟩,
    spline_local_x_binary32_unit_interval 7 3 (by decide) (by decide) (by decide) (5/4)
      (by decide!)⟩

/-- Counterexample to claim C28 as stated: `16777222` knots under a basis of step 1,
hence `16777219` segments, and `x = 1`. The conversion `(float)nsegs` is `16777220`, the
segment is the last one, `16777218`, and the local parameter is `2`. With `16777220`
knots, hence `2^24 + 1` segments, `(float)nsegs` is `16777216` and the local parameter at
`x = 1` is `0`, not `1`. -/
theorem spline_local_x_binary32_above_one :
    ((4 : Int) ≤ 16777222 ∧ spline_nsegs 16777222 1 = 16777219 ∧
    binary32_round 1 = 1 ∧
    spline_segnum_binary32 1 (spline_nsegs 16777222 1) = spline_nsegs 16777222 1 - 1 ∧
    spline_local_x_binary32 1 (spline_nsegs 16777222 1) = 2 ∧
    ¬ (spline_local_x_binary32 1 (spline_nsegs 16777222 1) ≤ 1)) ∧
    ((4 : Int) ≤ 16777220 ∧ spline_nsegs 16777220 1 = 2 ^ 24 + 1 ∧
    spline_segnum_binary32 1 (spline_nsegs 16777220 1) = spline_nsegs 16777220 1 - 1 ∧
    spline_local_x_binary32 1 (spline_nsegs 16777220 1) = 0 ∧
    ¬ (spline_local_x_binary32 1 (spline_nsegs 16777220 1) = 1)) := by
  refine ⟨⟨by decide, by decide, by decide!, by decide!, by decide!, by decide!⟩,
    by decide, by decide, by decide!, by decide!, by decide!⟩

/-! ## The end knots in binary32 -/

theorem knotAt_mem (knots : List ℚ) (i : Int) (v : ℚ) (h : knotAt knots i = Except.ok v) :
    v ∈ knots := by
  unfold knotAt at h
  split_ifs at h with hi
  cases hg : knots[i.toNat]? with
  | none => rw [hg] at h; cases h
  | some k =>
    rw [hg] at h
    cases h
    exact List.getElem?_mem hg

/-- Claim C21, as amended. For every record of the basis table, with step `s`, and every
knot count of at least four, in binary32: two knot sequences that agree at the indices
`0 .. 3` give the same result of `spline_evaluate_scalar` at the parameter `0`; when there
are at most `2^25 + 1` segments, two knot sequences that agree at the indices
`(nsegs-1)*s .. (nsegs-1)*s + 3` give the same result at the parameter `1`; and over a
buffer that holds `knot_count` binary32 knots of magnitude at most `2^100` the evaluator
returns at the parameter `0`, and with at most `2^24` segments at the parameter `1`. -/
theorem spline_evaluate_scalar_binary32_end_knots (b : SplineBasis) (hb : b ∈ gBasisSet)
    (knot_count : Int) (hk : 4 ≤ knot_count) (knots1 knots2 : List ℚ)
    (hlen1 : knot_count ≤ knots1.length) :
    ((∀ i : Nat, i ≤ 3 → knots1[i]? = knots2[i]?) →
      spline_evaluate_scalar spline_weighted_evaluate_binary32 b.basis_name 0 knots1 knot_count
        = spline_evaluate_scalar spline_weighted_evaluate_binary32 b.basis_name 0 knots2
            knot_count) ∧
    (spline_nsegs knot_count b.basis_step ≤ 2 ^ 25 + 1 →
      (∀ i : Nat, (spline_nsegs knot_count b.basis_step - 1) * b.basis_step ≤ (i : Int) →
        (i : Int) ≤ (spline_nsegs knot_count b.basis_step - 1) * b.basis_step + 3 →
        knots1[i]? = knots2[i]?) →
      spline_evaluate_scalar spline_weighted_evaluate_binary32 b.basis_name 1 knots1 knot_count
        = spline_evaluate_scalar spline_weighted_evaluate_binary32 b.basis_name 1 knots2
            knot_count) ∧
    ((∀ k ∈ knots1, binary32_round k = k ∧ |k| ≤ 2 ^ (100 : Int)) →
      (∃ r, spline_evaluate_scalar spline_weighted_evaluate_binary32 b.basis_name 0 knots1
        knot_count = Except.ok r) ∧
      (spline_nsegs knot_count b.basis_step ≤ 2 ^ 24 →
        ∃ r, spline_evaluate_scalar spline_weighted_evaluate_binary32 b.basis_name 1 knots1
          knot_count = Except.ok r)) := by
  -- Over a buffer of binary32 knots of magnitude at most `2^100`, where the cast has a
  -- value and at a local parameter of magnitude at most 1, the evaluator in binary32 returns a
  -- finite value.
  have spline_weighted_evaluate_binary32_returns : ∀ (M : StaticMatrix44) (c : Bool)
      (hM : ∀ m ∈ M.numerators, |m| ≤ 8) (hD1 : 1 ≤ M.DivisorT) (hD8 : M.DivisorT ≤ 8)
      (basis_step : Int) (hs : 0 < basis_step) (x : ℚ) (knots : List ℚ) (knot_count : Int)
      (hk : 4 ≤ knot_count) (hlen : knot_count ≤ knots.length)
      (hcast : float_to_int_defined
        (removeDerivatives (spline_scaled_x_binary32 x (spline_nsegs knot_count basis_step))))
      (hu : |spline_local_x_binary32 x (spline_nsegs knot_count basis_step)| ≤ 1)
      (hknots : ∀ k ∈ knots, binary32_round k = k ∧ |k| ≤ 2 ^ (100 : Int)),
      ∃ r, spline_weighted_evaluate_binary32 M c basis_step x knots knot_count = Except.ok r := by
    intro M c hM hD1 hD8 basis_step hs x knots knot_count hk hlen hcast hu hknots
    -- Over binary32 knots of magnitude at most `2^e` and at a local parameter of magnitude
    -- at most 1, the weighted sum in binary32 is a finite binary32 number.
    have spline_weighted_sum_binary32_ok : ∀ (M : StaticMatrix44)
        (hM : ∀ m ∈ M.numerators, |m| ≤ 8) (hD1 : 1 ≤ M.DivisorT) (hD8 : M.DivisorT ≤ 8)
        (P0 P1 P2 P3 x : ℚ) (hx : |x| ≤ 1) (e : Int) (he0 : -149 ≤ e) (he : e ≤ 118)
        (hP0 : binary32_round P0 = P0 ∧ |P0| ≤ 2 ^ e) (hP1 : binary32_round P1 = P1 ∧ |P1| ≤ 2 ^ e)
        (hP2 : binary32_round P2 = P2 ∧ |P2| ≤ 2 ^ e) (hP3 : binary32_round P3 = P3 ∧ |P3| ≤ 2 ^ e),
        ∃ r, spline_weighted_sum_binary32 M P0 P1 P2 P3 x = Except.ok r ∧
          binary32_round r = r ∧ |r| ≤ 2 ^ (e + 9) := by
      intro M hM hD1 hD8 P0 P1 P2 P3 x hx e he0 he hP0 hP1 hP2 hP3
      -- The Horner form `((tk0*x + tk1)*x + tk2)*x + tk3` in binary32, for four values.
      have horner_binary32_ok : ∀ (tk0 tk1 tk2 tk3 : PVal) (x : ℚ) (hx : |x| ≤ 1) (e : Int)
          (he0 : -149 ≤ e) (he : e ≤ 124) (h0 : tk0.isBinary32 (2 ^ e)) (h1 : tk1.isBinary32 (2 ^ e))
          (h2 : tk2.isBinary32 (2 ^ e)) (h3 : tk3.isBinary32 (2 ^ e)),
          ∃ r, (do
              let h1 ← tk0.mul_binary32 x
              let h2 ← h1.add_binary32 tk1
              let h3 ← h2.mul_binary32 x
              let h4 ← h3.add_binary32 tk2
              let h5 ← h4.mul_binary32 x
              let h6 ← h5.add_binary32 tk3
              (pure (unproxy_element h6) : Except SplineError ℚ)) = Except.ok r ∧
            binary32_round r = r ∧ |r| ≤ 2 ^ (e + 3) := by
        intro tk0 tk1 tk2 tk3 x hx e he0 he h0 h1 h2 h3
        -- The product of a value of magnitude at most `2^e` and a parameter of magnitude at
        -- most 1 is a value of magnitude at most `2^e`.
        have PVal_mul_binary32_ok : ∀ (a : PVal) (x : ℚ) (hx : |x| ≤ 1) (e : Int) (he0 : -149 ≤ e)
            (he : e ≤ 127) (ha : a.isBinary32 (2 ^ e)),
            ∃ r, a.mul_binary32 x = Except.ok r ∧ r.isBinary32 (2 ^ e) := by
          intro a x hx e he0 he ha
          cases a with
          | zero d => exact ⟨_, rfl, trivial⟩
          | value v =>
            have hprod : |v * x| ≤ 2 ^ e := by
              rw [abs_mul]
              calc |v| * |x| ≤ 2 ^ e * 1 := mul_le_mul ha.2 hx (abs_nonneg _) (le_of_lt (two_zpow_pos e))
                _ = 2 ^ e := mul_one _
            obtain ⟨b1, b2, b3⟩ := binary32_of_abs_le _ e he0 he hprod
            refine ⟨PVal.value (binary32_round (v * x)), ?_, b3, b2⟩
            show (do let r ← binary32 (v * x); pure (PVal.value r)) = _
            rw [b1]
            rfl
        obtain ⟨g1, e1, b1⟩ := PVal_mul_binary32_ok tk0 x hx e he0 (by omega) h0
        obtain ⟨g2, e2, b2⟩ := PVal_add_binary32_ok g1 tk1 e he0 (by omega) b1 h1
        obtain ⟨g3, e3, b3⟩ := PVal_mul_binary32_ok g2 x hx (e + 1) (by omega) (by omega) b2
        obtain ⟨g4, e4, b4⟩ := PVal_add_binary32_ok g3 tk2 (e + 1) (by omega) (by omega) b3
          (PVal_isBinary32_mono (two_zpow_le (by omega)) tk2 h2)
        obtain ⟨g5, e5, b5⟩ := PVal_mul_binary32_ok g4 x hx (e + 1 + 1) (by omega) (by omega) b4
        obtain ⟨g6, e6, b6⟩ := PVal_add_binary32_ok g5 tk3 (e + 1 + 1) (by omega) (by omega) b5
          (PVal_isBinary32_mono (two_zpow_le (by omega)) tk3 h3)
        refine ⟨unproxy_element g6, ?_, ?_⟩
        · simp only [bind, Except.bind, e1, e2, e3, e4, e5, e6]
          rfl
        · rw [show e + 3 = e + 1 + 1 + 1 by ring]
          cases g6 with
          | zero d =>
            rw [unproxy_element_zero]
            exact ⟨binary32_round_zero, by rw [abs_zero]; exact le_of_lt (two_zpow_pos _)⟩
          | value v => exact b6
      obtain ⟨⟨a0, a1, a2, a3⟩, ⟨b0, b1, b2, b3⟩, ⟨c0, c1, c2, c3⟩, ⟨d0, d1, d2, d3⟩⟩ :=
        StaticMatrix44_numerators_le M hM
      obtain ⟨tk0, e0, f0⟩ := spline_weighted_row_binary32_ok _ _ _ _ M.DivisorT a0 a1 a2 a3 hD1 hD8
        P0 P1 P2 P3 e he0 (by omega) hP0 hP1 hP2 hP3
      obtain ⟨tk1, e1, f1⟩ := spline_weighted_row_binary32_ok _ _ _ _ M.DivisorT b0 b1 b2 b3 hD1 hD8
        P0 P1 P2 P3 e he0 (by omega) hP0 hP1 hP2 hP3
      obtain ⟨tk2, e2, f2⟩ := spline_weighted_row_binary32_ok _ _ _ _ M.DivisorT c0 c1 c2 c3 hD1 hD8
        P0 P1 P2 P3 e he0 (by omega) hP0 hP1 hP2 hP3
      obtain ⟨tk3, e3, f3⟩ := spline_weighted_row_binary32_ok _ _ _ _ M.DivisorT d0 d1 d2 d3 hD1 hD8
        P0 P1 P2 P3 e he0 (by omega) hP0 hP1 hP2 hP3
      obtain ⟨r, hr, g1, g2⟩ := horner_binary32_ok tk0 tk1 tk2 tk3 x hx (e + 6) (by omega) (by omega)
        f0 f1 f2 f3
      refine ⟨r, ?_, g1, ?_⟩
      · unfold spline_weighted_sum_binary32
        simp only [StaticMatrix44.m00, StaticMatrix44.m01, StaticMatrix44.m02, StaticMatrix44.m03,
          StaticMatrix44.m10, StaticMatrix44.m11, StaticMatrix44.m12, StaticMatrix44.m13,
          StaticMatrix44.m20, StaticMatrix44.m21, StaticMatrix44.m22, StaticMatrix44.m23,
          StaticMatrix44.m30, StaticMatrix44.m31, StaticMatrix44.m32, StaticMatrix44.m33]
        rw [e0, e1, e2, e3]
        exact hr
      · rw [show e + 9 = e + 6 + 3 by ring]
        exact g2
    cases c with
    | true =>
      rw [spline_weighted_evaluate_binary32_constant _ _ _ _ _ hcast]
      have hn := spline_nsegs_pos knot_count basis_step hk hs
      have hn2 := spline_nsegs_le knot_count basis_step hk hs
      have h0 := spline_segnum_binary32_nonneg x (spline_nsegs knot_count basis_step) hn
      have h1 := spline_segnum_binary32_le x (spline_nsegs knot_count basis_step)
      exact knotAt_ok knots _ (by omega) (by omega)
    | false =>
      obtain ⟨P, hP, he⟩ :=
        spline_weighted_evaluate_binary32_ok M basis_step hs x knots knot_count hk hlen hcast
      obtain ⟨r, hr, _, _⟩ := spline_weighted_sum_binary32_ok M hM hD1 hD8 (P 0) (P 1) (P 2) (P 3)
        _ hu 100 (by norm_num) (by norm_num) (hknots _ (knotAt_mem _ _ _ (hP 0)))
        (hknots _ (knotAt_mem _ _ _ (hP 1))) (hknots _ (knotAt_mem _ _ _ (hP 2)))
        (hknots _ (knotAt_mem _ _ _ (hP 3)))
      exact ⟨r, he.trans hr⟩
  -- The evaluator in binary32 reads the four knots of its segment only; in the constant
  -- branch, where the step is one, the knot it reads is one of them.
  have spline_weighted_evaluate_binary32_congr_segment : ∀ (M : StaticMatrix44) (c : Bool)
      (basis_step : Int) (hc : c = true → basis_step = 1) (x : ℚ) (knots1 knots2 : List ℚ)
      (knot_count : Int)
      (h : ∀ i : Nat,
        spline_segnum_binary32 x (spline_nsegs knot_count basis_step) * basis_step ≤ (i : Int) →
        (i : Int) ≤ spline_segnum_binary32 x (spline_nsegs knot_count basis_step) * basis_step + 3 →
        knots1[i]? = knots2[i]?),
      spline_weighted_evaluate_binary32 M c basis_step x knots1 knot_count
        = spline_weighted_evaluate_binary32 M c basis_step x knots2 knot_count := by
    intro M c basis_step hc x knots1 knots2 knot_count h
    have hr : ∀ i : Int,
        spline_segnum_binary32 x (spline_nsegs knot_count basis_step) * basis_step ≤ i →
        i ≤ spline_segnum_binary32 x (spline_nsegs knot_count basis_step) * basis_step + 3 →
        knotAt knots1 i = knotAt knots2 i := fun i hi0 hi3 =>
      knotAt_congr knots1 knots2 i (fun hi => h i.toNat (by omega) (by omega))
    unfold spline_weighted_evaluate_binary32
    by_cases hd : float_to_int_defined
        (removeDerivatives (spline_scaled_x_binary32 x (spline_nsegs knot_count basis_step)))
    · cases c with
      | true =>
        have hs1 := hc rfl
        subst hs1
        simp only [if_pos hd, if_true]
        rw [hr _ (by omega) (by omega)]
      | false =>
        simp only [if_pos hd, Bool.false_eq_true, if_false]
        rw [hr _ (le_refl _) (by omega), hr _ (by omega) (by omega), hr _ (by omega) (by omega),
          hr _ (by omega) (le_refl _)]
    · simp only [if_neg hd]
  -- The weights of the dispatch for a record of the basis table have numerators of
  -- magnitude at most 8 over a divisor from 1 to 8.
  have spline_evaluate_scalar_of_table_small : ∀ (b : SplineBasis) (hb : b ∈ gBasisSet),
      ∃ (M : StaticMatrix44) (c : Bool), (∀ m ∈ M.numerators, |m| ≤ 8) ∧ 1 ≤ M.DivisorT ∧
        M.DivisorT ≤ 8 ∧ 0 < b.basis_step ∧ (c = true ↔ b.basis_name = "constant") ∧
        ∀ (XTYPE KTYPE RTYPE : Type) (weighted_evaluate : WeightedEvaluate XTYPE KTYPE RTYPE)
          (x : XTYPE) (knots : List KTYPE) (knot_count : Int),
          spline_evaluate_scalar weighted_evaluate b.basis_name x knots knot_count
            = weighted_evaluate M c b.basis_step x knots knot_count := by
    intro b hb
    simp only [gBasisSet, List.mem_cons, List.mem_singleton, List.not_mem_nil, or_false] at hb
    rcases hb with rfl | rfl | rfl | rfl | rfl | rfl
    · have ht : getSplineBasisType "catmull-rom" = 0 := by decide
      exact ⟨catmullRomWeights, false, by decide, by decide, by decide, by decide, by decide,
        fun _ _ _ _ _ _ _ => by simp only [spline_evaluate_scalar, ht]⟩
    · have ht : getSplineBasisType "bezier" = 1 := by decide
      exact ⟨bezierWeights, false, by decide, by decide, by decide, by decide, by decide,
        fun _ _ _ _ _ _ _ => by simp only [spline_evaluate_scalar, ht]⟩
    · have ht : getSplineBasisType "bspline" = 2 := by decide
      exact ⟨bsplineWeights, false, by decide, by decide, by decide, by decide, by decide,
        fun _ _ _ _ _ _ _ => by simp only [spline_evaluate_scalar, ht]⟩
    · have ht : getSplineBasisType "hermite" = 3 := by decide
      exact ⟨hermiteWeights, false, by decide, by decide, by decide, by decide, by decide,
        fun _ _ _ _ _ _ _ => by simp only [spline_evaluate_scalar, ht]⟩
    · have ht : getSplineBasisType "linear" = 4 := by decide
      exact ⟨linearWeights, false, by decide, by decide, by decide, by decide, by decide,
        fun _ _ _ _ _ _ _ => by simp only [spline_evaluate_scalar, ht]⟩
    · have ht : getSplineBasisType "constant" = 5 := by decide
      exact ⟨constantWeights, true, by decide, by decide, by decide, by decide, by decide,
        fun _ _ _ _ _ _ _ => by simp only [spline_evaluate_scalar, ht]⟩
  -- At a parameter of at least 1 and at most `2^25 + 1` segments the evaluator in
  -- binary32 is in the last segment: the conversion `(float)nsegs` is at least `nsegs - 1`.
  have spline_selector_binary32_last : ∀ (x : ℚ) (hx : 1 ≤ x) (nsegs : Int) (hn : 1 ≤ nsegs)
      (hn25 : nsegs ≤ 2 ^ 25 + 1),
      spline_segnum_binary32 x nsegs = nsegs - 1 := by
    intro x hx nsegs hn hn25
    have hc : clamp_in_place x 0 1 = 1 := (clamp_in_place_eq_one x).mpr hx
    -- the even number `e` of `nsegs - 1` and `nsegs` is a `float`
    have he : binary32_round (((nsegs / 2 : Int) : ℚ) * 2 ^ (1 : Int))
        = ((nsegs / 2 : Int) : ℚ) * 2 ^ (1 : Int) := by
      rcases lt_or_eq_of_le (show nsegs / 2 ≤ 2 ^ 24 by omega) with hlt | heq
      · exact binary32_round_of_mantissa (nsegs / 2) 1 (by norm_num)
          (by rw [abs_of_nonneg (by omega)]; exact hlt)
      · rw [heq]
        have h25 := binary32_round_two_zpow 25 (by norm_num)
        norm_num at h25 ⊢
        exact h25
    have hen : ((nsegs / 2 : Int) : ℚ) * 2 ^ (1 : Int) ≤ (nsegs : ℚ) := by
      have : nsegs / 2 * 2 ≤ nsegs := Int.ediv_mul_le nsegs (by norm_num)
      have hq : ((nsegs / 2 * 2 : Int) : ℚ) ≤ (nsegs : ℚ) := by exact_mod_cast this
      push_cast at hq
      simpa using hq
    have hen1 : (nsegs : ℚ) - 1 ≤ ((nsegs / 2 : Int) : ℚ) * 2 ^ (1 : Int) := by
      have : nsegs - 1 ≤ nsegs / 2 * 2 := by omega
      have hq : ((nsegs - 1 : Int) : ℚ) ≤ ((nsegs / 2 * 2 : Int) : ℚ) := by exact_mod_cast this
      push_cast at hq
      simpa using hq
    have h1 : ((nsegs / 2 : Int) : ℚ) * 2 ^ (1 : Int) ≤ binary32_round (nsegs : ℚ) := by
      rw [← he]
      exact binary32_round_mono hen
    have ht : (nsegs : ℚ) - 1 ≤ spline_scaled_x_binary32 x nsegs := by
      unfold spline_scaled_x_binary32
      simp only [hc, one_mul]
      refine le_trans hen1 ?_
      rw [← he]
      exact binary32_round_mono h1
    have hfl : nsegs - 1 ≤ ⌊spline_scaled_x_binary32 x nsegs⌋ := by
      rw [Int.le_floor]
      push_cast
      exact ht
    rw [spline_segnum_binary32_eq x nsegs hn, min_eq_right hfl, max_eq_right (by omega)]
  have basis_step_of_constant : ∀ (b : SplineBasis) (hb : b ∈ gBasisSet)
      (hc : b.basis_name = "constant"), b.basis_step = 1 := by
    intro b hb hc
    simp only [gBasisSet, List.mem_cons, List.mem_singleton, List.not_mem_nil, or_false] at hb
    rcases hb with rfl | rfl | rfl | rfl | rfl | rfl
    · rfl
    · exact absurd hc (by decide)
    · rfl
    · exact absurd hc (by decide)
    · rfl
    · rfl
  obtain ⟨M, c, hM, hD1, hD8, hs, hc, hcall⟩ := spline_evaluate_scalar_of_table_small b hb
  have hn := spline_nsegs_pos knot_count b.basis_step hk hs
  have hc1 : c = true → b.basis_step = 1 := fun h => basis_step_of_constant b hb (hc.mp h)
  obtain ⟨ht0, hz, hu0⟩ := spline_selector_binary32_zero 0 (le_refl _)
    (spline_nsegs knot_count b.basis_step) hn
  simp only [hcall]
  refine ⟨fun h => ?_, fun hn25 h => ?_, fun hknots => ⟨?_, fun hn24 => ?_⟩⟩
  · refine spline_weighted_evaluate_binary32_congr_segment M c b.basis_step hc1 0 knots1 knots2
      knot_count (fun i hi0 hi3 => h i ?_)
    rw [hz] at hi3
    omega
  · have ho := spline_selector_binary32_last 1 (le_refl _)
      (spline_nsegs knot_count b.basis_step) hn hn25
    refine spline_weighted_evaluate_binary32_congr_segment M c b.basis_step hc1 1 knots1 knots2
      knot_count (fun i hi0 hi3 => h i ?_ ?_)
    · rw [ho] at hi0
      exact hi0
    · rw [ho] at hi3
      exact hi3
  · refine spline_weighted_evaluate_binary32_returns M c hM hD1 hD8 b.basis_step hs 0 knots1
      knot_count hk hlen1 ?_ ?_ hknots
    · rw [ht0]
      exact float_to_int_defined_intCast 0 (by norm_num) (by norm_num)
    · rw [hu0]
      norm_num
  · obtain ⟨_, _, hu1⟩ := spline_selector_binary32_one 1 (le_refl _)
      (spline_nsegs knot_count b.basis_step) hn hn24
    refine spline_weighted_evaluate_binary32_returns M c hM hD1 hD8 b.basis_step hs 1 knots1
      knot_count hk hlen1 ?_ ?_ hknots
    · refine float_to_int_defined_scaled 1 _ hn ?_
      have h24 : (2 : Int) ^ 24 < 2 ^ 31 - 64 := by norm_num
      omega
    · rw [hu1]
      norm_num

/-- Witness of claim C21 as amended: the bezier record (step 3) with the seven knots
`0, 1, 2, 3, 4, 5, 6` and a second sequence. -/
theorem spline_evaluate_scalar_binary32_end_knots_witness :
    (getSplineBasis "bezier" ∈ gBasisSet ∧ (4 : Int) ≤ 7 ∧
      (7 : Int) ≤ ([0, 1, 2, 3, 4, 5, 6] : List ℚ).length) ∧
    (((∀ i : Nat, i ≤ 3 → ([0, 1, 2, 3, 4, 5, 6] : List ℚ)[i]? = ([0, 1, 2, 3, 9, 9, 9] : List ℚ)[i]?) →
      spline_evaluate_scalar spline_weighted_evaluate_binary32 (getSplineBasis "bezier").basis_name
          0 [0, 1, 2, 3, 4, 5, 6] 7
        = spline_evaluate_scalar spline_weighted_evaluate_binary32
            (getSplineBasis "bezier").basis_name 0 [0, 1, 2, 3, 9, 9, 9] 7) ∧
    (spline_nsegs 7 (getSplineBasis "bezier").basis_step ≤ 2 ^ 25 + 1 →
      (∀ i : Nat, (spline_nsegs 7 (getSplineBasis "bezier").basis_step - 1)
          * (getSplineBasis "bezier").basis_step ≤ (i : Int) →
        (i : Int) ≤ (spline_nsegs 7 (getSplineBasis "bezier").basis_step - 1)
          * (getSplineBasis "bezier").basis_step + 3 →
        ([0, 1, 2, 3, 4, 5, 6] : List ℚ)[i]? = ([0, 1, 2, 3, 9, 9, 9] : List ℚ)[i]?) →
      spline_evaluate_scalar spline_weighted_evaluate_binary32 (getSplineBasis "bezier").basis_name
          1 [0, 1, 2, 3, 4, 5, 6] 7
        = spline_evaluate_scalar spline_weighted_evaluate_binary32
            (getSplineBasis "bezier").basis_name 1 [0, 1, 2, 3, 9, 9, 9] 7) ∧
    ((∀ k ∈ ([0, 1, 2, 3, 4, 5, 6] : List ℚ), binary32_round k = k ∧ |k| ≤ 2 ^ (100 : Int)) →
      (∃ r, spline_evaluate_scalar spline_weighted_evaluate_binary32
        (getSplineBasis "bezier").basis_name 0 [0, 1, 2, 3, 4, 5, 6] 7 = Except.ok r) ∧
      (spline_nsegs 7 (getSplineBasis "bezier").basis_step ≤ 2 ^ 24 →
        ∃ r, spline_evaluate_scalar spline_weighted_evaluate_binary32
          (getSplineBasis "bezier").basis_name 1 [0, 1, 2, 3, 4, 5, 6] 7 = Except.ok r))) :=
  ⟨⟨by simp [getSplineBasis, basisSearch, gBasisSet, kNumSplineTypes], by decide, by simp⟩,
    spline_evaluate_scalar_binary32_end_knots (getSplineBasis "bezier")
      (by simp [getSplineBasis, basisSearch, gBasisSet, kNumSplineTypes]) 7 (by decide)
      [0, 1, 2, 3, 4, 5, 6] [0, 1, 2, 3, 9, 9, 9] (by simp)⟩

/-- Counterexample to claim C21 as stated: the bspline basis (step 1) and `33554437`
knots, hence `33554434` segments, the last over the indices `33554433 .. 33554436`. The
conversion `(float)nsegs` is `33554432`, so at `x = 1` the evaluator in binary32 selects
the segment `33554432` with the local parameter `0` and reads `knots[33554432]`. The
sequence of zeros and the sequence that differs from it in `knots[33554432] = 6` only
agree on the last segment and give the results `0` and `1` at `x = 1`. -/
theorem spline_evaluate_scalar_binary32_not_last_segment :
    (4 : Int) ≤ 33554437 ∧ spline_nsegs 33554437 1 = 33554434 ∧
    binary32_round 33554434 = 33554432 ∧
    spline_segnum_binary32 1 33554434 = 33554432 ∧
    (∀ i : Nat, (33554434 - 1) * 1 ≤ (i : Int) → (i : Int) ≤ (33554434 - 1) * 1 + 3 →
      (List.replicate 33554437 (0 : ℚ))[i]?
        = ((List.replicate 33554437 (0 : ℚ)).set 33554432 6)[i]?) ∧
    spline_evaluate_scalar spline_weighted_evaluate_binary32 "bspline" 1
      (List.replicate 33554437 (0 : ℚ)) 33554437 = Except.ok 0 ∧
    spline_evaluate_scalar spline_weighted_evaluate_binary32 "bspline" 1
      ((List.replicate 33554437 (0 : ℚ)).set 33554432 6) 33554437 = Except.ok 1 := by
  -- A sequence of `n` zeros and the sequence that differs from it in the knot `6` at the
  -- index `j` only, at the start of the segment `j` of a basis of step 1.
  have spline_weighted_evaluate_binary32_replicate : ∀ (M : StaticMatrix44) (n j : Nat)
      (hj : (j : Int) + 3 < n) (x : ℚ) (knot_count : Int)
      (hcast : float_to_int_defined
        (removeDerivatives (spline_scaled_x_binary32 x (spline_nsegs knot_count 1))))
      (hseg : spline_segnum_binary32 x (spline_nsegs knot_count 1) = j)
      (hu : spline_local_x_binary32 x (spline_nsegs knot_count 1) = 0),
      spline_weighted_evaluate_binary32 M false 1 x (List.replicate n (0 : ℚ)) knot_count
        = spline_weighted_sum_binary32 M 0 0 0 0 0 ∧
      spline_weighted_evaluate_binary32 M false 1 x ((List.replicate n (0 : ℚ)).set j 6)
        knot_count = spline_weighted_sum_binary32 M 6 0 0 0 0 := by
    intro M n j hj x knot_count hcast hseg hu
    have knotAt_set_eq : ∀ (knots : List ℚ) (j : Nat) (a : ℚ) (hj : j < knots.length),
        knotAt (knots.set j a) (j : Int) = Except.ok a := by
      intro knots j a hj
      unfold knotAt
      rw [if_neg (by omega), Int.toNat_ofNat, List.getElem?_set_self hj]
    have knotAt_set_ne : ∀ (knots : List ℚ) (j : Nat) (a : ℚ) (i : Int) (h0 : 0 ≤ i)
        (hne : (j : Int) ≠ i), knotAt (knots.set j a) i = knotAt knots i := by
      intro knots j a i h0 hne
      unfold knotAt
      rw [List.getElem?_set_ne (by omega)]
    have knotAt_replicate : ∀ (n : Nat) (a : ℚ) (i : Int) (h0 : 0 ≤ i) (h1 : i < n),
        knotAt (List.replicate n a) i = Except.ok a := by
      intro n a i h0 h1
      unfold knotAt
      rw [if_neg (by omega), List.getElem?_replicate, if_pos (by omega)]
    constructor
    · rw [spline_weighted_evaluate_binary32_of_reads M 1 x _ knot_count 0 0 0 0
        (by rw [hseg, mul_one]; exact knotAt_replicate _ _ _ (by omega) (by omega))
        (by rw [hseg, mul_one]; exact knotAt_replicate _ _ _ (by omega) (by omega))
        (by rw [hseg, mul_one]; exact knotAt_replicate _ _ _ (by omega) (by omega))
        (by rw [hseg, mul_one]; exact knotAt_replicate _ _ _ (by omega) (by omega)) hcast, hu]
    · rw [spline_weighted_evaluate_binary32_of_reads M 1 x _ knot_count 6 0 0 0
        (by rw [hseg, mul_one]
            exact knotAt_set_eq _ _ _ (by rw [List.length_replicate]; omega))
        (by rw [hseg, mul_one, knotAt_set_ne _ _ _ _ (by omega) (by omega)]
            exact knotAt_replicate _ _ _ (by omega) (by omega))
        (by rw [hseg, mul_one, knotAt_set_ne _ _ _ _ (by omega) (by omega)]
            exact knotAt_replicate _ _ _ (by omega) (by omega))
        (by rw [hseg, mul_one, knotAt_set_ne _ _ _ _ (by omega) (by omega)]
            exact knotAt_replicate _ _ _ (by omega) (by omega)) hcast, hu]
  have bspline_sum_six :
      spline_weighted_sum_binary32 bsplineWeights 6 0 0 0 0 = Except.ok 1 := by
    exact by decide!
  have bspline_sum_zero :
      spline_weighted_sum_binary32 bsplineWeights 0 0 0 0 0 = Except.ok 0 := by
    exact by decide!
  have ht : getSplineBasisType "bspline" = 2 := by decide
  have hn : spline_nsegs 33554437 1 = 33554434 := by decide
  have hseg : spline_segnum_binary32 1 33554434 = 33554432 := by decide!
  have hu : spline_local_x_binary32 1 33554434 = 0 := by decide!
  have hd : float_to_int_defined (removeDerivatives (spline_scaled_x_binary32 1 33554434)) := by
    decide!
  have h := spline_weighted_evaluate_binary32_replicate bsplineWeights 33554437 33554432
    (by decide) 1 33554437 (by rw [hn]; exact hd) (by rw [hn]; exact hseg)
    (by rw [hn]; exact hu)
  refine ⟨by decide, hn, by decide!, hseg, ?_, ?_, ?_⟩
  · intro i h0 h3
    rw [List.getElem?_set_ne (by omega)]
  · simp only [spline_evaluate_scalar, ht]
    exact h.1.trans bspline_sum_zero
  · simp only [spline_evaluate_scalar, ht]
    exact h.2.trans bspline_sum_six

/-! ## The linear basis in binary32 -/

/-- Claim C13, as amended. For the linear basis, every sequence `[a, b, c, d]` of four
knots and every binary32 parameter `x` in `[0, 1]`, the evaluator in binary32 returns
`b + x*(c - b)` as `float` arithmetic computes it: the difference `c - b`, its product
with `x` and the sum with `b`, each rounded to the nearest `float`, and no finite value
when one of them is beyond the finite `float`s. In particular, with a finite rounded
difference `D` of `c - b` and a binary32 knot `b`: `evaluate(0) = b`; `evaluate(1)` is
the rounded sum `D + b`, which is `c` when `c - b` and `c` are binary32 numbers; and
`evaluate(0.5)` is the rounded sum of the rounded half of `D` and `b`, which is
`(b + c)/2` when `c - b`, its half and `(b + c)/2` are binary32 numbers. -/
theorem spline_evaluate_scalar_binary32_linear_four_knots (a b c d : ℚ) :
    (∀ x : ℚ, binary32_round x = x → 0 ≤ x → x ≤ 1 →
      spline_evaluate_scalar spline_weighted_evaluate_binary32 "linear" x [a, b, c, d] 4
        = (do
            let D ← binary32 (-b + c)
            let p ← binary32 (D * x)
            binary32 (p + b))) ∧
    (∀ D : ℚ, binary32 (-b + c) = Except.ok D → binary32 b = Except.ok b →
      spline_evaluate_scalar spline_weighted_evaluate_binary32 "linear" 0 [a, b, c, d] 4
        = Except.ok b ∧
      spline_evaluate_scalar spline_weighted_evaluate_binary32 "linear" 1 [a, b, c, d] 4
        = binary32 (D + b) ∧
      spline_evaluate_scalar spline_weighted_evaluate_binary32 "linear" (1/2) [a, b, c, d] 4
        = (do
            let p ← binary32 (D * (1/2))
            binary32 (p + b))) ∧
    (binary32 (-b + c) = Except.ok (-b + c) → binary32 c = Except.ok c →
      spline_evaluate_scalar spline_weighted_evaluate_binary32 "linear" 1 [a, b, c, d] 4
        = Except.ok c) ∧
    (binary32 (-b + c) = Except.ok (-b + c) →
      binary32 ((-b + c) * (1/2)) = Except.ok ((-b + c) * (1/2)) →
      binary32 ((b + c) / 2) = Except.ok ((b + c) / 2) →
      spline_evaluate_scalar spline_weighted_evaluate_binary32 "linear" (1/2) [a, b, c, d] 4
        = Except.ok ((b + c) / 2)) := by
  -- The evaluator in binary32 under the linear basis with four knots, at a binary32
  -- parameter of `[0, 1]`.
  have spline_evaluate_scalar_binary32_linear_eq : ∀ (a b c d x : ℚ) (hfx : binary32_round x = x)
      (h0 : 0 ≤ x) (h1 : x ≤ 1),
      spline_evaluate_scalar spline_weighted_evaluate_binary32 "linear" x [a, b, c, d] 4
        = (do
            let D ← binary32 (-b + c)
            let p ← binary32 (D * x)
            binary32 (p + b)) := by
    intro a b c d x hfx h0 h1
    -- With one segment, the local parameter in binary32 of a binary32 parameter of `[0, 1]`
    -- is the parameter.
    have spline_selector_binary32_one_segment : ∀ (x : ℚ) (hfx : binary32_round x = x)
        (h0 : 0 ≤ x) (h1 : x ≤ 1),
        spline_segnum_binary32 x 1 = 0 ∧ spline_local_x_binary32 x 1 = x := by
      intro x hfx h0 h1
      rcases lt_or_eq_of_le h1 with hlt | heq
      · obtain ⟨htn, hg, hu⟩ :=
          spline_selector_binary32_interior x hfx h0 hlt 1 (le_refl _) (by norm_num)
        have hc : clamp_in_place x 0 1 = x := by
          rw [clamp_in_place_eq, min_eq_left h1, max_eq_right h0]
        have ht : spline_scaled_x_binary32 x 1 = x := by
          unfold spline_scaled_x_binary32
          simp only [hc, Int.cast_one, binary32_round_one, mul_one, hfx]
        rw [ht] at hg hu
        have hfl : ⌊x⌋ = 0 := by
          rw [Int.floor_eq_iff]
          exact ⟨by simpa using h0, by simpa using hlt⟩
        rw [hfl] at hg hu
        exact ⟨hg, by simpa using hu⟩
      · obtain ⟨_, hg, hu⟩ :=
          spline_selector_binary32_one x (le_of_eq heq.symm) 1 (le_refl _) (by norm_num)
        rw [heq]
        rw [heq] at hg hu
        exact ⟨by simpa using hg, hu⟩
    have ht : getSplineBasisType "linear" = 4 := by decide
    have hn : spline_nsegs 4 1 = 1 := by decide
    obtain ⟨hg, hu⟩ := spline_selector_binary32_one_segment x hfx h0 h1
    simp only [spline_evaluate_scalar, ht]
    rw [spline_weighted_evaluate_binary32_of_reads linearWeights 1 x [a, b, c, d] 4 a b c d
      (by rw [hn, hg]; rfl) (by rw [hn, hg]; rfl) (by rw [hn, hg]; rfl) (by rw [hn, hg]; rfl)
      (by rw [hn]; exact float_to_int_defined_scaled x 1 (le_refl _) (by norm_num)),
      hn, hu, spline_weighted_sum_binary32_linear]
  -- The result of a `float` operation is a finite binary32 number.
  have binary32_ok_idem : ∀ (q r : ℚ) (h : binary32 q = Except.ok r),
      binary32 r = Except.ok r := by
    intro q r h
    -- What `binary32 v = ok v` says: `v` is a binary32 number below `2^128`.
    have binary32_ok_self_iff : ∀ (v : ℚ),
        binary32 v = Except.ok v ↔ binary32_round v = v ∧ |v| < 2 ^ 128 := by
      intro v
      unfold binary32
      constructor
      · intro h
        split_ifs at h with hfin
        · have hv := Except.ok.inj h
          rw [hv] at hfin
          exact ⟨hv, hfin⟩
      · rintro ⟨hv, hfin⟩
        rw [hv, if_pos hfin]
    unfold binary32 at h
    split_ifs at h with hfin
    have hr : binary32_round q = r := Except.ok.inj h
    rw [binary32_ok_self_iff, ← hr]
    exact ⟨binary32_round_idem q hfin, hfin⟩
  have e0 := spline_evaluate_scalar_binary32_linear_eq a b c d 0 binary32_round_zero
    (le_refl _) (by norm_num)
  have e1 := spline_evaluate_scalar_binary32_linear_eq a b c d 1 binary32_round_one
    (by norm_num) (le_refl _)
  have hhalf : binary32_round (1/2) = 1/2 := by
    have := binary32_round_two_zpow (-1) (by norm_num)
    norm_num at this
    simpa using this
  have e2 := spline_evaluate_scalar_binary32_linear_eq a b c d (1/2) hhalf (by norm_num)
    (by norm_num)
  refine ⟨fun x hfx h0 h1 => spline_evaluate_scalar_binary32_linear_eq a b c d x hfx h0 h1,
    fun D hD hb => ⟨?_, ?_, ?_⟩, fun hD hc => ?_, fun hD hh hm => ?_⟩
  · rw [e0, hD]
    simp only [bind, Except.bind, mul_zero, binary32_zero, zero_add, hb]
  · rw [e1, hD]
    simp only [bind, Except.bind, mul_one, binary32_ok_idem _ _ hD]
  · rw [e2, hD]
    rfl
  · rw [e1, hD]
    simp only [bind, Except.bind, mul_one, hD, neg_add_cancel_comm, hc]
  · rw [e2, hD]
    simp only [bind, Except.bind, hh]
    have : (-b + c) * (1 / 2) + b = (b + c) / 2 := by ring
    rw [this, hm]

/-- Counterexample to claim C13 as stated: the linear basis on the binary32 knots
`0, 1/2, 13421773/134217728, 0` (the third is `0.1f`) at `x = 1`. The difference `c - b`
rounds to `-13421773/33554432`, and the sum with `b` is `3355443/33554432`
(`0x1.999998p-4`), which is not the knot `c` (`0x1.99999ap-4`). -/
theorem spline_evaluate_scalar_binary32_linear_not_end_knot :
    binary32 (1/2) = Except.ok (1/2) ∧
    binary32 (13421773/134217728) = Except.ok (13421773/134217728) ∧
    spline_evaluate_scalar spline_weighted_evaluate_binary32 "linear" 1
      [0, 1/2, 13421773/134217728, 0] 4 = Except.ok (3355443/33554432) ∧
    spline_evaluate_scalar spline_weighted_evaluate_binary32 "linear" 1
      [0, 1/2, 13421773/134217728, 0] 4 ≠ Except.ok (13421773/134217728) := by
  refine ⟨by decide!, by decide!, by decide!, by decide!⟩

/-! ## Segment joints in binary32 -/

/-- At the start of a segment, over binary32 knots of magnitude at most `2^121`, the
evaluator in binary32 returns the last row of the weights on the knots of the segment. -/
theorem spline_weighted_evaluate_binary32_joint (M : StaticMatrix44)
    (hM : ∀ m ∈ M.numerators, |m| ≤ 8) (hD1 : 1 ≤ M.DivisorT) (hD8 : M.DivisorT ≤ 8)
    (basis_step : Int) (hs : 0 < basis_step) (knots : List ℚ) (knot_count : Int)
    (hk : 4 ≤ knot_count) (hlen : knot_count ≤ knots.length) (hint : knot_count < 2 ^ 31)
    (hknots : ∀ v ∈ knots, binary32_round v = v ∧ |v| ≤ 2 ^ (121 : Int)) (k : Int)
    (hk0 : 0 ≤ k) (hkn : k < spline_nsegs knot_count basis_step) (x : ℚ)
    (ht : spline_scaled_x_binary32 x (spline_nsegs knot_count basis_step) = k) :
    ∃ (P : Fin 4 → ℚ) (tk3 : PVal),
      (∀ j : Fin 4, knotAt knots (k * basis_step + ((j : Nat) : Int)) = Except.ok (P j)) ∧
      spline_weighted_row_binary32 M.m30 M.m31 M.m32 M.m33 (P 0) (P 1) (P 2) (P 3)
        = Except.ok tk3 ∧
      spline_weighted_evaluate_binary32 M false basis_step x knots knot_count
        = Except.ok (unproxy_element tk3) := by
  -- Where the scaled parameter in binary32 is an integer `k` below the segment count,
  -- the evaluator is at the start of the segment `k`: its local parameter is 0.
  have spline_selector_binary32_joint : ∀ (x : ℚ) (nsegs : Int) (hn31 : nsegs < 2 ^ 31) (k : Int)
      (hk0 : 0 ≤ k) (hkn : k < nsegs) (ht : spline_scaled_x_binary32 x nsegs = k),
      spline_segnum_binary32 x nsegs = k ∧ spline_local_x_binary32 x nsegs = 0 := by
    intro x nsegs hn31 k hk0 hkn ht
    have hg : spline_segnum_binary32 x nsegs = k := by
      rw [spline_segnum_binary32_eq x nsegs (by omega), ht, Int.floor_intCast,
        min_eq_left (by omega), max_eq_right hk0]
    have hfin : |binary32_round (clamp_in_place x 0 1 * binary32_round (nsegs : ℚ))| < 2 ^ 128 := by
      have : spline_scaled_x_binary32 x nsegs
          = binary32_round (clamp_in_place x 0 1 * binary32_round (nsegs : ℚ)) := rfl
      rw [← this, ht, abs_of_nonneg (by exact_mod_cast hk0)]
      have h1 : (k : ℚ) < (nsegs : ℚ) := by exact_mod_cast hkn
      have h2 : (nsegs : ℚ) < 2 ^ 31 := by exact_mod_cast hn31
      have h3 : (2 : ℚ) ^ 31 < 2 ^ 128 := by norm_num
      linarith
    have hk : binary32_round (k : ℚ) = k := by
      have h := binary32_round_idem _ hfin
      have e : binary32_round (clamp_in_place x 0 1 * binary32_round (nsegs : ℚ)) = k := ht
      rw [e] at h
      exact h
    refine ⟨hg, ?_⟩
    unfold spline_local_x_binary32
    rw [ht, hg, hk, sub_self, binary32_round_zero]
  -- At the local parameter 0, over binary32 knots of magnitude at most `2^e`, the
  -- weighted sum in binary32 is its last row.
  have spline_weighted_sum_binary32_zero : ∀ (M : StaticMatrix44)
      (hM : ∀ m ∈ M.numerators, |m| ≤ 8) (hD1 : 1 ≤ M.DivisorT) (hD8 : M.DivisorT ≤ 8)
      (P0 P1 P2 P3 : ℚ) (e : Int) (he0 : -149 ≤ e) (he : e ≤ 121)
      (hP0 : binary32_round P0 = P0 ∧ |P0| ≤ 2 ^ e) (hP1 : binary32_round P1 = P1 ∧ |P1| ≤ 2 ^ e)
      (hP2 : binary32_round P2 = P2 ∧ |P2| ≤ 2 ^ e) (hP3 : binary32_round P3 = P3 ∧ |P3| ≤ 2 ^ e),
      ∃ tk3, spline_weighted_row_binary32 M.m30 M.m31 M.m32 M.m33 P0 P1 P2 P3 = Except.ok tk3 ∧
        spline_weighted_sum_binary32 M P0 P1 P2 P3 0 = Except.ok (unproxy_element tk3) := by
    intro M hM hD1 hD8 P0 P1 P2 P3 e he0 he hP0 hP1 hP2 hP3
    -- At the local parameter 0 the Horner form in binary32 is its last value.
    have horner_binary32_zero : ∀ (tk0 tk1 tk2 tk3 : PVal) (e : Int) (he : e ≤ 127)
        (h1 : tk1.isBinary32 (2 ^ e)) (h2 : tk2.isBinary32 (2 ^ e)) (h3 : tk3.isBinary32 (2 ^ e)),
        (do
          let h1 ← tk0.mul_binary32 0
          let h2 ← h1.add_binary32 tk1
          let h3 ← h2.mul_binary32 0
          let h4 ← h3.add_binary32 tk2
          let h5 ← h4.mul_binary32 0
          let h6 ← h5.add_binary32 tk3
          (pure (unproxy_element h6) : Except SplineError ℚ)) = Except.ok (unproxy_element tk3) := by
      intro tk0 tk1 tk2 tk3 e he h1 h2 h3
      -- A value times the parameter 0, plus a value: the second value.
      have PVal_mul_zero_add_binary32 : ∀ (a b : PVal) (e : Int) (he : e ≤ 127)
          (hb : b.isBinary32 (2 ^ e)),
          ∃ r s, a.mul_binary32 0 = Except.ok r ∧ r.add_binary32 b = Except.ok s ∧
            unproxy_element s = unproxy_element b ∧ s.isBinary32 (2 ^ e) := by
        intro a b e he hb
        have hz : ∃ r, a.mul_binary32 0 = Except.ok r ∧ (r = PVal.value 0 ∨ ∃ d, r = PVal.zero d) := by
          cases a with
          | zero d => exact ⟨_, rfl, Or.inr ⟨d, rfl⟩⟩
          | value v =>
            refine ⟨PVal.value 0, ?_, Or.inl rfl⟩
            show (do let r ← binary32 (v * 0); pure (PVal.value r)) = _
            rw [mul_zero, binary32_zero]
            rfl
        obtain ⟨r, hr, hcase⟩ := hz
        rcases hcase with rfl | ⟨d, rfl⟩
        · cases b with
          | zero d2 =>
            refine ⟨_, PVal.value 0, hr, rfl, ?_, binary32_round_zero, ?_⟩
            · rw [unproxy_element_zero]
              rfl
            · rw [abs_zero]
              exact le_of_lt (two_zpow_pos e)
          | value w =>
            refine ⟨_, PVal.value w, hr, ?_, rfl, hb⟩
            show (do let r ← binary32 (0 + w); pure (PVal.value r)) = _
            rw [zero_add, binary32_eq_ok_self w hb.1 e he hb.2]
            rfl
        · cases b with
          | zero d2 => exact ⟨_, PVal.zero d2, hr, rfl, rfl, trivial⟩
          | value w => exact ⟨_, PVal.value w, hr, rfl, rfl, hb⟩
      obtain ⟨g1, g2, e1, e2, _, _⟩ := PVal_mul_zero_add_binary32 tk0 tk1 e he h1
      obtain ⟨g3, g4, e3, e4, _, _⟩ := PVal_mul_zero_add_binary32 g2 tk2 e he h2
      obtain ⟨g5, g6, e5, e6, u6, _⟩ := PVal_mul_zero_add_binary32 g4 tk3 e he h3
      simp only [bind, Except.bind, e1, e2, e3, e4, e5, e6]
      show Except.ok (unproxy_element g6) = _
      rw [u6]
    obtain ⟨⟨a0, a1, a2, a3⟩, ⟨b0, b1, b2, b3⟩, ⟨c0, c1, c2, c3⟩, ⟨d0, d1, d2, d3⟩⟩ :=
      StaticMatrix44_numerators_le M hM
    obtain ⟨tk0, e0, f0⟩ := spline_weighted_row_binary32_ok _ _ _ _ M.DivisorT a0 a1 a2 a3 hD1 hD8
      P0 P1 P2 P3 e he0 (by omega) hP0 hP1 hP2 hP3
    obtain ⟨tk1, e1, f1⟩ := spline_weighted_row_binary32_ok _ _ _ _ M.DivisorT b0 b1 b2 b3 hD1 hD8
      P0 P1 P2 P3 e he0 (by omega) hP0 hP1 hP2 hP3
    obtain ⟨tk2, e2, f2⟩ := spline_weighted_row_binary32_ok _ _ _ _ M.DivisorT c0 c1 c2 c3 hD1 hD8
      P0 P1 P2 P3 e he0 (by omega) hP0 hP1 hP2 hP3
    obtain ⟨tk3, e3, f3⟩ := spline_weighted_row_binary32_ok _ _ _ _ M.DivisorT d0 d1 d2 d3 hD1 hD8
      P0 P1 P2 P3 e he0 (by omega) hP0 hP1 hP2 hP3
    refine ⟨tk3, e3, ?_⟩
    unfold spline_weighted_sum_binary32
    simp only [StaticMatrix44.m00, StaticMatrix44.m01, StaticMatrix44.m02, StaticMatrix44.m03,
      StaticMatrix44.m10, StaticMatrix44.m11, StaticMatrix44.m12, StaticMatrix44.m13,
      StaticMatrix44.m20, StaticMatrix44.m21, StaticMatrix44.m22, StaticMatrix44.m23,
      StaticMatrix44.m30, StaticMatrix44.m31, StaticMatrix44.m32, StaticMatrix44.m33] at e3 ⊢
    rw [e0, e1, e2, e3]
    exact horner_binary32_zero tk0 tk1 tk2 tk3 (e + 6) (by omega) f1 f2 f3
  have hn2 := spline_nsegs_le knot_count basis_step hk hs
  obtain ⟨hg, hu⟩ := spline_selector_binary32_joint x (spline_nsegs knot_count basis_step)
    (by omega) k hk0 hkn ht
  have hcast : float_to_int_defined
      (removeDerivatives (spline_scaled_x_binary32 x (spline_nsegs knot_count basis_step))) := by
    unfold removeDerivatives
    rw [ht]
    exact float_to_int_defined_intCast k (by omega) (by omega)
  obtain ⟨P, hP, he⟩ :=
    spline_weighted_evaluate_binary32_ok M basis_step hs x knots knot_count hk hlen hcast
  rw [hg] at hP
  rw [hu] at he
  obtain ⟨tk3, h3, hsum⟩ := spline_weighted_sum_binary32_zero M hM hD1 hD8 (P 0) (P 1) (P 2)
    (P 3) 121 (by norm_num) (by norm_num) (hknots _ (knotAt_mem _ _ _ (hP 0)))
    (hknots _ (knotAt_mem _ _ _ (hP 1))) (hknots _ (knotAt_mem _ _ _ (hP 2)))
    (hknots _ (knotAt_mem _ _ _ (hP 3)))
  exact ⟨P, tk3, hP, h3, he.trans hsum⟩

/-- With a number of segments that is a power of two up to `2^24`, the scaled parameter
in binary32 of `k / nsegs` is `k`. -/
theorem spline_scaled_x_binary32_dyadic (e : Nat) (he : e ≤ 24) (k : Int) (hk0 : 0 ≤ k)
    (hk : k ≤ 2 ^ e) : spline_scaled_x_binary32 ((k : ℚ) / 2 ^ e) (2 ^ e) = k := by
  have hp : (0 : ℚ) < 2 ^ e := by positivity
  have hkq0 : (0 : ℚ) ≤ (k : ℚ) := by exact_mod_cast hk0
  have hkq : (k : ℚ) ≤ 2 ^ e := by exact_mod_cast hk
  have h24 : (2 : Int) ^ e ≤ 2 ^ 24 := pow_le_pow_right₀ (by norm_num) he
  have hc : clamp_in_place ((k : ℚ) / 2 ^ e) 0 1 = (k : ℚ) / 2 ^ e := by
    rw [clamp_in_place_eq, min_eq_left ((div_le_one hp).mpr hkq),
      max_eq_right (div_nonneg hkq0 (le_of_lt hp))]
  have hn : binary32_round (((2 ^ e : Int) : ℚ)) = ((2 ^ e : Int) : ℚ) :=
    binary32_round_intCast _ (by rw [abs_of_nonneg (by positivity)]; exact h24)
  unfold spline_scaled_x_binary32
  simp only [hc, hn]
  push_cast
  rw [div_mul_cancel₀ _ (ne_of_gt hp)]
  exact binary32_round_intCast k (by rw [abs_of_nonneg hk0]; omega)

/-- Claim C29, as amended. In binary32, for the catmull-rom and the linear basis, a knot
count of at least four (an `int`) in a buffer that holds that many finite `float` knots of
magnitude at most `2^121`, and an integer `k` with `0 <= k < nsegs`: at every parameter `x`
whose scaled value `x * (float)nsegs`, as the evaluator rounds it, is exactly `k`,
`spline_evaluate_scalar` returns the knot `knots[k + 1]`, with no rounding. Such
parameters are `k / nsegs` when `nsegs` is a power of two up to `2^24`, and every `x <= 0`
for `k = 0`. -/
theorem spline_evaluate_scalar_binary32_joint_interpolates (spline_basis : String)
    (hname : spline_basis = "catmull-rom" ∨ spline_basis = "linear") (knots : List ℚ)
    (knot_count : Int) (hk : 4 ≤ knot_count) (hlen : knot_count ≤ knots.length)
    (hint : knot_count < 2 ^ 31)
    (hknots : ∀ v ∈ knots, binary32_round v = v ∧ |v| ≤ 2 ^ (121 : Int)) (k : Int)
    (h0 : 0 ≤ k) (hkn : k < spline_nsegs knot_count 1) :
    (∀ x : ℚ, spline_scaled_x_binary32 x (spline_nsegs knot_count 1) = k →
      ∃ v, knotAt knots (k + 1) = Except.ok v ∧
        spline_evaluate_scalar spline_weighted_evaluate_binary32 spline_basis x knots
          knot_count = Except.ok v) ∧
    (∀ e : Nat, e ≤ 24 → spline_nsegs knot_count 1 = 2 ^ e →
      spline_scaled_x_binary32 ((k : ℚ) / ((spline_nsegs knot_count 1 : Int) : ℚ))
        (spline_nsegs knot_count 1) = k) ∧
    (∀ x : ℚ, x ≤ 0 → k = 0 → spline_scaled_x_binary32 x (spline_nsegs knot_count 1) = k) := by
  -- The last row of the linear weights, `(0, 1, 0, 0)`, is the second control point.
  have spline_weighted_row_binary32_linear : ∀ (P0 P1 P2 P3 : ℚ),
      spline_weighted_row_binary32 linearWeights.m30 linearWeights.m31
        linearWeights.m32 linearWeights.m33 P0 P1 P2 P3 = Except.ok (PVal.value P1) := by
    intro P0 P1 P2 P3
    simp [spline_weighted_row_binary32, linearWeights, StaticMatrix44.m30,
      StaticMatrix44.m31, StaticMatrix44.m32, StaticMatrix44.m33, ProxyElement.mul_binary32,
      PVal.add_binary32, bind, Except.bind, pure, Except.pure]
  -- The last row of the catmull-rom weights, `(0, 2, 0, 0)/2`, is the second control
  -- point, with no operation rounded.
  have spline_weighted_row_binary32_catmullRom : ∀ (P0 P1 P2 P3 : ℚ),
      spline_weighted_row_binary32 catmullRomWeights.m30 catmullRomWeights.m31
        catmullRomWeights.m32 catmullRomWeights.m33 P0 P1 P2 P3 = Except.ok (PVal.value P1) := by
    intro P0 P1 P2 P3
    simp [spline_weighted_row_binary32, catmullRomWeights, StaticMatrix44.m30,
      StaticMatrix44.m31, StaticMatrix44.m32, StaticMatrix44.m33, ProxyElement.mul_binary32,
      PVal.add_binary32, bind, Except.bind, pure, Except.pure]
  refine ⟨fun x ht => ?_, fun e he hn => ?_, fun x hx hk0 => ?_⟩
  · rcases hname with rfl | rfl
    · have hty : getSplineBasisType "catmull-rom" = 0 := by decide
      have hM : ∀ m ∈ catmullRomWeights.numerators, |m| ≤ 8 := by decide
      obtain ⟨P, tk3, hP, h3, hev⟩ := spline_weighted_evaluate_binary32_joint catmullRomWeights
        hM (by decide) (by decide) 1 (by decide) knots knot_count hk hlen hint hknots
        k h0 hkn x ht
      rw [spline_weighted_row_binary32_catmullRom] at h3
      cases h3
      refine ⟨P 1, ?_, ?_⟩
      · simpa using hP 1
      · simp only [spline_evaluate_scalar, hty]
        exact hev
    · have hty : getSplineBasisType "linear" = 4 := by decide
      have hM : ∀ m ∈ linearWeights.numerators, |m| ≤ 8 := by decide
      obtain ⟨P, tk3, hP, h3, hev⟩ := spline_weighted_evaluate_binary32_joint linearWeights
        hM (by decide) (by decide) 1 (by decide) knots knot_count hk hlen hint hknots
        k h0 hkn x ht
      rw [spline_weighted_row_binary32_linear] at h3
      cases h3
      refine ⟨P 1, ?_, ?_⟩
      · simpa using hP 1
      · simp only [spline_evaluate_scalar, hty]
        exact hev
  · rw [hn]
    have h := spline_scaled_x_binary32_dyadic e he k h0 (by omega)
    push_cast
    exact h
  · subst hk0
    have h := (spline_selector_binary32_zero x hx (spline_nsegs knot_count 1)
      (spline_nsegs_pos knot_count 1 hk (by decide))).1
    exact_mod_cast h

/-- Witness of claim C29: the catmull-rom basis in binary32, the five knots
`0, 1, 4, 9, 16` (two segments) and the joint `k = 1`, reached at the parameter `1/2`. -/
theorem spline_evaluate_scalar_binary32_joint_interpolates_witness :
    (("catmull-rom" = "catmull-rom" ∨ "catmull-rom" = "linear") ∧ (4 : Int) ≤ 5 ∧
      (5 : Int) ≤ ([0, 1, 4, 9, 16] : List ℚ).length ∧ (5 : Int) < 2 ^ 31 ∧
      (∀ v ∈ ([0, 1, 4, 9, 16] : List ℚ), binary32_round v = v ∧ |v| ≤ 2 ^ (121 : Int)) ∧
      (0 : Int) ≤ 1 ∧ (1 : Int) < spline_nsegs 5 1 ∧
      spline_scaled_x_binary32 (1 / 2) (spline_nsegs 5 1) = ((1 : Int) : ℚ)) ∧
    spline_evaluate_scalar spline_weighted_evaluate_binary32 "catmull-rom" (1 / 2)
      [0, 1, 4, 9, 16] 5 = Except.ok 4 := by
  have hknots : ∀ v ∈ ([0, 1, 4, 9, 16] : List ℚ),
      binary32_round v = v ∧ |v| ≤ 2 ^ (121 : Int) := by decide!
  have ht : spline_scaled_x_binary32 (1 / 2) (spline_nsegs 5 1) = ((1 : Int) : ℚ) := by
    decide!
  obtain ⟨v, hv, he⟩ := (spline_evaluate_scalar_binary32_joint_interpolates "catmull-rom"
    (Or.inl rfl) [0, 1, 4, 9, 16] 5 (by decide) (by simp) (by decide) hknots 1 (by decide)
    (by decide)).1 (1 / 2) ht
  have hv4 : v = 4 := by
    have h4 : knotAt ([0, 1, 4, 9, 16] : List ℚ) (1 + 1) = Except.ok 4 := by decide!
    rw [h4] at hv
    cases hv
    rfl
  subst hv4
  exact ⟨⟨Or.inl rfl, by decide, by simp, by decide, hknots, by decide, by decide, ht⟩, he⟩

/-- Counterexample to claim C29 as stated, in binary32. At the last joint `k = nsegs`:
the catmull-rom basis on the four `float` knots `0.1f, 0.7f, 0.3f, 0.9f` at `x = 1`
returns `0x1.33333p-2`, not `knots[2] = 0.3f = 0x1.333334p-2`. At an interior joint: the
linear basis on the sixteen knots `0, 3, .., 45` (thirteen segments) at the `float`
nearest to `7/13` has the scaled parameter `7 + 2^-21`, and returns `24 + 2^-19`, not
`knots[8] = 24`. With a knot of magnitude `2^127`: the catmull-rom basis on
`0, 2^127, 0, 0` and the linear basis on `0, -2^127, 2^127, 0` have no finite result at
`x = 0`, where `knots[1]` is finite (a product by `3/2` and the difference `P2 - P1` are
beyond the largest `float`). -/
theorem spline_evaluate_scalar_binary32_joint_not_knot :
    ((∀ v ∈ ([13421773 / 134217728, 11744051 / 16777216, 5033165 / 16777216,
          7549747 / 8388608] : List ℚ), binary32_round v = v) ∧
      spline_nsegs 4 1 = 1 ∧
      spline_evaluate_scalar spline_weighted_evaluate_binary32 "catmull-rom"
          (((1 : Int) : ℚ) / ((spline_nsegs 4 1 : Int) : ℚ))
          [13421773 / 134217728, 11744051 / 16777216, 5033165 / 16777216,
            7549747 / 8388608] 4
        = Except.ok (1258291 / 4194304) ∧
      knotAt ([13421773 / 134217728, 11744051 / 16777216, 5033165 / 16777216,
          7549747 / 8388608] : List ℚ) (1 + 1) = Except.ok (5033165 / 16777216)) ∧
    (spline_nsegs 16 1 = 13 ∧
      binary32_round (((7 : Int) : ℚ) / ((13 : Int) : ℚ)) = 4516943 / 8388608 ∧
      spline_scaled_x_binary32 (4516943 / 8388608) 13 = 14680065 / 2097152 ∧
      spline_evaluate_scalar spline_weighted_evaluate_binary32 "linear" (4516943 / 8388608)
          [0, 3, 6, 9, 12, 15, 18, 21, 24, 27, 30, 33, 36, 39, 42, 45] 16
        = Except.ok (12582913 / 524288) ∧
      knotAt ([0, 3, 6, 9, 12, 15, 18, 21, 24, 27, 30, 33, 36, 39, 42, 45] : List ℚ) (7 + 1)
        = Except.ok 24) ∧
    (binary32 (2 ^ 127 : ℚ) = Except.ok (2 ^ 127) ∧
      spline_evaluate_scalar spline_weighted_evaluate_binary32 "catmull-rom" 0
          [0, 2 ^ 127, 0, 0] 4 = Except.error SplineError.notFinite ∧
      spline_evaluate_scalar spline_weighted_evaluate_binary32 "linear" 0
          [0, -(2 ^ 127), 2 ^ 127, 0] 4 = Except.error SplineError.notFinite) := by
  refine ⟨⟨?_, ?_, ?_, ?_⟩, ⟨?_, ?_, ?_, ?_, ?_⟩, ?_, ?_, ?_⟩ <;> decide!

/-- Claim C30, as amended. In binary32, for the bezier basis (step 3) and the hermite
basis (step 2), a knot count of at least four (an `int`) in a buffer that holds that many
finite `float` knots of magnitude at most `2^121`, and an integer `k` with
`0 <= k < nsegs`: at every parameter `x` whose scaled value `x * (float)nsegs`, as the
evaluator rounds it, is exactly `k`, `spline_evaluate_scalar` returns the knot
`knots[k * step]`, with no rounding. Such parameters are `k / nsegs` when `nsegs` is a
power of two up to `2^24`, and every `x <= 0` for `k = 0`. -/
theorem spline_evaluate_scalar_binary32_joint_shared_knot (spline_basis : String)
    (basis_step : Int)
    (hname : (spline_basis = "bezier" ∧ basis_step = 3)
      ∨ (spline_basis = "hermite" ∧ basis_step = 2)) (knots : List ℚ)
    (knot_count : Int) (hk : 4 ≤ knot_count) (hlen : knot_count ≤ knots.length)
    (hint : knot_count < 2 ^ 31)
    (hknots : ∀ v ∈ knots, binary32_round v = v ∧ |v| ≤ 2 ^ (121 : Int)) (k : Int)
    (h0 : 0 ≤ k) (hkn : k < spline_nsegs knot_count basis_step) :
    (∀ x : ℚ, spline_scaled_x_binary32 x (spline_nsegs knot_count basis_step) = k →
      ∃ v, knotAt knots (k * basis_step) = Except.ok v ∧
        spline_evaluate_scalar spline_weighted_evaluate_binary32 spline_basis x knots
          knot_count = Except.ok v) ∧
    (∀ e : Nat, e ≤ 24 → spline_nsegs knot_count basis_step = 2 ^ e →
      spline_scaled_x_binary32 ((k : ℚ) / ((spline_nsegs knot_count basis_step : Int) : ℚ))
        (spline_nsegs knot_count basis_step) = k) ∧
    (∀ x : ℚ, x ≤ 0 → k = 0 →
      spline_scaled_x_binary32 x (spline_nsegs knot_count basis_step) = k) := by
  -- The last row of the hermite weights, `(1, 0, 0, 0)`, is the first control point.
  have spline_weighted_row_binary32_hermite : ∀ (P0 P1 P2 P3 : ℚ),
      spline_weighted_row_binary32 hermiteWeights.m30 hermiteWeights.m31
        hermiteWeights.m32 hermiteWeights.m33 P0 P1 P2 P3 = Except.ok (PVal.value P0) := by
    intro P0 P1 P2 P3
    simp [spline_weighted_row_binary32, hermiteWeights, StaticMatrix44.m30,
      StaticMatrix44.m31, StaticMatrix44.m32, StaticMatrix44.m33, ProxyElement.mul_binary32,
      PVal.add_binary32, bind, Except.bind, pure, Except.pure]
  -- The last row of the bezier weights, `(1, 0, 0, 0)`, is the first control point.
  have spline_weighted_row_binary32_bezier : ∀ (P0 P1 P2 P3 : ℚ),
      spline_weighted_row_binary32 bezierWeights.m30 bezierWeights.m31
        bezierWeights.m32 bezierWeights.m33 P0 P1 P2 P3 = Except.ok (PVal.value P0) := by
    intro P0 P1 P2 P3
    simp [spline_weighted_row_binary32, bezierWeights, StaticMatrix44.m30,
      StaticMatrix44.m31, StaticMatrix44.m32, StaticMatrix44.m33, ProxyElement.mul_binary32,
      PVal.add_binary32, bind, Except.bind, pure, Except.pure]
  have hs : 0 < basis_step := by
    rcases hname with ⟨_, rfl⟩ | ⟨_, rfl⟩ <;> decide
  refine ⟨fun x ht => ?_, fun e he hn => ?_, fun x hx hk0 => ?_⟩
  · rcases hname with ⟨rfl, rfl⟩ | ⟨rfl, rfl⟩
    · have hty : getSplineBasisType "bezier" = 1 := by decide
      have hM : ∀ m ∈ bezierWeights.numerators, |m| ≤ 8 := by decide
      obtain ⟨P, tk3, hP, h3, hev⟩ := spline_weighted_evaluate_binary32_joint bezierWeights
        hM (by decide) (by decide) 3 (by decide) knots knot_count hk hlen hint hknots
        k h0 hkn x ht
      rw [spline_weighted_row_binary32_bezier] at h3
      cases h3
      refine ⟨P 0, ?_, ?_⟩
      · simpa using hP 0
      · simp only [spline_evaluate_scalar, hty]
        exact hev
    · have hty : getSplineBasisType "hermite" = 3 := by decide
      have hM : ∀ m ∈ hermiteWeights.numerators, |m| ≤ 8 := by decide
      obtain ⟨P, tk3, hP, h3, hev⟩ := spline_weighted_evaluate_binary32_joint hermiteWeights
        hM (by decide) (by decide) 2 (by decide) knots knot_count hk hlen hint hknots
        k h0 hkn x ht
      rw [spline_weighted_row_binary32_hermite] at h3
      cases h3
      refine ⟨P 0, ?_, ?_⟩
      · simpa using hP 0
      · simp only [spline_evaluate_scalar, hty]
        exact hev
  · rw [hn]
    have h := spline_scaled_x_binary32_dyadic e he k h0 (by omega)
    push_cast
    exact h
  · subst hk0
    have h := (spline_selector_binary32_zero x hx (spline_nsegs knot_count basis_step)
      (spline_nsegs_pos knot_count basis_step hk hs)).1
    exact_mod_cast h

/-- Witness of claim C30: the bezier basis in binary32, the seven knots
`0, 1, 4, 9, 16, 25, 36` (two segments) and the joint `k = 1`, reached at the parameter
`1/2`, where the value is `knots[3] = 9`. -/
theorem spline_evaluate_scalar_binary32_joint_shared_knot_witness :
    ((("bezier" = "bezier" ∧ (3 : Int) = 3) ∨ ("bezier" = "hermite" ∧ (3 : Int) = 2)) ∧
      (4 : Int) ≤ 7 ∧ (7 : Int) ≤ ([0, 1, 4, 9, 16, 25, 36] : List ℚ).length ∧
      (7 : Int) < 2 ^ 31 ∧
      (∀ v ∈ ([0, 1, 4, 9, 16, 25, 36] : List ℚ),
        binary32_round v = v ∧ |v| ≤ 2 ^ (121 : Int)) ∧
      (0 : Int) ≤ 1 ∧ (1 : Int) < spline_nsegs 7 3 ∧
      spline_scaled_x_binary32 (1 / 2) (spline_nsegs 7 3) = ((1 : Int) : ℚ)) ∧
    spline_evaluate_scalar spline_weighted_evaluate_binary32 "bezier" (1 / 2)
      [0, 1, 4, 9, 16, 25, 36] 7 = Except.ok 9 := by
  have hknots : ∀ v ∈ ([0, 1, 4, 9, 16, 25, 36] : List ℚ),
      binary32_round v = v ∧ |v| ≤ 2 ^ (121 : Int) := by decide!
  have ht : spline_scaled_x_binary32 (1 / 2) (spline_nsegs 7 3) = ((1 : Int) : ℚ) := by
    decide!
  obtain ⟨v, hv, he⟩ := (spline_evaluate_scalar_binary32_joint_shared_knot "bezier" 3
    (Or.inl ⟨rfl, rfl⟩) [0, 1, 4, 9, 16, 25, 36] 7 (by decide) (by simp) (by decide) hknots 1
    (by decide) (by decide)).1 (1 / 2) ht
  have hv9 : v = 9 := by
    have h9 : knotAt ([0, 1, 4, 9, 16, 25, 36] : List ℚ) (1 * 3) = Except.ok 9 := by decide!
    rw [h9] at hv
    cases hv
    rfl
  subst hv9
  exact ⟨⟨Or.inl ⟨rfl, rfl⟩, by decide, by simp, by decide, hknots, by decide, by decide, ht⟩,
    he⟩

/-- Counterexample to claim C30 as stated, in binary32. At the last joint `k = nsegs`,
on the four `float` knots `1.1f, 8.1f, 1, 2.2f` at `x = 1`: the bezier basis returns
`0x1.19998cp+1`, not `knots[3] = 2.2f = 0x1.19999ap+1`, and the hermite basis returns
`0x1.fffff4p-1`, not `knots[2] = 1`. At an interior joint: the hermite basis on the
twenty-eight knots `0, 3, .., 81` (thirteen segments) at the `float` nearest to `7/13`
has the scaled parameter `7 + 2^-21`, and does not return `knots[14] = 42`. With knots of
magnitude `2^127`: on `2^127, 2^127, 0, 0` neither basis has a finite result at `x = 0`,
where `knots[0]` is finite (the products `3 * P1` and `2 * P0` are beyond the largest
`float`). -/
theorem spline_evaluate_scalar_binary32_joint_not_shared_knot :
    ((∀ v ∈ ([9227469 / 8388608, 4246733 / 524288, 1, 9227469 / 4194304] : List ℚ),
        binary32_round v = v) ∧
      spline_nsegs 4 3 = 1 ∧ spline_nsegs 4 2 = 1 ∧
      spline_evaluate_scalar spline_weighted_evaluate_binary32 "bezier"
          (((1 : Int) : ℚ) / ((spline_nsegs 4 3 : Int) : ℚ))
          [9227469 / 8388608, 4246733 / 524288, 1, 9227469 / 4194304] 4
        = Except.ok (4613731 / 2097152) ∧
      knotAt ([9227469 / 8388608, 4246733 / 524288, 1, 9227469 / 4194304] : List ℚ) (1 * 3)
        = Except.ok (9227469 / 4194304) ∧
      spline_evaluate_scalar spline_weighted_evaluate_binary32 "hermite"
          (((1 : Int) : ℚ) / ((spline_nsegs 4 2 : Int) : ℚ))
          [9227469 / 8388608, 4246733 / 524288, 1, 9227469 / 4194304] 4
        = Except.ok (8388605 / 8388608) ∧
      knotAt ([9227469 / 8388608, 4246733 / 524288, 1, 9227469 / 4194304] : List ℚ) (1 * 2)
        = Except.ok 1) ∧
    (spline_nsegs 28 2 = 13 ∧
      binary32_round (((7 : Int) : ℚ) / ((13 : Int) : ℚ)) = 4516943 / 8388608 ∧
      spline_scaled_x_binary32 (4516943 / 8388608) 13 = 14680065 / 2097152 ∧
      spline_evaluate_scalar spline_weighted_evaluate_binary32 "hermite" (4516943 / 8388608)
          [0, 3, 6, 9, 12, 15, 18, 21, 24, 27, 30, 33, 36, 39, 42, 45, 48, 51, 54, 57, 60,
            63, 66, 69, 72, 75, 78, 81] 28
        = Except.ok (5505027 / 131072) ∧
      knotAt ([0, 3, 6, 9, 12, 15, 18, 21, 24, 27, 30, 33, 36, 39, 42, 45, 48, 51, 54, 57,
          60, 63, 66, 69, 72, 75, 78, 81] : List ℚ) (7 * 2) = Except.ok 42) ∧
    (binary32 (2 ^ 127 : ℚ) = Except.ok (2 ^ 127) ∧
      spline_evaluate_scalar spline_weighted_evaluate_binary32 "bezier" 0
          [2 ^ 127, 2 ^ 127, 0, 0] 4 = Except.error SplineError.notFinite ∧
      spline_evaluate_scalar spline_weighted_evaluate_binary32 "hermite" 0
          [2 ^ 127, 2 ^ 127, 0, 0] 4 = Except.error SplineError.notFinite) := by
  refine ⟨⟨?_, ?_, ?_, ?_, ?_, ?_, ?_⟩, ⟨?_, ?_, ?_, ?_, ?_⟩, ?_, ?_, ?_⟩ <;> decide!

/-! ## Equal knots in binary32 -/

/-- Claim C31, as amended. In binary32, for the linear and the constant basis, every
parameter `x`, every knot count of at least four and below `2^31 - 61` (fewer than
`2^31 - 64` segments, so that the cast of line 630 has a value) in a buffer that holds
that many knots: if each of the first `knot_count` knots equals the finite `float` `c`,
then `spline_evaluate_scalar` returns `c`. For the catmull-rom, bezier and bspline bases
the rounded sum need not be `c`. -/
theorem spline_evaluate_scalar_binary32_equal_knots (spline_basis : String)
    (hname : spline_basis = "linear" ∨ spline_basis = "constant") (x c : ℚ)
    (hfc : binary32 c = Except.ok c) (knots : List ℚ) (knot_count : Int)
    (hk : 4 ≤ knot_count) (hcount : knot_count < 2 ^ 31 - 61)
    (hlen : knot_count ≤ knots.length)
    (hc : ∀ i : Nat, (i : Int) < knot_count → knots.getD i 0 = c) :
    spline_evaluate_scalar spline_weighted_evaluate_binary32 spline_basis x knots knot_count
      = Except.ok c := by
  have hread : ∀ i : Int, 0 ≤ i → i < knot_count → knotAt knots i = Except.ok c := by
    intro i h0 h1
    rw [knotAt_getD knots i h0 (by omega), hc i.toNat (by omega)]
  have hn := spline_nsegs_pos knot_count 1 hk (by decide)
  have hle := spline_nsegs_le knot_count 1 hk (by decide)
  have hcast := float_to_int_defined_scaled x (spline_nsegs knot_count 1) hn (by omega)
  rcases hname with rfl | rfl
  · have hty : getSplineBasisType "linear" = 4 := by decide
    simp only [spline_evaluate_scalar, hty]
    obtain ⟨P, hP, he⟩ := spline_weighted_evaluate_binary32_ok linearWeights 1 (by decide) x
      knots knot_count hk hlen hcast
    obtain ⟨hb0, hb3⟩ := spline_segment_binary32_in_bounds x knot_count 1 hk (by decide)
    have hPc : ∀ j : Fin 4, P j = c := by
      intro j
      have h1 := hP j
      have hj : ((j : Nat) : Int) < 4 := by exact_mod_cast j.isLt
      rw [hread _ (by omega) (by omega)] at h1
      exact (Except.ok.inj h1).symm
    rw [he, spline_weighted_sum_binary32_linear, hPc 1, hPc 2, neg_add_cancel, binary32_zero]
    simp only [bind, Except.bind, zero_mul, binary32_zero, zero_add]
    exact hfc
  · have hty : getSplineBasisType "constant" = 5 := by decide
    simp only [spline_evaluate_scalar, hty]
    have hg0 := spline_segnum_binary32_nonneg x (spline_nsegs knot_count 1) hn
    have hg1 := spline_segnum_binary32_le x (spline_nsegs knot_count 1)
    rw [spline_weighted_evaluate_binary32_constant _ _ _ _ _ hcast,
      hread _ (by omega) (by omega)]

/-- Witness of claim C31: the linear basis in binary32, the parameter `2/5` and five knots
equal to `7`. -/
theorem spline_evaluate_scalar_binary32_equal_knots_witness :
    (("linear" = "linear" ∨ "linear" = "constant") ∧
      binary32 (7 : ℚ) = Except.ok 7 ∧ (4 : Int) ≤ 5 ∧ (5 : Int) < 2 ^ 31 - 61 ∧
      (5 : Int) ≤ ([7, 7, 7, 7, 7] : List ℚ).length ∧
      ∀ i : Nat, (i : Int) < 5 → ([7, 7, 7, 7, 7] : List ℚ).getD i 0 = 7) ∧
    spline_evaluate_scalar spline_weighted_evaluate_binary32 "linear" (2/5) [7, 7, 7, 7, 7] 5
      = Except.ok 7 :=
  have h7 : ∀ i : Nat, (i : Int) < 5 → ([7, 7, 7, 7, 7] : List ℚ).getD i 0 = 7 := by
    intro i hi
    have hi5 : i < 5 := by omega
    interval_cases i <;> rfl
  have hf : binary32 (7 : ℚ) = Except.ok 7 := by decide!
  ⟨⟨Or.inl rfl, hf, by decide, by decide, by simp, h7⟩,
    spline_evaluate_scalar_binary32_equal_knots "linear" (Or.inl rfl) (2/5) 7 hf
      [7, 7, 7, 7, 7] 5 (by decide) (by decide) (by simp) h7⟩

/-- Counterexample to claim C31 as stated, in binary32. The bspline basis on four knots
equal to `7` at `x = 1/2` returns `0x1.c00004p+2`; the catmull-rom basis on four knots equal
to `0.3f` at `x = 3/4` returns `0x1.333336p-2`, not `0x1.333334p-2`; the bezier basis on
four knots equal to `0.1f` at `x = 0.8f` returns `0x1.99999cp-4`, not `0x1.99999ap-4`; the
bezier basis on four knots equal to `2^127` has no finite result (the product `3 * c`
is beyond the largest `float`); and with `2147483587` knots, hence `2^31 - 64` segments,
the linear basis at `x = 1` returns nothing, whatever the knots: `(float)nsegs` is `2^31`
and the cast `(int)seg_x` has no value. -/
theorem spline_evaluate_scalar_binary32_equal_knots_not_reproduced :
    (binary32 (7 : ℚ) = Except.ok 7 ∧
      spline_evaluate_scalar spline_weighted_evaluate_binary32 "bspline" (1 / 2) [7, 7, 7, 7] 4
        = Except.ok (7340033 / 1048576)) ∧
    (binary32 (5033165 / 16777216 : ℚ) = Except.ok (5033165 / 16777216) ∧
      spline_evaluate_scalar spline_weighted_evaluate_binary32 "catmull-rom" (3 / 4)
          [5033165 / 16777216, 5033165 / 16777216, 5033165 / 16777216, 5033165 / 16777216] 4
        = Except.ok (10066331 / 33554432)) ∧
    (binary32 (13421773 / 134217728 : ℚ) = Except.ok (13421773 / 134217728) ∧
      binary32 (13421773 / 16777216 : ℚ) = Except.ok (13421773 / 16777216) ∧
      spline_evaluate_scalar spline_weighted_evaluate_binary32 "bezier" (13421773 / 16777216)
          [13421773 / 134217728, 13421773 / 134217728, 13421773 / 134217728,
            13421773 / 134217728] 4
        = Except.ok (6710887 / 67108864)) ∧
    (binary32 (2 ^ 127 : ℚ) = Except.ok (2 ^ 127) ∧
      spline_evaluate_scalar spline_weighted_evaluate_binary32 "bezier" (1 / 2)
          [2 ^ 127, 2 ^ 127, 2 ^ 127, 2 ^ 127] 4
        = Except.error SplineError.notFinite) ∧
    (spline_nsegs 2147483587 1 = 2 ^ 31 - 64 ∧
      ∀ knots : List ℚ,
        spline_evaluate_scalar spline_weighted_evaluate_binary32 "linear" 1 knots 2147483587
          = Except.error SplineError.castOutOfRange) := by
  have hn : spline_nsegs 2147483587 1 = 2 ^ 31 - 64 := by decide
  have hd : ¬ float_to_int_defined
      (removeDerivatives (spline_scaled_x_binary32 1 (2 ^ 31 - 64))) := by decide!
  have ht : getSplineBasisType "linear" = 4 := by decide
  refine ⟨⟨by decide!, by decide!⟩, ⟨by decide!, by decide!⟩,
    ⟨by decide!, by decide!, by decide!⟩, ⟨by decide!, by decide!⟩, hn, fun knots => ?_⟩
  simp only [spline_evaluate_scalar, ht]
  unfold spline_weighted_evaluate_binary32
  simp only [hn, if_neg hd]

/-! ## Sums of knot sequences in binary32 -/

/-- Claim C32, as amended. In binary32, for the constant basis (every name that the
dispatch sends to its branch), every parameter `x`, every two knot sequences `K` and `L`
of the same length, every knot count of at least four and below `2^31 - 61` (fewer than
`2^31 - 64` segments, so that the cast of line 630 has a value) that the sequences hold,
and every combination `f` of two `float`s, such as the `float` expression `a*k + b*l`:
`spline_evaluate_scalar` returns on `K`, on `L` and on the sequence of the combinations
taken knot by knot, and its result on that sequence is the combination of its results on
`K` and on `L`. For the five other bases the rounded sums are not linear in the knots. -/
theorem spline_evaluate_scalar_binary32_constant_in_knots (spline_basis : String)
    (hname : getSplineBasisType spline_basis = 5) (x : ℚ)
    (K L : List ℚ) (hKL : K.length = L.length) (knot_count : Int) (hk : 4 ≤ knot_count)
    (hcount : knot_count < 2 ^ 31 - 61) (hlen : knot_count ≤ K.length) (f : ℚ → ℚ → ℚ) :
    ∃ r1 r2,
      spline_evaluate_scalar spline_weighted_evaluate_binary32 spline_basis x K knot_count
        = Except.ok r1 ∧
      spline_evaluate_scalar spline_weighted_evaluate_binary32 spline_basis x L knot_count
        = Except.ok r2 ∧
      spline_evaluate_scalar spline_weighted_evaluate_binary32 spline_basis x
          (List.zipWith f K L) knot_count
        = Except.ok (f r1 r2) := by
  have knotAt_zipWith : ∀ (f : ℚ → ℚ → ℚ) (K L : List ℚ) (hKL : K.length = L.length) (i : Int)
      (h0 : 0 ≤ i) (h1 : i < K.length),
      knotAt (List.zipWith f K L) i
        = Except.ok (f (K.getD i.toNat 0) (L.getD i.toNat 0)) := by
    intro f K L hKL i h0 h1
    have hK : i.toNat < K.length := by omega
    have hL : i.toNat < L.length := by omega
    have hZ : i.toNat < (List.zipWith f K L).length := by
      rw [List.length_zipWith]
      omega
    unfold knotAt
    rw [if_neg (by omega), List.getElem?_eq_getElem hZ, List.getElem_zipWith,
      List.getD_eq_getElem K 0 hK, List.getD_eq_getElem L 0 hL]
  have hn := spline_nsegs_pos knot_count 1 hk (by decide)
  have hle := spline_nsegs_le knot_count 1 hk (by decide)
  have hg0 := spline_segnum_binary32_nonneg x (spline_nsegs knot_count 1) hn
  have hg1 := spline_segnum_binary32_le x (spline_nsegs knot_count 1)
  have hcast := float_to_int_defined_scaled x (spline_nsegs knot_count 1) hn (by omega)
  simp only [spline_evaluate_scalar, hname]
  rw [spline_weighted_evaluate_binary32_constant _ _ _ _ _ hcast,
    spline_weighted_evaluate_binary32_constant _ _ _ _ _ hcast,
    spline_weighted_evaluate_binary32_constant _ _ _ _ _ hcast,
    knotAt_getD K _ (by omega) (by omega), knotAt_getD L _ (by omega) (by omega),
    knotAt_zipWith _ K L hKL _ (by omega) (by omega)]
  exact ⟨_, _, rfl, rfl, rfl⟩

/-- Witness of claim C32: the constant basis in binary32, the parameter `1/3`, the
sequences `0, 1, 4, 9, 16` and `1, 1, 2, 3, 5`, and the combination `2*k + (-3)*l` with
each operation rounded. -/
theorem spline_evaluate_scalar_binary32_constant_in_knots_witness :
    (getSplineBasisType "constant" = 5 ∧
      ([0, 1, 4, 9, 16] : List ℚ).length = ([1, 1, 2, 3, 5] : List ℚ).length ∧ (4 : Int) ≤ 5 ∧
      (5 : Int) < 2 ^ 31 - 61 ∧ (5 : Int) ≤ ([0, 1, 4, 9, 16] : List ℚ).length) ∧
    ∃ r1 r2,
      spline_evaluate_scalar spline_weighted_evaluate_binary32 "constant" (1/3)
          [0, 1, 4, 9, 16] 5 = Except.ok r1 ∧
      spline_evaluate_scalar spline_weighted_evaluate_binary32 "constant" (1/3)
          [1, 1, 2, 3, 5] 5 = Except.ok r2 ∧
      spline_evaluate_scalar spline_weighted_evaluate_binary32 "constant" (1/3)
          (List.zipWith
            (fun k l => binary32_round (binary32_round (2 * k) + binary32_round ((-3) * l)))
            [0, 1, 4, 9, 16] [1, 1, 2, 3, 5]) 5
        = Except.ok (binary32_round (binary32_round (2 * r1) + binary32_round ((-3) * r2))) :=
  ⟨⟨by decide, by simp, by decide, by decide, by simp⟩,
    spline_evaluate_scalar_binary32_constant_in_knots "constant" (by decide) (1/3)
      [0, 1, 4, 9, 16] [1, 1, 2, 3, 5] (by simp) 5 (by decide) (by decide) (by simp)
      (fun k l => binary32_round (binary32_round (2 * k) + binary32_round ((-3) * l)))⟩

/-- Counterexample to claim C32 as stated, in binary32, for each basis but the constant
one, at `x = 1` with `a = b = 1` on four knots, where each knot of `K + L` is a `float`
with no rounding. Linear: `K = 0, 1e8, 0, 0` and `L = 0, 0, 1, 0` give `0` and `1`, their
sum gives `0`. Catmull-rom: `K = 0, 0, 0, 1e8` and `L = 0, 0, 1, 0` give `0` and `1`, their
sum gives `1/2`. Bezier: `K = 0, 0, 0, 1e8` and `L = 0, 1, 0, 0` give `1e8` and `0`, their
sum gives `99999992`. Bspline: `K = 0, 0, 0, 1e8` and `L = 0, 0, 1, 0` give `16666667` and
`0x1.555556p-1`, their sum gives `16666666`. Hermite: `K = 0, 0, 0, 1e8` and
`L = 0, 0, 1, 0` give `0` and `1`, their sum gives `0`. And with `2147483587` knots, hence
`2^31 - 64` segments, the constant basis at `x = 1` returns nothing, whatever the knots:
`(float)nsegs` is `2^31` and the cast `(int)seg_x` has no value. -/
theorem spline_evaluate_scalar_binary32_not_linear_in_knots :
    (List.zipWith (fun k l => 1 * k + 1 * l) [0, 100000000, 0, 0] [0, 0, 1, 0]
        = ([0, 100000000, 1, 0] : List ℚ) ∧
      List.zipWith (fun k l => 1 * k + 1 * l) [0, 0, 0, 100000000] [0, 0, 1, 0]
        = ([0, 0, 1, 100000000] : List ℚ) ∧
      List.zipWith (fun k l => 1 * k + 1 * l) [0, 0, 0, 100000000] [0, 1, 0, 0]
        = ([0, 1, 0, 100000000] : List ℚ) ∧
      binary32_round 100000000 = 100000000) ∧
    (spline_evaluate_scalar spline_weighted_evaluate_binary32 "linear" 1
        [0, 100000000, 0, 0] 4 = Except.ok 0 ∧
      spline_evaluate_scalar spline_weighted_evaluate_binary32 "linear" 1
        [0, 0, 1, 0] 4 = Except.ok 1 ∧
      spline_evaluate_scalar spline_weighted_evaluate_binary32 "linear" 1
        [0, 100000000, 1, 0] 4 = Except.ok 0 ∧
      binary32_round (1 * 0 + 1 * 1) ≠ 0) ∧
    (spline_evaluate_scalar spline_weighted_evaluate_binary32 "catmull-rom" 1
        [0, 0, 0, 100000000] 4 = Except.ok 0 ∧
      spline_evaluate_scalar spline_weighted_evaluate_binary32 "catmull-rom" 1
        [0, 0, 1, 0] 4 = Except.ok 1 ∧
      spline_evaluate_scalar spline_weighted_evaluate_binary32 "catmull-rom" 1
        [0, 0, 1, 100000000] 4 = Except.ok (1 / 2) ∧
      binary32_round (1 * 0 + 1 * 1) ≠ 1 / 2) ∧
    (spline_evaluate_scalar spline_weighted_evaluate_binary32 "bezier" 1
        [0, 0, 0, 100000000] 4 = Except.ok 100000000 ∧
      spline_evaluate_scalar spline_weighted_evaluate_binary32 "bezier" 1
        [0, 1, 0, 0] 4 = Except.ok 0 ∧
      spline_evaluate_scalar spline_weighted_evaluate_binary32 "bezier" 1
        [0, 1, 0, 100000000] 4 = Except.ok 99999992 ∧
      binary32_round (1 * 100000000 + 1 * 0) ≠ 99999992) ∧
    (spline_evaluate_scalar spline_weighted_evaluate_binary32 "bspline" 1
        [0, 0, 0, 100000000] 4 = Except.ok 16666667 ∧
      spline_evaluate_scalar spline_weighted_evaluate_binary32 "bspline" 1
        [0, 0, 1, 0] 4 = Except.ok (11184811 / 16777216) ∧
      spline_evaluate_scalar spline_weighted_evaluate_binary32 "bspline" 1
        [0, 0, 1, 100000000] 4 = Except.ok 16666666 ∧
      binary32_round (1 * 16666667 + 1 * (11184811 / 16777216)) ≠ 16666666) ∧
    (spline_evaluate_scalar spline_weighted_evaluate_binary32 "hermite" 1
        [0, 0, 0, 100000000] 4 = Except.ok 0 ∧
      spline_evaluate_scalar spline_weighted_evaluate_binary32 "hermite" 1
        [0, 0, 1, 0] 4 = Except.ok 1 ∧
      spline_evaluate_scalar spline_weighted_evaluate_binary32 "hermite" 1
        [0, 0, 1, 100000000] 4 = Except.ok 0 ∧
      binary32_round (1 * 0 + 1 * 1) ≠ 0) ∧
    (spline_nsegs 2147483587 1 = 2 ^ 31 - 64 ∧
      ∀ knots : List ℚ,
        spline_evaluate_scalar spline_weighted_evaluate_binary32 "constant" 1 knots 2147483587
          = Except.error SplineError.castOutOfRange) := by
  have hn : spline_nsegs 2147483587 1 = 2 ^ 31 - 64 := by decide
  have hd : ¬ float_to_int_defined
      (removeDerivatives (spline_scaled_x_binary32 1 (2 ^ 31 - 64))) := by decide!
  have ht : getSplineBasisType "constant" = 5 := by decide
  refine ⟨⟨?_, ?_, ?_, ?_⟩, ⟨?_, ?_, ?_, ?_⟩, ⟨?_, ?_, ?_, ?_⟩, ⟨?_, ?_, ?_, ?_⟩,
    ⟨?_, ?_, ?_, ?_⟩, ⟨?_, ?_, ?_, ?_⟩, hn, fun knots => ?_⟩
  all_goals first
    | decide!
    | (simp only [spline_evaluate_scalar, ht]
       unfold spline_weighted_evaluate_binary32
       simp only [hn, if_neg hd])

/-! ## Derivatives of the parameter in binary32 -/

/-- Claim C16, as amended. In binary32, for every non-constant record of the basis table
with its weights `M` of the dispatch, every knot count of at least four with at most
`2^24` segments in a buffer that holds that many finite `float` knots of magnitude at most
`2^64`, and every dual parameter `x` whose value is a `float` in `[0, 1]` and whose
derivatives have magnitude at most `2^24`: `spline_evaluate_scalar` returns a result
`out`, and each derivative of `out` is the product-rule sum of the Horner form,
`out.dx = v2*d + ((v1*d + (T0*d)*u)*u)` with every operation rounded, where
`d = x.dx * (float)nsegs`, `T0 .. T2` are the rounded sums
`M[k,0]*P0 + M[k,1]*P1 + M[k,2]*P2 + M[k,3]*P3` over the knots `Pj = knots[segnum*step + j]`,
`v1 = T0*u + T1` and `v2 = v1*u + T2` are the rounded partial values, and `segnum`, `u` are
the segment index and the local parameter selected for the value of `x`; likewise
`out.dy` with `x.dy`. In exact arithmetic that sum is
`nsegs*(3*T0*u^2 + 2*T1*u + T2)*x.dx`; in binary32 it is that product where `x.dx = 0`
(both are 0) and, for the linear basis, where it is the rounded product of the rounded
`P2 - P1` and `d`. -/
theorem spline_evaluate_scalar_dfdff_binary32_derivative (b : SplineBasis)
    (hb : b ∈ gBasisSet) (hnc : b.basis_name ≠ "constant")
    (x : Dual2 ℚ) (hfx : binary32_round x.val = x.val) (h0 : 0 ≤ x.val) (h1 : x.val ≤ 1)
    (hdx : |x.dx| ≤ 2 ^ (24 : Int)) (hdy : |x.dy| ≤ 2 ^ (24 : Int))
    (knots : List ℚ) (knot_count : Int) (hk : 4 ≤ knot_count)
    (hlen : knot_count ≤ knots.length)
    (hn24 : spline_nsegs knot_count b.basis_step ≤ 2 ^ 24)
    (hknots : ∀ v ∈ knots, binary32_round v = v ∧ |v| ≤ 2 ^ (64 : Int)) :
    ∃ (M : StaticMatrix44) (P : Fin 4 → ℚ) (T0 T1 T2 T3 : PVal) (v1 v2 : ℚ) (out : Dual2 ℚ),
      (∀ (XTYPE KTYPE RTYPE : Type) (weighted_evaluate : WeightedEvaluate XTYPE KTYPE RTYPE)
        (x : XTYPE) (knots : List KTYPE) (knot_count : Int),
        spline_evaluate_scalar weighted_evaluate b.basis_name x knots knot_count
          = weighted_evaluate M false b.basis_step x knots knot_count) ∧
      (∀ j : Fin 4, knotAt knots
        (spline_segnum_binary32 x.val (spline_nsegs knot_count b.basis_step) * b.basis_step
          + ((j : Nat) : Int)) = Except.ok (P j)) ∧
      (spline_weighted_row_binary32 M.m00 M.m01 M.m02 M.m03 (P 0) (P 1) (P 2) (P 3)
          = Except.ok T0 ∧
        spline_weighted_row_binary32 M.m10 M.m11 M.m12 M.m13 (P 0) (P 1) (P 2) (P 3)
          = Except.ok T1 ∧
        spline_weighted_row_binary32 M.m20 M.m21 M.m22 M.m23 (P 0) (P 1) (P 2) (P 3)
          = Except.ok T2 ∧
        spline_weighted_row_binary32 M.m30 M.m31 M.m32 M.m33 (P 0) (P 1) (P 2) (P 3)
          = Except.ok T3) ∧
      v1 = binary32_round (binary32_round (unproxy_element T0
          * spline_local_x_binary32 x.val (spline_nsegs knot_count b.basis_step))
        + unproxy_element T1) ∧
      v2 = binary32_round (binary32_round (v1
          * spline_local_x_binary32 x.val (spline_nsegs knot_count b.basis_step))
        + unproxy_element T2) ∧
      spline_evaluate_scalar spline_weighted_evaluate_dfdff_binary32 b.basis_name x knots
        knot_count = Except.ok out ∧
      out.dx = binary32_round (binary32_round (v2
          * binary32_round (x.dx * ((spline_nsegs knot_count b.basis_step : Int) : ℚ)))
        + binary32_round (binary32_round (binary32_round (v1
              * binary32_round (x.dx * ((spline_nsegs knot_count b.basis_step : Int) : ℚ)))
            + binary32_round (binary32_round (unproxy_element T0
                * binary32_round (x.dx * ((spline_nsegs knot_count b.basis_step : Int) : ℚ)))
              * spline_local_x_binary32 x.val (spline_nsegs knot_count b.basis_step)))
          * spline_local_x_binary32 x.val (spline_nsegs knot_count b.basis_step))) ∧
      out.dy = binary32_round (binary32_round (v2
          * binary32_round (x.dy * ((spline_nsegs knot_count b.basis_step : Int) : ℚ)))
        + binary32_round (binary32_round (binary32_round (v1
              * binary32_round (x.dy * ((spline_nsegs knot_count b.basis_step : Int) : ℚ)))
            + binary32_round (binary32_round (unproxy_element T0
                * binary32_round (x.dy * ((spline_nsegs knot_count b.basis_step : Int) : ℚ)))
              * spline_local_x_binary32 x.val (spline_nsegs knot_count b.basis_step)))
          * spline_local_x_binary32 x.val (spline_nsegs knot_count b.basis_step))) ∧
      (x.dx = 0 → out.dx = 0) ∧ (x.dy = 0 → out.dy = 0) ∧
      (b.basis_name = "linear" →
        out.dx = binary32_round (binary32_round (-P 1 + P 2)
          * binary32_round (x.dx * ((spline_nsegs knot_count b.basis_step : Int) : ℚ))) ∧
        out.dy = binary32_round (binary32_round (-P 1 + P 2)
          * binary32_round (x.dy * ((spline_nsegs knot_count b.basis_step : Int) : ℚ)))) := by
  -- The weights and the step that the dispatch gives a non-constant record of the basis
  -- table; they are the linear weights for the linear record.
  have spline_evaluate_scalar_of_table_weights : ∀ (b : SplineBasis) (hb : b ∈ gBasisSet)
      (hnc : b.basis_name ≠ "constant"),
      ∃ M : StaticMatrix44, (∀ m ∈ M.numerators, |m| ≤ 8) ∧ 1 ≤ M.DivisorT ∧
        M.DivisorT ≤ 8 ∧ 0 < b.basis_step ∧ (b.basis_name = "linear" → M = linearWeights) ∧
        ∀ (XTYPE KTYPE RTYPE : Type) (weighted_evaluate : WeightedEvaluate XTYPE KTYPE RTYPE)
          (x : XTYPE) (knots : List KTYPE) (knot_count : Int),
          spline_evaluate_scalar weighted_evaluate b.basis_name x knots knot_count
            = weighted_evaluate M false b.basis_step x knots knot_count := by
    intro b hb hnc
    simp only [gBasisSet, List.mem_cons, List.mem_singleton, List.not_mem_nil, or_false] at hb
    rcases hb with rfl | rfl | rfl | rfl | rfl | rfl
    · have ht : getSplineBasisType "catmull-rom" = 0 := by decide
      exact ⟨catmullRomWeights, by decide, by decide, by decide, by decide,
        fun h => absurd h (by decide),
        fun _ _ _ _ _ _ _ => by simp only [spline_evaluate_scalar, ht]⟩
    · have ht : getSplineBasisType "bezier" = 1 := by decide
      exact ⟨bezierWeights, by decide, by decide, by decide, by decide,
        fun h => absurd h (by decide),
        fun _ _ _ _ _ _ _ => by simp only [spline_evaluate_scalar, ht]⟩
    · have ht : getSplineBasisType "bspline" = 2 := by decide
      exact ⟨bsplineWeights, by decide, by decide, by decide, by decide,
        fun h => absurd h (by decide),
        fun _ _ _ _ _ _ _ => by simp only [spline_evaluate_scalar, ht]⟩
    · have ht : getSplineBasisType "hermite" = 3 := by decide
      exact ⟨hermiteWeights, by decide, by decide, by decide, by decide,
        fun h => absurd h (by decide),
        fun _ _ _ _ _ _ _ => by simp only [spline_evaluate_scalar, ht]⟩
    · have ht : getSplineBasisType "linear" = 4 := by decide
      exact ⟨linearWeights, by decide, by decide, by decide, by decide, fun _ => rfl,
        fun _ _ _ _ _ _ _ => by simp only [spline_evaluate_scalar, ht]⟩
    · exact absurd rfl hnc
  -- The derivatives of the evaluator in binary32 at a dual parameter, for the weights
  -- `M` and the step that the dispatch gives a basis name.
  have spline_evaluate_scalar_dfdff_binary32_of_weights : ∀ (spline_basis : String)
      (basis_step : Int) (M : StaticMatrix44)
      (hM : ∀ m ∈ M.numerators, |m| ≤ 8) (hD1 : 1 ≤ M.DivisorT) (hD8 : M.DivisorT ≤ 8)
      (hs : 0 < basis_step)
      (hdisp : ∀ (XTYPE KTYPE RTYPE : Type) (weighted_evaluate : WeightedEvaluate XTYPE KTYPE RTYPE)
        (x : XTYPE) (knots : List KTYPE) (knot_count : Int),
        spline_evaluate_scalar weighted_evaluate spline_basis x knots knot_count
          = weighted_evaluate M false basis_step x knots knot_count)
      (hlin : spline_basis = "linear" → M = linearWeights)
      (x : Dual2 ℚ) (hfx : binary32_round x.val = x.val) (h0 : 0 ≤ x.val) (h1 : x.val ≤ 1)
      (hdx : |x.dx| ≤ 2 ^ (24 : Int)) (hdy : |x.dy| ≤ 2 ^ (24 : Int))
      (knots : List ℚ) (knot_count : Int) (hk : 4 ≤ knot_count)
      (hlen : knot_count ≤ knots.length)
      (hn24 : spline_nsegs knot_count basis_step ≤ 2 ^ 24)
      (hknots : ∀ v ∈ knots, binary32_round v = v ∧ |v| ≤ 2 ^ (64 : Int)),
      ∃ (P : Fin 4 → ℚ) (T0 T1 T2 T3 : PVal) (v1 v2 : ℚ) (out : Dual2 ℚ),
        (∀ j : Fin 4, knotAt knots
          (spline_segnum_binary32 x.val (spline_nsegs knot_count basis_step) * basis_step
            + ((j : Nat) : Int)) = Except.ok (P j)) ∧
        (spline_weighted_row_binary32 M.m00 M.m01 M.m02 M.m03 (P 0) (P 1) (P 2) (P 3)
            = Except.ok T0 ∧
          spline_weighted_row_binary32 M.m10 M.m11 M.m12 M.m13 (P 0) (P 1) (P 2) (P 3)
            = Except.ok T1 ∧
          spline_weighted_row_binary32 M.m20 M.m21 M.m22 M.m23 (P 0) (P 1) (P 2) (P 3)
            = Except.ok T2 ∧
          spline_weighted_row_binary32 M.m30 M.m31 M.m32 M.m33 (P 0) (P 1) (P 2) (P 3)
            = Except.ok T3) ∧
        v1 = binary32_round (binary32_round (unproxy_element T0
            * spline_local_x_binary32 x.val (spline_nsegs knot_count basis_step))
          + unproxy_element T1) ∧
        v2 = binary32_round (binary32_round (v1
            * spline_local_x_binary32 x.val (spline_nsegs knot_count basis_step))
          + unproxy_element T2) ∧
        spline_evaluate_scalar spline_weighted_evaluate_dfdff_binary32 spline_basis x knots
          knot_count = Except.ok out ∧
        out.dx = binary32_round (binary32_round (v2
            * binary32_round (x.dx * ((spline_nsegs knot_count basis_step : Int) : ℚ)))
          + binary32_round (binary32_round (binary32_round (v1
                * binary32_round (x.dx * ((spline_nsegs knot_count basis_step : Int) : ℚ)))
              + binary32_round (binary32_round (unproxy_element T0
                  * binary32_round (x.dx * ((spline_nsegs knot_count basis_step : Int) : ℚ)))
                * spline_local_x_binary32 x.val (spline_nsegs knot_count basis_step)))
            * spline_local_x_binary32 x.val (spline_nsegs knot_count basis_step))) ∧
        out.dy = binary32_round (binary32_round (v2
            * binary32_round (x.dy * ((spline_nsegs knot_count basis_step : Int) : ℚ)))
          + binary32_round (binary32_round (binary32_round (v1
                * binary32_round (x.dy * ((spline_nsegs knot_count basis_step : Int) : ℚ)))
              + binary32_round (binary32_round (unproxy_element T0
                  * binary32_round (x.dy * ((spline_nsegs knot_count basis_step : Int) : ℚ)))
                * spline_local_x_binary32 x.val (spline_nsegs knot_count basis_step)))
            * spline_local_x_binary32 x.val (spline_nsegs knot_count basis_step))) ∧
        (x.dx = 0 → out.dx = 0) ∧ (x.dy = 0 → out.dy = 0) ∧
        (spline_basis = "linear" →
          out.dx = binary32_round (binary32_round (-P 1 + P 2)
            * binary32_round (x.dx * ((spline_nsegs knot_count basis_step : Int) : ℚ))) ∧
          out.dy = binary32_round (binary32_round (-P 1 + P 2)
            * binary32_round (x.dy * ((spline_nsegs knot_count basis_step : Int) : ℚ)))) := by
    intro spline_basis basis_step M hM hD1 hD8 hs hdisp hlin x hfx h0 h1 hdx hdy knots knot_count hk hlen hn24 hknots
    -- The first three sums of the linear weights in binary32: two zero proxies and the
    -- rounded difference `-P1 + P2`.
    have spline_weighted_row_binary32_linear_rows : ∀ (P0 P1 P2 P3 : ℚ),
        spline_weighted_row_binary32 linearWeights.m00 linearWeights.m01 linearWeights.m02
            linearWeights.m03 P0 P1 P2 P3 = Except.ok (PVal.zero 1) ∧
        spline_weighted_row_binary32 linearWeights.m10 linearWeights.m11 linearWeights.m12
            linearWeights.m13 P0 P1 P2 P3 = Except.ok (PVal.zero 1) ∧
        spline_weighted_row_binary32 linearWeights.m20 linearWeights.m21 linearWeights.m22
            linearWeights.m23 P0 P1 P2 P3 = Except.map PVal.value (binary32 (-P1 + P2)) := by
      intro P0 P1 P2 P3
      refine ⟨?_, ?_, ?_⟩
      · simp [spline_weighted_row_binary32, linearWeights, StaticMatrix44.m00,
          StaticMatrix44.m01, StaticMatrix44.m02, StaticMatrix44.m03, ProxyElement.mul_binary32,
          PVal.add_binary32, bind, Except.bind, pure, Except.pure]
      · simp [spline_weighted_row_binary32, linearWeights, StaticMatrix44.m10,
          StaticMatrix44.m11, StaticMatrix44.m12, StaticMatrix44.m13, ProxyElement.mul_binary32,
          PVal.add_binary32, bind, Except.bind, pure, Except.pure]
      · cases h : binary32 (-P1 + P2) <;>
        simp [spline_weighted_row_binary32, linearWeights, StaticMatrix44.m20,
          StaticMatrix44.m21, StaticMatrix44.m22, StaticMatrix44.m23, ProxyElement.mul_binary32,
          PVal.add_binary32, bind, Except.bind, pure, Except.pure, Except.map, h]
    -- The `float` of a value of the evaluator that is a zero proxy or a binary32 number
    -- of magnitude at most `2^e`.
    have PVal_isBinary32_unproxy : ∀ (T : PVal) (e : Int) (h : T.isBinary32 (2 ^ e)),
        binary32_round (unproxy_element T) = unproxy_element T ∧ |unproxy_element T| ≤ 2 ^ e := by
      intro T e h
      cases T with
      | zero d =>
        rw [unproxy_element_zero, abs_zero]
        exact ⟨binary32_round_zero, le_of_lt (two_zpow_pos _)⟩
      | value v => exact h
    -- A product of factors of magnitude at most `2^e` and `2^s`, `e + s ≤ 127`, rounds to
    -- a finite binary32 number of magnitude at most `2^(e+s)`.
    have binary32_mul_of_abs_le : ∀ (a b : ℚ) (e s : Int) (ha : |a| ≤ 2 ^ e) (hb : |b| ≤ 2 ^ s)
        (h0 : -149 ≤ e + s) (h1 : e + s ≤ 127),
        binary32 (a * b) = Except.ok (binary32_round (a * b)) ∧
          |binary32_round (a * b)| ≤ 2 ^ (e + s) ∧
          binary32_round (binary32_round (a * b)) = binary32_round (a * b) := by
      intro a b e s ha hb h0 h1
      apply binary32_of_abs_le _ _ h0 h1
      rw [abs_mul, zpow_add₀ (by norm_num : (2 : ℚ) ≠ 0)]
      exact mul_le_mul ha hb (abs_nonneg _) (le_of_lt (two_zpow_pos _))
    -- With at least four knots in a buffer that holds them, binary32 knots of magnitude at
    -- most `2^64`, at most `2^24` segments and a dual parameter whose value is a binary32
    -- number in `[0, 1]` and whose derivatives have magnitude at most `2^24`, the evaluator
    -- in binary32 at a dual parameter returns: its value and its derivatives are the Horner
    -- form and the product-rule sums over the four sums `tk0 .. tk3` of the segment, at the
    -- local parameter `u` and the scaled derivatives `x.dx * (float)nsegs` and
    -- `x.dy * (float)nsegs`.
    have spline_weighted_evaluate_dfdff_binary32_ok : ∀ (M : StaticMatrix44)
        (hM : ∀ m ∈ M.numerators, |m| ≤ 8) (hD1 : 1 ≤ M.DivisorT) (hD8 : M.DivisorT ≤ 8)
        (basis_step : Int) (hs : 0 < basis_step) (x : Dual2 ℚ)
        (hfx : binary32_round x.val = x.val) (h0 : 0 ≤ x.val) (h1 : x.val ≤ 1)
        (hdx : |x.dx| ≤ 2 ^ (24 : Int)) (hdy : |x.dy| ≤ 2 ^ (24 : Int))
        (knots : List ℚ) (knot_count : Int) (hk : 4 ≤ knot_count)
        (hlen : knot_count ≤ knots.length)
        (hn24 : spline_nsegs knot_count basis_step ≤ 2 ^ 24)
        (hknots : ∀ v ∈ knots, binary32_round v = v ∧ |v| ≤ 2 ^ (64 : Int)),
        ∃ (P : Fin 4 → ℚ) (T0 T1 T2 T3 : PVal) (v1 v2 : ℚ),
          (∀ j : Fin 4, knotAt knots
            (spline_segnum_binary32 x.val (spline_nsegs knot_count basis_step) * basis_step
              + ((j : Nat) : Int)) = Except.ok (P j)) ∧
          (spline_weighted_row_binary32 M.m00 M.m01 M.m02 M.m03 (P 0) (P 1) (P 2) (P 3)
              = Except.ok T0 ∧
            spline_weighted_row_binary32 M.m10 M.m11 M.m12 M.m13 (P 0) (P 1) (P 2) (P 3)
              = Except.ok T1 ∧
            spline_weighted_row_binary32 M.m20 M.m21 M.m22 M.m23 (P 0) (P 1) (P 2) (P 3)
              = Except.ok T2 ∧
            spline_weighted_row_binary32 M.m30 M.m31 M.m32 M.m33 (P 0) (P 1) (P 2) (P 3)
              = Except.ok T3) ∧
          (T0.isBinary32 (2 ^ (70 : Int)) ∧ T1.isBinary32 (2 ^ (70 : Int)) ∧
            T2.isBinary32 (2 ^ (70 : Int)) ∧ T3.isBinary32 (2 ^ (70 : Int))) ∧
          v1 = binary32_round (binary32_round (unproxy_element T0
              * spline_local_x_binary32 x.val (spline_nsegs knot_count basis_step))
            + unproxy_element T1) ∧
          v2 = binary32_round (binary32_round (v1
              * spline_local_x_binary32 x.val (spline_nsegs knot_count basis_step))
            + unproxy_element T2) ∧
          spline_weighted_evaluate_dfdff_binary32 M false basis_step x knots knot_count
            = Except.ok
              ⟨binary32_round (binary32_round (v2
                  * spline_local_x_binary32 x.val (spline_nsegs knot_count basis_step))
                + unproxy_element T3),
              binary32_round (binary32_round (v2
                  * binary32_round (x.dx * ((spline_nsegs knot_count basis_step : Int) : ℚ)))
                + binary32_round (binary32_round (binary32_round (v1
                      * binary32_round (x.dx * ((spline_nsegs knot_count basis_step : Int) : ℚ)))
                    + binary32_round (binary32_round (unproxy_element T0
                        * binary32_round (x.dx * ((spline_nsegs knot_count basis_step : Int) : ℚ)))
                      * spline_local_x_binary32 x.val (spline_nsegs knot_count basis_step)))
                  * spline_local_x_binary32 x.val (spline_nsegs knot_count basis_step))),
              binary32_round (binary32_round (v2
                  * binary32_round (x.dy * ((spline_nsegs knot_count basis_step : Int) : ℚ)))
                + binary32_round (binary32_round (binary32_round (v1
                      * binary32_round (x.dy * ((spline_nsegs knot_count basis_step : Int) : ℚ)))
                    + binary32_round (binary32_round (unproxy_element T0
                        * binary32_round (x.dy * ((spline_nsegs knot_count basis_step : Int) : ℚ)))
                      * spline_local_x_binary32 x.val (spline_nsegs knot_count basis_step)))
                  * spline_local_x_binary32 x.val (spline_nsegs knot_count basis_step)))⟩ := by
      intro M hM hD1 hD8 basis_step hs x hfx h0 h1 hdx hdy knots knot_count hk hlen hn24 hknots
      -- The Horner form of duals in binary32 over four values of magnitude at most `2^70`,
      -- at a local parameter of magnitude at most 1 with derivatives of magnitude at most `2^48`:
      -- the value and, for each derivative `d` of the parameter, the product-rule sum
      -- `v2*d + ((v1*d + (t0*d)*u)*u)` with every operation rounded, where `v1 = t0*u + t1` and
      -- `v2 = v1*u + t2` are the rounded partial values.
      have horner_dual_binary32_eq : ∀ (T0 T1 T2 T3 : PVal) (x : Dual2 ℚ)
          (h0 : T0.isBinary32 (2 ^ (70 : Int))) (h1 : T1.isBinary32 (2 ^ (70 : Int)))
          (h2 : T2.isBinary32 (2 ^ (70 : Int))) (h3 : T3.isBinary32 (2 ^ (70 : Int)))
          (hv : |x.val| ≤ 1) (hdx : |x.dx| ≤ 2 ^ (48 : Int)) (hdy : |x.dy| ≤ 2 ^ (48 : Int)),
          ∃ v1 v2 : ℚ,
            v1 = binary32_round (binary32_round (unproxy_element T0 * x.val) + unproxy_element T1) ∧
            v2 = binary32_round (binary32_round (v1 * x.val) + unproxy_element T2) ∧
            (do
              let h1 ← T0.mulDual2_binary32 x
              let h2 ← h1.addPVal_binary32 T1
              let h3 ← h2.mulDual_binary32 x
              let h4 ← h3.addPVal_binary32 T2
              let h5 ← h4.mulDual_binary32 x
              h5.addPVal_binary32 T3)
            = Except.ok ⟨binary32_round (binary32_round (v2 * x.val) + unproxy_element T3),
                binary32_round (binary32_round (v2 * x.dx)
                  + binary32_round (binary32_round (binary32_round (v1 * x.dx)
                      + binary32_round (binary32_round (unproxy_element T0 * x.dx) * x.val))
                    * x.val)),
                binary32_round (binary32_round (v2 * x.dy)
                  + binary32_round (binary32_round (binary32_round (v1 * x.dy)
                      + binary32_round (binary32_round (unproxy_element T0 * x.dy) * x.val))
                    * x.val))⟩ := by
        intro T0 T1 T2 T3 x h0 h1 h2 h3 hv hdx hdy
        -- A sum of terms of magnitude at most `2^e`, `e + 1 ≤ 127`, rounds to a finite
        -- binary32 number of magnitude at most `2^(e+1)`.
        have binary32_add_of_abs_le : ∀ (a b : ℚ) (e : Int) (ha : |a| ≤ 2 ^ e) (hb : |b| ≤ 2 ^ e)
            (h0 : -149 ≤ e + 1) (h1 : e + 1 ≤ 127),
            binary32 (a + b) = Except.ok (binary32_round (a + b)) ∧
              |binary32_round (a + b)| ≤ 2 ^ (e + 1) ∧
              binary32_round (binary32_round (a + b)) = binary32_round (a + b) := by
          intro a b e ha hb h0 h1
          apply binary32_of_abs_le _ _ h0 h1
          rw [two_zpow_succ]
          have := abs_add a b
          linarith
        -- The product of two duals in binary32, component by component.
        have Dual2_mulDual_binary32_eq : ∀ (a x : Dual2 ℚ) (e f s : Int) (hav : |a.val| ≤ 2 ^ e)
            (hadx : |a.dx| ≤ 2 ^ f) (hady : |a.dy| ≤ 2 ^ f) (hv : |x.val| ≤ 2 ^ (0 : Int))
            (hdx : |x.dx| ≤ 2 ^ s) (hdy : |x.dy| ≤ 2 ^ s) (he0 : -149 ≤ e) (hs0 : 0 ≤ s)
            (hf : e + s ≤ f) (hf1 : f + 1 ≤ 127),
            a.mulDual_binary32 x
              = Except.ok ⟨binary32_round (a.val * x.val),
                  binary32_round (binary32_round (a.val * x.dx) + binary32_round (a.dx * x.val)),
                  binary32_round (binary32_round (a.val * x.dy) + binary32_round (a.dy * x.val))⟩ := by
          intro a x e f s hav hadx hady hv hdx hdy he0 hs0 hf hf1
          have a1 := (binary32_mul_of_abs_le a.val x.val e 0 hav hv (by omega) (by omega)).1
          obtain ⟨b1, b2, _⟩ := binary32_mul_of_abs_le a.val x.dx e s hav hdx (by omega) (by omega)
          obtain ⟨c1, c2, _⟩ := binary32_mul_of_abs_le a.dx x.val f 0 hadx hv (by omega) (by omega)
          obtain ⟨d1, d2, _⟩ := binary32_mul_of_abs_le a.val x.dy e s hav hdy (by omega) (by omega)
          obtain ⟨g1, g2, _⟩ := binary32_mul_of_abs_le a.dy x.val f 0 hady hv (by omega) (by omega)
          rw [add_zero] at c2 g2
          have b3 := le_trans b2 (two_zpow_le hf)
          have d3 := le_trans d2 (two_zpow_le hf)
          have s1 := (binary32_add_of_abs_le _ _ f b3 c2 (by omega) hf1).1
          have s2 := (binary32_add_of_abs_le _ _ f d3 g2 (by omega) hf1).1
          simp only [Dual2.mulDual_binary32, a1, b1, c1, d1, g1, s1, s2, bind, Except.bind, pure,
            Except.pure]
        -- The sum `dual + tk` in binary32; the zero proxy gives what the sum with `0` gives.
        have Dual2_addPVal_binary32_eq : ∀ (a : Dual2 ℚ) (T : PVal) (e : Int)
            (hfa : binary32_round a.val = a.val) (ha : |a.val| ≤ 2 ^ e) (hT : T.isBinary32 (2 ^ e))
            (h0 : -149 ≤ e) (h1 : e + 1 ≤ 127),
            a.addPVal_binary32 T
              = Except.ok ⟨binary32_round (a.val + unproxy_element T), a.dx, a.dy⟩ := by
          intro a T e hfa ha hT h0 h1
          cases T with
          | zero d =>
            simp [Dual2.addPVal_binary32, PVal.add, unproxy_element_value, unproxy_element_zero, hfa,
              pure, Except.pure]
          | value v =>
            have a1 := (binary32_add_of_abs_le a.val v e ha hT.2 (by omega) h1).1
            simp only [Dual2.addPVal_binary32, unproxy_element_value, a1, bind, Except.bind, pure,
              Except.pure]
        -- The product `tk * x` with a dual `x` in binary32, component by component; the zero
        -- proxy gives what the products with `0` give.
        have PVal_mulDual2_binary32_eq : ∀ (T : PVal) (x : Dual2 ℚ) (e s : Int)
            (hT : T.isBinary32 (2 ^ e)) (hv : |x.val| ≤ 2 ^ (0 : Int)) (hdx : |x.dx| ≤ 2 ^ s)
            (hdy : |x.dy| ≤ 2 ^ s) (he0 : -149 ≤ e) (hs0 : 0 ≤ s) (hes : e + s ≤ 127),
            T.mulDual2_binary32 x
              = Except.ok ⟨binary32_round (unproxy_element T * x.val),
                  binary32_round (unproxy_element T * x.dx),
                  binary32_round (unproxy_element T * x.dy)⟩ := by
          intro T x e s hT hv hdx hdy he0 hs0 hes
          cases T with
          | zero d =>
            simp [PVal.mulDual2_binary32, ProxyElement.mulDual2, ProxyElement.mul,
              unproxy_element_zero, binary32_round_zero, pure, Except.pure]
          | value v =>
            have a1 := (binary32_mul_of_abs_le v x.val e 0 hT.2 hv (by omega) (by omega)).1
            have a2 := (binary32_mul_of_abs_le v x.dx e s hT.2 hdx (by omega) (by omega)).1
            have a3 := (binary32_mul_of_abs_le v x.dy e s hT.2 hdy (by omega) (by omega)).1
            simp only [PVal.mulDual2_binary32, Dual2.valueMulDual_binary32, unproxy_element_value,
              a1, a2, a3, bind, Except.bind, pure, Except.pure]
        have hv0 : |x.val| ≤ 2 ^ (0 : Int) := by simpa using hv
        obtain ⟨f0, b0⟩ := PVal_isBinary32_unproxy T0 70 h0
        obtain ⟨f1, b1⟩ := PVal_isBinary32_unproxy T1 70 h1
        obtain ⟨f2, b2⟩ := PVal_isBinary32_unproxy T2 70 h2
        obtain ⟨f3, b3⟩ := PVal_isBinary32_unproxy T3 70 h3
        -- h1 = tk0 * x
        have e1 := PVal_mulDual2_binary32_eq T0 x 70 48 h0 hv0 hdx hdy (by norm_num) (by norm_num)
          (by norm_num)
        obtain ⟨_, p1, q1⟩ := binary32_mul_of_abs_le (unproxy_element T0) x.val 70 0 b0 hv0
          (by norm_num) (by norm_num)
        obtain ⟨_, p1x, _⟩ := binary32_mul_of_abs_le (unproxy_element T0) x.dx 70 48 b0 hdx
          (by norm_num) (by norm_num)
        obtain ⟨_, p1y, _⟩ := binary32_mul_of_abs_le (unproxy_element T0) x.dy 70 48 b0 hdy
          (by norm_num) (by norm_num)
        have p1' : |binary32_round (unproxy_element T0 * x.val)| ≤ 2 ^ (70 : Int) := p1
        have p1x' : |binary32_round (unproxy_element T0 * x.dx)| ≤ 2 ^ (119 : Int) :=
          le_trans p1x (two_zpow_le (by norm_num))
        have p1y' : |binary32_round (unproxy_element T0 * x.dy)| ≤ 2 ^ (119 : Int) :=
          le_trans p1y (two_zpow_le (by norm_num))
        -- h2 = h1 + tk1
        have e2 := Dual2_addPVal_binary32_eq
          ⟨binary32_round (unproxy_element T0 * x.val), binary32_round (unproxy_element T0 * x.dx),
            binary32_round (unproxy_element T0 * x.dy)⟩ T1 70 q1 p1' h1 (by norm_num) (by norm_num)
        obtain ⟨_, p2, q2⟩ := binary32_add_of_abs_le (binary32_round (unproxy_element T0 * x.val))
          (unproxy_element T1) 70 p1' b1 (by norm_num) (by norm_num)
        have p2' : |binary32_round (binary32_round (unproxy_element T0 * x.val) + unproxy_element T1)|
            ≤ 2 ^ (71 : Int) := p2
        -- h3 = h2 * x
        have e3 := Dual2_mulDual_binary32_eq
          ⟨binary32_round (binary32_round (unproxy_element T0 * x.val) + unproxy_element T1),
            binary32_round (unproxy_element T0 * x.dx), binary32_round (unproxy_element T0 * x.dy)⟩
          x 71 119 48 p2' p1x' p1y' hv0 hdx hdy (by norm_num) (by norm_num) (by norm_num)
          (by norm_num)
        generalize hv1 : binary32_round (binary32_round (unproxy_element T0 * x.val)
          + unproxy_element T1) = v1 at e2 e3 p2'
        obtain ⟨_, p3, q3⟩ := binary32_mul_of_abs_le v1 x.val 71 0 p2' hv0 (by norm_num) (by norm_num)
        have p3' : |binary32_round (v1 * x.val)| ≤ 2 ^ (71 : Int) := p3
        obtain ⟨_, r1, _⟩ := binary32_mul_of_abs_le v1 x.dx 71 48 p2' hdx (by norm_num) (by norm_num)
        obtain ⟨_, r2, _⟩ := binary32_mul_of_abs_le (binary32_round (unproxy_element T0 * x.dx)) x.val
          119 0 p1x' hv0 (by norm_num) (by norm_num)
        obtain ⟨_, r3, _⟩ := binary32_add_of_abs_le (binary32_round (v1 * x.dx))
          (binary32_round (binary32_round (unproxy_element T0 * x.dx) * x.val)) 119 r1 r2
          (by norm_num) (by norm_num)
        obtain ⟨_, w1, _⟩ := binary32_mul_of_abs_le v1 x.dy 71 48 p2' hdy (by norm_num) (by norm_num)
        obtain ⟨_, w2, _⟩ := binary32_mul_of_abs_le (binary32_round (unproxy_element T0 * x.dy)) x.val
          119 0 p1y' hv0 (by norm_num) (by norm_num)
        obtain ⟨_, w3, _⟩ := binary32_add_of_abs_le (binary32_round (v1 * x.dy))
          (binary32_round (binary32_round (unproxy_element T0 * x.dy) * x.val)) 119 w1 w2
          (by norm_num) (by norm_num)
        generalize hg3x : binary32_round (binary32_round (v1 * x.dx)
          + binary32_round (binary32_round (unproxy_element T0 * x.dx) * x.val)) = g3x at e3 r3
        generalize hg3y : binary32_round (binary32_round (v1 * x.dy)
          + binary32_round (binary32_round (unproxy_element T0 * x.dy) * x.val)) = g3y at e3 w3
        have r3' : |g3x| ≤ 2 ^ (120 : Int) := r3
        have w3' : |g3y| ≤ 2 ^ (120 : Int) := w3
        -- h4 = h3 + tk2
        have e4 := Dual2_addPVal_binary32_eq ⟨binary32_round (v1 * x.val), g3x, g3y⟩ T2 71 q3 p3'
          (PVal_isBinary32_mono (two_zpow_le (by norm_num)) T2 h2) (by norm_num) (by norm_num)
        obtain ⟨_, p4, q4⟩ := binary32_add_of_abs_le (binary32_round (v1 * x.val))
          (unproxy_element T2) 71 p3' (le_trans b2 (two_zpow_le (by norm_num))) (by norm_num)
          (by norm_num)
        generalize hv2 : binary32_round (binary32_round (v1 * x.val) + unproxy_element T2) = v2
          at e4 p4
        have p4' : |v2| ≤ 2 ^ (72 : Int) := p4
        -- h5 = h4 * x
        have e5 := Dual2_mulDual_binary32_eq ⟨v2, g3x, g3y⟩ x 72 120 48 p4' r3' w3' hv0 hdx hdy
          (by norm_num) (by norm_num) (by norm_num) (by norm_num)
        obtain ⟨_, p5, q5⟩ := binary32_mul_of_abs_le v2 x.val 72 0 p4' hv0 (by norm_num) (by norm_num)
        have p5' : |binary32_round (v2 * x.val)| ≤ 2 ^ (72 : Int) := p5
        -- h6 = h5 + tk3
        have e6 := Dual2_addPVal_binary32_eq
          ⟨binary32_round (v2 * x.val),
            binary32_round (binary32_round (v2 * x.dx) + binary32_round (g3x * x.val)),
            binary32_round (binary32_round (v2 * x.dy) + binary32_round (g3y * x.val))⟩ T3 72 q5 p5'
          (PVal_isBinary32_mono (two_zpow_le (by norm_num)) T3 h3) (by norm_num) (by norm_num)
        refine ⟨v1, v2, rfl, hv2.symm, ?_⟩
        simp only [bind, Except.bind, e1, e2, e3, e4, e5, e6]
        rw [hg3x, hg3y]
      have clamp_in_place_Dual2_of_mem : ∀ (x : Dual2 ℚ) (h0 : 0 ≤ x.val) (h1 : x.val ≤ 1),
          clamp_in_place_Dual2 x (Dual2.ofValue 0) (Dual2.ofValue 1) = x := by
        intro x h0 h1
        unfold clamp_in_place_Dual2
        simp only [Dual2.ofValue]
        rw [if_neg (not_lt.mpr h0), if_neg (not_lt.mpr h1)]
      have hn := spline_nsegs_pos knot_count basis_step hk hs
      generalize hnn : spline_nsegs knot_count basis_step = n at hn hn24 ⊢
      have hrn : binary32_round (n : ℚ) = n :=
        binary32_round_intCast n (by rw [abs_of_nonneg (by omega)]; exact hn24)
      have hnq : |(n : ℚ)| ≤ 2 ^ (24 : Int) := by
        rw [abs_of_nonneg (by exact_mod_cast (by omega : (0 : Int) ≤ n))]
        have h : (n : ℚ) ≤ ((2 ^ 24 : Int) : ℚ) := by exact_mod_cast hn24
        norm_num at h ⊢
        exact h
      have hxv : |x.val| ≤ 2 ^ (0 : Int) := by
        rw [abs_of_nonneg h0]
        simpa using h1
      have hc : clamp_in_place x.val 0 1 = x.val := by
        rw [clamp_in_place_eq, min_eq_left h1, max_eq_right h0]
      -- the scaled parameter
      obtain ⟨s1, s1b, _⟩ := binary32_mul_of_abs_le x.val (n : ℚ) 0 24 hxv hnq (by norm_num)
        (by norm_num)
      obtain ⟨s2, s2b, _⟩ := binary32_mul_of_abs_le x.dx (n : ℚ) 24 24 hdx hnq (by norm_num)
        (by norm_num)
      obtain ⟨s3, s3b, _⟩ := binary32_mul_of_abs_le x.dy (n : ℚ) 24 24 hdy hnq (by norm_num)
        (by norm_num)
      have ht : binary32_round (x.val * (n : ℚ)) = spline_scaled_x_binary32 x.val n := by
        unfold spline_scaled_x_binary32
        simp only [hc, hrn]
      rw [ht] at s1 s1b
      -- the segment and the local parameter
      have hg0 := spline_segnum_binary32_nonneg x.val n hn
      have hg1 := spline_segnum_binary32_le x.val n
      have hrg : binary32_round ((spline_segnum_binary32 x.val n : Int) : ℚ)
          = (spline_segnum_binary32 x.val n : Int) :=
        binary32_round_intCast _ (by rw [abs_of_nonneg hg0]; omega)
      have hgq : |((spline_segnum_binary32 x.val n : Int) : ℚ)| ≤ 2 ^ (24 : Int) := by
        rw [abs_of_nonneg (by exact_mod_cast hg0)]
        have h : ((spline_segnum_binary32 x.val n : Int) : ℚ) ≤ ((2 ^ 24 : Int) : ℚ) := by
          exact_mod_cast (by omega : spline_segnum_binary32 x.val n ≤ 2 ^ 24)
        norm_num at h ⊢
        exact h
      have hsub : binary32 (spline_scaled_x_binary32 x.val n
          - binary32_round ((spline_segnum_binary32 x.val n : Int) : ℚ))
          = Except.ok (spline_local_x_binary32 x.val n) := by
        have hb : |spline_scaled_x_binary32 x.val n
            - binary32_round ((spline_segnum_binary32 x.val n : Int) : ℚ)| ≤ 2 ^ (25 : Int) := by
          rw [hrg, show (25 : Int) = 24 + 1 by norm_num, two_zpow_succ]
          have h := abs_sub (spline_scaled_x_binary32 x.val n)
            ((spline_segnum_binary32 x.val n : Int) : ℚ)
          have s1b' : |spline_scaled_x_binary32 x.val n| ≤ 2 ^ (24 : Int) := s1b
          linarith
        exact (binary32_of_abs_le _ 25 (by norm_num) (by norm_num) hb).1
      obtain ⟨hu0, hu1, _⟩ := spline_local_x_binary32_cases x.val hfx n hn hn24
      have hu : |spline_local_x_binary32 x.val n| ≤ 1 := by
        rw [abs_of_nonneg hu0]
        exact hu1
      -- the reads
      obtain ⟨hb0, hb3⟩ := spline_segment_binary32_in_bounds x.val knot_count basis_step hk hs
      rw [hnn] at hb0 hb3
      obtain ⟨p0, e0⟩ := knotAt_ok knots (spline_segnum_binary32 x.val n * basis_step) hb0
        (by omega)
      obtain ⟨p1, e1⟩ := knotAt_ok knots (spline_segnum_binary32 x.val n * basis_step + 1)
        (by omega) (by omega)
      obtain ⟨p2, e2⟩ := knotAt_ok knots (spline_segnum_binary32 x.val n * basis_step + 2)
        (by omega) (by omega)
      obtain ⟨p3, e3⟩ := knotAt_ok knots (spline_segnum_binary32 x.val n * basis_step + 3)
        (by omega) (by omega)
      -- the four sums
      obtain ⟨⟨a0, a1, a2, a3⟩, ⟨b0, b1, b2, b3⟩, ⟨c0, c1, c2, c3⟩, ⟨d0, d1, d2, d3⟩⟩ :=
        StaticMatrix44_numerators_le M hM
      have hP0 := hknots p0 (knotAt_mem _ _ _ e0)
      have hP1 := hknots p1 (knotAt_mem _ _ _ e1)
      have hP2 := hknots p2 (knotAt_mem _ _ _ e2)
      have hP3 := hknots p3 (knotAt_mem _ _ _ e3)
      obtain ⟨T0, r0, f0⟩ := spline_weighted_row_binary32_ok _ _ _ _ M.DivisorT a0 a1 a2 a3 hD1 hD8
        p0 p1 p2 p3 64 (by norm_num) (by norm_num) hP0 hP1 hP2 hP3
      obtain ⟨T1, r1, f1⟩ := spline_weighted_row_binary32_ok _ _ _ _ M.DivisorT b0 b1 b2 b3 hD1 hD8
        p0 p1 p2 p3 64 (by norm_num) (by norm_num) hP0 hP1 hP2 hP3
      obtain ⟨T2, r2, f2⟩ := spline_weighted_row_binary32_ok _ _ _ _ M.DivisorT c0 c1 c2 c3 hD1 hD8
        p0 p1 p2 p3 64 (by norm_num) (by norm_num) hP0 hP1 hP2 hP3
      obtain ⟨T3, r3, f3⟩ := spline_weighted_row_binary32_ok _ _ _ _ M.DivisorT d0 d1 d2 d3 hD1 hD8
        p0 p1 p2 p3 64 (by norm_num) (by norm_num) hP0 hP1 hP2 hP3
      have f0' : T0.isBinary32 (2 ^ (70 : Int)) := f0
      have f1' : T1.isBinary32 (2 ^ (70 : Int)) := f1
      have f2' : T2.isBinary32 (2 ^ (70 : Int)) := f2
      have f3' : T3.isBinary32 (2 ^ (70 : Int)) := f3
      have s2b' : |binary32_round (x.dx * (n : ℚ))| ≤ 2 ^ (48 : Int) := s2b
      have s3b' : |binary32_round (x.dy * (n : ℚ))| ≤ 2 ^ (48 : Int) := s3b
      obtain ⟨v1, v2, hv1, hv2, hh⟩ := horner_dual_binary32_eq T0 T1 T2 T3
        ⟨spline_local_x_binary32 x.val n, binary32_round (x.dx * (n : ℚ)),
          binary32_round (x.dy * (n : ℚ))⟩ f0' f1' f2' f3' hu s2b' s3b'
      refine ⟨![p0, p1, p2, p3], T0, T1, T2, T3, v1, v2, ?_, ⟨r0, r1, r2, r3⟩,
        ⟨f0', f1', f2', f3'⟩, hv1, hv2, ?_⟩
      · intro j
        fin_cases j
        · simpa using e0
        · simpa using e1
        · simpa using e2
        · exact e3
      · have hseg : (if (if float_to_int (spline_scaled_x_binary32 x.val n) < 0 then 0
              else float_to_int (spline_scaled_x_binary32 x.val n)) > n - 1 then n - 1
            else (if float_to_int (spline_scaled_x_binary32 x.val n) < 0 then 0
              else float_to_int (spline_scaled_x_binary32 x.val n)))
            = spline_segnum_binary32 x.val n := rfl
        have hcast : float_to_int_defined (spline_scaled_x_binary32 x.val n) :=
          float_to_int_defined_scaled x.val n hn (by
            have h24 : (2 : Int) ^ 24 < 2 ^ 31 - 64 := by norm_num
            omega)
        unfold spline_weighted_evaluate_dfdff_binary32
        simp only [clamp_in_place_Dual2_of_mem x h0 h1, hnn, hrn, Dual2.scale_binary32, s1, s2, s3,
          bind, Except.bind, pure, Except.pure, removeDerivatives_Dual2, if_pos hcast,
          Bool.false_eq_true, if_false, hseg, Dual2.subValue_binary32, hsub, e0, e1, e2, e3,
          spline_weighted_sum_dfdff_binary32]
        simp only [StaticMatrix44.m00, StaticMatrix44.m01, StaticMatrix44.m02, StaticMatrix44.m03,
          StaticMatrix44.m10, StaticMatrix44.m11, StaticMatrix44.m12, StaticMatrix44.m13,
          StaticMatrix44.m20, StaticMatrix44.m21, StaticMatrix44.m22, StaticMatrix44.m23,
          StaticMatrix44.m30, StaticMatrix44.m31, StaticMatrix44.m32, StaticMatrix44.m33, r0, r1,
          r2, r3]
        exact hh
    obtain ⟨P, T0, T1, T2, T3, v1, v2, hP, ⟨r0, r1, r2, r3⟩, ⟨f0, f1, f2, f3⟩, hv1, hv2, he⟩ :=
      spline_weighted_evaluate_dfdff_binary32_ok M hM hD1 hD8 basis_step hs x hfx h0 h1 hdx hdy
        knots knot_count hk hlen hn24 hknots
    refine ⟨P, T0, T1, T2, T3, v1, v2, _, hP, ⟨r0, r1, r2, r3⟩, hv1, hv2,
      (hdisp _ _ _ _ x knots knot_count).trans he, rfl, rfl, ?_, ?_, ?_⟩
    · intro hz
      simp only [hz, zero_mul, mul_zero, binary32_round_zero, add_zero]
    · intro hz
      simp only [hz, zero_mul, mul_zero, binary32_round_zero, add_zero]
    · intro hl
      have hMl := hlin hl
      subst hMl
      obtain ⟨l0, l1, l2⟩ := spline_weighted_row_binary32_linear_rows (P 0) (P 1) (P 2) (P 3)
      rw [l0] at r0
      rw [l1] at r1
      rw [l2] at r2
      cases r0
      cases r1
      have hn := spline_nsegs_pos knot_count basis_step hk hs
      have hnq : |((spline_nsegs knot_count basis_step : Int) : ℚ)| ≤ 2 ^ (24 : Int) := by
        rw [abs_of_nonneg (by exact_mod_cast (by omega : (0 : Int) ≤ spline_nsegs knot_count basis_step))]
        have h : ((spline_nsegs knot_count basis_step : Int) : ℚ) ≤ ((2 ^ 24 : Int) : ℚ) := by
          exact_mod_cast hn24
        norm_num at h ⊢
        exact h
      obtain ⟨ft2, bt2⟩ := PVal_isBinary32_unproxy T2 70 f2
      have ht2 : unproxy_element T2 = binary32_round (-P 1 + P 2) := by
        unfold binary32 at r2
        split_ifs at r2 with hfin
        · simp only [Except.map] at r2
          cases r2
          rfl
        · simp only [Except.map] at r2
          cases r2
      have hv1z : v1 = 0 := by
        rw [hv1]
        simp only [unproxy_element_zero, zero_mul, binary32_round_zero, add_zero]
      have hv2z : v2 = unproxy_element T2 := by
        rw [hv2, hv1z]
        simp only [zero_mul, binary32_round_zero, zero_add]
        exact ft2
      have key : ∀ d : ℚ, |d| ≤ 2 ^ (24 : Int) →
          binary32_round (binary32_round (v2
              * binary32_round (d * ((spline_nsegs knot_count basis_step : Int) : ℚ)))
            + binary32_round (binary32_round (binary32_round (v1
                  * binary32_round (d * ((spline_nsegs knot_count basis_step : Int) : ℚ)))
                + binary32_round (binary32_round (unproxy_element (PVal.zero 1)
                    * binary32_round (d * ((spline_nsegs knot_count basis_step : Int) : ℚ)))
                  * spline_local_x_binary32 x.val (spline_nsegs knot_count basis_step)))
              * spline_local_x_binary32 x.val (spline_nsegs knot_count basis_step)))
          = binary32_round (binary32_round (-P 1 + P 2)
              * binary32_round (d * ((spline_nsegs knot_count basis_step : Int) : ℚ))) := by
        intro d hd
        obtain ⟨_, sb, _⟩ := binary32_mul_of_abs_le d
          ((spline_nsegs knot_count basis_step : Int) : ℚ) 24 24 hd hnq (by norm_num) (by norm_num)
        obtain ⟨_, _, idem⟩ := binary32_mul_of_abs_le (unproxy_element T2)
          (binary32_round (d * ((spline_nsegs knot_count basis_step : Int) : ℚ))) 70 (24 + 24)
          bt2 sb (by norm_num) (by norm_num)
        rw [hv1z, hv2z]
        simp only [unproxy_element_zero, zero_mul, binary32_round_zero, add_zero]
        rw [idem, ht2]
      exact ⟨key x.dx hdx, key x.dy hdy⟩
  obtain ⟨M, hM, hD1, hD8, hs, hlin, hdisp⟩ := spline_evaluate_scalar_of_table_weights b hb hnc
  obtain ⟨P, T0, T1, T2, T3, v1, v2, out, hrest⟩ :=
    spline_evaluate_scalar_dfdff_binary32_of_weights b.basis_name b.basis_step M hM hD1 hD8 hs
      hdisp hlin x hfx h0 h1 hdx hdy knots knot_count hk hlen hn24 hknots
  exact ⟨M, P, T0, T1, T2, T3, v1, v2, out, hdisp, hrest⟩

/-- Witness of claim C16: the bezier record in binary32, the knots `0, 1, 4, 9` and the
dual parameter of value `1/2` and derivatives `0, 1`; the derivative `out.dx` is 0. -/
theorem spline_evaluate_scalar_dfdff_binary32_derivative_witness :
    (getSplineBasis "bezier" ∈ gBasisSet ∧ (getSplineBasis "bezier").basis_name ≠ "constant"
      ∧ binary32_round (Dual2.mk (1/2 : ℚ) 0 1).val = (Dual2.mk (1/2 : ℚ) 0 1).val
      ∧ (0 : ℚ) ≤ (Dual2.mk (1/2 : ℚ) 0 1).val ∧ (Dual2.mk (1/2 : ℚ) 0 1).val ≤ 1
      ∧ |(Dual2.mk (1/2 : ℚ) 0 1).dx| ≤ 2 ^ (24 : Int)
      ∧ |(Dual2.mk (1/2 : ℚ) 0 1).dy| ≤ 2 ^ (24 : Int)
      ∧ (4 : Int) ≤ 4 ∧ (4 : Int) ≤ ([0, 1, 4, 9] : List ℚ).length
      ∧ spline_nsegs 4 (getSplineBasis "bezier").basis_step ≤ 2 ^ 24
      ∧ ∀ v ∈ ([0, 1, 4, 9] : List ℚ), binary32_round v = v ∧ |v| ≤ 2 ^ (64 : Int)) ∧
    ∃ out : Dual2 ℚ,
      spline_evaluate_scalar spline_weighted_evaluate_dfdff_binary32
          (getSplineBasis "bezier").basis_name (Dual2.mk (1/2 : ℚ) 0 1) [0, 1, 4, 9] 4
        = Except.ok out ∧ out.dx = 0 := by
  have hb : getSplineBasis "bezier" ∈ gBasisSet := by
    simp [getSplineBasis, basisSearch, gBasisSet, kNumSplineTypes]
  have hfx : binary32_round (Dual2.mk (1/2 : ℚ) 0 1).val = (Dual2.mk (1/2 : ℚ) 0 1).val := by
    decide!
  have hknots : ∀ v ∈ ([0, 1, 4, 9] : List ℚ), binary32_round v = v ∧ |v| ≤ 2 ^ (64 : Int) := by
    decide!
  have hdx : |(Dual2.mk (1/2 : ℚ) 0 1).dx| ≤ 2 ^ (24 : Int) := by norm_num
  have hdy : |(Dual2.mk (1/2 : ℚ) 0 1).dy| ≤ 2 ^ (24 : Int) := by norm_num
  obtain ⟨M, P, T0, T1, T2, T3, v1, v2, out, _, _, _, _, _, he, _, _, hz, _, _⟩ :=
    spline_evaluate_scalar_dfdff_binary32_derivative (getSplineBasis "bezier") hb (by decide)
      (Dual2.mk (1/2 : ℚ) 0 1) hfx (by norm_num) (by norm_num) hdx hdy [0, 1, 4, 9] 4
      (by decide) (by simp) (by decide) hknots
  exact ⟨⟨hb, by decide, hfx, by norm_num, by norm_num, hdx, hdy, by decide, by simp,
    by decide, hknots⟩, out, he, hz rfl⟩

/-- Counterexample to claim C16 as stated, in binary32. The bezier basis on the four
`float` knots `0.1f, 0.7f, 0.3f, 0.9f` at the dual parameter of value `0.3f` and derivatives
`1, 0`, where there is one segment and the local parameter is `0.3f`: `out.dx` is
`0x1.147adep-1`, and `nsegs*(3*T0*u^2 + 2*T1*u + T2)*x.dx` is a number that is no `float`
and whose nearest `float` is `0x1.147ae0p-1`. With a knot or a derivative of magnitude
`2^127` a product is beyond the largest `float` and the result is not finite: the bezier
basis on `0, 2^127, 0, 0` at the value `1/2` with the derivatives `1, 0`, and on
`0, 1, 4, 9` at the value `1/2` with the derivatives `2^127, 0`. -/
theorem spline_evaluate_scalar_dfdff_binary32_not_closed_form :
    (∀ v ∈ ([13421773 / 134217728, 11744051 / 16777216, 5033165 / 16777216,
        7549747 / 8388608] : List ℚ), binary32_round v = v) ∧
    binary32_round (5033165 / 16777216) = 5033165 / 16777216 ∧
    spline_nsegs 4 (getSplineBasis "bezier").basis_step = 1 ∧
    spline_local_x_binary32 (5033165 / 16777216) 1 = 5033165 / 16777216 ∧
    Except.map Dual2.dx
        (spline_evaluate_scalar spline_weighted_evaluate_dfdff_binary32 "bezier"
          ⟨5033165 / 16777216, 1, 0⟩
          [13421773 / 134217728, 11744051 / 16777216, 5033165 / 16777216, 7549747 / 8388608] 4)
      = Except.ok (9059695 / 16777216) ∧
    ((1 : Int) : ℚ) * (3 * PolynomialEvaluator_T (getSplineBasis "bezier").basis
            ![13421773 / 134217728, 11744051 / 16777216, 5033165 / 16777216,
              7549747 / 8388608] 0 * (5033165 / 16777216) ^ 2
          + 2 * PolynomialEvaluator_T (getSplineBasis "bezier").basis
            ![13421773 / 134217728, 11744051 / 16777216, 5033165 / 16777216,
              7549747 / 8388608] 1 * (5033165 / 16777216)
          + PolynomialEvaluator_T (getSplineBasis "bezier").basis
            ![13421773 / 134217728, 11744051 / 16777216, 5033165 / 16777216,
              7549747 / 8388608] 2) * 1
      = 20400622150465759016385 / 37778931862957161709568 ∧
    binary32_round (20400622150465759016385 / 37778931862957161709568) = 566231 / 1048576 ∧
    (9059695 / 16777216 : ℚ) ≠ 20400622150465759016385 / 37778931862957161709568 ∧
    (9059695 / 16777216 : ℚ) ≠ 566231 / 1048576 ∧
    Except.map Dual2.dx
        (spline_evaluate_scalar spline_weighted_evaluate_dfdff_binary32 "bezier"
          ⟨1 / 2, 1, 0⟩ [0, 2 ^ 127, 0, 0] 4)
      = Except.error SplineError.notFinite ∧
    Except.map Dual2.dx
        (spline_evaluate_scalar spline_weighted_evaluate_dfdff_binary32 "bezier"
          ⟨1 / 2, 2 ^ 127, 0⟩ [0, 1, 4, 9] 4)
      = Except.error SplineError.notFinite := by
  refine ⟨?_, ?_, ?_, ?_, ?_, ?_, ?_, ?_, ?_, by decide!, by decide!⟩
  · decide!
  · decide!
  · decide
  · decide!
  · decide!
  · have hb : (getSplineBasis "bezier").basis = (gBasisSet.getD 1 ⟨"", 0, 0⟩).basis := rfl
    rw [hb]
    norm_num [PolynomialEvaluator_T, gBasisSet, Matrix44.ofEntries]
  · decide!
  · norm_num
  · norm_num

/-! ## The round trip through the inverse solver: equal forward values -/

/-- In binary32 the forward evaluator of the linear basis takes a value at parameters far
apart on strictly increasing knots: on the `float` knots `1, 2, 2 + 2^-22, 3` it returns
`2` at `0`, at `1/4` and at `1/2`. -/
theorem spline_evaluate_scalar_binary32_linear_not_injective :
    StrictlyMonotonic [1, 2, 8388609 / 4194304, 3] ∧
    (∀ v ∈ ([1, 2, 8388609 / 4194304, 3] : List ℚ), binary32_round v = v) ∧
    spline_evaluate_scalar spline_weighted_evaluate_binary32 "linear" 0
      [1, 2, 8388609 / 4194304, 3] 4 = Except.ok 2 ∧
    spline_evaluate_scalar spline_weighted_evaluate_binary32 "linear" (1 / 4)
      [1, 2, 8388609 / 4194304, 3] 4 = Except.ok 2 ∧
    spline_evaluate_scalar spline_weighted_evaluate_binary32 "linear" (1 / 2)
      [1, 2, 8388609 / 4194304, 3] 4 = Except.ok 2 := by
  refine ⟨by unfold StrictlyMonotonic; left; norm_num, ?_, ?_, ?_, ?_⟩ <;> decide!

end OSL
